import Mathlib

/-!
# ClientServerFileSystem: the transactional server backend

A shallow embedding of `Server/Server/server-backend.cpp`, `Server/Server/file.cpp`,
the connection loop of `Server/Server/server-dispatcher.h`, the shared `errors.h` /
`constants.h` / `wire-protocol.h` and the request encoder of
`ClientServerTest/ClientServerTest/client.cpp`, followed by theorems about the embedded
functions.

Conventions of the embedding.

* A C++ `std::string` is a Lean `String`, one character per byte.
* `int` and `long long` values are `Int`; the command functions only compare and copy
  them. The two `for` loops of COMMIT count from 1 to `max_seq_num`; they are modelled
  for `max_seq_num` below `INT_MAX`, where `++seq_num` does not overflow.
* `std::unordered_map` is an association list read through `find`; every update keeps
  at most one entry per key, as the container does.
* The file system is an association list from files to file contents; a file is named
  by its normalized path (`Path.normalize`). `open(2)` and `write(2)` / `read(2)` may
  fail: an `Environment` value fixes, for one call of a command function, the clock
  reading, the values `rand()` returns and which system calls fail.
* Each command function is run as one atomic step (mutexes are not modelled). The
  class-local `move` helper is read as the value of its argument.
* A `const char *` parameter is a `String` read through `cString`, up to its first zero
  byte. A format of `constants.h` is a `RegularExpression Char` for the part after the
  lookahead, whose length test is `lookaheadLength`; `regex_match` is `rmatch`.
  `std::istringstream` extraction follows the classic locale, and `to_string` is
  `toString`.
* A path is the string the code passes to the system call, and the system call acts on
  the file the path names: `Path.normalize` drops the empty and `.` components of the
  path and resolves `..`, so `srv/./f.txt` and `srv/f.txt` are one file. The file system
  is read as seen from the working directory of the process, so `m_directory + name`
  and the bare `name` are the same file exactly when the directory prefix is empty or
  names the working directory, as `./` does. Links are not modelled. The failures of
  the environment are keyed by the path as passed.
* The extraction loop over a log and the loop of a connection are recursive functions
  with fuel: the length of the log, and the list of environments, one per request.
-/

namespace EmersonClientServerFileSystem

/-! ## Type aliases (server-backend.h) -/

/-- The aliases `FileName`, `Command` and `Data` are strings. The integer aliases
(`TxnId`, `SeqNum` and `ContentLen`, all `int`, and `FileSize`, `long long`) are written
`Int`, and a `Timestamp` is a number of seconds, written `Nat`. -/
abbrev FileName := String

abbrev Command := String

abbrev Data := String

/-! ## std::unordered_map -/

/-- An association list standing for a `std::unordered_map`. -/
abbrev UnorderedMap (κ : Type) (ν : Type) := List (κ × ν)

namespace UnorderedMap

variable {κ ν : Type} [DecidableEq κ]

/-- The value stored under a key (`find` followed by `->second`), if any. -/
def find : UnorderedMap κ ν → κ → Option ν
  | [], _ => none
  | (k0, v) :: rest, k => if k0 = k then some v else find rest k

/-- The member `count(key)` read as a truth value. -/
def count (m : UnorderedMap κ ν) (k : κ) : Bool := (find m k).isSome

/-- The member `erase`: the map without the key. -/
def erase (m : UnorderedMap κ ν) (k : κ) : UnorderedMap κ ν :=
  m.filter (fun p => decide (p.1 ≠ k))

/-- Assignment through `operator[]` or through a reference into the map. -/
def assign (m : UnorderedMap κ ν) (k : κ) (v : ν) : UnorderedMap κ ν :=
  (k, v) :: erase m k

/-- The member `emplace`: inserts unless the key is present; the flag tells whether it did. -/
def emplace (m : UnorderedMap κ ν) (k : κ) (v : ν) : UnorderedMap κ ν × Bool :=
  if count m k then (m, false) else ((k, v) :: m, true)

end UnorderedMap

/-! ## errors.h -/

/-- The error kinds of `errors.h`; `nil` is the end iterator, meaning no error. -/
inductive Errors where
  | nil
  | InvalidMessageFormat
  | InvalidCommand
  | InvalidTransactionId
  | InvalidOperation
  | TransactionIdInUse
  | InvalidSequenceNumber
  | RepeatedSequenceNumber
  | ErrorOpeningFile
  | ErrorReadingFile
  | ErrorWritingFile
  | ErrorCreatingTransaction
  | CommitWithInvalidSequenceNumber
  | TransactionAlreadyCommitted
  | TransactionAborted
deriving DecidableEq, Repr

namespace Errors

/-- Numeric code of an error kind (`getErrorCode`), 0 for `nil`. -/
def getErrorCode : Errors → Int
  | nil => 0
  | InvalidMessageFormat => 199
  | InvalidCommand => 200
  | InvalidTransactionId => 201
  | InvalidOperation => 202
  | TransactionIdInUse => 203
  | InvalidSequenceNumber => 204
  | RepeatedSequenceNumber => 205
  | ErrorOpeningFile => 206
  | ErrorReadingFile => 207
  | ErrorWritingFile => 208
  | ErrorCreatingTransaction => 209
  | CommitWithInvalidSequenceNumber => 210
  | TransactionAlreadyCommitted => 211
  | TransactionAborted => 212

/-- Message text of an error kind (`getErrorMessage`), empty for `nil`. -/
def getErrorMessage : Errors → String
  | nil => ""
  | InvalidMessageFormat => "InvalidMessageFormat"
  | InvalidCommand => "InvalidCommand"
  | InvalidTransactionId => "InvalidTransactionId"
  | InvalidOperation => "InvalidOperation"
  | TransactionIdInUse => "TransactionIDInUseByAnotherClient"
  | InvalidSequenceNumber => "New transactions must start with sequence number 0"
  | RepeatedSequenceNumber => "RepeatedSequenceNumber"
  | ErrorOpeningFile => "ErrorOpeningFile"
  | ErrorReadingFile => "Error reading file"
  | ErrorWritingFile => "Error writing file"
  | ErrorCreatingTransaction => "Error creating transaction"
  | CommitWithInvalidSequenceNumber =>
      "Requested commit with sequence number less than maximum sequence number received"
  | TransactionAlreadyCommitted => "TransactionAlreadyCommitted"
  | TransactionAborted => "TransactionAborted"

end Errors

/-! ## constants.h -/

namespace Constants

def transaction_timeout_seconds : Nat := 15

def default_txn_id : Int := -1

def error_seq_num : Int := -1

def initial_seq_num : Int := 0

def abort_cmd : String := "ABORT"

def commit_cmd : String := "COMMIT"

def new_txn_cmd : String := "NEW_TXN"

def read_cmd : String := "READ"

def write_cmd : String := "WRITE"

def ack_cmd : String := "ACK"

def ask_resend_cmd : String := "ASK_RESEND"

def error_cmd : String := "ERROR"

end Constants

/-- The constant `INT32_MAX` of `<cstdint>`. -/
def INT32_MAX : Nat := 2147483647

/-! ## exceptions.h -/

/-- The exception types of `exceptions.h`. -/
inductive Exception where
  | ErrorOpeningFile
  | ErrorWritingToFile
  | ErrorReadingFromFile
  | ErrorAddingFileAttributes
deriving DecidableEq, Repr

/-! ## Path resolution -/

namespace Path

/-- The components of a path: the texts between its separators `/`. -/
def components : List Char → List (List Char)
  | [] => [[]]
  | c :: cs =>
      if c = '/' then [] :: components cs
      else
        match components cs with
        | [] => [[c]]
        | x :: xs => (c :: x) :: xs

/-- The walk along the components of a path, with the components walked so far in
reverse: an empty component and `.` stay where they are, `..` goes back one component
(at the root of an absolute path it stays; at the start of a relative path it is
kept). -/
def walk (absolute : Bool) (walked : List (List Char)) :
    List (List Char) → List (List Char)
  | [] => walked.reverse
  | x :: xs =>
      if x = [] ∨ x = ['.'] then walk absolute walked xs
      else if x = ['.', '.'] then
        match walked with
        | [] => if absolute then walk absolute [] xs else walk absolute [x] xs
        | top :: rest =>
            if top = ['.', '.'] then walk absolute (x :: walked) xs
            else walk absolute rest xs
      else walk absolute (x :: walked) xs

/-- The components joined by the separator. -/
def join : List (List Char) → List Char
  | [] => []
  | [x] => x
  | x :: y :: rest => x ++ '/' :: join (y :: rest)

/-- The file a path names when every directory on the path exists and none is a
symbolic link: the path without its empty and `.` components and with every `..`
resolved. Two paths with the same value name one file, as `srv/./f.txt` and
`srv/f.txt`, or `./f.txt` and `f.txt`. -/
def normalize (path : String) : String :=
  let absolute := path.data.head? = some '/'
  String.mk ((if absolute then ['/'] else []) ++
    join (walk absolute [] (components path.data)))

end Path

/-! ## The environment of one call -/

/-- Everything outside the process that one call of a command function observes: the
clock (`NOW`), the successive values of `rand()`, the paths on which `open(2)` fails,
the number of bytes `write(2)` still accepts through one descriptor of a path before it
fails (`none`: it never fails), and the paths on which `read(2)` fails. -/
structure Environment where
  now : Nat
  rand : List Nat
  open_fails : String → Bool
  write_limit : String → Option Nat
  read_fails : String → Bool

/-- An environment in which no system call fails. -/
def Environment.reliable (now : Nat) (rand : List Nat) : Environment :=
  { now := now, rand := rand, open_fails := fun _ => false,
    write_limit := fun _ => none, read_fails := fun _ => false }

/-! ## The file system and file.cpp -/

/-- The file system: the content of every existing file, keyed by the file, which is the
value of `Path.normalize` on any path that names it: `open(2)`, `stat`, `truncate` and
`remove` act on the entry of the normalized path, so two spellings of one file are one
entry. Links are not part of the file system. -/
abbrev Disk := UnorderedMap String String

/-- Content of the file at a path, empty when there is no such file. -/
def Disk.content (disk : Disk) (path : String) : String :=
  (UnorderedMap.find disk path).getD ""

/-- The two flag combinations `File` is constructed with in the backend. -/
inductive OpenFlags where
  | O_RDONLY
  | O_CREAT_O_WRONLY_O_APPEND
deriving DecidableEq, Repr

/-- An open `File`: the path it was opened with, the file its descriptor `m_fd` refers
to (the path resolved), its flags, and the bytes the environment still lets `write(2)`
put through this descriptor. -/
structure File where
  m_path : String
  m_file : String
  m_flags : OpenFlags
  m_write_limit : Option Nat

namespace File

/-- The constructor `File::File`: `open(2)` with the given flags; throws
`ErrorOpeningFile` when the call fails. `O_CREAT` creates a missing file empty. -/
def ctor (env : Environment) (disk : Disk) (in_file_path : String) (in_flags : OpenFlags) :
    Except Exception (Disk × File) :=
  if env.open_fails in_file_path then .error Exception.ErrorOpeningFile
  else
    let file : File :=
      { m_path := in_file_path, m_file := Path.normalize in_file_path, m_flags := in_flags,
        m_write_limit := env.write_limit in_file_path }
    match in_flags with
    | OpenFlags.O_RDONLY =>
        if UnorderedMap.count disk (Path.normalize in_file_path) then .ok (disk, file)
        else .error Exception.ErrorOpeningFile
    | OpenFlags.O_CREAT_O_WRONLY_O_APPEND =>
        if UnorderedMap.count disk (Path.normalize in_file_path) then .ok (disk, file)
        else .ok (UnorderedMap.assign disk (Path.normalize in_file_path) "", file)

/-- Does the path name an existing file (`File::fileExists`). -/
def fileExists (disk : Disk) (in_file_path : String) : Bool :=
  UnorderedMap.count disk (Path.normalize in_file_path)

/-- The static `File::getFileSize(path)`: the size from `stat`, 0 when `stat` fails. -/
def getFileSizeOf (disk : Disk) (in_file_path : String) : Int :=
  match UnorderedMap.find disk (Path.normalize in_file_path) with
  | some c => (c.length : Int)
  | none => 0

/-- The member `File::getFileSize()`: the size from `fstat` on the descriptor. -/
def getFileSize (disk : Disk) (file : File) : Int :=
  ((Disk.content disk file.m_file).length : Int)

/-- The member `File::write` through `writeFileDescriptor` on an `O_APPEND` descriptor:
the buffer is appended to the file; when `write(2)` fails part-way the bytes already
accepted stay in the file and `ErrorWritingToFile` is thrown (the flag is `false`). -/
def write (disk : Disk) (file : File) (in_buffer_str : String) : Disk × File × Bool :=
  let old := Disk.content disk file.m_file
  match file.m_write_limit with
  | none => (UnorderedMap.assign disk file.m_file (old ++ in_buffer_str), file, true)
  | some n =>
      if in_buffer_str.length ≤ n then
        (UnorderedMap.assign disk file.m_file (old ++ in_buffer_str),
          { file with m_write_limit := some (n - in_buffer_str.length) }, true)
      else
        (UnorderedMap.assign disk file.m_file (old ++ String.mk (in_buffer_str.data.take n)),
          { file with m_write_limit := some 0 }, false)

/-- Successive `write` calls on one file, stopping at the first that throws. -/
def writeAll : Disk → File → List String → Disk × File × Bool
  | disk, file, [] => (disk, file, true)
  | disk, file, b :: rest =>
      match write disk file b with
      | (disk1, file1, true) => writeAll disk1 file1 rest
      | (disk1, file1, false) => (disk1, file1, false)

/-- The member `File::read`: the whole file is read into a zeroed buffer and returned as
`string(buffer)`, which ends at the first zero byte; throws `ErrorReadingFromFile` when
`read(2)` fails. -/
def read (env : Environment) (disk : Disk) (file : File) : Except Exception String :=
  if env.read_fails file.m_path then .error Exception.ErrorReadingFromFile
  else .ok (String.mk ((Disk.content disk file.m_file).data.takeWhile (fun c => c ≠ Char.ofNat 0)))

end File

/-- The system call `truncate(path, length)`: cuts the file, or extends it with zero
bytes; no effect (return value -1) when the file does not exist or the length is
negative. -/
def truncate (disk : Disk) (path : String) (length : Int) : Disk :=
  match UnorderedMap.find disk (Path.normalize path) with
  | none => disk
  | some c =>
      if length < 0 then disk
      else
        UnorderedMap.assign disk (Path.normalize path)
          (String.mk (c.data.take length.toNat ++
            List.replicate (length.toNat - c.length) (Char.ofNat 0)))

/-! ## server-backend.h: the data model -/

/-- The record behind a `SharedPtrFileAttributes`: file name, the file size last recorded
for it, and the number of transactions that own the record (the use count of the
shared pointer). The record is destroyed, and its entry leaves
`m_file_name_to_ptr_to_file_attributes`, when the last owner goes. -/
structure FileAttributes where
  m_file_name : FileName
  m_file_size : Int
  use_count : Nat
deriving DecidableEq, Repr

/-- The tuple kept per transaction: the name under which its shared file attributes are
filed, the buffered write requests by sequence number, the maximum sequence number
received, and the time of the most recent update. The per-transaction mutex is not
modelled. -/
structure TransactionAttributesTuple where
  sp_file_attributes : FileName
  buffers : UnorderedMap Int Data
  max_seq_num : Int
  curr_timestamp : Nat
deriving DecidableEq, Repr

/-- The request as parsed by `getClientRequestAsTuple`. -/
structure RequestTuple where
  command : Command
  txn_id : Int
  seq_num : Int
  content_len : Int
  data : Data
deriving DecidableEq, Repr

/-- The arguments a command function hands to `generateResponse`: command, transaction
id, sequence number, error kind and payload. The header field ERROR_CODE is
`getErrorCode` of the error kind and CONTENT_LEN is the length of the payload. -/
structure Response where
  command : Command
  txn_id : Int
  seq_num : Int
  error : Errors
  data : Data
deriving DecidableEq, Repr

/-- The header field ERROR_CODE of a response. -/
def Response.err_code (r : Response) : Int := Errors.getErrorCode r.error

/-- The header field CONTENT_LEN of a response. -/
def Response.content_len (r : Response) : Int := (r.data.length : Int)

/-- The members of `ServerBackend` the command functions use, together with the file
system they act on. -/
structure ServerBackend where
  m_txn_id_to_transaction_attributes : UnorderedMap Int TransactionAttributesTuple
  m_file_name_to_ptr_to_file_attributes : UnorderedMap FileName FileAttributes
  m_commits : List Int
  m_directory : String
  disk : Disk
deriving DecidableEq, Repr

/-- What a command function leaves behind: the backend, the response it set, and the
in/out flag `out_transaction_in_progress`. -/
structure Outcome where
  backend : ServerBackend
  out_server_response_str : Response
  out_transaction_in_progress : Bool
deriving DecidableEq, Repr

namespace ServerBackend

def m_transaction_log : FileName := ".transactionlog.txt"

def m_timeout_log : FileName := ".timeoutlog.txt"

def m_commit_log : FileName := ".commitlog.txt"

def m_abort_log : FileName := ".abortlog.txt"

/-- The backend as constructed: no transactions, no file attributes, no commits. The
constructor appends a slash to a non-empty directory that lacks one. -/
def ctor (in_directory : String) (disk : Disk) : ServerBackend :=
  { m_txn_id_to_transaction_attributes := []
    m_file_name_to_ptr_to_file_attributes := []
    m_commits := []
    m_directory :=
      if in_directory ≠ "" ∧ in_directory.back ≠ (Char.ofNat 47) then in_directory ++ "/"
      else in_directory
    disk := disk }

/-! ### Response macros -/

/-- The macro `SET_ERROR_AND_RETURN`: clears the in-progress flag and answers ERROR. -/
def SET_ERROR_AND_RETURN (s : ServerBackend) (txn_id : Int) (seq_num : Int)
    (error : Errors) : Outcome :=
  { backend := s
    out_server_response_str :=
      { command := Constants.error_cmd, txn_id := txn_id, seq_num := seq_num,
        error := error, data := Errors.getErrorMessage error }
    out_transaction_in_progress := false }

/-- The macro `SET_ACK_AND_RETURN`: answers ACK with the request's id and sequence number. -/
def SET_ACK_AND_RETURN (s : ServerBackend) (txn_id : Int) (seq_num : Int)
    (in_progress : Bool) : Outcome :=
  { backend := s
    out_server_response_str :=
      { command := Constants.ack_cmd, txn_id := txn_id, seq_num := seq_num,
        error := Errors.nil, data := "" }
    out_transaction_in_progress := in_progress }

/-- The macro `SET_ASK_RESEND_AND_RETURN`. -/
def SET_ASK_RESEND_AND_RETURN (s : ServerBackend) (txn_id : Int) (seq_num : Int)
    (in_progress : Bool) : Outcome :=
  { backend := s
    out_server_response_str :=
      { command := Constants.ask_resend_cmd, txn_id := txn_id, seq_num := seq_num,
        error := Errors.nil, data := "" }
    out_transaction_in_progress := in_progress }

/-- The macro `SET_READ_AND_RETURN`: ACK carrying the file content. -/
def SET_READ_AND_RETURN (s : ServerBackend) (txn_id : Int) (seq_num : Int)
    (buffer : String) (in_progress : Bool) : Outcome :=
  { backend := s
    out_server_response_str :=
      { command := Constants.ack_cmd, txn_id := txn_id, seq_num := seq_num,
        error := Errors.nil, data := buffer }
    out_transaction_in_progress := in_progress }

/-! ### Helpers of the command functions -/

/-- The member `logTransaction`: appends the line `txn_id file_name file_size` to the log in
the server directory. The size is `File::getFileSize(in_file_name)`, taken on the file
name as given. A failure to open or write the log is caught and ignored. -/
def logTransaction (env : Environment) (m_directory : String) (disk : Disk)
    (in_log_name : FileName) (in_txn_id : Int) (in_file_name : FileName) : Disk :=
  match File.ctor env disk (m_directory ++ in_log_name) OpenFlags.O_CREAT_O_WRONLY_O_APPEND with
  | .error _ => disk
  | .ok (disk0, log) =>
      match File.writeAll disk0 log [toString in_txn_id, " ", in_file_name, " "] with
      | (disk1, _, false) => disk1
      | (disk1, log1, true) =>
          (File.writeAll disk1 log1
            [toString (File.getFileSizeOf disk1 in_file_name), "\n"]).1

/-- The member `removeTransaction`: erases the entry when it is in the map. Destroying the
tuple releases its share of the file attributes; the last release erases the entry of
`m_file_name_to_ptr_to_file_attributes` (the deleter set in `getNewFileAttributes`). -/
def removeTransaction (s : ServerBackend) (txn_id : Int) : ServerBackend :=
  match UnorderedMap.find s.m_txn_id_to_transaction_attributes txn_id with
  | none => s
  | some txn_tuple =>
      let files :=
        match UnorderedMap.find s.m_file_name_to_ptr_to_file_attributes
            txn_tuple.sp_file_attributes with
        | none => s.m_file_name_to_ptr_to_file_attributes
        | some fa =>
            if fa.use_count ≤ 1 then
              UnorderedMap.erase s.m_file_name_to_ptr_to_file_attributes
                txn_tuple.sp_file_attributes
            else
              UnorderedMap.assign s.m_file_name_to_ptr_to_file_attributes
                txn_tuple.sp_file_attributes { fa with use_count := fa.use_count - 1 }
      { s with
        m_txn_id_to_transaction_attributes :=
          UnorderedMap.erase s.m_txn_id_to_transaction_attributes txn_id
        m_file_name_to_ptr_to_file_attributes := files }

/-- The member `getNewTransactionAttributes`: empty buffers, maximum sequence number
`initial_seq_num + 1`. -/
def getNewTransactionAttributes (in_sp_file_attributes : FileName)
    (in_timestamp : Nat) : TransactionAttributesTuple :=
  { sp_file_attributes := in_sp_file_attributes
    buffers := []
    max_seq_num := Constants.initial_seq_num + 1
    curr_timestamp := in_timestamp }

/-- The member `getNewFileAttributes`: files a new record for the name, its size read by
`File::getFileSize` on the file name as given; throws `ErrorAddingFileAttributes`
when the name already has a record. -/
def getNewFileAttributes (s : ServerBackend) (in_file_name : FileName) :
    Except Exception ServerBackend :=
  match UnorderedMap.emplace s.m_file_name_to_ptr_to_file_attributes in_file_name
      { m_file_name := in_file_name
        m_file_size := File.getFileSizeOf s.disk in_file_name
        use_count := 1 } with
  | (files, true) => .ok { s with m_file_name_to_ptr_to_file_attributes := files }
  | (_, false) => .error Exception.ErrorAddingFileAttributes

/-- The member `addNewTransaction`: takes a share of the file attributes of the name
(created when the name has none), emplaces the transaction, writes the open log and
starts the timer. When the id is already in the map the emplace inserts nothing and
the share just taken is released again. -/
def addNewTransaction (env : Environment) (s : ServerBackend) (in_txn_id : Int)
    (in_file_name : FileName) : Except Exception ServerBackend :=
  let shared : Except Exception ServerBackend :=
    match UnorderedMap.find s.m_file_name_to_ptr_to_file_attributes in_file_name with
    | none => getNewFileAttributes s in_file_name
    | some fa =>
        .ok { s with
              m_file_name_to_ptr_to_file_attributes :=
                UnorderedMap.assign s.m_file_name_to_ptr_to_file_attributes in_file_name
                  { fa with use_count := fa.use_count + 1 } }
  match shared with
  | .error e => .error e
  | .ok s1 =>
      let s2 : ServerBackend :=
        match UnorderedMap.emplace s1.m_txn_id_to_transaction_attributes in_txn_id
            (getNewTransactionAttributes in_file_name env.now) with
        | (txns, true) => { s1 with m_txn_id_to_transaction_attributes := txns }
        | (_, false) => s
      .ok { s2 with
            disk := logTransaction env s2.m_directory s2.disk m_transaction_log in_txn_id
              in_file_name }

/-- The candidate id of NEW_TXN: the first `rand() % INT32_MAX` that is not a key of the
transaction map; `none` while every value drawn so far is taken. -/
def sampleCandidateId (txns : UnorderedMap Int TransactionAttributesTuple) :
    List Nat → Option Int
  | [] => none
  | r :: rest =>
      if UnorderedMap.count txns ((r % INT32_MAX : Nat) : Int) then sampleCandidateId txns rest
      else some ((r % INT32_MAX : Nat) : Int)

/-- The sequence numbers the two loops of COMMIT visit: 1, 2, ..., `max_seq_num`. -/
def seqNums (max_seq_num : Int) : List Int :=
  (List.range max_seq_num.toNat).map (fun (i : Nat) => (i : Int) + 1)

/-- The first loop of COMMIT: the first sequence number without a buffer, if any. -/
def firstMissing (buffers : UnorderedMap Int Data) (max_seq_num : Int) : Option Int :=
  (seqNums max_seq_num).find? (fun k => !UnorderedMap.count buffers k)

/-- The payloads the second loop of COMMIT writes, in order (`buffers.at(seq_num)`). -/
def fragments (buffers : UnorderedMap Int Data) (max_seq_num : Int) : List Data :=
  (seqNums max_seq_num).map (fun k => (UnorderedMap.find buffers k).getD "")

/-! ### The command functions -/

/-- The command function READ: opens `m_directory + file_name` read-only and returns its
content; ErrorOpeningFile or ErrorReadingFile when the file cannot be opened or read. -/
def READ (env : Environment) (s : ServerBackend) (req : RequestTuple) (in_progress : Bool) :
    Outcome :=
  match File.ctor env s.disk (s.m_directory ++ req.data) OpenFlags.O_RDONLY with
  | .error _ => SET_ERROR_AND_RETURN s req.txn_id req.seq_num Errors.ErrorOpeningFile
  | .ok (disk, file) =>
      match File.read env disk file with
      | .error _ =>
          SET_ERROR_AND_RETURN { s with disk := disk } req.txn_id req.seq_num
            Errors.ErrorReadingFile
      | .ok buffer =>
          SET_READ_AND_RETURN { s with disk := disk } req.txn_id req.seq_num buffer in_progress

/-- The command function NEW_TXN: for sequence number 0, samples a candidate id that is
not a key of the transaction map, adds the transaction and answers ACK with the new id
and `initial_seq_num`; InvalidSequenceNumber otherwise. The result is `none` while the
sampling loop has not found a free id among the values `rand()` returned. -/
def NEW_TXN (env : Environment) (s : ServerBackend) (req : RequestTuple) (in_progress : Bool) :
    Option Outcome :=
  if req.seq_num = 0 then
    match sampleCandidateId s.m_txn_id_to_transaction_attributes env.rand with
    | none => none
    | some candidate_id =>
        match addNewTransaction env s candidate_id req.data with
        | .error _ =>
            some (SET_ERROR_AND_RETURN s req.txn_id req.seq_num Errors.ErrorCreatingTransaction)
        | .ok s1 =>
            some (SET_ACK_AND_RETURN s1 candidate_id Constants.initial_seq_num in_progress)
  else
    some (SET_ERROR_AND_RETURN s req.txn_id req.seq_num Errors.InvalidSequenceNumber)

/-- The command function WRITE. -/
def WRITE (env : Environment) (s : ServerBackend) (req : RequestTuple) (in_progress : Bool) :
    Outcome :=
  -- RETURN_ERROR_IF_COMMITTED_OR_INVALID_ID
  if req.txn_id ∈ s.m_commits then
    SET_ERROR_AND_RETURN s req.txn_id req.seq_num Errors.InvalidOperation
  else
    match UnorderedMap.find s.m_txn_id_to_transaction_attributes req.txn_id with
    | none => SET_ERROR_AND_RETURN s req.txn_id req.seq_num Errors.InvalidTransactionId
    | some txn_tuple =>
        -- RETURN_ERROR_IF_COMMITTED_OR_ABORTED, after the transaction mutex is taken
        if req.txn_id ∈ s.m_commits then
          SET_ERROR_AND_RETURN s req.txn_id req.seq_num Errors.TransactionAlreadyCommitted
        else if !UnorderedMap.count s.m_txn_id_to_transaction_attributes req.txn_id then
          SET_ERROR_AND_RETURN s req.txn_id req.seq_num Errors.TransactionAborted
        else
          -- updateTransactionTimestamp
          let stamped := { txn_tuple with curr_timestamp := env.now }
          if UnorderedMap.count stamped.buffers req.seq_num then
            SET_ERROR_AND_RETURN
              { s with
                m_txn_id_to_transaction_attributes :=
                  UnorderedMap.assign s.m_txn_id_to_transaction_attributes req.txn_id stamped }
              req.txn_id req.seq_num Errors.RepeatedSequenceNumber
          else
            let written :=
              { stamped with
                max_seq_num :=
                  if req.seq_num > stamped.max_seq_num then req.seq_num
                  else stamped.max_seq_num
                buffers := UnorderedMap.assign stamped.buffers req.seq_num req.data }
            SET_ACK_AND_RETURN
              { s with
                m_txn_id_to_transaction_attributes :=
                  UnorderedMap.assign s.m_txn_id_to_transaction_attributes req.txn_id written }
              req.txn_id req.seq_num in_progress

/-- The command function COMMIT. -/
def COMMIT (env : Environment) (s : ServerBackend) (req : RequestTuple) (in_progress : Bool) :
    Outcome :=
  -- RETURN_ACK_IF_COMMITTED_OR_ERROR_IF_INVALID_ID
  if req.txn_id ∈ s.m_commits then
    SET_ACK_AND_RETURN s req.txn_id req.seq_num in_progress
  else
    match UnorderedMap.find s.m_txn_id_to_transaction_attributes req.txn_id with
    | none => SET_ERROR_AND_RETURN s req.txn_id req.seq_num Errors.InvalidTransactionId
    | some txn_tuple =>
        -- RETURN_ERROR_IF_COMMITTED_OR_ABORTED, after the transaction mutex is taken
        if req.txn_id ∈ s.m_commits then
          SET_ERROR_AND_RETURN s req.txn_id req.seq_num Errors.TransactionAlreadyCommitted
        else if !UnorderedMap.count s.m_txn_id_to_transaction_attributes req.txn_id then
          SET_ERROR_AND_RETURN s req.txn_id req.seq_num Errors.TransactionAborted
        else
          -- updateTransactionTimestamp
          let stamped := { txn_tuple with curr_timestamp := env.now }
          if req.seq_num < stamped.max_seq_num then
            SET_ERROR_AND_RETURN
              { s with
                m_txn_id_to_transaction_attributes :=
                  UnorderedMap.assign s.m_txn_id_to_transaction_attributes req.txn_id stamped }
              req.txn_id req.seq_num Errors.CommitWithInvalidSequenceNumber
          else
            let raised := { stamped with max_seq_num := req.seq_num }
            let s1 : ServerBackend :=
              { s with
                m_txn_id_to_transaction_attributes :=
                  UnorderedMap.assign s.m_txn_id_to_transaction_attributes req.txn_id raised }
            let file_name := raised.sp_file_attributes
            let file_size : Int :=
              match UnorderedMap.find s1.m_file_name_to_ptr_to_file_attributes file_name with
              | some fa => fa.m_file_size
              | none => 0
            -- verify all seq nums received
            match firstMissing raised.buffers raised.max_seq_num with
            | some missing => SET_ASK_RESEND_AND_RETURN s1 req.txn_id missing in_progress
            | none =>
                match File.ctor env s1.disk (s1.m_directory ++ file_name)
                    OpenFlags.O_CREAT_O_WRONLY_O_APPEND with
                | .error _ =>
                    SET_ERROR_AND_RETURN s1 req.txn_id req.seq_num Errors.ErrorOpeningFile
                | .ok (disk0, file) =>
                    match File.writeAll disk0 file
                        (fragments raised.buffers raised.max_seq_num) with
                    | (disk1, _, false) =>
                        SET_ERROR_AND_RETURN
                          { s1 with disk := truncate disk1 file_name file_size }
                          req.txn_id req.seq_num Errors.ErrorWritingFile
                    | (disk1, file1, true) =>
                        let disk2 :=
                          logTransaction env s1.m_directory disk1 m_commit_log req.txn_id
                            file_name
                        let files :=
                          match UnorderedMap.find s1.m_file_name_to_ptr_to_file_attributes
                              file_name with
                          | some fa =>
                              UnorderedMap.assign s1.m_file_name_to_ptr_to_file_attributes
                                file_name
                                { fa with m_file_size := File.getFileSize disk2 file1 }
                          | none => s1.m_file_name_to_ptr_to_file_attributes
                        let s2 : ServerBackend :=
                          { s1 with
                            m_commits := req.txn_id :: s1.m_commits
                            m_file_name_to_ptr_to_file_attributes := files
                            disk := disk2 }
                        SET_ACK_AND_RETURN (removeTransaction s2 req.txn_id) req.txn_id
                          req.seq_num in_progress

/-- The command function ABORT. -/
def ABORT (env : Environment) (s : ServerBackend) (req : RequestTuple) (_in_progress : Bool) :
    Outcome :=
  -- RETURN_ERROR_IF_COMMITTED_OR_INVALID_ID
  if req.txn_id ∈ s.m_commits then
    SET_ERROR_AND_RETURN s req.txn_id req.seq_num Errors.InvalidOperation
  else
    match UnorderedMap.find s.m_txn_id_to_transaction_attributes req.txn_id with
    | none => SET_ERROR_AND_RETURN s req.txn_id req.seq_num Errors.InvalidTransactionId
    | some txn_tuple =>
        -- RETURN_ERROR_IF_COMMITTED_OR_ABORTED, after the transaction mutex is taken
        if req.txn_id ∈ s.m_commits then
          SET_ERROR_AND_RETURN s req.txn_id req.seq_num Errors.TransactionAlreadyCommitted
        else if !UnorderedMap.count s.m_txn_id_to_transaction_attributes req.txn_id then
          SET_ERROR_AND_RETURN s req.txn_id req.seq_num Errors.TransactionAborted
        else
          let s1 : ServerBackend :=
            { s with
              disk :=
                logTransaction env s.m_directory s.disk m_abort_log req.txn_id
                  txn_tuple.sp_file_attributes }
          -- out_transaction_in_progress = false
          SET_ACK_AND_RETURN (removeTransaction s1 req.txn_id) req.txn_id req.seq_num false

/-- The member `processCommand`: runs the command function registered for the command,
InvalidCommand when there is none. -/
def processCommand (env : Environment) (s : ServerBackend) (req : RequestTuple)
    (in_progress : Bool) : Option Outcome :=
  if req.command = Constants.read_cmd then some (READ env s req in_progress)
  else if req.command = Constants.new_txn_cmd then NEW_TXN env s req in_progress
  else if req.command = Constants.write_cmd then some (WRITE env s req in_progress)
  else if req.command = Constants.commit_cmd then some (COMMIT env s req in_progress)
  else if req.command = Constants.abort_cmd then some (ABORT env s req in_progress)
  else some (SET_ERROR_AND_RETURN s req.txn_id req.seq_num Errors.InvalidCommand)

/-- One wake-up of `m_txn_timer_function` for a transaction id: a record whose last update
is at least `transaction_timeout_seconds` old is removed and written to the timeout log
under the file name the timer was started with; otherwise nothing changes. The second
component is the timestamp the timer sleeps on next, `none` when the timer returns. -/
def m_txn_timer_function (env : Environment) (s : ServerBackend) (in_txn_id : Int)
    (in_file_name : FileName) : ServerBackend × Option Nat :=
  match UnorderedMap.find s.m_txn_id_to_transaction_attributes in_txn_id with
  | some txn_tuple =>
      if env.now ≥ txn_tuple.curr_timestamp + Constants.transaction_timeout_seconds then
        let s1 := removeTransaction s in_txn_id
        ({ s1 with
           disk := logTransaction env s1.m_directory s1.disk m_timeout_log in_txn_id
             in_file_name }, none)
      else (s, some txn_tuple.curr_timestamp)
  | none => (s, none)

/-- The loop of `initializeTransactions` that restarts the recovered transactions. -/
def restartTransactions (env : Environment) (s : ServerBackend) :
    List (Int × FileName) → ServerBackend
  | [] => s
  | (txn_id, file_name) :: rest =>
      match addNewTransaction env s txn_id file_name with
      | .ok s1 => restartTransactions env s1 rest
      | .error _ => s

end ServerBackend

/-- The states the backend can be in: it starts from the constructed backend, over any
file system, with the transactions `initializeTransactions` restarts; from then on
every request processed and every timer wake-up is one atomic step, under any
environment. -/
inductive Reachable : ServerBackend → Prop where
  | start (env : Environment) (in_directory : String) (disk : Disk)
      (txn_ids_to_file_names : List (Int × FileName)) :
      Reachable
        (ServerBackend.restartTransactions env (ServerBackend.ctor in_directory disk)
          txn_ids_to_file_names)
  | request (env : Environment) (s : ServerBackend) (req : RequestTuple) (in_progress : Bool)
      (out : Outcome) :
      Reachable s → ServerBackend.processCommand env s req in_progress = some out →
      Reachable out.backend
  | timer (env : Environment) (s : ServerBackend) (in_txn_id : Int)
      (in_file_name : FileName) :
      Reachable s →
      Reachable (ServerBackend.m_txn_timer_function env s in_txn_id in_file_name).1


/-- What every reachable backend satisfies: a transaction record has a maximum sequence
number of at least 1, and a record whose id is also in the commit set has no buffers. -/
def ServerBackend.Consistent (s : ServerBackend) : Prop :=
  ∀ (txn_id : Int) (t : TransactionAttributesTuple),
    UnorderedMap.find s.m_txn_id_to_transaction_attributes txn_id = some t →
      1 ≤ t.max_seq_num ∧ (txn_id ∈ s.m_commits → t.buffers = [])

/-! ## constants.h: the message formats -/

namespace Constants

def delimiting_character : Char := ' '

def padding_character : Char := '0'

def request_header_len : Nat := 64

def response_header_len : Nat := 128

end Constants

/-- The constant `INT_MAX` of `<climits>`, for a 32-bit `int`. -/
def INT_MAX : Int := 2147483647

/-- The constant `INT_MIN` of `<climits>`, for a 32-bit `int`. -/
def INT_MIN : Int := -2147483648

/-- A `const char *` argument read as a C string: the characters before the first zero
byte. -/
def cString (buffer : String) : String :=
  String.mk (buffer.data.takeWhile (fun c => c ≠ Char.ofNat 0))

/-- A bracket expression of a regular expression: any one of the listed characters. -/
def charClass (cs : List Char) : RegularExpression Char :=
  cs.foldr (fun c r => RegularExpression.char c + r) 0

/-- The quantifier `+` of a regular expression. -/
def oneOrMore (P : RegularExpression Char) : RegularExpression Char :=
  P * RegularExpression.star P

/-- The quantifier `?` of a regular expression. -/
def zeroOrOne (P : RegularExpression Char) : RegularExpression Char :=
  1 + P

/-- The concatenation of the parts of a regular expression, in order. -/
def sequence (parts : List (RegularExpression Char)) : RegularExpression Char :=
  parts.foldr (fun P Q => P * Q) 1

/-- The characters of the bracket expression `[A-Z_]`. -/
def upperOrUnderscore : List Char := "ABCDEFGHIJKLMNOPQRSTUVWXYZ_".data

/-- The characters of the bracket expression `[0-9]`. -/
def decimalDigits : List Char := "0123456789".data

/-- The lookahead `(?=.{n}$)` at the start of a format: exactly `n` characters follow,
none of them a line terminator (which `.` does not match). -/
def lookaheadLength (n : Nat) (x : List Char) : Bool :=
  decide (x.length = n) && x.all (fun c => c != '\n' && c != '\r')

namespace Constants

/-- The part of `request_format` after the lookahead:
`[A-Z_]+[ ][-]?[0-9]+[ ][-]?[0-9]+[ ][0-9]+([ ]0*)?`. -/
def request_format : RegularExpression Char :=
  sequence
    [ oneOrMore (charClass upperOrUnderscore),
      charClass [delimiting_character],
      zeroOrOne (charClass ['-']), oneOrMore (charClass decimalDigits),
      charClass [delimiting_character],
      zeroOrOne (charClass ['-']), oneOrMore (charClass decimalDigits),
      charClass [delimiting_character],
      oneOrMore (charClass decimalDigits),
      zeroOrOne
        (charClass [delimiting_character] *
          RegularExpression.star (RegularExpression.char padding_character)) ]

/-- The part of `response_format` after the lookahead:
`[A-Z_]+[ ][-]?[0-9]+[ ][-]?[0-9]+[ ][0-9]+[ ][0-9]+([ ]0*)?`. -/
def response_format : RegularExpression Char :=
  sequence
    [ oneOrMore (charClass upperOrUnderscore),
      charClass [delimiting_character],
      zeroOrOne (charClass ['-']), oneOrMore (charClass decimalDigits),
      charClass [delimiting_character],
      zeroOrOne (charClass ['-']), oneOrMore (charClass decimalDigits),
      charClass [delimiting_character],
      oneOrMore (charClass decimalDigits),
      charClass [delimiting_character],
      oneOrMore (charClass decimalDigits),
      zeroOrOne
        (charClass [delimiting_character] *
          RegularExpression.star (RegularExpression.char padding_character)) ]

end Constants

/-! ## std::istringstream

Formatted extraction from a string stream in the classic locale, with the default flags
(`skipws`, decimal). -/

/-- The state of a `std::istringstream`: the characters not yet read, whether the stream
is good (neither eofbit nor failbit is set), and failbit, which the conversion of the
stream to `bool` tests. -/
structure IStringStream where
  unread : List Char
  good : Bool
  failbit : Bool
deriving DecidableEq, Repr

/-- The classification `isspace` of the classic locale. -/
def isspace (c : Char) : Bool :=
  c = ' ' ∨ c = '\t' ∨ c = '\n' ∨ c = Char.ofNat 11 ∨ c = Char.ofNat 12 ∨ c = '\r'

/-- The classification `isdigit`. -/
def isdigit (c : Char) : Bool := decide (c ∈ decimalDigits)

/-- The number a string of decimal digits denotes. -/
def decimalValue (ds : List Char) : Nat :=
  ds.foldl (fun a c => 10 * a + (c.toNat - 48)) 0

namespace IStringStream

/-- The sentry of a formatted extraction: on a stream that is not good it sets failbit
and fails; otherwise it skips white space, and fails, setting eofbit and failbit, when
nothing is left. -/
def sentry (iss : IStringStream) : IStringStream × Bool :=
  if iss.good then
    match iss.unread.dropWhile isspace with
    | [] => ({ unread := [], good := false, failbit := true }, false)
    | c :: rest => ({ unread := c :: rest, good := true, failbit := false }, true)
  else ({ iss with failbit := true }, false)

/-- The extraction `iss >> str` into a `std::string`: the characters up to the next white
space or the end, which sets eofbit. The string keeps its value when the sentry fails. -/
def extractString (iss : IStringStream) (str : String) : IStringStream × String :=
  match iss.sentry with
  | (iss1, false) => (iss1, str)
  | (iss1, true) =>
      let rest := iss1.unread.dropWhile (fun c => !isspace c)
      ({ unread := rest, good := !rest.isEmpty, failbit := false },
        String.mk (iss1.unread.takeWhile (fun c => !isspace c)))

/-- The extraction `iss >> n` into an `int`: an optional sign and the decimal digits that
follow. Without a digit the value is 0 and failbit is set; a value out of the range of
`int` is replaced by `INT_MAX` or `INT_MIN` and failbit is set; reaching the end sets
eofbit. The variable keeps its value when the sentry fails. -/
def extractInt (iss : IStringStream) (n : Int) : IStringStream × Int :=
  match iss.sentry with
  | (iss1, false) => (iss1, n)
  | (iss1, true) =>
      let signed : Bool × List Char :=
        match iss1.unread with
        | [] => (false, [])
        | c :: cs =>
            if c = '-' then (true, cs)
            else if c = '+' then (false, cs)
            else (false, c :: cs)
      let ds := signed.2.takeWhile isdigit
      let rest := signed.2.dropWhile isdigit
      if ds.isEmpty then ({ unread := rest, good := false, failbit := true }, 0)
      else
        let v : Int := if signed.1 then -(decimalValue ds : Int) else (decimalValue ds : Int)
        if v > INT_MAX then ({ unread := rest, good := false, failbit := true }, INT_MAX)
        else if v < INT_MIN then ({ unread := rest, good := false, failbit := true }, INT_MIN)
        else ({ unread := rest, good := !rest.isEmpty, failbit := false }, v)

end IStringStream

/-! ## wire-protocol.h -/

namespace WireProtocol

/-- The member `isValidRequestFormat`: `regex_match` of the header, a C string, against
`request_format`. -/
def isValidRequestFormat (in_header : String) : Bool :=
  lookaheadLength Constants.request_header_len (cString in_header).data &&
    Constants.request_format.rmatch (cString in_header).data

/-- The member `isValidResponseFormat`. -/
def isValidResponseFormat (in_header : String) : Bool :=
  lookaheadLength Constants.response_header_len (cString in_header).data &&
    Constants.response_format.rmatch (cString in_header).data

/-- The member `extractHeaderFields` at `RequestTuple`: the first four members of the
tuple are extracted from the header, in order, by `>>`; the last keeps its value. -/
def extractHeaderFields (in_header : String) (out_message : RequestTuple) : RequestTuple :=
  let iss : IStringStream :=
    { unread := (cString in_header).data, good := true, failbit := false }
  let command := iss.extractString out_message.command
  let txn_id := command.1.extractInt out_message.txn_id
  let seq_num := txn_id.1.extractInt out_message.seq_num
  let content_len := seq_num.1.extractInt out_message.content_len
  { command := command.2, txn_id := txn_id.2, seq_num := seq_num.2,
    content_len := content_len.2, data := out_message.data }

end WireProtocol

namespace ServerBackend

/-- The macro `SET_FORMATTING_ERROR`: the response ERROR with the default id, the error
sequence number and InvalidMessageFormat. -/
def SET_FORMATTING_ERROR : Response :=
  { command := Constants.error_cmd, txn_id := Constants.default_txn_id,
    seq_num := Constants.error_seq_num, error := Errors.InvalidMessageFormat,
    data := Errors.getErrorMessage Errors.InvalidMessageFormat }

/-- The member `getClientRequestAsTuple`: the header fields extracted into a
value-initialised tuple, and the payload, a C string, when one is given. -/
def getClientRequestAsTuple (in_request_header : String)
    (in_request_payload : Option String) : RequestTuple :=
  let client_request_tuple :=
    WireProtocol.extractHeaderFields in_request_header
      { command := "", txn_id := 0, seq_num := 0, content_len := 0, data := "" }
  match in_request_payload with
  | some payload => { client_request_tuple with data := cString payload }
  | none => client_request_tuple

/-- The member `getContentLength`: the value returned, and the two out-parameters
`out_server_response_str` and `out_transaction_in_progress` as they are left. -/
def getContentLength (in_request_header : String) (out_server_response_str : Response)
    (out_transaction_in_progress : Bool) : Int × Response × Bool :=
  if WireProtocol.isValidRequestFormat in_request_header then
    ((getClientRequestAsTuple in_request_header none).content_len, out_server_response_str,
      out_transaction_in_progress)
  else (-1, SET_FORMATTING_ERROR, false)

/-- The member `generateResponse`: the header fields joined by the delimiting character;
a delimiter is pushed when the text is shorter than `response_header_len`, padding
characters are appended up to that length, and the payload follows. A text longer than
`response_header_len` makes the count of `append` wrap around, and `append` throws
`std::length_error`: the result is `none`. -/
def generateResponse (in_command : String) (in_txn_id : Int) (in_seq_num : Int)
    (in_error : Errors) (in_data : Data) : Option String :=
  let err_code : Int := if Errors.nil ≠ in_error then Errors.getErrorCode in_error else 0
  let response_header :=
    cString in_command ++ String.singleton Constants.delimiting_character ++
      toString in_txn_id ++ String.singleton Constants.delimiting_character ++
      toString in_seq_num ++ String.singleton Constants.delimiting_character ++
      toString err_code ++ String.singleton Constants.delimiting_character ++
      toString in_data.length
  let delimited :=
    if response_header.length < Constants.response_header_len then
      response_header.push Constants.delimiting_character
    else response_header
  if delimited.length ≤ Constants.response_header_len then
    some
      (delimited ++
        String.mk
          (List.replicate (Constants.response_header_len - delimited.length)
            Constants.padding_character) ++
        in_data)
  else none

end ServerBackend

/-! ## client.cpp -/

namespace Client

/-- The header `Client::sendRequest` builds, as a function of the command, the two
numbers and `in_data.length()`: the fields joined by the delimiting character, a
delimiter when the text is shorter than `request_header_len`, and padding characters up
to that length. A longer text makes the count of `append` wrap around, and `append`
throws `std::length_error`: the result is `none`. -/
def requestHeader (in_command : String) (in_txn_id : Int) (in_seq_num : Int)
    (in_data_length : Nat) : Option String :=
  let request_header :=
    in_command ++ String.singleton Constants.delimiting_character ++
      toString in_txn_id ++ String.singleton Constants.delimiting_character ++
      toString in_seq_num ++ String.singleton Constants.delimiting_character ++
      toString in_data_length
  let delimited :=
    if request_header.length < Constants.request_header_len then
      request_header.push Constants.delimiting_character
    else request_header
  if delimited.length ≤ Constants.request_header_len then
    some
      (delimited ++
        String.mk
          (List.replicate (Constants.request_header_len - delimited.length)
            Constants.padding_character))
  else none

end Client

/-! ## The shape of a header

The pieces a header that matches a format is made of. -/

/-- A non-empty run of characters of a class: what `[...]+` matches. -/
def IsRun (cs : List Char) (x : List Char) : Prop :=
  x ≠ [] ∧ ∀ c ∈ x, c ∈ cs

/-- What `[-]?` matches: nothing, or one minus sign. -/
def IsSign (x : List Char) : Prop :=
  x = [] ∨ x = ['-']

/-- What `([ ]0*)?` matches: nothing, or a delimiter followed by padding characters. -/
def IsPadding (x : List Char) : Prop :=
  x = [] ∨ ∃ k : Nat,
    x = Constants.delimiting_character :: List.replicate k Constants.padding_character

/-- The number an optional minus sign and a string of digits denote. -/
def signedValue (sign ds : List Char) : Int :=
  if sign = ['-'] then -(decimalValue ds : Int) else (decimalValue ds : Int)

/-- The two shapes of a response a command function sets: ERROR with an error kind other
than TransactionIdInUse and the message of that kind as payload, or ACK or ASK_RESEND
without an error kind. -/
def Response.ErrorOrAck (r : Response) : Prop :=
  (r.command = Constants.error_cmd ∧ r.error ≠ Errors.nil ∧
      r.error ≠ Errors.TransactionIdInUse ∧ r.data = Errors.getErrorMessage r.error) ∨
  ((r.command = Constants.ack_cmd ∨ r.command = Constants.ask_resend_cmd) ∧
      r.error = Errors.nil)

/-! ## Recovery: loadFilesAndTransactions, truncateFiles, initializeTransactions -/

/-- The constant `LLONG_MAX` of `<climits>`. -/
def LLONG_MAX : Int := 9223372036854775807

/-- The constant `LLONG_MIN` of `<climits>`. -/
def LLONG_MIN : Int := -9223372036854775808

namespace IStringStream

/-- The extraction `iss >> n` into a `long long`: as the extraction into an `int`, with
the bounds `LLONG_MAX` and `LLONG_MIN`. -/
def extractLongLong (iss : IStringStream) (n : Int) : IStringStream × Int :=
  match iss.sentry with
  | (iss1, false) => (iss1, n)
  | (iss1, true) =>
      let signed : Bool × List Char :=
        match iss1.unread with
        | [] => (false, [])
        | c :: cs =>
            if c = '-' then (true, cs)
            else if c = '+' then (false, cs)
            else (false, c :: cs)
      let ds := signed.2.takeWhile isdigit
      let rest := signed.2.dropWhile isdigit
      if ds.isEmpty then ({ unread := rest, good := false, failbit := true }, 0)
      else
        let v : Int := if signed.1 then -(decimalValue ds : Int) else (decimalValue ds : Int)
        if v > LLONG_MAX then ({ unread := rest, good := false, failbit := true }, LLONG_MAX)
        else if v < LLONG_MIN then
          ({ unread := rest, good := false, failbit := true }, LLONG_MIN)
        else ({ unread := rest, good := !rest.isEmpty, failbit := false }, v)

end IStringStream

/-- The type `FileNameFileSizeMap`. -/
abbrev FileNameFileSizeMap := UnorderedMap FileName Int

/-- The type `TxnIdFileNameMap`. -/
abbrev TxnIdFileNameMap := UnorderedMap Int FileName

namespace ServerBackend

/-- The records the loop `while (ss >> txn_id && ss >> file_name && ss >> file_size)` of
`loadFilesAndTransactions` reads: it ends at the first extraction that leaves failbit
set. A round that reads a record consumes characters, so a fuel of the number of unread
characters is never used up. -/
def readRecords : Nat → IStringStream → List (Int × FileName × Int)
  | 0, _ => []
  | fuel + 1, ss =>
      let txn_id := ss.extractInt 0
      if txn_id.1.failbit then []
      else
        let file_name := txn_id.1.extractString ""
        if file_name.1.failbit then []
        else
          let file_size := file_name.1.extractLongLong 0
          if file_size.1.failbit then []
          else (txn_id.2, file_name.2, file_size.2) :: readRecords fuel file_size.1

/-- The body of the read loop of `loadFilesAndTransactions` for one record: the size
recorded for the file name is raised to the size of the record, and the transaction id
is mapped to the file name when it is not in the map and erased when it is. -/
def loadRecord (maps : FileNameFileSizeMap × TxnIdFileNameMap)
    (record : Int × FileName × Int) : FileNameFileSizeMap × TxnIdFileNameMap :=
  let out_file_names_to_file_sizes :=
    match UnorderedMap.find maps.1 record.2.1 with
    | none => UnorderedMap.assign maps.1 record.2.1 record.2.2
    | some size =>
        if record.2.2 > size then UnorderedMap.assign maps.1 record.2.1 record.2.2
        else maps.1
  let out_txn_ids_to_file_names :=
    match UnorderedMap.find maps.2 record.1 with
    | none => UnorderedMap.assign maps.2 record.1 record.2.1
    | some _ => UnorderedMap.erase maps.2 record.1
  (out_file_names_to_file_sizes, out_txn_ids_to_file_names)

/-- The body of the loop of `loadFilesAndTransactions` over the logs, for one log: the log
is opened under its name as it stands (`ifstream log(log_file)`); when it opens it is
read whole, its records go through `loadRecord`, and it is removed. -/
def loadLog (env : Environment) (acc : FileNameFileSizeMap × TxnIdFileNameMap × Disk)
    (log_file : FileName) : FileNameFileSizeMap × TxnIdFileNameMap × Disk :=
  if env.open_fails log_file then acc
  else
    match UnorderedMap.find acc.2.2 (Path.normalize log_file) with
    | none => acc
    | some content =>
        let maps :=
          (readRecords content.length
            { unread := content.data, good := true, failbit := false }).foldl
            loadRecord (acc.1, acc.2.1)
        (maps.1, maps.2, UnorderedMap.erase acc.2.2 (Path.normalize log_file))

/-- The member `loadFilesAndTransactions`: the four logs are gone through in the order
open, timeout, commit, abort. The result is the two maps and the file system. -/
def loadFilesAndTransactions (env : Environment) (disk : Disk)
    (out_file_names_to_file_sizes : FileNameFileSizeMap)
    (out_txn_ids_to_file_names : TxnIdFileNameMap) :
    FileNameFileSizeMap × TxnIdFileNameMap × Disk :=
  [m_transaction_log, m_timeout_log, m_commit_log, m_abort_log].foldl (loadLog env)
    (out_file_names_to_file_sizes, out_txn_ids_to_file_names, disk)

/-- The member `truncateFiles`: every file name of the map that names an existing file,
under the name as it stands, is truncated to the recorded size when that is positive
and removed otherwise. The entries are visited in the order of the association list. -/
def truncateFiles (disk : Disk) (in_file_names_to_file_sizes : FileNameFileSizeMap) : Disk :=
  in_file_names_to_file_sizes.foldl
    (fun (disk : Disk) (entry : FileName × Int) =>
      if File.fileExists disk entry.1 then
        if 0 < entry.2 then truncate disk entry.1 entry.2
        else UnorderedMap.erase disk (Path.normalize entry.1)
      else disk)
    disk

/-- The member `initializeTransactions`: loads the two maps from the logs, truncates the
files, and restarts the transactions of the recovered map. -/
def initializeTransactions (env : Environment) (s : ServerBackend) : ServerBackend :=
  let loaded := loadFilesAndTransactions env s.disk [] []
  restartTransactions env { s with disk := truncateFiles loaded.2.2 loaded.1 } loaded.2.1

/-- The member `initializeFunctionsAndTransactions`: runs `initializeTransactions` while
the flag `m_initialize` is set, which it then clears. -/
def initializeFunctionsAndTransactions (env : Environment) ( m_initialize : Bool)
    (s : ServerBackend) : ServerBackend :=
  if m_initialize then initializeTransactions env s else s

/-- The member `processRequest`: initialises the backend on the first call, then runs the
command of the request read from the header and the payload. -/
def processRequest (env : Environment) ( m_initialize : Bool) (s : ServerBackend)
    (in_request_header : String) (in_request_payload : String)
    (out_transaction_in_progress : Bool) : Option Outcome :=
  processCommand env (initializeFunctionsAndTransactions env m_initialize s)
    (getClientRequestAsTuple in_request_header (some in_request_payload))
    out_transaction_in_progress

/-- The records `loadFilesAndTransactions` reads from one log: none when the log does not
exist or cannot be opened. -/
def logRecords (env : Environment) (disk : Disk) (log_file : FileName) :
    List (Int × FileName × Int) :=
  if env.open_fails log_file then []
  else
    match UnorderedMap.find disk (Path.normalize log_file) with
    | none => []
    | some content =>
        readRecords content.length { unread := content.data, good := true, failbit := false }

end ServerBackend

/-! ## server-dispatcher.h: the loop of one connection -/

namespace ServerDispatcher

/-- The member `readSocket` on the bytes a connection still delivers: the next
`in_buffer_len` bytes when that many arrive, and failure (the connection is closed or
times out) otherwise. The second component is what is left to arrive. -/
def readSocket (incoming : List Char) (in_buffer_len : Nat) : Option (String × List Char) :=
  if in_buffer_len ≤ incoming.length then
    some (String.mk (incoming.take in_buffer_len), incoming.drop in_buffer_len)
  else none

/-- The function `m_processRequest`, the loop that serves one connection, run on the
bytes the connection delivers, with one environment per round. Each round reads a
header, asks the backend for the content length, reads the payload and has the request
processed; the loop goes on while `transaction_in_progress` is true and ends when a read
fails. The result is the flag `m_initialize`, the backend and the responses sent, and
`none` when a round is left without an environment or NEW_TXN without a free id. -/
def m_processRequest : List Environment → Bool → ServerBackend → List Char →
    Option (Bool × ServerBackend × List Response)
  | [], _, _, _ => none
  | env :: envs, m_initialize, s, incoming =>
      match readSocket incoming Constants.request_header_len with
      | none => some ( m_initialize, s, [])
      | some (request_header, incoming1) =>
          let content_len :=
            ServerBackend.getContentLength request_header ⟨"", 0, 0, Errors.nil, ""⟩ true
          if content_len.1 < 0 then
            if content_len.2.2 then
              (m_processRequest envs m_initialize s incoming1).map
                (fun r => (r.1, r.2.1, content_len.2.1 :: r.2.2))
            else some ( m_initialize, s, [content_len.2.1])
          else
            match readSocket incoming1 content_len.1.toNat with
            | none => some ( m_initialize, s, [])
            | some (request_payload, incoming2) =>
                match ServerBackend.processRequest env m_initialize s request_header
                    request_payload content_len.2.2 with
                | none => none
                | some out =>
                    if out.out_transaction_in_progress then
                      (m_processRequest envs false out.backend incoming2).map
                        (fun r => (r.1, r.2.1, out.out_server_response_str :: r.2.2))
                    else some (false, out.backend, [out.out_server_response_str])

end ServerDispatcher

/-- What a command function does with the flag `out_transaction_in_progress`: an ERROR
clears it, and any other response leaves it at the expected value. -/
def Outcome.FlagIs (o : Outcome) (expected : Bool) : Prop :=
  (o.out_server_response_str.command = Constants.error_cmd ∧
      o.out_transaction_in_progress = false) ∨
  (o.out_server_response_str.command ≠ Constants.error_cmd ∧
      o.out_transaction_in_progress = expected)

/-! ## Steps of the backend, and what a step does to a record -/

namespace ServerBackend

/-- One step of the backend: a request processed, or a wake-up of a timer, under any
environment. -/
inductive Step : ServerBackend → ServerBackend → Prop where
  | request (env : Environment) (s : ServerBackend) (req : RequestTuple) (in_progress : Bool)
      (out : Outcome) :
      processCommand env s req in_progress = some out → Step s out.backend
  | timer (env : Environment) (s : ServerBackend) (in_txn_id : Int)
      (in_file_name : FileName) :
      Step s (m_txn_timer_function env s in_txn_id in_file_name).1

/-- A run of steps after each of which the transaction id has a record: the transaction
stays live from the first state of the run to the last. -/
inductive LiveRun (txn_id : Int) : ServerBackend → ServerBackend → Prop where
  | refl (s : ServerBackend) : LiveRun txn_id s s
  | step (s s1 s2 : ServerBackend) :
      LiveRun txn_id s s1 → Step s1 s2 →
      (UnorderedMap.find s2.m_txn_id_to_transaction_attributes txn_id).isSome = true →
      LiveRun txn_id s s2

/-- How a record can differ after a step from the record before it: the file name is the
same, the maximum sequence number is no smaller, and the buffers are the same or have
one new entry, at a sequence number that is at most the new maximum. -/
def Grows (t t1 : TransactionAttributesTuple) : Prop :=
  t1.sp_file_attributes = t.sp_file_attributes ∧ t.max_seq_num ≤ t1.max_seq_num ∧
  (t1.buffers = t.buffers ∨
    ∃ seq_num data, UnorderedMap.count t.buffers seq_num = false ∧
      seq_num ≤ t1.max_seq_num ∧ t1.buffers = UnorderedMap.assign t.buffers seq_num data)

/-- What a step can do to the transaction map and the commit set: a record is kept,
grown or removed; a new record is the one `getNewTransactionAttributes` builds; the
commit set only gains ids, and an id it gains has no record afterwards. -/
def Changes (s s1 : ServerBackend) : Prop :=
  ∀ k : Int,
    (match UnorderedMap.find s.m_txn_id_to_transaction_attributes k with
      | some t =>
          UnorderedMap.find s1.m_txn_id_to_transaction_attributes k = none ∨
          ∃ t1, UnorderedMap.find s1.m_txn_id_to_transaction_attributes k = some t1 ∧
            Grows t t1
      | none =>
          UnorderedMap.find s1.m_txn_id_to_transaction_attributes k = none ∨
          ∃ file_name now, UnorderedMap.find s1.m_txn_id_to_transaction_attributes k
            = some (getNewTransactionAttributes file_name now)) ∧
    (k ∈ s1.m_commits →
      k ∈ s.m_commits ∨ UnorderedMap.find s1.m_txn_id_to_transaction_attributes k = none) ∧
    (k ∈ s.m_commits → k ∈ s1.m_commits)

/-- The bound on the buffers of every record: each sequence number that has a buffer is
at most the maximum sequence number of the record. -/
def BuffersBounded (s : ServerBackend) : Prop :=
  ∀ (txn_id : Int) (t : TransactionAttributesTuple),
    UnorderedMap.find s.m_txn_id_to_transaction_attributes txn_id = some t →
      ∀ seq_num, UnorderedMap.count t.buffers seq_num = true → seq_num ≤ t.max_seq_num

end ServerBackend

/-! ## The owners of a file-attributes record -/

namespace ServerBackend

/-- The number of records of the transaction map whose file attributes are those of the
file name: the owners of the shared pointer. -/
def owners (txns : UnorderedMap Int TransactionAttributesTuple) (file_name : FileName) :
    Nat :=
  txns.countP (fun entry => decide (entry.2.sp_file_attributes = file_name))

/-- The sharing of file attributes: the transaction map has one entry per id, and a file
name has a record in `m_file_name_to_ptr_to_file_attributes` exactly when it has an
owner, with a use count that is the number of its owners. -/
def FilesShared (s : ServerBackend) : Prop :=
  (s.m_txn_id_to_transaction_attributes.map Prod.fst).Nodup ∧
  ∀ file_name : FileName,
    (UnorderedMap.find s.m_file_name_to_ptr_to_file_attributes file_name).map
        (fun fa => fa.use_count)
      = if owners s.m_txn_id_to_transaction_attributes file_name = 0 then none
        else some (owners s.m_txn_id_to_transaction_attributes file_name)

end ServerBackend

/-! ## Concrete runs

A server started on the empty directory `srv/`, and the states a few requests lead to.
They serve as the concrete inputs of the witnesses and counterexamples below. -/

namespace Scenario

/-- An environment without failing system calls, the clock at 0. -/
def env (rand : List Nat) : Environment := Environment.reliable 0 rand

/-- The server started on an empty directory: nothing to recover. -/
def started : ServerBackend := ServerBackend.ctor "srv/" []

/-- The request NEW_TXN for `f.txt`. -/
def new_txn_f : RequestTuple := ⟨"NEW_TXN", -1, 0, 5, "f.txt"⟩

/-- After `new_txn_f`, `rand()` returning 7: transaction 7 is live on `f.txt`. -/
def opened : ServerBackend :=
  { m_txn_id_to_transaction_attributes := [(7, ⟨"f.txt", [], 1, 0⟩)]
    m_file_name_to_ptr_to_file_attributes := [("f.txt", ⟨"f.txt", 0, 1⟩)]
    m_commits := []
    m_directory := "srv/"
    disk := [("srv/.transactionlog.txt", "7 f.txt 0\n")] }

/-- The request WRITE of fragment 1 of transaction 7. -/
def write_7_1 : RequestTuple := ⟨"WRITE", 7, 1, 1, "a"⟩

/-- After `write_7_1`: transaction 7 holds fragment 1. -/
def written : ServerBackend :=
  { m_txn_id_to_transaction_attributes := [(7, ⟨"f.txt", [(1, "a")], 1, 0⟩)]
    m_file_name_to_ptr_to_file_attributes := [("f.txt", ⟨"f.txt", 0, 1⟩)]
    m_commits := []
    m_directory := "srv/"
    disk := [("srv/.transactionlog.txt", "7 f.txt 0\n")] }

/-- The request COMMIT of transaction 7 with sequence number 1. -/
def commit_7_1 : RequestTuple := ⟨"COMMIT", 7, 1, 0, ""⟩

/-- After `commit_7_1`: id 7 is in the commit set and has no record. -/
def committed : ServerBackend :=
  { m_txn_id_to_transaction_attributes := []
    m_file_name_to_ptr_to_file_attributes := []
    m_commits := [7]
    m_directory := "srv/"
    disk := [("srv/.commitlog.txt", "7 f.txt 0\n"), ("srv/f.txt", "a"),
      ("srv/.transactionlog.txt", "7 f.txt 0\n")] }

/-- The request NEW_TXN for `g.txt`. -/
def new_txn_g : RequestTuple := ⟨"NEW_TXN", -1, 0, 5, "g.txt"⟩

/-- After `new_txn_g` on `committed`, `rand()` returning 7 again: id 7 has a record
and is in the commit set. -/
def reissued : ServerBackend :=
  { m_txn_id_to_transaction_attributes := [(7, ⟨"g.txt", [], 1, 0⟩)]
    m_file_name_to_ptr_to_file_attributes := [("g.txt", ⟨"g.txt", 0, 1⟩)]
    m_commits := [7]
    m_directory := "srv/"
    disk := [("srv/.transactionlog.txt", "7 f.txt 0\n7 g.txt 0\n"),
      ("srv/.commitlog.txt", "7 f.txt 0\n"), ("srv/f.txt", "a")] }

/-- The request WRITE of fragment 2 of transaction 7. -/
def write_7_2 : RequestTuple := ⟨"WRITE", 7, 2, 1, "b"⟩

/-- After `write_7_2` on `opened`: fragment 2 arrived first. -/
def written_2 : ServerBackend :=
  { m_txn_id_to_transaction_attributes := [(7, ⟨"f.txt", [(2, "b")], 2, 0⟩)]
    m_file_name_to_ptr_to_file_attributes := [("f.txt", ⟨"f.txt", 0, 1⟩)]
    m_commits := []
    m_directory := "srv/"
    disk := [("srv/.transactionlog.txt", "7 f.txt 0\n")] }

/-- After `write_7_1` on `written_2`: both fragments are buffered, 2 before 1. -/
def written_2_then_1 : ServerBackend :=
  { m_txn_id_to_transaction_attributes := [(7, ⟨"f.txt", [(1, "a"), (2, "b")], 2, 0⟩)]
    m_file_name_to_ptr_to_file_attributes := [("f.txt", ⟨"f.txt", 0, 1⟩)]
    m_commits := []
    m_directory := "srv/"
    disk := [("srv/.transactionlog.txt", "7 f.txt 0\n")] }

/-- The request COMMIT of transaction 7 with sequence number 2. -/
def commit_7_2 : RequestTuple := ⟨"COMMIT", 7, 2, 0, ""⟩

/-- The payloads of the two fragments by sequence number. -/
def payload (k : Int) : Data := if k = 1 then "a" else "b"

/-- The request ABORT of transaction 7. -/
def abort_7 : RequestTuple := ⟨"ABORT", 7, 0, 0, ""⟩

/-- The request WRITE of fragment 1 of transaction 7, sent after the commit. -/
def write_7_3 : RequestTuple := ⟨"WRITE", 7, 3, 1, "c"⟩

/-- A NEW_TXN request with sequence number 1. -/
def new_txn_seq_1 : RequestTuple := ⟨"NEW_TXN", -1, 1, 5, "f.txt"⟩

/-- A request with a command the backend has no function for. -/
def delete_7 : RequestTuple := ⟨"DELETE", 7, 3, 0, ""⟩

/-- An environment in which `rand()` returns 7 and `open(2)` fails on the open log and
nowhere else. -/
def env_open_log_unopenable : Environment :=
  { now := 0, rand := [7], open_fails := fun p => decide (p = "srv/.transactionlog.txt"),
    write_limit := fun _ => none, read_fails := fun _ => false }

/-- A server started on a directory that holds the file `z.txt`, three bytes long with a
zero byte in the middle. -/
def started_zero_byte : ServerBackend :=
  ServerBackend.ctor "srv/" [("srv/z.txt", String.mk ['a', Char.ofNat 0, 'b'])]

/-- The request READ of `z.txt`. -/
def read_z : RequestTuple := ⟨"READ", -1, 0, 5, "z.txt"⟩

/-- The request READ of `f.txt`. -/
def read_f : RequestTuple := ⟨"READ", -1, 0, 5, "f.txt"⟩

/-- A request header of 64 characters: WRITE of five bytes as fragment 1 of
transaction 7. -/
def header_write : String :=
  "WRITE 7 1 5 0000000000000000000000000000000000000000000000000000"

/-- A text of 64 characters that is no request header: the command is in lower case. -/
def header_lower_case : String :=
  "write 7 1 5 0000000000000000000000000000000000000000000000000000"

/-- A response as a caller may pass it to `getContentLength`: not set yet. -/
def no_response : Response := ⟨"", 0, 0, Errors.nil, ""⟩

/-- The response to the request `delete_7`. -/
def invalid_command_response : Response :=
  ⟨"ERROR", 7, 3, Errors.InvalidCommand, "InvalidCommand"⟩

/-- The bytes of the request `delete_7`: its header, and no payload. -/
def header_delete : String :=
  "DELETE 7 3 0 000000000000000000000000000000000000000000000000000"

/-- An environment 15 seconds after the start, in which no system call fails. -/
def env_later : Environment := Environment.reliable 15 []

/-- An environment 15 seconds after the start in which `open(2)` fails on the timeout log
and nowhere else. -/
def env_timeout_log_unopenable : Environment :=
  { now := 15, rand := [], open_fails := fun p => decide (p = "srv/.timeoutlog.txt"),
    write_limit := fun _ => none, read_fails := fun _ => false }

/-- A server whose directory is its working directory (the empty prefix), started on an
empty directory. -/
def started_cwd : ServerBackend := ServerBackend.ctor "" []

/-- After `new_txn_f` on `started_cwd`, with `rand()` returning 7. -/
def opened_cwd : ServerBackend :=
  { m_txn_id_to_transaction_attributes := [(7, ⟨"f.txt", [], 1, 0⟩)]
    m_file_name_to_ptr_to_file_attributes := [("f.txt", ⟨"f.txt", 0, 1⟩)]
    m_commits := []
    m_directory := ""
    disk := [(".transactionlog.txt", "7 f.txt 0\n")] }

/-- After `abort_7` on `opened_cwd`. -/
def aborted_cwd : ServerBackend :=
  { m_txn_id_to_transaction_attributes := []
    m_file_name_to_ptr_to_file_attributes := []
    m_commits := []
    m_directory := ""
    disk := [(".abortlog.txt", "7 f.txt 0\n"), (".transactionlog.txt", "7 f.txt 0\n")] }

/-- After `new_txn_g` on `aborted_cwd`, with `rand()` returning 7 again: transaction 7 is
live on `g.txt`. -/
def reopened_cwd : ServerBackend :=
  { m_txn_id_to_transaction_attributes := [(7, ⟨"g.txt", [], 1, 0⟩)]
    m_file_name_to_ptr_to_file_attributes := [("g.txt", ⟨"g.txt", 0, 1⟩)]
    m_commits := []
    m_directory := ""
    disk := [(".transactionlog.txt", "7 f.txt 0\n7 g.txt 0\n"),
      (".abortlog.txt", "7 f.txt 0\n")] }

/-- A working directory with an open log of two transactions and a commit log of the
first. -/
def disk_two_opened_one_committed : Disk :=
  [(".transactionlog.txt", "7 f.txt 0\n8 g.txt 0\n"), (".commitlog.txt", "7 f.txt 1\n"),
    ("f.txt", "a")]

/-- An environment in which `write(2)` on the open log of the working directory accepts
no byte (the disk is full) and no other system call fails. -/
def env_open_log_full : Environment :=
  { now := 0, rand := [], open_fails := fun _ => false,
    write_limit := fun p => if p = ".transactionlog.txt" then some 0 else none,
    read_fails := fun _ => false }

/-- An environment in which `write(2)` on `srv/f.txt` fails after one byte and no other
system call fails. -/
def env_file_full_after_1 : Environment :=
  { now := 0, rand := [], open_fails := fun _ => false,
    write_limit := fun p => if p = "srv/f.txt" then some 1 else none,
    read_fails := fun _ => false }

/-- The directory `srv/` after the first byte of a COMMIT of transaction 7 reached
`f.txt` and nothing was journalled: the open log records `f.txt` with size 0. -/
def disk_partial_append : Disk :=
  [("srv/f.txt", "a"), ("srv/.transactionlog.txt", "7 f.txt 0\n")]

/-- The request WRITE of transaction 7 with sequence number 0. -/
def write_7_0 : RequestTuple := ⟨"WRITE", 7, 0, 1, "x"⟩

/-- After `write_7_0` on `opened`: transaction 7 holds a buffer under sequence number 0. -/
def written_0 : ServerBackend :=
  { m_txn_id_to_transaction_attributes := [(7, ⟨"f.txt", [(0, "x")], 1, 0⟩)]
    m_file_name_to_ptr_to_file_attributes := [("f.txt", ⟨"f.txt", 0, 1⟩)]
    m_commits := []
    m_directory := "srv/"
    disk := [("srv/.transactionlog.txt", "7 f.txt 0\n")] }

/-- After `write_7_1` on `written_0`: transaction 7 holds buffers under 0 and 1. -/
def written_0_then_1 : ServerBackend :=
  { m_txn_id_to_transaction_attributes := [(7, ⟨"f.txt", [(1, "a"), (0, "x")], 1, 0⟩)]
    m_file_name_to_ptr_to_file_attributes := [("f.txt", ⟨"f.txt", 0, 1⟩)]
    m_commits := []
    m_directory := "srv/"
    disk := [("srv/.transactionlog.txt", "7 f.txt 0\n")] }

/-- The request COMMIT of transaction 7 with sequence number 5. -/
def commit_7_5 : RequestTuple := ⟨"COMMIT", 7, 5, 0, ""⟩

/-- The request COMMIT of transaction 7 with sequence number 3. -/
def commit_7_3 : RequestTuple := ⟨"COMMIT", 7, 3, 0, ""⟩

/-- After `commit_7_5` on `opened`, answered ASK_RESEND 1: transaction 7 has no buffer
and maximum sequence number 5. -/
def asked_5 : ServerBackend :=
  { m_txn_id_to_transaction_attributes := [(7, ⟨"f.txt", [], 5, 0⟩)]
    m_file_name_to_ptr_to_file_attributes := [("f.txt", ⟨"f.txt", 0, 1⟩)]
    m_commits := []
    m_directory := "srv/"
    disk := [("srv/.transactionlog.txt", "7 f.txt 0\n")] }

/-- A payload of five bytes whose third byte is zero. -/
def payload_zero_byte : String := String.mk ['a', 'b', Char.ofNat 0, 'c', 'd']

/-- A server started with the directory argument `.` on an empty directory; its
directory prefix is `./`, so that the logs it writes are the logs recovery reads. -/
def started_dot : ServerBackend := ServerBackend.ctor "." []

/-- After `new_txn_f` on `started_dot`, with `rand()` returning 7. -/
def opened_dot : ServerBackend := { opened_cwd with m_directory := "./" }

/-- After `abort_7` on `opened_dot`. -/
def aborted_dot : ServerBackend := { aborted_cwd with m_directory := "./" }

/-- After `new_txn_g` on `aborted_dot`, with `rand()` returning 7 again: transaction 7 is
live on `g.txt`. -/
def reopened_dot : ServerBackend := { reopened_cwd with m_directory := "./" }

end Scenario

/-! ## Lemmas on association lists -/

namespace UnorderedMap

variable {κ ν : Type} [DecidableEq κ]

theorem find_erase (m : UnorderedMap κ ν) (k k1 : κ) :
    find (erase m k) k1 = if k1 = k then none else find m k1 := by
  induction m with
  | nil => simp [erase, find]
  | cons p rest ih =>
      obtain ⟨k0, v⟩ := p
      by_cases h0 : k0 = k
      · subst h0
        have : erase ((k0, v) :: rest) k0 = erase rest k0 := by simp [erase]
        rw [this, ih]
        by_cases h1 : k1 = k0
        · simp [h1]
        · have h2 : ¬ k0 = k1 := fun h => h1 h.symm
          simp [h1, find, h2]
      · have : erase ((k0, v) :: rest) k = (k0, v) :: erase rest k := by simp [erase, h0]
        rw [this]
        by_cases h1 : k0 = k1
        · subst h1
          simp [find, h0]
        · simp only [find, h1, if_false]
          exact ih

theorem find_assign (m : UnorderedMap κ ν) (k k1 : κ) (v : ν) :
    find (assign m k v) k1 = if k1 = k then some v else find m k1 := by
  by_cases h : k1 = k
  · subst h
    simp [assign, find]
  · have h2 : ¬ k = k1 := fun e => h e.symm
    simp [assign, find, h2, h, find_erase]

theorem find_assign_self (m : UnorderedMap κ ν) (k : κ) (v : ν) :
    find (assign m k v) k = some v := by
  simp [find_assign]

theorem find_assign_ne (m : UnorderedMap κ ν) {k k1 : κ} (v : ν) (h : k1 ≠ k) :
    find (assign m k v) k1 = find m k1 := by
  simp [find_assign, h]

theorem find_erase_self (m : UnorderedMap κ ν) (k : κ) : find (erase m k) k = none := by
  simp [find_erase]

theorem find_erase_ne (m : UnorderedMap κ ν) {k k1 : κ} (h : k1 ≠ k) :
    find (erase m k) k1 = find m k1 := by
  simp [find_erase, h]

theorem find_cons (m : UnorderedMap κ ν) (k k1 : κ) (v : ν) :
    find ((k, v) :: m) k1 = if k = k1 then some v else find m k1 := rfl

theorem count_eq_true_iff (m : UnorderedMap κ ν) (k : κ) :
    count m k = true ↔ ∃ v, find m k = some v := by
  simp [count, Option.isSome_iff_exists]

theorem count_eq_false_iff (m : UnorderedMap κ ν) (k : κ) :
    count m k = false ↔ find m k = none := by
  simp [count]

end UnorderedMap

/-! ## Lemmas on the file system -/

theorem String.join_cons_eq (b : String) (l : List String) :
    String.join (b :: l) = b ++ String.join l := by
  apply String.ext
  simp [String.data_join]

theorem String.append_right_injective (d a b : String) (h : d ++ a = d ++ b) : a = b := by
  apply String.ext
  have := congrArg String.data h
  simpa using this

/-- Path resolution at concrete paths: spellings of one file have one value, a path in
normal form is its own value, and the directory prefixes `./` and the empty one name
the same files. -/
theorem Path.normalize_examples :
    Path.normalize "srv/f.txt" = "srv/f.txt" ∧
    Path.normalize "srv/./f.txt" = "srv/f.txt" ∧
    Path.normalize "srv//f.txt" = "srv/f.txt" ∧
    Path.normalize "srv/sub/../f.txt" = "srv/f.txt" ∧
    Path.normalize "./f.txt" = "f.txt" ∧
    Path.normalize "f.txt" = "f.txt" ∧
    Path.normalize "../f.txt" = "../f.txt" ∧
    Path.normalize "/var/srv/../f.txt" = "/var/f.txt" ∧
    Path.normalize "srv/f.txt" ≠ Path.normalize "f.txt" := by
  decide

theorem Disk.content_assign_self (disk : Disk) (p c : String) :
    Disk.content (UnorderedMap.assign disk p c) p = c := by
  simp [Disk.content, UnorderedMap.find_assign_self]

namespace File

theorem write_file (disk : Disk) (file : File) (b : String) :
    (write disk file b).2.1.m_file = file.m_file := by
  unfold write
  split
  · rfl
  · split <;> rfl

theorem write_find_ne (disk : Disk) (file : File) (b : String) {p : String}
    (h : p ≠ file.m_file) :
    UnorderedMap.find (write disk file b).1 p = UnorderedMap.find disk p := by
  unfold write
  split
  · simp [UnorderedMap.find_assign_ne _ _ h]
  · split <;> simp [UnorderedMap.find_assign_ne _ _ h]

theorem write_count (disk : Disk) (file : File) (b : String) (p : String)
    (h : UnorderedMap.count disk p = true) :
    UnorderedMap.count (write disk file b).1 p = true := by
  by_cases hp : p = file.m_file
  · subst hp
    unfold write
    split
    · simp [UnorderedMap.count, UnorderedMap.find_assign_self]
    · split <;> simp [UnorderedMap.count, UnorderedMap.find_assign_self]
  · simpa [UnorderedMap.count, write_find_ne disk file b hp] using h

theorem write_ok_content (disk : Disk) (file : File) (b : String)
    (h : (write disk file b).2.2 = true) :
    Disk.content (write disk file b).1 file.m_file = Disk.content disk file.m_file ++ b := by
  cases hl : file.m_write_limit with
  | none => simp [write, hl, Disk.content_assign_self]
  | some n =>
      by_cases hb : b.length ≤ n
      · simp [write, hl, hb, Disk.content_assign_self]
      · simp [write, hl, hb] at h

theorem writeAll_file (disk : Disk) (file : File) (bs : List String) :
    (writeAll disk file bs).2.1.m_file = file.m_file := by
  induction bs generalizing disk file with
  | nil => rfl
  | cons b rest ih =>
      unfold writeAll
      have hp := write_file disk file b
      split
      · rename_i disk1 file1 heq
        rw [heq] at hp
        rw [ih]
        exact hp
      · rename_i disk1 file1 heq
        rw [heq] at hp
        exact hp

theorem writeAll_ok_content (disk : Disk) (file : File) (bs : List String)
    (h : (writeAll disk file bs).2.2 = true) :
    Disk.content (writeAll disk file bs).1 file.m_file
      = Disk.content disk file.m_file ++ String.join bs := by
  induction bs generalizing disk file with
  | nil =>
      apply String.ext
      simp [writeAll, String.data_join]
  | cons b rest ih =>
      unfold writeAll at h ⊢
      have hp := write_file disk file b
      have hc := write_ok_content disk file b
      split at h
      · rename_i disk1 file1 heq
        rw [heq] at hp hc
        have hp1 : file1.m_file = file.m_file := hp
        have hc1 : Disk.content disk1 file.m_file = Disk.content disk file.m_file ++ b := hc rfl
        have := ih disk1 file1 h
        rw [hp1] at this
        rw [this, hc1, String.join_cons_eq, String.append_assoc]
      · exact Bool.noConfusion h

theorem ctor_append_ok (env : Environment) (disk : Disk) (p : String)
    (h : env.open_fails p = false) :
    ∃ disk0 file, ctor env disk p OpenFlags.O_CREAT_O_WRONLY_O_APPEND = .ok (disk0, file)
      ∧ file.m_file = Path.normalize p ∧ file.m_write_limit = env.write_limit p
      ∧ Disk.content disk0 (Path.normalize p) = Disk.content disk (Path.normalize p)
      ∧ ∀ q, q ≠ Path.normalize p → UnorderedMap.find disk0 q = UnorderedMap.find disk q := by
  unfold ctor
  simp only [h, Bool.false_eq_true, if_false]
  by_cases hc : UnorderedMap.count disk (Path.normalize p) = true
  · simp only [hc, if_true]
    exact ⟨_, _, rfl, rfl, rfl, rfl, fun _ _ => rfl⟩
  · simp only [hc, Bool.false_eq_true, if_false]
    refine ⟨_, _, rfl, rfl, rfl, ?_, ?_⟩
    · have : UnorderedMap.find disk (Path.normalize p) = none := by
        simpa [UnorderedMap.count] using hc
      simp [Disk.content, UnorderedMap.find_assign_self, this]
    · intro q hq
      exact UnorderedMap.find_assign_ne _ _ hq

end File

namespace ServerBackend

end ServerBackend

/-! ## Lemmas on the command functions, and the invariant of reachable states -/

namespace ServerBackend

theorem removeTransaction_find (s : ServerBackend) (txn_id k : Int) :
    UnorderedMap.find (removeTransaction s txn_id).m_txn_id_to_transaction_attributes k
      = if k = txn_id then none
        else UnorderedMap.find s.m_txn_id_to_transaction_attributes k := by
  unfold removeTransaction
  split
  · rename_i hnone
    by_cases hk : k = txn_id
    · subst hk
      simp [hnone]
    · simp [hk]
  · simp [UnorderedMap.find_erase]

theorem removeTransaction_commits (s : ServerBackend) (txn_id : Int) :
    (removeTransaction s txn_id).m_commits = s.m_commits := by
  unfold removeTransaction
  split <;> rfl

theorem removeTransaction_disk (s : ServerBackend) (txn_id : Int) :
    (removeTransaction s txn_id).disk = s.disk := by
  unfold removeTransaction
  split <;> rfl

theorem removeTransaction_directory (s : ServerBackend) (txn_id : Int) :
    (removeTransaction s txn_id).m_directory = s.m_directory := by
  unfold removeTransaction
  split <;> rfl

theorem getNewFileAttributes_frame (s s1 : ServerBackend) (file_name : FileName)
    (h : getNewFileAttributes s file_name = .ok s1) :
    s1.m_txn_id_to_transaction_attributes = s.m_txn_id_to_transaction_attributes
      ∧ s1.m_commits = s.m_commits ∧ s1.m_directory = s.m_directory ∧ s1.disk = s.disk := by
  unfold getNewFileAttributes at h
  split at h
  · cases h
    exact ⟨rfl, rfl, rfl, rfl⟩
  · cases h

/-- The transaction map, commit set and directory after `addNewTransaction`. -/
theorem addNewTransaction_frame (env : Environment) (s s1 : ServerBackend) (txn_id : Int)
    (file_name : FileName) (h : addNewTransaction env s txn_id file_name = .ok s1) :
    s1.m_commits = s.m_commits ∧ s1.m_directory = s.m_directory ∧
    (∀ k, UnorderedMap.find s1.m_txn_id_to_transaction_attributes k
        = if k = txn_id ∧ UnorderedMap.find s.m_txn_id_to_transaction_attributes txn_id = none
          then some (getNewTransactionAttributes file_name env.now)
          else UnorderedMap.find s.m_txn_id_to_transaction_attributes k) := by
  unfold addNewTransaction at h
  simp only at h
  split at h
  · cases h
  · rename_i s2 hshared
    have hs2 : s2.m_txn_id_to_transaction_attributes = s.m_txn_id_to_transaction_attributes
        ∧ s2.m_commits = s.m_commits ∧ s2.m_directory = s.m_directory := by
      split at hshared
      · obtain ⟨h1, h2, h3, _⟩ := getNewFileAttributes_frame s s2 file_name hshared
        exact ⟨h1, h2, h3⟩
      · cases hshared
        exact ⟨rfl, rfl, rfl⟩
    obtain ⟨ht, hc, hd⟩ := hs2
    cases h
    by_cases hcount : UnorderedMap.count s.m_txn_id_to_transaction_attributes txn_id = true
    · have hfind : UnorderedMap.find s.m_txn_id_to_transaction_attributes txn_id ≠ none := by
        intro hn
        simp [UnorderedMap.count, hn] at hcount
      simp [UnorderedMap.emplace, ht, hcount, hfind]
    · have hfind : UnorderedMap.find s.m_txn_id_to_transaction_attributes txn_id = none := by
        simpa [UnorderedMap.count] using hcount
      simp only [UnorderedMap.emplace, ht, hcount, Bool.false_eq_true, if_false, hfind,
        and_true]
      refine ⟨hc, hd, ?_⟩
      intro k
      rw [UnorderedMap.find_cons]
      by_cases hk : k = txn_id
      · subst hk
        simp
      · have : ¬ txn_id = k := fun e => hk e.symm
        simp [hk, this]

theorem Consistent_of_frame {s s1 : ServerBackend}
    (hc : s1.m_commits = s.m_commits)
    (ht : s1.m_txn_id_to_transaction_attributes = s.m_txn_id_to_transaction_attributes)
    (h : Consistent s) : Consistent s1 := by
  intro k t hk
  rw [ht] at hk
  rw [hc]
  exact h k t hk

theorem Consistent_addNewTransaction (env : Environment) (s s1 : ServerBackend)
    (txn_id : Int) (file_name : FileName)
    (h : addNewTransaction env s txn_id file_name = .ok s1) (hs : Consistent s) :
    Consistent s1 := by
  obtain ⟨hc, _, hf⟩ := addNewTransaction_frame env s s1 txn_id file_name h
  intro k t hk
  rw [hf k] at hk
  rw [hc]
  split at hk
  · cases hk
    exact ⟨by simp [getNewTransactionAttributes, Constants.initial_seq_num],
      fun _ => rfl⟩
  · exact hs k t hk

theorem Consistent_removeTransaction (s : ServerBackend) (txn_id : Int)
    (hs : Consistent s) : Consistent (removeTransaction s txn_id) := by
  intro k t hk
  rw [removeTransaction_find] at hk
  rw [removeTransaction_commits]
  split at hk
  · cases hk
  · exact hs k t hk

theorem Consistent_restartTransactions (env : Environment) (s : ServerBackend)
    (l : List (Int × FileName)) (hs : Consistent s) :
    Consistent (restartTransactions env s l) := by
  induction l generalizing s with
  | nil => exact hs
  | cons p rest ih =>
      obtain ⟨txn_id, file_name⟩ := p
      unfold restartTransactions
      split
      · rename_i s1 h1
        exact ih s1 (Consistent_addNewTransaction env s s1 txn_id file_name h1 hs)
      · exact hs

theorem Consistent_ctor (in_directory : String) (disk : Disk) :
    Consistent (ctor in_directory disk) := by
  intro k t hk
  simp [ctor, UnorderedMap.find] at hk

theorem Consistent_READ (env : Environment) (s : ServerBackend) (req : RequestTuple)
    (ip : Bool) (hs : Consistent s) : Consistent (READ env s req ip).backend := by
  unfold READ
  split
  · exact hs
  · split
    · exact Consistent_of_frame rfl rfl hs
    · exact Consistent_of_frame rfl rfl hs

theorem Consistent_NEW_TXN (env : Environment) (s : ServerBackend) (req : RequestTuple)
    (ip : Bool) (out : Outcome) (h : NEW_TXN env s req ip = some out) (hs : Consistent s) :
    Consistent out.backend := by
  unfold NEW_TXN at h
  split at h
  · split at h
    · cases h
    · split at h
      · cases h
        exact hs
      · rename_i s1 h1
        cases h
        exact Consistent_addNewTransaction env s s1 _ _ h1 hs
  · cases h
    exact hs

/-- Replacing the record of an id outside the commit set keeps consistency when the new
maximum sequence number is at least 1. -/
theorem Consistent_assign (s : ServerBackend) (txn_id : Int)
    (t : TransactionAttributesTuple) (hs : Consistent s) (hn : txn_id ∉ s.m_commits)
    (hmax : 1 ≤ t.max_seq_num) :
    Consistent
      { s with
        m_txn_id_to_transaction_attributes :=
          UnorderedMap.assign s.m_txn_id_to_transaction_attributes txn_id t } := by
  intro k t1 hk
  simp only [UnorderedMap.find_assign] at hk
  split at hk
  · rename_i hkt
    cases hk
    subst hkt
    exact ⟨hmax, fun hmem => absurd hmem hn⟩
  · exact hs k t1 hk

theorem count_of_find {κ ν : Type} [DecidableEq κ] {m : UnorderedMap κ ν} {k : κ} {v : ν}
    (h : UnorderedMap.find m k = some v) : UnorderedMap.count m k = true := by
  simp [UnorderedMap.count, h]

theorem WRITE_committed (env : Environment) (s : ServerBackend) (req : RequestTuple)
    (ip : Bool) (h : req.txn_id ∈ s.m_commits) :
    WRITE env s req ip
      = SET_ERROR_AND_RETURN s req.txn_id req.seq_num Errors.InvalidOperation := by
  simp only [WRITE, h, if_true]

theorem WRITE_unknown (env : Environment) (s : ServerBackend) (req : RequestTuple)
    (ip : Bool) (hn : req.txn_id ∉ s.m_commits)
    (h : UnorderedMap.find s.m_txn_id_to_transaction_attributes req.txn_id = none) :
    WRITE env s req ip
      = SET_ERROR_AND_RETURN s req.txn_id req.seq_num Errors.InvalidTransactionId := by
  simp only [WRITE, hn, h, if_false]

theorem COMMIT_committed (env : Environment) (s : ServerBackend) (req : RequestTuple)
    (ip : Bool) (h : req.txn_id ∈ s.m_commits) :
    COMMIT env s req ip = SET_ACK_AND_RETURN s req.txn_id req.seq_num ip := by
  simp only [COMMIT, h, if_true]

theorem COMMIT_unknown (env : Environment) (s : ServerBackend) (req : RequestTuple)
    (ip : Bool) (hn : req.txn_id ∉ s.m_commits)
    (h : UnorderedMap.find s.m_txn_id_to_transaction_attributes req.txn_id = none) :
    COMMIT env s req ip
      = SET_ERROR_AND_RETURN s req.txn_id req.seq_num Errors.InvalidTransactionId := by
  simp only [COMMIT, hn, h, if_false]

theorem error_cmd_ne_ack_cmd : Constants.error_cmd ≠ Constants.ack_cmd := by decide

theorem ask_resend_cmd_ne_ack_cmd : Constants.ask_resend_cmd ≠ Constants.ack_cmd := by decide

/-- WRITE on a live transaction outside the commit set: the body after the two guards. -/
theorem WRITE_live (env : Environment) (s : ServerBackend) (req : RequestTuple) (ip : Bool)
    (t : TransactionAttributesTuple) (hn : req.txn_id ∉ s.m_commits)
    (ht : UnorderedMap.find s.m_txn_id_to_transaction_attributes req.txn_id = some t) :
    WRITE env s req ip =
      if UnorderedMap.count t.buffers req.seq_num then
        SET_ERROR_AND_RETURN
          { s with
            m_txn_id_to_transaction_attributes :=
              UnorderedMap.assign s.m_txn_id_to_transaction_attributes req.txn_id
                { t with curr_timestamp := env.now } }
          req.txn_id req.seq_num Errors.RepeatedSequenceNumber
      else
        SET_ACK_AND_RETURN
          { s with
            m_txn_id_to_transaction_attributes :=
              UnorderedMap.assign s.m_txn_id_to_transaction_attributes req.txn_id
                { t with
                  curr_timestamp := env.now
                  max_seq_num := if req.seq_num > t.max_seq_num then req.seq_num
                    else t.max_seq_num
                  buffers := UnorderedMap.assign t.buffers req.seq_num req.data } }
          req.txn_id req.seq_num ip := by
  simp only [WRITE, hn, ht, count_of_find ht, if_false, Bool.not_true, Bool.false_eq_true]

/-- COMMIT on a live transaction outside the commit set, with a sequence number below
the maximum received. -/
theorem COMMIT_low (env : Environment) (s : ServerBackend) (req : RequestTuple) (ip : Bool)
    (t : TransactionAttributesTuple) (hn : req.txn_id ∉ s.m_commits)
    (ht : UnorderedMap.find s.m_txn_id_to_transaction_attributes req.txn_id = some t)
    (hlt : req.seq_num < t.max_seq_num) :
    COMMIT env s req ip =
      SET_ERROR_AND_RETURN
        { s with
          m_txn_id_to_transaction_attributes :=
            UnorderedMap.assign s.m_txn_id_to_transaction_attributes req.txn_id
              { t with curr_timestamp := env.now } }
        req.txn_id req.seq_num Errors.CommitWithInvalidSequenceNumber := by
  simp only [COMMIT, hn, ht, count_of_find ht, if_false, Bool.not_true, Bool.false_eq_true,
    hlt, if_true]

/-- The backend of COMMIT once the maximum sequence number is raised to the request's. -/
theorem COMMIT_missing (env : Environment) (s : ServerBackend) (req : RequestTuple) (ip : Bool)
    (t : TransactionAttributesTuple) (missing : Int) (hn : req.txn_id ∉ s.m_commits)
    (ht : UnorderedMap.find s.m_txn_id_to_transaction_attributes req.txn_id = some t)
    (hge : ¬ req.seq_num < t.max_seq_num)
    (hm : firstMissing t.buffers req.seq_num = some missing) :
    COMMIT env s req ip =
      SET_ASK_RESEND_AND_RETURN
        { s with
          m_txn_id_to_transaction_attributes :=
            UnorderedMap.assign s.m_txn_id_to_transaction_attributes req.txn_id
              { t with curr_timestamp := env.now, max_seq_num := req.seq_num } }
        req.txn_id missing ip := by
  simp only [COMMIT, hn, ht, count_of_find ht, if_false, Bool.not_true, Bool.false_eq_true,
    hge, hm]

theorem COMMIT_open_failed (env : Environment) (s : ServerBackend) (req : RequestTuple)
    (ip : Bool) (t : TransactionAttributesTuple) (e : Exception)
    (hn : req.txn_id ∉ s.m_commits)
    (ht : UnorderedMap.find s.m_txn_id_to_transaction_attributes req.txn_id = some t)
    (hge : ¬ req.seq_num < t.max_seq_num)
    (hm : firstMissing t.buffers req.seq_num = none)
    (ho : File.ctor env s.disk (s.m_directory ++ t.sp_file_attributes)
      OpenFlags.O_CREAT_O_WRONLY_O_APPEND = .error e) :
    COMMIT env s req ip =
      SET_ERROR_AND_RETURN
        { s with
          m_txn_id_to_transaction_attributes :=
            UnorderedMap.assign s.m_txn_id_to_transaction_attributes req.txn_id
              { t with curr_timestamp := env.now, max_seq_num := req.seq_num } }
        req.txn_id req.seq_num Errors.ErrorOpeningFile := by
  simp only [COMMIT, hn, ht, count_of_find ht, if_false, Bool.not_true, Bool.false_eq_true,
    hge, hm, ho]

theorem COMMIT_write_failed (env : Environment) (s : ServerBackend) (req : RequestTuple)
    (ip : Bool) (t : TransactionAttributesTuple) (disk0 disk1 : Disk) (file file1 : File)
    (hn : req.txn_id ∉ s.m_commits)
    (ht : UnorderedMap.find s.m_txn_id_to_transaction_attributes req.txn_id = some t)
    (hge : ¬ req.seq_num < t.max_seq_num)
    (hm : firstMissing t.buffers req.seq_num = none)
    (ho : File.ctor env s.disk (s.m_directory ++ t.sp_file_attributes)
      OpenFlags.O_CREAT_O_WRONLY_O_APPEND = .ok (disk0, file))
    (hw : File.writeAll disk0 file (fragments t.buffers req.seq_num) = (disk1, file1, false)) :
    COMMIT env s req ip =
      SET_ERROR_AND_RETURN
        { s with
          m_txn_id_to_transaction_attributes :=
            UnorderedMap.assign s.m_txn_id_to_transaction_attributes req.txn_id
              { t with curr_timestamp := env.now, max_seq_num := req.seq_num }
          disk := truncate disk1 t.sp_file_attributes
            (match UnorderedMap.find s.m_file_name_to_ptr_to_file_attributes
                t.sp_file_attributes with
              | some fa => fa.m_file_size
              | none => 0) }
        req.txn_id req.seq_num Errors.ErrorWritingFile := by
  simp only [COMMIT, hn, ht, count_of_find ht, if_false, Bool.not_true, Bool.false_eq_true,
    hge, hm, ho, hw]

theorem COMMIT_flushed (env : Environment) (s : ServerBackend) (req : RequestTuple)
    (ip : Bool) (t : TransactionAttributesTuple) (disk0 disk1 : Disk) (file file1 : File)
    (hn : req.txn_id ∉ s.m_commits)
    (ht : UnorderedMap.find s.m_txn_id_to_transaction_attributes req.txn_id = some t)
    (hge : ¬ req.seq_num < t.max_seq_num)
    (hm : firstMissing t.buffers req.seq_num = none)
    (ho : File.ctor env s.disk (s.m_directory ++ t.sp_file_attributes)
      OpenFlags.O_CREAT_O_WRONLY_O_APPEND = .ok (disk0, file))
    (hw : File.writeAll disk0 file (fragments t.buffers req.seq_num) = (disk1, file1, true)) :
    COMMIT env s req ip =
      SET_ACK_AND_RETURN
        (removeTransaction
          { s with
            m_txn_id_to_transaction_attributes :=
              UnorderedMap.assign s.m_txn_id_to_transaction_attributes req.txn_id
                { t with curr_timestamp := env.now, max_seq_num := req.seq_num }
            m_commits := req.txn_id :: s.m_commits
            m_file_name_to_ptr_to_file_attributes :=
              (match UnorderedMap.find s.m_file_name_to_ptr_to_file_attributes
                  t.sp_file_attributes with
                | some fa =>
                    UnorderedMap.assign s.m_file_name_to_ptr_to_file_attributes
                      t.sp_file_attributes
                      { fa with
                        m_file_size :=
                          File.getFileSize
                            (logTransaction env s.m_directory disk1 m_commit_log req.txn_id
                              t.sp_file_attributes) file1 }
                | none => s.m_file_name_to_ptr_to_file_attributes)
            disk :=
              logTransaction env s.m_directory disk1 m_commit_log req.txn_id
                t.sp_file_attributes }
          req.txn_id)
        req.txn_id req.seq_num ip := by
  simp only [COMMIT, hn, ht, count_of_find ht, if_false, Bool.not_true, Bool.false_eq_true,
    hge, hm, ho, hw]

/-- ABORT on a live transaction outside the commit set. -/
theorem ABORT_live (env : Environment) (s : ServerBackend) (req : RequestTuple) (ip : Bool)
    (t : TransactionAttributesTuple) (hn : req.txn_id ∉ s.m_commits)
    (ht : UnorderedMap.find s.m_txn_id_to_transaction_attributes req.txn_id = some t) :
    ABORT env s req ip =
      SET_ACK_AND_RETURN
        (removeTransaction
          { s with
            disk := logTransaction env s.m_directory s.disk m_abort_log req.txn_id
              t.sp_file_attributes }
          req.txn_id)
        req.txn_id req.seq_num false := by
  simp only [ABORT, hn, ht, count_of_find ht, if_false, Bool.not_true, Bool.false_eq_true]

theorem Consistent_WRITE (env : Environment) (s : ServerBackend) (req : RequestTuple)
    (ip : Bool) (hs : Consistent s) : Consistent (WRITE env s req ip).backend := by
  by_cases hn : req.txn_id ∈ s.m_commits
  · simp only [WRITE, hn, if_true]
    exact hs
  · cases ht : UnorderedMap.find s.m_txn_id_to_transaction_attributes req.txn_id with
    | none =>
        simp only [WRITE, hn, ht, if_false]
        exact hs
    | some t =>
        have hmax := (hs _ _ ht).1
        rw [WRITE_live env s req ip t hn ht]
        split
        · exact Consistent_assign s req.txn_id _ hs hn hmax
        · apply Consistent_assign s req.txn_id _ hs hn
          dsimp only
          split <;> omega

theorem Consistent_COMMIT (env : Environment) (s : ServerBackend) (req : RequestTuple)
    (ip : Bool) (hs : Consistent s) : Consistent (COMMIT env s req ip).backend := by
  by_cases hn : req.txn_id ∈ s.m_commits
  · simp only [COMMIT, hn, if_true]
    exact hs
  · cases ht : UnorderedMap.find s.m_txn_id_to_transaction_attributes req.txn_id with
    | none =>
        simp only [COMMIT, hn, ht, if_false]
        exact hs
    | some t =>
        have hmax := (hs _ _ ht).1
        by_cases hlt : req.seq_num < t.max_seq_num
        · rw [COMMIT_low env s req ip t hn ht hlt]
          exact Consistent_assign s req.txn_id _ hs hn hmax
        · have hraised : Consistent
              { s with
                m_txn_id_to_transaction_attributes :=
                  UnorderedMap.assign s.m_txn_id_to_transaction_attributes req.txn_id
                    { t with curr_timestamp := env.now, max_seq_num := req.seq_num } } :=
            Consistent_assign s req.txn_id _ hs hn (by dsimp only; omega)
          cases hm : firstMissing t.buffers req.seq_num with
          | some missing =>
              rw [COMMIT_missing env s req ip t missing hn ht hlt hm]
              exact hraised
          | none =>
              cases ho : File.ctor env s.disk (s.m_directory ++ t.sp_file_attributes)
                  OpenFlags.O_CREAT_O_WRONLY_O_APPEND with
              | error e =>
                  rw [COMMIT_open_failed env s req ip t e hn ht hlt hm ho]
                  exact hraised
              | ok p =>
                  obtain ⟨disk0, file⟩ := p
                  rcases hw : File.writeAll disk0 file (fragments t.buffers req.seq_num)
                    with ⟨disk1, file1, flag⟩
                  cases flag
                  · rw [COMMIT_write_failed env s req ip t disk0 disk1 file file1 hn ht hlt
                      hm ho hw]
                    exact Consistent_of_frame rfl rfl hraised
                  · rw [COMMIT_flushed env s req ip t disk0 disk1 file file1 hn ht hlt hm
                      ho hw]
                    intro k t1 hk
                    simp only [SET_ACK_AND_RETURN] at hk ⊢
                    rw [removeTransaction_find] at hk
                    rw [removeTransaction_commits]
                    split at hk
                    · cases hk
                    · rename_i hk1
                      simp only [UnorderedMap.find_assign, hk1, if_false] at hk
                      obtain ⟨h1, h2⟩ := hs k t1 hk
                      refine ⟨h1, fun hmem => h2 ?_⟩
                      rcases List.mem_cons.mp hmem with h | h
                      · exact absurd h hk1
                      · exact h

theorem Consistent_ABORT (env : Environment) (s : ServerBackend) (req : RequestTuple)
    (ip : Bool) (hs : Consistent s) : Consistent (ABORT env s req ip).backend := by
  by_cases hn : req.txn_id ∈ s.m_commits
  · simp only [ABORT, hn, if_true]
    exact hs
  · cases ht : UnorderedMap.find s.m_txn_id_to_transaction_attributes req.txn_id with
    | none =>
        simp only [ABORT, hn, ht, if_false]
        exact hs
    | some t =>
        rw [ABORT_live env s req ip t hn ht]
        exact Consistent_removeTransaction _ _ (Consistent_of_frame rfl rfl hs)

theorem Consistent_processCommand (env : Environment) (s : ServerBackend)
    (req : RequestTuple) (ip : Bool) (out : Outcome)
    (h : processCommand env s req ip = some out) (hs : Consistent s) :
    Consistent out.backend := by
  unfold processCommand at h
  split at h
  · cases h
    exact Consistent_READ env s req ip hs
  · split at h
    · exact Consistent_NEW_TXN env s req ip out h hs
    · split at h
      · cases h
        exact Consistent_WRITE env s req ip hs
      · split at h
        · cases h
          exact Consistent_COMMIT env s req ip hs
        · split at h
          · cases h
            exact Consistent_ABORT env s req ip hs
          · cases h
            exact hs

theorem Consistent_timer (env : Environment) (s : ServerBackend) (txn_id : Int)
    (file_name : FileName) (hs : Consistent s) :
    Consistent (m_txn_timer_function env s txn_id file_name).1 := by
  unfold m_txn_timer_function
  split
  · split
    · exact Consistent_of_frame rfl rfl (Consistent_removeTransaction s txn_id hs)
    · exact hs
  · exact hs

end ServerBackend

/-- Every reachable backend is consistent. -/
theorem Reachable.consistent {s : ServerBackend} (h : Reachable s) :
    ServerBackend.Consistent s := by
  induction h with
  | start env dir disk l =>
      exact ServerBackend.Consistent_restartTransactions env _ l
        (ServerBackend.Consistent_ctor dir disk)
  | request env s req ip out _ hstep ih =>
      exact ServerBackend.Consistent_processCommand env s req ip out hstep ih
  | timer env s txn_id file_name _ ih =>
      exact ServerBackend.Consistent_timer env s txn_id file_name ih

namespace ServerBackend

end ServerBackend

/-! ## The concrete runs are reachable -/

namespace Scenario

open ServerBackend

theorem reachable_started : Reachable started :=
  Reachable.start (env []) "srv/" [] []

theorem reachable_opened : Reachable opened :=
  Reachable.request (env [7]) started new_txn_f true ⟨opened, ⟨"ACK", 7, 0, Errors.nil, ""⟩, true⟩
    reachable_started (by decide)

theorem reachable_written : Reachable written :=
  Reachable.request (env []) opened write_7_1 true ⟨written, ⟨"ACK", 7, 1, Errors.nil, ""⟩, true⟩
    reachable_opened (by decide)

theorem reachable_committed : Reachable committed :=
  Reachable.request (env []) written commit_7_1 true
    ⟨committed, ⟨"ACK", 7, 1, Errors.nil, ""⟩, true⟩ reachable_written (by decide)

theorem reachable_reissued : Reachable reissued :=
  Reachable.request (env [7]) committed new_txn_g true
    ⟨reissued, ⟨"ACK", 7, 0, Errors.nil, ""⟩, true⟩ reachable_committed (by decide)

theorem reachable_written_2_then_1 : Reachable written_2_then_1 :=
  Reachable.request (env []) written_2 write_7_1 true
    ⟨written_2_then_1, ⟨"ACK", 7, 1, Errors.nil, ""⟩, true⟩
    (Reachable.request (env []) opened write_7_2 true
      ⟨written_2, ⟨"ACK", 7, 2, Errors.nil, ""⟩, true⟩ reachable_opened (by decide))
    (by decide)

end Scenario

/-! ## COMMIT: the committed content -/

namespace ServerBackend

theorem firstMissing_eq_none_iff (buffers : UnorderedMap Int Data) (n : Int) :
    firstMissing buffers n = none ↔
      ∀ k : Int, 1 ≤ k → k ≤ n → UnorderedMap.count buffers k = true := by
  unfold firstMissing seqNums
  rw [List.find?_map, Option.map_eq_none', List.find?_range_eq_none]
  constructor
  · intro h k h1 h2
    obtain ⟨m, rfl⟩ : ∃ m : Nat, (m : Int) + 1 = k := ⟨(k - 1).toNat, by omega⟩
    have hk := h m (by omega)
    simpa using hk
  · intro h i hi
    have := h ((i : Int) + 1) (by omega) (by omega)
    simp [this]

theorem firstMissing_eq_some_iff (buffers : UnorderedMap Int Data) (n k : Int) :
    firstMissing buffers n = some k ↔
      1 ≤ k ∧ k ≤ n ∧ UnorderedMap.count buffers k = false ∧
        ∀ j : Int, 1 ≤ j → j < k → UnorderedMap.count buffers j = true := by
  unfold firstMissing seqNums
  rw [List.find?_map, Option.map_eq_some']
  constructor
  · rintro ⟨i, hi, rfl⟩
    rw [List.find?_range_eq_some] at hi
    obtain ⟨hp, hmem, hlt⟩ := hi
    rw [List.mem_range] at hmem
    refine ⟨by omega, by omega, by simpa using hp, ?_⟩
    intro j h1 h2
    obtain ⟨m, rfl⟩ : ∃ m : Nat, (m : Int) + 1 = j := ⟨(j - 1).toNat, by omega⟩
    have hj := hlt m (by omega)
    simpa using hj
  · rintro ⟨h1, h2, h3, h4⟩
    obtain ⟨m, rfl⟩ : ∃ m : Nat, (m : Int) + 1 = k := ⟨(k - 1).toNat, by omega⟩
    refine ⟨m, ?_, rfl⟩
    rw [List.find?_range_eq_some]
    refine ⟨by simp [h3], by rw [List.mem_range]; omega, ?_⟩
    intro j hj
    have := h4 ((j : Int) + 1) (by omega) (by omega)
    simp [this]

theorem path_ne (dir : String) {a b : String} (h : a ≠ b) : dir ++ a ≠ dir ++ b :=
  fun e => h (String.append_right_injective dir a b e)

end ServerBackend

open ServerBackend

open ServerBackend

/-- Claim C2, amended. For a live transaction that is not in the commit set, a COMMIT
with a sequence number at least the maximum received, such that some sequence number
in 1..seq_num has no buffer, answers ASK_RESEND with the transaction id and the
smallest sequence number in 1..seq_num that is absent from the buffers; the record
stays in the transaction map with its buffers, the commit set is unchanged (so the id
stays out of it), and no file is written. -/
theorem COMMIT_asks_resend_least_missing (env : Environment) (s : ServerBackend)
    (req : RequestTuple) (in_progress : Bool) (t : TransactionAttributesTuple)
    (hn : req.txn_id ∉ s.m_commits)
    (hlive : UnorderedMap.find s.m_txn_id_to_transaction_attributes req.txn_id = some t)
    (hseq : req.seq_num ≥ t.max_seq_num)
    (hgap : ∃ k : Int, 1 ≤ k ∧ k ≤ req.seq_num ∧ UnorderedMap.find t.buffers k = none) :
    ∃ missing : Int,
      (1 ≤ missing ∧ missing ≤ req.seq_num ∧ UnorderedMap.find t.buffers missing = none ∧
        ∀ j : Int, 1 ≤ j → j < missing → UnorderedMap.find t.buffers j ≠ none) ∧
      (COMMIT env s req in_progress).out_server_response_str
        = ⟨Constants.ask_resend_cmd, req.txn_id, missing, Errors.nil, ""⟩ ∧
      (∃ t1, UnorderedMap.find
          (COMMIT env s req in_progress).backend.m_txn_id_to_transaction_attributes req.txn_id
          = some t1 ∧ t1.buffers = t.buffers) ∧
      (COMMIT env s req in_progress).backend.m_commits = s.m_commits ∧
      (COMMIT env s req in_progress).backend.disk = s.disk := by
  have hge : ¬ req.seq_num < t.max_seq_num := by omega
  cases hm : firstMissing t.buffers req.seq_num with
  | none =>
      obtain ⟨k, h1, h2, h3⟩ := hgap
      have := (firstMissing_eq_none_iff t.buffers req.seq_num).mp hm k h1 h2
      simp [UnorderedMap.count, h3] at this
  | some missing =>
      obtain ⟨h1, h2, h3, h4⟩ := (firstMissing_eq_some_iff t.buffers req.seq_num missing).mp hm
      refine ⟨missing, ⟨h1, h2, (UnorderedMap.count_eq_false_iff _ _).mp h3, ?_⟩, ?_⟩
      · intro j hj1 hj2 hnone
        have := h4 j hj1 hj2
        simp [UnorderedMap.count, hnone] at this
      · rw [COMMIT_missing env s req in_progress t missing hn hlive hge hm]
        exact ⟨rfl, ⟨_, UnorderedMap.find_assign_self _ _ _, rfl⟩, rfl, rfl⟩

/-- Claim C2 as stated fails on a reissued id. After NEW_TXN (id 7), WRITE, COMMIT and a
second NEW_TXN for which `rand()` returns 7 again, transaction 7 is live with no buffer
for sequence number 1, yet COMMIT(7, 1) is answered ACK instead of ASK_RESEND, id 7
being in the commit set. -/
theorem COMMIT_acks_reissued_id_with_missing_fragment :
    Reachable Scenario.reissued ∧
    UnorderedMap.find Scenario.reissued.m_txn_id_to_transaction_attributes 7
      = some ⟨"g.txt", [], 1, 0⟩ ∧
    UnorderedMap.find ([] : UnorderedMap Int Data) 1 = none ∧
    COMMIT (Scenario.env []) Scenario.reissued Scenario.commit_7_1 true
      = ⟨Scenario.reissued, ⟨"ACK", 7, 1, Errors.nil, ""⟩, true⟩ ∧
    (7 : Int) ∈ Scenario.reissued.m_commits :=
  ⟨Scenario.reachable_reissued, by decide, by decide, by decide, by decide⟩

/-- The amended claim C2 at a concrete run: only fragment 2 has arrived, and COMMIT(7, 2)
asks for fragment 1 and writes nothing. -/
theorem COMMIT_asks_resend_least_missing_witness :
    (COMMIT (Scenario.env []) Scenario.written_2 Scenario.commit_7_2
      true).out_server_response_str = ⟨Constants.ask_resend_cmd, 7, 1, Errors.nil, ""⟩ ∧
    (COMMIT (Scenario.env []) Scenario.written_2 Scenario.commit_7_2 true).backend.m_commits
      = [] ∧
    (COMMIT (Scenario.env []) Scenario.written_2 Scenario.commit_7_2 true).backend.disk
      = Scenario.written_2.disk := by
  obtain ⟨missing, ⟨h1, h2, h3, _⟩, hresp, _, hcommits, hdisk⟩ :=
    COMMIT_asks_resend_least_missing (Scenario.env []) Scenario.written_2
      Scenario.commit_7_2 true ⟨"f.txt", [(2, "b")], 2, 0⟩ (by decide) (by decide)
      (by decide) ⟨1, by decide, by decide, by decide⟩
  have h2a : missing ≤ 2 := h2
  have hm : missing = 1 ∨ missing = 2 := by omega
  rcases hm with hm | hm
  · subst hm
    exact ⟨hresp, hcommits, hdisk⟩
  · subst hm
    exact absurd h3 (by decide)

/-- Claim C3. COMMIT on an id in the commit set answers ACK with the request's id and
sequence number and leaves the whole backend (transaction map, file attributes, commit
set, files and logs) and the in-progress flag as they were. -/
theorem COMMIT_idempotent (env : Environment) (s : ServerBackend) (req : RequestTuple)
    (in_progress : Bool) (hcommitted : req.txn_id ∈ s.m_commits) :
    (COMMIT env s req in_progress).out_server_response_str
      = ⟨Constants.ack_cmd, req.txn_id, req.seq_num, Errors.nil, ""⟩ ∧
    (COMMIT env s req in_progress).out_server_response_str.err_code = 0 ∧
    (COMMIT env s req in_progress).backend = s ∧
    (COMMIT env s req in_progress).out_transaction_in_progress = in_progress := by
  rw [COMMIT_committed env s req in_progress hcommitted]
  exact ⟨rfl, rfl, rfl, rfl⟩

/-- Claim C3 at a concrete run: a second COMMIT(7, 1) after the first changes nothing. -/
theorem COMMIT_idempotent_witness :
    (7 : Int) ∈ Scenario.committed.m_commits ∧
    (COMMIT (Scenario.env []) Scenario.committed Scenario.commit_7_1 true).out_server_response_str
      = ⟨Constants.ack_cmd, 7, 1, Errors.nil, ""⟩ ∧
    (COMMIT (Scenario.env []) Scenario.committed Scenario.commit_7_1 true).backend
      = Scenario.committed :=
  have h := COMMIT_idempotent (Scenario.env []) Scenario.committed Scenario.commit_7_1 true
    (by decide)
  ⟨by decide, h.1, h.2.2.1⟩

/-- Claim C4 fails: NEW_TXN samples against the transaction map only. From the reachable
state in which id 7 is committed, a NEW_TXN for which `rand()` returns 7 issues id 7
again, and the state reached has id 7 both in the transaction map and in the commit
set. -/
theorem NEW_TXN_reissues_committed_id :
    Reachable Scenario.committed ∧
    (7 : Int) ∈ Scenario.committed.m_commits ∧
    NEW_TXN (Scenario.env [7]) Scenario.committed Scenario.new_txn_g true
      = some ⟨Scenario.reissued, ⟨"ACK", 7, 0, Errors.nil, ""⟩, true⟩ ∧
    Reachable Scenario.reissued ∧
    UnorderedMap.count Scenario.reissued.m_txn_id_to_transaction_attributes 7 = true ∧
    (7 : Int) ∈ Scenario.reissued.m_commits :=
  ⟨Scenario.reachable_committed, by decide, by decide, Scenario.reachable_reissued, by decide,
    by decide⟩

/-- Claim C5. WRITE on a live transaction outside the commit set, with a sequence number
that is not a key of its buffers, answers ACK with the request's id and sequence
number, error code 0 and no payload; afterwards the buffers are the old ones with the
sequence number mapped to the payload, and the maximum sequence number is the larger of
the old one and the request's. -/
theorem WRITE_stores_new_fragment (env : Environment) (s : ServerBackend) (req : RequestTuple)
    (in_progress : Bool) (t : TransactionAttributesTuple)
    (hn : req.txn_id ∉ s.m_commits)
    (hlive : UnorderedMap.find s.m_txn_id_to_transaction_attributes req.txn_id = some t)
    (hnew : UnorderedMap.find t.buffers req.seq_num = none) :
    (WRITE env s req in_progress).out_server_response_str
      = ⟨Constants.ack_cmd, req.txn_id, req.seq_num, Errors.nil, ""⟩ ∧
    (WRITE env s req in_progress).out_server_response_str.err_code = 0 ∧
    (WRITE env s req in_progress).out_server_response_str.content_len = 0 ∧
    ∃ t1, UnorderedMap.find
        (WRITE env s req in_progress).backend.m_txn_id_to_transaction_attributes req.txn_id
        = some t1 ∧
      (∀ k, UnorderedMap.find t1.buffers k
        = if k = req.seq_num then some req.data else UnorderedMap.find t.buffers k) ∧
      t1.max_seq_num = max t.max_seq_num req.seq_num := by
  have hc : UnorderedMap.count t.buffers req.seq_num = false := by
    simp [UnorderedMap.count, hnew]
  rw [WRITE_live env s req in_progress t hn hlive]
  simp only [hc, Bool.false_eq_true, if_false]
  refine ⟨rfl, rfl, rfl, _, UnorderedMap.find_assign_self _ _ _, ?_, ?_⟩
  · intro k
    exact UnorderedMap.find_assign _ _ _ _
  · dsimp only
    split <;> omega

/-- Claim C5 at a concrete run: WRITE(7, 1, a) on the freshly opened transaction 7. -/
theorem WRITE_stores_new_fragment_witness :
    (WRITE (Scenario.env []) Scenario.opened Scenario.write_7_1 true).out_server_response_str
      = ⟨Constants.ack_cmd, 7, 1, Errors.nil, ""⟩ ∧
    ∃ t1, UnorderedMap.find (WRITE (Scenario.env []) Scenario.opened Scenario.write_7_1
        true).backend.m_txn_id_to_transaction_attributes 7 = some t1 ∧
      UnorderedMap.find t1.buffers 1 = some "a" ∧ t1.max_seq_num = 1 :=
  have h := WRITE_stores_new_fragment (Scenario.env []) Scenario.opened Scenario.write_7_1 true
    ⟨"f.txt", [], 1, 0⟩ (by decide) (by decide) (by decide)
  ⟨h.1, by
    obtain ⟨t1, h1, h2, h3⟩ := h.2.2.2
    exact ⟨t1, h1, by simpa [Scenario.write_7_1] using h2 1, by simpa [Scenario.write_7_1] using h3⟩⟩

/-- Claim C6. In every reachable state, WRITE on a live transaction with a sequence
number that is already a key of its buffers answers ERROR with code 205
(RepeatedSequenceNumber), and the buffers and the maximum sequence number of the
transaction are exactly as before. -/
theorem WRITE_repeated_sequence_number (env : Environment) (s : ServerBackend)
    (req : RequestTuple) (in_progress : Bool) (t : TransactionAttributesTuple) (old : Data)
    (hreach : Reachable s)
    (hlive : UnorderedMap.find s.m_txn_id_to_transaction_attributes req.txn_id = some t)
    (hdup : UnorderedMap.find t.buffers req.seq_num = some old) :
    (WRITE env s req in_progress).out_server_response_str.command = Constants.error_cmd ∧
    (WRITE env s req in_progress).out_server_response_str.error
      = Errors.RepeatedSequenceNumber ∧
    (WRITE env s req in_progress).out_server_response_str.err_code = 205 ∧
    ∃ t1, UnorderedMap.find
        (WRITE env s req in_progress).backend.m_txn_id_to_transaction_attributes req.txn_id
        = some t1 ∧
      t1.buffers = t.buffers ∧ t1.max_seq_num = t.max_seq_num := by
  have hn : req.txn_id ∉ s.m_commits := by
    intro hmem
    have hempty := (hreach.consistent req.txn_id t hlive).2 hmem
    rw [hempty] at hdup
    cases hdup
  rw [WRITE_live env s req in_progress t hn hlive]
  simp only [count_of_find hdup, if_true]
  exact ⟨rfl, rfl, rfl, _, UnorderedMap.find_assign_self _ _ _, rfl, rfl⟩

/-- Claim C6 at a concrete run: a second WRITE(7, 1, a) is refused with code 205. -/
theorem WRITE_repeated_sequence_number_witness :
    (WRITE (Scenario.env []) Scenario.written Scenario.write_7_1 true).out_server_response_str.err_code
      = 205 ∧
    ∃ t1, UnorderedMap.find (WRITE (Scenario.env []) Scenario.written Scenario.write_7_1
        true).backend.m_txn_id_to_transaction_attributes 7 = some t1 ∧
      t1.buffers = [(1, "a")] ∧ t1.max_seq_num = 1 :=
  have h := WRITE_repeated_sequence_number (Scenario.env []) Scenario.written
    Scenario.write_7_1 true ⟨"f.txt", [(1, "a")], 1, 0⟩ "a" Scenario.reachable_written
    (by decide) (by decide)
  ⟨h.2.2.1, h.2.2.2⟩

/-- Claim C7. WRITE on an id in the commit set answers ERROR with code 202
(InvalidOperation); WRITE on an id that is neither in the commit set nor in the
transaction map answers ERROR with code 201 (InvalidTransactionId); in both cases the
backend (transaction records, commit set, files and logs) is unchanged. -/
theorem WRITE_rejects_committed_or_unknown_id (env : Environment) (s : ServerBackend)
    (req : RequestTuple) (in_progress : Bool) :
    (req.txn_id ∈ s.m_commits →
      (WRITE env s req in_progress).out_server_response_str
        = ⟨Constants.error_cmd, req.txn_id, req.seq_num, Errors.InvalidOperation,
            "InvalidOperation"⟩ ∧
      (WRITE env s req in_progress).out_server_response_str.err_code = 202 ∧
      (WRITE env s req in_progress).backend = s) ∧
    (req.txn_id ∉ s.m_commits →
      UnorderedMap.find s.m_txn_id_to_transaction_attributes req.txn_id = none →
      (WRITE env s req in_progress).out_server_response_str
        = ⟨Constants.error_cmd, req.txn_id, req.seq_num, Errors.InvalidTransactionId,
            "InvalidTransactionId"⟩ ∧
      (WRITE env s req in_progress).out_server_response_str.err_code = 201 ∧
      (WRITE env s req in_progress).backend = s) := by
  constructor
  · intro hc
    rw [WRITE_committed env s req in_progress hc]
    exact ⟨rfl, rfl, rfl⟩
  · intro hn hnone
    rw [WRITE_unknown env s req in_progress hn hnone]
    exact ⟨rfl, rfl, rfl⟩

/-- Claim C7 at concrete runs: WRITE on the committed id 7, and on the unknown id 8. -/
theorem WRITE_rejects_committed_or_unknown_id_witness :
    (WRITE (Scenario.env []) Scenario.committed Scenario.write_7_1 true).out_server_response_str.err_code
      = 202 ∧
    (WRITE (Scenario.env []) Scenario.committed ⟨"WRITE", 8, 1, 1, "a"⟩
      true).out_server_response_str.err_code = 201 :=
  ⟨((WRITE_rejects_committed_or_unknown_id (Scenario.env []) Scenario.committed
      Scenario.write_7_1 true).1 (by decide)).2.1,
    ((WRITE_rejects_committed_or_unknown_id (Scenario.env []) Scenario.committed
      ⟨"WRITE", 8, 1, 1, "a"⟩ true).2 (by decide) (by decide)).2.1⟩

/-! ## COMMIT and ABORT: retiring a transaction -/

namespace File

theorem write_limit_none (disk : Disk) (file : File) (b : String)
    (h : file.m_write_limit = none) :
    (write disk file b).2.1.m_write_limit = none ∧ (write disk file b).2.2 = true := by
  simp [write, h]

theorem writeAll_limit_none (disk : Disk) (file : File) (bs : List String)
    (h : file.m_write_limit = none) :
    (writeAll disk file bs).2.1.m_write_limit = none ∧ (writeAll disk file bs).2.2 = true := by
  induction bs generalizing disk file with
  | nil => exact ⟨h, rfl⟩
  | cons b rest ih =>
      unfold writeAll
      have hw := write_limit_none disk file b h
      split
      · rename_i disk1 file1 heq
        rw [heq] at hw
        exact ih disk1 file1 hw.1
      · rename_i disk1 file1 heq
        rw [heq] at hw
        exact absurd hw.2 (by simp)

end File

namespace ServerBackend

/-- When the log can be opened and written, the log call appends exactly one line
`txn_id file_name size` to the log. -/
theorem logTransaction_content (env : Environment) (dir : String) (disk : Disk)
    (log_name : FileName) (txn_id : Int) (file_name : FileName)
    (hopen : env.open_fails (dir ++ log_name) = false)
    (hwrite : env.write_limit (dir ++ log_name) = none) :
    ∃ size : Int,
      Disk.content (logTransaction env dir disk log_name txn_id file_name)
          (Path.normalize (dir ++ log_name))
        = Disk.content disk (Path.normalize (dir ++ log_name))
            ++ (toString txn_id ++ " " ++ file_name ++ " " ++ toString size ++ "\n") := by
  obtain ⟨disk0, log, ho, hpath, hlimit, hc0, _⟩ :=
    File.ctor_append_ok env disk (dir ++ log_name) hopen
  rw [hwrite] at hlimit
  unfold logTransaction
  rw [ho]
  dsimp only
  have h1 := File.writeAll_limit_none disk0 log [toString txn_id, " ", file_name, " "] hlimit
  have hc1 := File.writeAll_ok_content disk0 log [toString txn_id, " ", file_name, " "] h1.2
  have hp1 := File.writeAll_file disk0 log [toString txn_id, " ", file_name, " "]
  rcases hw : File.writeAll disk0 log [toString txn_id, " ", file_name, " "]
    with ⟨disk1, log1, flag⟩
  rw [hw] at h1 hc1 hp1
  have hflag : flag = true := h1.2
  subst hflag
  have hlim1 : log1.m_write_limit = none := h1.1
  have hpath1 : log1.m_file = log.m_file := hp1
  have hcont1 : Disk.content disk1 log.m_file
      = Disk.content disk0 log.m_file ++ String.join [toString txn_id, " ", file_name, " "] :=
    hc1
  dsimp only
  refine ⟨File.getFileSizeOf disk1 file_name, ?_⟩
  have h2 := File.writeAll_limit_none disk1 log1
    [toString (File.getFileSizeOf disk1 file_name), "\n"] hlim1
  have hc2 := File.writeAll_ok_content disk1 log1
    [toString (File.getFileSizeOf disk1 file_name), "\n"] h2.2
  rw [hpath1, hpath] at hc2
  rw [hpath] at hcont1
  rw [hc2, hcont1, hc0]
  apply String.ext
  simp [String.data_join, List.append_assoc]

end ServerBackend

open ServerBackend

/-- Claim C8, amended. For a live transaction that is not in the commit set, a COMMIT
with a sequence number below the maximum received answers ERROR with code 210
(CommitWithInvalidSequenceNumber); the record stays in the transaction map with its
buffers and maximum sequence number unchanged, the commit set is unchanged, and no
file is written. -/
theorem COMMIT_below_maximum_rejected (env : Environment) (s : ServerBackend)
    (req : RequestTuple) (in_progress : Bool) (t : TransactionAttributesTuple)
    (hn : req.txn_id ∉ s.m_commits)
    (hlive : UnorderedMap.find s.m_txn_id_to_transaction_attributes req.txn_id = some t)
    (hlow : req.seq_num < t.max_seq_num) :
    (COMMIT env s req in_progress).out_server_response_str.command = Constants.error_cmd ∧
    (COMMIT env s req in_progress).out_server_response_str.err_code = 210 ∧
    (∃ t1, UnorderedMap.find
        (COMMIT env s req in_progress).backend.m_txn_id_to_transaction_attributes req.txn_id
        = some t1 ∧ t1.buffers = t.buffers ∧ t1.max_seq_num = t.max_seq_num) ∧
    (COMMIT env s req in_progress).backend.m_commits = s.m_commits ∧
    (COMMIT env s req in_progress).backend.disk = s.disk := by
  rw [COMMIT_low env s req in_progress t hn hlive hlow]
  exact ⟨rfl, rfl, ⟨_, UnorderedMap.find_assign_self _ _ _, rfl, rfl⟩, rfl, rfl⟩

/-- The amended claim C8 at a concrete run: the maximum received is 2 and COMMIT(7, 1)
is refused with code 210. -/
theorem COMMIT_below_maximum_rejected_witness :
    (COMMIT (Scenario.env []) Scenario.written_2 Scenario.commit_7_1
      true).out_server_response_str.err_code = 210 ∧
    (∃ t1, UnorderedMap.find (COMMIT (Scenario.env []) Scenario.written_2 Scenario.commit_7_1
        true).backend.m_txn_id_to_transaction_attributes 7 = some t1 ∧
      t1.buffers = [(2, "b")] ∧ t1.max_seq_num = 2) ∧
    (COMMIT (Scenario.env []) Scenario.written_2 Scenario.commit_7_1 true).backend.disk
      = Scenario.written_2.disk :=
  have h := COMMIT_below_maximum_rejected (Scenario.env []) Scenario.written_2
    Scenario.commit_7_1 true ⟨"f.txt", [(2, "b")], 2, 0⟩ (by decide) (by decide) (by decide)
  ⟨h.2.1, h.2.2.1, h.2.2.2.2⟩

/-- Claim C8 as stated fails on a reissued id. In the reachable state where id 7 is
live, with maximum sequence number 1, and also in the commit set, COMMIT(7, 0) is
answered ACK instead of ERROR with code 210. -/
theorem COMMIT_acks_reissued_id_below_maximum :
    Reachable Scenario.reissued ∧
    UnorderedMap.find Scenario.reissued.m_txn_id_to_transaction_attributes 7
      = some ⟨"g.txt", [], 1, 0⟩ ∧
    (0 : Int) < (⟨"g.txt", [], 1, 0⟩ : TransactionAttributesTuple).max_seq_num ∧
    COMMIT (Scenario.env []) Scenario.reissued ⟨"COMMIT", 7, 0, 0, ""⟩ true
      = ⟨Scenario.reissued, ⟨"ACK", 7, 0, Errors.nil, ""⟩, true⟩ :=
  ⟨Scenario.reachable_reissued, by decide, by decide, by decide⟩

/-- Claim C9, amended. After a COMMIT that returns ACK on a live transaction that was
not in the commit set, the id is in the commit set, it has no record in the
transaction map, the record of every other transaction is unchanged, and a WRITE on
the id issued afterwards is answered InvalidOperation. -/
theorem COMMIT_ack_retires_record (env : Environment) (s : ServerBackend)
    (req : RequestTuple) (in_progress : Bool) (t : TransactionAttributesTuple)
    (hn : req.txn_id ∉ s.m_commits)
    (hlive : UnorderedMap.find s.m_txn_id_to_transaction_attributes req.txn_id = some t)
    (hack : (COMMIT env s req in_progress).out_server_response_str.command
      = Constants.ack_cmd) :
    req.txn_id ∈ (COMMIT env s req in_progress).backend.m_commits ∧
    UnorderedMap.find
      (COMMIT env s req in_progress).backend.m_txn_id_to_transaction_attributes req.txn_id
      = none ∧
    (∀ k, k ≠ req.txn_id →
      UnorderedMap.find
        (COMMIT env s req in_progress).backend.m_txn_id_to_transaction_attributes k
      = UnorderedMap.find s.m_txn_id_to_transaction_attributes k) ∧
    (∀ (env1 : Environment) (req1 : RequestTuple) (ip1 : Bool), req1.txn_id = req.txn_id →
      (WRITE env1 (COMMIT env s req in_progress).backend req1 ip1).out_server_response_str.error
        = Errors.InvalidOperation) := by
  by_cases hlt : req.seq_num < t.max_seq_num
  · rw [COMMIT_low env s req in_progress t hn hlive hlt] at hack
    exact absurd hack error_cmd_ne_ack_cmd
  · cases hm : firstMissing t.buffers req.seq_num with
    | some missing =>
        rw [COMMIT_missing env s req in_progress t missing hn hlive hlt hm] at hack
        exact absurd hack ask_resend_cmd_ne_ack_cmd
    | none =>
        cases ho : File.ctor env s.disk (s.m_directory ++ t.sp_file_attributes)
            OpenFlags.O_CREAT_O_WRONLY_O_APPEND with
        | error e =>
            rw [COMMIT_open_failed env s req in_progress t e hn hlive hlt hm ho] at hack
            exact absurd hack error_cmd_ne_ack_cmd
        | ok p =>
            obtain ⟨disk0, file⟩ := p
            rcases hw : File.writeAll disk0 file (fragments t.buffers req.seq_num)
              with ⟨disk1, file1, flag⟩
            cases flag
            · rw [COMMIT_write_failed env s req in_progress t disk0 disk1 file file1 hn hlive
                hlt hm ho hw] at hack
              exact absurd hack error_cmd_ne_ack_cmd
            · rw [COMMIT_flushed env s req in_progress t disk0 disk1 file file1 hn hlive hlt
                hm ho hw]
              simp only [SET_ACK_AND_RETURN]
              have hmem : req.txn_id ∈
                  (removeTransaction
                    { s with
                      m_txn_id_to_transaction_attributes :=
                        UnorderedMap.assign s.m_txn_id_to_transaction_attributes req.txn_id
                          { t with curr_timestamp := env.now, max_seq_num := req.seq_num }
                      m_commits := req.txn_id :: s.m_commits
                      m_file_name_to_ptr_to_file_attributes :=
                        (match UnorderedMap.find s.m_file_name_to_ptr_to_file_attributes
                            t.sp_file_attributes with
                          | some fa =>
                              UnorderedMap.assign s.m_file_name_to_ptr_to_file_attributes
                                t.sp_file_attributes
                                { fa with
                                  m_file_size :=
                                    File.getFileSize
                                      (logTransaction env s.m_directory disk1 m_commit_log
                                        req.txn_id t.sp_file_attributes) file1 }
                          | none => s.m_file_name_to_ptr_to_file_attributes)
                      disk :=
                        logTransaction env s.m_directory disk1 m_commit_log req.txn_id
                          t.sp_file_attributes }
                    req.txn_id).m_commits := by
                rw [removeTransaction_commits]
                exact List.mem_cons_self _ _
              refine ⟨hmem, ?_, ?_, ?_⟩
              · rw [removeTransaction_find]
                simp
              · intro k hk
                rw [removeTransaction_find]
                simp only [hk, if_false]
                exact UnorderedMap.find_assign_ne _ _ hk
              · intro env1 req1 ip1 hreq
                rw [WRITE_committed env1 _ req1 ip1 (by rw [hreq]; exact hmem)]
                rfl

/-- The amended claim C9 at a concrete run: COMMIT(7, 1) of the transaction holding
fragment 1, then WRITE(7, 1, a). -/
theorem COMMIT_ack_retires_record_witness :
    (7 : Int) ∈ (COMMIT (Scenario.env []) Scenario.written Scenario.commit_7_1
      true).backend.m_commits ∧
    UnorderedMap.find (COMMIT (Scenario.env []) Scenario.written Scenario.commit_7_1
      true).backend.m_txn_id_to_transaction_attributes 7 = none ∧
    (WRITE (Scenario.env []) (COMMIT (Scenario.env []) Scenario.written Scenario.commit_7_1
      true).backend Scenario.write_7_1 true).out_server_response_str.error
      = Errors.InvalidOperation :=
  have h := COMMIT_ack_retires_record (Scenario.env []) Scenario.written Scenario.commit_7_1
    true ⟨"f.txt", [(1, "a")], 1, 0⟩ (by decide) (by decide) (by decide)
  ⟨h.1, h.2.1, h.2.2.2 (Scenario.env []) Scenario.write_7_1 true rfl⟩

/-- Claim C9 as stated fails on a reissued id. In the reachable state where id 7 is
live and also in the commit set, COMMIT(7, 3) is answered ACK and transaction 7 still
has its record afterwards. -/
theorem COMMIT_acks_reissued_id_and_keeps_record :
    Reachable Scenario.reissued ∧
    UnorderedMap.count Scenario.reissued.m_txn_id_to_transaction_attributes 7 = true ∧
    (COMMIT (Scenario.env []) Scenario.reissued ⟨"COMMIT", 7, 3, 0, ""⟩
      true).out_server_response_str = ⟨"ACK", 7, 3, Errors.nil, ""⟩ ∧
    UnorderedMap.find (COMMIT (Scenario.env []) Scenario.reissued ⟨"COMMIT", 7, 3, 0, ""⟩
      true).backend.m_txn_id_to_transaction_attributes 7 = some ⟨"g.txt", [], 1, 0⟩ :=
  ⟨Scenario.reachable_reissued, by decide, by decide, by decide⟩

namespace ServerBackend

theorem ABORT_committed (env : Environment) (s : ServerBackend) (req : RequestTuple)
    (ip : Bool) (h : req.txn_id ∈ s.m_commits) :
    ABORT env s req ip
      = SET_ERROR_AND_RETURN s req.txn_id req.seq_num Errors.InvalidOperation := by
  simp only [ABORT, h, if_true]

theorem processCommand_READ (env : Environment) (s : ServerBackend) (req : RequestTuple)
    (ip : Bool) (h : req.command = Constants.read_cmd) :
    processCommand env s req ip = some (READ env s req ip) := by
  unfold processCommand
  rw [if_pos h]

theorem processCommand_NEW_TXN (env : Environment) (s : ServerBackend) (req : RequestTuple)
    (ip : Bool) (h : req.command = Constants.new_txn_cmd) :
    processCommand env s req ip = NEW_TXN env s req ip := by
  unfold processCommand
  rw [if_neg (by rw [h]; decide), if_pos h]

theorem processCommand_WRITE (env : Environment) (s : ServerBackend) (req : RequestTuple)
    (ip : Bool) (h : req.command = Constants.write_cmd) :
    processCommand env s req ip = some (WRITE env s req ip) := by
  unfold processCommand
  rw [if_neg (by rw [h]; decide), if_neg (by rw [h]; decide), if_pos h]

theorem processCommand_COMMIT (env : Environment) (s : ServerBackend) (req : RequestTuple)
    (ip : Bool) (h : req.command = Constants.commit_cmd) :
    processCommand env s req ip = some (COMMIT env s req ip) := by
  unfold processCommand
  rw [if_neg (by rw [h]; decide), if_neg (by rw [h]; decide), if_neg (by rw [h]; decide),
    if_pos h]

theorem processCommand_ABORT (env : Environment) (s : ServerBackend) (req : RequestTuple)
    (ip : Bool) (h : req.command = Constants.abort_cmd) :
    processCommand env s req ip = some (ABORT env s req ip) := by
  unfold processCommand
  rw [if_neg (by rw [h]; decide), if_neg (by rw [h]; decide), if_neg (by rw [h]; decide),
    if_neg (by rw [h]; decide), if_pos h]

theorem NEW_TXN_nonzero (env : Environment) (s : ServerBackend) (req : RequestTuple)
    (ip : Bool) (h : req.seq_num ≠ 0) :
    NEW_TXN env s req ip
      = some (SET_ERROR_AND_RETURN s req.txn_id req.seq_num Errors.InvalidSequenceNumber) := by
  unfold NEW_TXN
  rw [if_neg h]

end ServerBackend

/-- Claim C11. For a transaction id in the commit set, the requests other than COMMIT
that operate on a transaction id, WRITE and ABORT, are refused by `processCommand`
with ERROR, code 202 and message InvalidOperation, echoing the id and the sequence
number; the backend with its file system is left as it was. (READ and NEW_TXN take no
transaction id: their command functions never look at the field.) -/
theorem committed_id_refuses_WRITE_and_ABORT (env : Environment) (s : ServerBackend)
    (req : RequestTuple) (ip : Bool) (hmem : req.txn_id ∈ s.m_commits)
    (hcmd : req.command = Constants.write_cmd ∨ req.command = Constants.abort_cmd) :
    ∃ out, processCommand env s req ip = some out ∧
      out.out_server_response_str
        = ⟨Constants.error_cmd, req.txn_id, req.seq_num, Errors.InvalidOperation,
            "InvalidOperation"⟩ ∧
      out.out_server_response_str.err_code = 202 ∧
      out.backend = s := by
  refine ⟨SET_ERROR_AND_RETURN s req.txn_id req.seq_num Errors.InvalidOperation, ?_,
    rfl, rfl, rfl⟩
  rcases hcmd with h | h
  · rw [processCommand_WRITE env s req ip h, WRITE_committed env s req ip hmem]
  · rw [processCommand_ABORT env s req ip h, ABORT_committed env s req ip hmem]

/-- Claim C11 at a concrete run: ABORT of transaction 7 after its commit. -/
theorem committed_id_refuses_WRITE_and_ABORT_witness :
    (7 : Int) ∈ Scenario.committed.m_commits ∧
    ∃ out, processCommand (Scenario.env []) Scenario.committed Scenario.abort_7 true
        = some out ∧
      out.out_server_response_str
        = ⟨Constants.error_cmd, 7, 0, Errors.InvalidOperation, "InvalidOperation"⟩ ∧
      out.out_server_response_str.err_code = 202 ∧
      out.backend = Scenario.committed :=
  ⟨by decide,
    committed_id_refuses_WRITE_and_ABORT (Scenario.env []) Scenario.committed
      Scenario.abort_7 true (by decide) (Or.inr rfl)⟩

/-- Claim C14. A NEW_TXN request whose sequence number is not 0 is answered ERROR with
code 204, InvalidSequenceNumber, and creates nothing: the backend is left as it was,
so the transaction map, the file-attributes map and the open log are unchanged. -/
theorem NEW_TXN_rejects_nonzero_sequence_number (env : Environment) (s : ServerBackend)
    (req : RequestTuple) (ip : Bool) (hcmd : req.command = Constants.new_txn_cmd)
    (hseq : req.seq_num ≠ 0) :
    ∃ out, processCommand env s req ip = some out ∧
      out.out_server_response_str.command = Constants.error_cmd ∧
      out.out_server_response_str.error = Errors.InvalidSequenceNumber ∧
      out.out_server_response_str.err_code = 204 ∧
      out.backend.m_txn_id_to_transaction_attributes = s.m_txn_id_to_transaction_attributes ∧
      out.backend.m_file_name_to_ptr_to_file_attributes
        = s.m_file_name_to_ptr_to_file_attributes ∧
      Disk.content out.backend.disk (Path.normalize (s.m_directory ++ m_transaction_log))
        = Disk.content s.disk (Path.normalize (s.m_directory ++ m_transaction_log)) ∧
      out.backend = s := by
  refine ⟨SET_ERROR_AND_RETURN s req.txn_id req.seq_num Errors.InvalidSequenceNumber, ?_,
    rfl, rfl, rfl, rfl, rfl, rfl, rfl⟩
  rw [processCommand_NEW_TXN env s req ip hcmd, NEW_TXN_nonzero env s req ip hseq]

/-- Claim C14 at a concrete run: NEW_TXN with sequence number 1 on the started server. -/
theorem NEW_TXN_rejects_nonzero_sequence_number_witness :
    ∃ out, processCommand (Scenario.env [7]) Scenario.started Scenario.new_txn_seq_1 true
        = some out ∧
      out.out_server_response_str.command = Constants.error_cmd ∧
      out.out_server_response_str.error = Errors.InvalidSequenceNumber ∧
      out.out_server_response_str.err_code = 204 ∧
      out.backend.m_txn_id_to_transaction_attributes
        = Scenario.started.m_txn_id_to_transaction_attributes ∧
      out.backend.m_file_name_to_ptr_to_file_attributes
        = Scenario.started.m_file_name_to_ptr_to_file_attributes ∧
      Disk.content out.backend.disk
          (Path.normalize (Scenario.started.m_directory ++ m_transaction_log))
        = Disk.content Scenario.started.disk
            (Path.normalize (Scenario.started.m_directory ++ m_transaction_log)) ∧
      out.backend = Scenario.started :=
  NEW_TXN_rejects_nonzero_sequence_number (Scenario.env [7]) Scenario.started
    Scenario.new_txn_seq_1 true rfl (by decide)

/-- Claim C17. A request whose command is none of READ, NEW_TXN, WRITE, COMMIT, ABORT is
answered ERROR with code 200 and payload "InvalidCommand", echoing the transaction id
and the sequence number of the request, and the backend is left as it was. -/
theorem processCommand_unknown_command (env : Environment) (s : ServerBackend)
    (req : RequestTuple) (ip : Bool)
    (h1 : req.command ≠ Constants.read_cmd) (h2 : req.command ≠ Constants.new_txn_cmd)
    (h3 : req.command ≠ Constants.write_cmd) (h4 : req.command ≠ Constants.commit_cmd)
    (h5 : req.command ≠ Constants.abort_cmd) :
    ∃ out, processCommand env s req ip = some out ∧
      out.out_server_response_str
        = ⟨Constants.error_cmd, req.txn_id, req.seq_num, Errors.InvalidCommand,
            "InvalidCommand"⟩ ∧
      out.out_server_response_str.err_code = 200 ∧
      out.out_server_response_str.content_len = 14 ∧
      out.backend = s := by
  refine ⟨SET_ERROR_AND_RETURN s req.txn_id req.seq_num Errors.InvalidCommand, ?_,
    rfl, rfl, rfl, rfl⟩
  simp only [processCommand, h1, h2, h3, h4, h5, if_false]

/-- Claim C17 at a concrete run: the command DELETE on the server with transaction 7
open. -/
theorem processCommand_unknown_command_witness :
    ∃ out, processCommand (Scenario.env []) Scenario.opened Scenario.delete_7 true
        = some out ∧
      out.out_server_response_str
        = ⟨Constants.error_cmd, 7, 3, Errors.InvalidCommand, "InvalidCommand"⟩ ∧
      out.out_server_response_str.err_code = 200 ∧
      out.out_server_response_str.content_len = 14 ∧
      out.backend = Scenario.opened :=
  processCommand_unknown_command (Scenario.env []) Scenario.opened Scenario.delete_7 true
    (by decide) (by decide) (by decide) (by decide) (by decide)

/-! ## NEW_TXN: the new transaction and its id -/

namespace ServerBackend

theorem sampleCandidateId_spec (txns : UnorderedMap Int TransactionAttributesTuple)
    (rand : List Nat) (c : Int) (h : sampleCandidateId txns rand = some c) :
    (∃ r ∈ rand, c = ((r % INT32_MAX : Nat) : Int)) ∧ UnorderedMap.find txns c = none := by
  induction rand with
  | nil => cases h
  | cons r rest ih =>
      unfold sampleCandidateId at h
      by_cases hc : UnorderedMap.count txns ((r % INT32_MAX : Nat) : Int) = true
      · rw [if_pos hc] at h
        obtain ⟨⟨r1, hr1, e⟩, hf⟩ := ih h
        exact ⟨⟨r1, List.mem_cons_of_mem _ hr1, e⟩, hf⟩
      · rw [if_neg hc] at h
        cases h
        refine ⟨⟨r, List.mem_cons_self _ _, rfl⟩, ?_⟩
        exact (UnorderedMap.count_eq_false_iff _ _).1 (by simpa using hc)

theorem sampleCandidateId_isSome (txns : UnorderedMap Int TransactionAttributesTuple)
    (rand : List Nat)
    (h : ∃ r ∈ rand, UnorderedMap.count txns ((r % INT32_MAX : Nat) : Int) = false) :
    ∃ c, sampleCandidateId txns rand = some c := by
  induction rand with
  | nil =>
      obtain ⟨r, hr, _⟩ := h
      cases hr
  | cons r rest ih =>
      unfold sampleCandidateId
      by_cases hc : UnorderedMap.count txns ((r % INT32_MAX : Nat) : Int) = true
      · rw [if_pos hc]
        apply ih
        obtain ⟨r1, hr1, h1⟩ := h
        rcases List.mem_cons.1 hr1 with e | hmem
        · subst e
          rw [hc] at h1
          cases h1
        · exact ⟨r1, hmem, h1⟩
      · rw [if_neg hc]
        exact ⟨_, rfl⟩

/-- Adding a transaction under an id that is not a key of the map always succeeds: the
record is put in front of the map and the open log is written. -/
theorem addNewTransaction_fresh (env : Environment) (s : ServerBackend) (txn_id : Int)
    (file_name : FileName)
    (h : UnorderedMap.find s.m_txn_id_to_transaction_attributes txn_id = none) :
    ∃ files, addNewTransaction env s txn_id file_name =
      .ok { s with
            m_txn_id_to_transaction_attributes :=
              (txn_id, getNewTransactionAttributes file_name env.now)
                :: s.m_txn_id_to_transaction_attributes
            m_file_name_to_ptr_to_file_attributes := files
            disk := logTransaction env s.m_directory s.disk m_transaction_log txn_id
              file_name } := by
  have hcount : UnorderedMap.count s.m_txn_id_to_transaction_attributes txn_id = false :=
    (UnorderedMap.count_eq_false_iff _ _).2 h
  unfold addNewTransaction
  cases hf : UnorderedMap.find s.m_file_name_to_ptr_to_file_attributes file_name with
  | none =>
      have hcf : UnorderedMap.count s.m_file_name_to_ptr_to_file_attributes file_name = false :=
        (UnorderedMap.count_eq_false_iff _ _).2 hf
      simp only [getNewFileAttributes, UnorderedMap.emplace, hcf, hcount, Bool.false_eq_true,
        if_false]
      exact ⟨_, rfl⟩
  | some fa =>
      simp only [UnorderedMap.emplace, hcount, Bool.false_eq_true, if_false]
      exact ⟨_, rfl⟩

/-- NEW_TXN with sequence number 0 once the sampling has found a candidate. -/
theorem NEW_TXN_sampled (env : Environment) (s : ServerBackend) (req : RequestTuple)
    (ip : Bool) (c : Int) (hseq : req.seq_num = 0)
    (hc : sampleCandidateId s.m_txn_id_to_transaction_attributes env.rand = some c) :
    ∃ files, NEW_TXN env s req ip =
      some (SET_ACK_AND_RETURN
        { s with
          m_txn_id_to_transaction_attributes :=
            (c, getNewTransactionAttributes req.data env.now)
              :: s.m_txn_id_to_transaction_attributes
          m_file_name_to_ptr_to_file_attributes := files
          disk := logTransaction env s.m_directory s.disk m_transaction_log c req.data }
        c Constants.initial_seq_num ip) := by
  obtain ⟨files, hadd⟩ :=
    addNewTransaction_fresh env s c req.data (sampleCandidateId_spec _ _ _ hc).2
  refine ⟨files, ?_⟩
  unfold NEW_TXN
  rw [if_pos hseq]
  simp only [hc, hadd]

end ServerBackend

/-- Claim C12, amended. A NEW_TXN request with sequence number 0, once `rand()` has
returned a value whose candidate id is not a key of the transaction map, is answered
ACK with sequence number 0, error code 0, content length 0 and no payload. The id it
carries was not a key of the transaction map; afterwards the map is the old one plus
that id, recorded with the file name of the request, no buffers and maximum sequence
number 1. When the open log can be opened and written, one line for the id and the
file name is appended to it. -/
theorem NEW_TXN_opens_transaction (env : Environment) (s : ServerBackend)
    (req : RequestTuple) (ip : Bool) (hseq : req.seq_num = 0)
    (hdraw : ∃ r ∈ env.rand,
      UnorderedMap.count s.m_txn_id_to_transaction_attributes ((r % INT32_MAX : Nat) : Int)
        = false) :
    ∃ id out, NEW_TXN env s req ip = some out ∧
      out.out_server_response_str = ⟨Constants.ack_cmd, id, 0, Errors.nil, ""⟩ ∧
      out.out_server_response_str.err_code = 0 ∧
      out.out_server_response_str.content_len = 0 ∧
      UnorderedMap.find s.m_txn_id_to_transaction_attributes id = none ∧
      (∀ k, UnorderedMap.find out.backend.m_txn_id_to_transaction_attributes k
        = if k = id then some ⟨req.data, [], 1, env.now⟩
          else UnorderedMap.find s.m_txn_id_to_transaction_attributes k) ∧
      (env.open_fails (s.m_directory ++ m_transaction_log) = false →
        env.write_limit (s.m_directory ++ m_transaction_log) = none →
        ∃ size : Int,
          Disk.content out.backend.disk (Path.normalize (s.m_directory ++ m_transaction_log))
            = Disk.content s.disk (Path.normalize (s.m_directory ++ m_transaction_log))
                ++ (toString id ++ " " ++ req.data ++ " " ++ toString size ++ "\n")) := by
  obtain ⟨c, hc⟩ := sampleCandidateId_isSome _ _ hdraw
  obtain ⟨files, hnew⟩ := NEW_TXN_sampled env s req ip c hseq hc
  have hfresh := (sampleCandidateId_spec _ _ _ hc).2
  refine ⟨c, _, hnew, rfl, rfl, rfl, hfresh, ?_, ?_⟩
  · intro k
    dsimp only [SET_ACK_AND_RETURN]
    rw [UnorderedMap.find_cons]
    by_cases hk : k = c
    · subst hk
      simp [getNewTransactionAttributes, Constants.initial_seq_num]
    · have : ¬ c = k := fun e => hk e.symm
      simp [hk, this]
  · intro hopen hwrite
    dsimp only [SET_ACK_AND_RETURN]
    exact logTransaction_content env s.m_directory s.disk m_transaction_log c req.data
      hopen hwrite

/-- Claim C12 as stated fails when the open log cannot be opened: NEW_TXN on the started
server still answers ACK with the new id 7 and records the transaction, but nothing
is appended to the open log, and the file system is left as it was. -/
theorem NEW_TXN_may_skip_open_log :
    Reachable Scenario.started ∧
    (NEW_TXN Scenario.env_open_log_unopenable Scenario.started Scenario.new_txn_f true).map
      (fun out => (out.out_server_response_str,
        UnorderedMap.find out.backend.m_txn_id_to_transaction_attributes 7,
        UnorderedMap.find out.backend.disk ("srv/" ++ ".transactionlog.txt"),
        decide (out.backend.disk = Scenario.started.disk)))
      = some (⟨"ACK", 7, 0, Errors.nil, ""⟩, some ⟨"f.txt", [], 1, 0⟩, none, true) :=
  ⟨Scenario.reachable_started, by decide⟩

/-- The amended claim C12 at a concrete run: the first NEW_TXN on the started server,
with `rand()` returning 7. -/
theorem NEW_TXN_opens_transaction_witness :
    ∃ id out, NEW_TXN (Scenario.env [7]) Scenario.started Scenario.new_txn_f true = some out ∧
      out.out_server_response_str = ⟨Constants.ack_cmd, id, 0, Errors.nil, ""⟩ ∧
      out.out_server_response_str.err_code = 0 ∧
      out.out_server_response_str.content_len = 0 ∧
      UnorderedMap.find Scenario.started.m_txn_id_to_transaction_attributes id = none ∧
      (∀ k, UnorderedMap.find out.backend.m_txn_id_to_transaction_attributes k
        = if k = id then some ⟨Scenario.new_txn_f.data, [], 1, (Scenario.env [7]).now⟩
          else UnorderedMap.find Scenario.started.m_txn_id_to_transaction_attributes k) ∧
      ((Scenario.env [7]).open_fails (Scenario.started.m_directory ++ m_transaction_log)
          = false →
        (Scenario.env [7]).write_limit (Scenario.started.m_directory ++ m_transaction_log)
          = none →
        ∃ size : Int,
          Disk.content out.backend.disk
              (Path.normalize (Scenario.started.m_directory ++ m_transaction_log))
            = Disk.content Scenario.started.disk
                (Path.normalize (Scenario.started.m_directory ++ m_transaction_log))
                ++ (toString id ++ " " ++ Scenario.new_txn_f.data ++ " " ++ toString size
                  ++ "\n")) :=
  NEW_TXN_opens_transaction (Scenario.env [7]) Scenario.started Scenario.new_txn_f true rfl
    ⟨7, by decide, by decide⟩

/-- Claim C13, amended. The id carried by an ACK of NEW_TXN is `rand() % INT32_MAX` for a
value `rand()` returned: it is at least 0 and below 2147483647, and it can be 0. -/
theorem NEW_TXN_id_range (env : Environment) (s : ServerBackend) (req : RequestTuple)
    (ip : Bool) (out : Outcome) (h : NEW_TXN env s req ip = some out)
    (hack : out.out_server_response_str.command = Constants.ack_cmd) :
    0 ≤ out.out_server_response_str.txn_id ∧
    out.out_server_response_str.txn_id < 2147483647 ∧
    ∃ r ∈ env.rand, out.out_server_response_str.txn_id = ((r % 2147483647 : Nat) : Int) := by
  by_cases hseq : req.seq_num = 0
  · cases hc : sampleCandidateId s.m_txn_id_to_transaction_attributes env.rand with
    | none =>
        unfold NEW_TXN at h
        rw [if_pos hseq] at h
        simp only [hc] at h
        cases h
    | some c =>
        obtain ⟨files, hnew⟩ := NEW_TXN_sampled env s req ip c hseq hc
        rw [hnew] at h
        cases h
        obtain ⟨⟨r, hr, e⟩, _⟩ := sampleCandidateId_spec _ _ _ hc
        dsimp only [SET_ACK_AND_RETURN]
        have hlt : r % INT32_MAX < INT32_MAX := Nat.mod_lt _ (by decide)
        unfold INT32_MAX at hlt e
        refine ⟨by omega, by omega, r, hr, e⟩
  · rw [NEW_TXN_nonzero env s req ip hseq] at h
    cases h
    exact absurd hack error_cmd_ne_ack_cmd

/-- Claim C13 as stated fails: when `rand()` returns 0, or 2147483647, the NEW_TXN on the
started server answers ACK with the transaction id 0, which is not positive. -/
theorem NEW_TXN_issues_id_zero :
    Reachable Scenario.started ∧
    (NEW_TXN (Scenario.env [0]) Scenario.started Scenario.new_txn_f true).map
      (fun out => out.out_server_response_str) = some ⟨"ACK", 0, 0, Errors.nil, ""⟩ ∧
    (NEW_TXN (Scenario.env [2147483647]) Scenario.started Scenario.new_txn_f true).map
      (fun out => out.out_server_response_str) = some ⟨"ACK", 0, 0, Errors.nil, ""⟩ :=
  ⟨Scenario.reachable_started, by decide, by decide⟩

/-- The amended claim C13 at a concrete run: the id 7 of the first NEW_TXN on the started
server. -/
theorem NEW_TXN_id_range_witness :
    NEW_TXN (Scenario.env [7]) Scenario.started Scenario.new_txn_f true
      = some ⟨Scenario.opened, ⟨"ACK", 7, 0, Errors.nil, ""⟩, true⟩ ∧
    (0 : Int) ≤ 7 ∧ (7 : Int) < 2147483647 ∧
    ∃ r ∈ (Scenario.env [7]).rand, (7 : Int) = ((r % 2147483647 : Nat) : Int) :=
  ⟨by decide,
    NEW_TXN_id_range (Scenario.env [7]) Scenario.started Scenario.new_txn_f true
      ⟨Scenario.opened, ⟨"ACK", 7, 0, Errors.nil, ""⟩, true⟩ (by decide) rfl⟩

/-! ## READ -/

namespace ServerBackend

/-- READ of a file that exists and can be opened and read. -/
theorem READ_ok (env : Environment) (s : ServerBackend) (req : RequestTuple) (ip : Bool)
    (content : String)
    (hfile : UnorderedMap.find s.disk (Path.normalize (s.m_directory ++ req.data)) = some content)
    (hopen : env.open_fails (s.m_directory ++ req.data) = false)
    (hread : env.read_fails (s.m_directory ++ req.data) = false) :
    READ env s req ip =
      SET_READ_AND_RETURN s req.txn_id req.seq_num
        (String.mk (content.data.takeWhile (fun c => c ≠ Char.ofNat 0))) ip := by
  have hcount : UnorderedMap.count s.disk (Path.normalize (s.m_directory ++ req.data)) = true :=
    count_of_find hfile
  have hcontent : Disk.content s.disk (Path.normalize (s.m_directory ++ req.data)) = content := by
    simp [Disk.content, hfile]
  simp only [READ, File.ctor, hopen, hcount, File.read, hread, hcontent, Bool.false_eq_true,
    if_false, if_true]

/-- READ of a file that does not exist or cannot be opened. -/
theorem READ_open_failed (env : Environment) (s : ServerBackend) (req : RequestTuple)
    (ip : Bool)
    (h : env.open_fails (s.m_directory ++ req.data) = true ∨
      UnorderedMap.find s.disk (Path.normalize (s.m_directory ++ req.data)) = none) :
    READ env s req ip
      = SET_ERROR_AND_RETURN s req.txn_id req.seq_num Errors.ErrorOpeningFile := by
  by_cases ho : env.open_fails (s.m_directory ++ req.data) = true
  · simp only [READ, File.ctor, ho, if_true]
  · rcases h with h | h
    · exact absurd h ho
    · have hcount : UnorderedMap.count s.disk (Path.normalize (s.m_directory ++ req.data)) = false :=
        (UnorderedMap.count_eq_false_iff _ _).2 h
      simp only [READ, File.ctor, ho, hcount, Bool.false_eq_true, if_false]

end ServerBackend

theorem List.takeWhile_eq_self_of_forall {α : Type} (p : α → Bool) (l : List α)
    (h : ∀ a ∈ l, p a = true) : l.takeWhile p = l := by
  induction l with
  | nil => rfl
  | cons a l ih =>
      rw [List.takeWhile_cons, h a (List.mem_cons_self _ _)]
      simp only [if_true]
      rw [ih (fun b hb => h b (List.mem_cons_of_mem _ hb))]

/-- Claim C15, amended. For a file that directory + file_name names and that can be opened
and read, READ answers ACK whose payload is the content of the file up to its first zero
byte, the entire content when the file holds no zero byte, with CONTENT_LEN the length
of that payload; the backend is left as it was and the in-progress flag keeps its
value. When the file does not exist or cannot be opened, the answer is ERROR with code
206, ErrorOpeningFile, and the backend is left as it was. -/
theorem READ_returns_content_up_to_zero_byte (env : Environment) (s : ServerBackend)
    (req : RequestTuple) (ip : Bool) :
    (∀ content : String,
      UnorderedMap.find s.disk (Path.normalize (s.m_directory ++ req.data)) = some content →
      env.open_fails (s.m_directory ++ req.data) = false →
      env.read_fails (s.m_directory ++ req.data) = false →
        (READ env s req ip).out_server_response_str
          = ⟨Constants.ack_cmd, req.txn_id, req.seq_num, Errors.nil,
              String.mk (content.data.takeWhile (fun c => c ≠ Char.ofNat 0))⟩ ∧
        (READ env s req ip).out_server_response_str.err_code = 0 ∧
        (READ env s req ip).out_server_response_str.content_len
          = (content.data.takeWhile (fun c => c ≠ Char.ofNat 0)).length ∧
        (Char.ofNat 0 ∉ content.data →
          (READ env s req ip).out_server_response_str.data = content ∧
          (READ env s req ip).out_server_response_str.content_len = content.length) ∧
        (READ env s req ip).backend = s ∧
        (READ env s req ip).out_transaction_in_progress = ip) ∧
    (env.open_fails (s.m_directory ++ req.data) = true ∨
        UnorderedMap.find s.disk (Path.normalize (s.m_directory ++ req.data)) = none →
      (READ env s req ip).out_server_response_str
        = ⟨Constants.error_cmd, req.txn_id, req.seq_num, Errors.ErrorOpeningFile,
            "ErrorOpeningFile"⟩ ∧
      (READ env s req ip).out_server_response_str.err_code = 206 ∧
      (READ env s req ip).backend = s) := by
  constructor
  · intro content hfile hopen hread
    rw [READ_ok env s req ip content hfile hopen hread]
    refine ⟨rfl, rfl, rfl, ?_, rfl, rfl⟩
    intro hzero
    have hall : content.data.takeWhile (fun c => c ≠ Char.ofNat 0) = content.data := by
      apply List.takeWhile_eq_self_of_forall
      intro a ha
      have : a ≠ Char.ofNat 0 := fun e => hzero (e ▸ ha)
      simpa using this
    dsimp only [SET_READ_AND_RETURN, Response.content_len]
    rw [hall]
    exact ⟨rfl, rfl⟩
  · intro h
    rw [READ_open_failed env s req ip h]
    exact ⟨rfl, rfl, rfl⟩

/-- Claim C15 as stated fails on a file that holds a zero byte: the file `z.txt` is three
bytes long, and READ answers ACK with the one byte before the zero byte as payload. -/
theorem READ_stops_at_zero_byte :
    Reachable Scenario.started_zero_byte ∧
    UnorderedMap.find Scenario.started_zero_byte.disk ("srv/" ++ "z.txt")
      = some (String.mk ['a', Char.ofNat 0, 'b']) ∧
    (String.mk ['a', Char.ofNat 0, 'b']).length = 3 ∧
    (READ (Scenario.env []) Scenario.started_zero_byte Scenario.read_z true
      ).out_server_response_str = ⟨"ACK", -1, 0, Errors.nil, "a"⟩ ∧
    (READ (Scenario.env []) Scenario.started_zero_byte Scenario.read_z true
      ).out_server_response_str.content_len = 1 :=
  ⟨Reachable.start (Scenario.env []) "srv/"
      [("srv/z.txt", String.mk ['a', Char.ofNat 0, 'b'])] [],
    by decide, by decide, by decide, by decide⟩

/-- The amended claim C15 at concrete runs: READ of the committed file `f.txt`, and READ
of the same name on the started server, where no such file exists. -/
theorem READ_returns_content_up_to_zero_byte_witness :
    ((READ (Scenario.env []) Scenario.committed Scenario.read_f true).out_server_response_str
        = ⟨Constants.ack_cmd, -1, 0, Errors.nil, "a"⟩ ∧
      (READ (Scenario.env []) Scenario.committed Scenario.read_f true).backend
        = Scenario.committed) ∧
    ((READ (Scenario.env []) Scenario.started Scenario.read_f true).out_server_response_str
        = ⟨Constants.error_cmd, -1, 0, Errors.ErrorOpeningFile, "ErrorOpeningFile"⟩ ∧
      (READ (Scenario.env []) Scenario.started Scenario.read_f true
        ).out_server_response_str.err_code = 206) :=
  have h1 := (READ_returns_content_up_to_zero_byte (Scenario.env []) Scenario.committed
    Scenario.read_f true).1 "a" (by decide) rfl rfl
  have h2 := (READ_returns_content_up_to_zero_byte (Scenario.env []) Scenario.started
    Scenario.read_f true).2 (Or.inr (by decide))
  ⟨⟨h1.1, h1.2.2.2.2.1⟩, ⟨h2.1, h2.2.1⟩⟩

/-! ## Decimal text: `to_string` and the digits `>>` reads back -/

theorem isdigit_digitChar (n : Nat) (h : n < 10) :
    Nat.digitChar n ∈ decimalDigits ∧ (Nat.digitChar n).toNat - 48 = n := by
  interval_cases n <;> exact ⟨by decide, by decide⟩

theorem decimalValue_append_singleton (ds : List Char) (c : Char) :
    decimalValue (ds ++ [c]) = 10 * decimalValue ds + (c.toNat - 48) := by
  simp [decimalValue, List.foldl_append]

theorem toDigitsCore_acc (fuel n : Nat) (ds : List Char) :
    Nat.toDigitsCore 10 fuel n ds = Nat.toDigitsCore 10 fuel n [] ++ ds := by
  induction fuel generalizing n ds with
  | zero => simp [Nat.toDigitsCore]
  | succ fuel ih =>
      simp only [Nat.toDigitsCore]
      split
      · simp
      · rw [ih (n / 10) (Nat.digitChar (n % 10) :: ds), ih (n / 10) [Nat.digitChar (n % 10)]]
        simp

/-- The decimal digits of a number: not empty, all digits, and denoting the number. -/
theorem toDigitsCore_spec (fuel n : Nat) (h : n < fuel) :
    Nat.toDigitsCore 10 fuel n [] ≠ [] ∧
    (∀ c ∈ Nat.toDigitsCore 10 fuel n [], c ∈ decimalDigits) ∧
    decimalValue (Nat.toDigitsCore 10 fuel n []) = n := by
  induction fuel generalizing n with
  | zero => omega
  | succ fuel ih =>
      simp only [Nat.toDigitsCore]
      split
      · rename_i hq
        have hn : n < 10 := by omega
        have hm : n % 10 = n := Nat.mod_eq_of_lt hn
        rw [hm]
        refine ⟨by simp, ?_, ?_⟩
        · intro c hc
          rw [List.mem_singleton] at hc
          rw [hc]
          exact (isdigit_digitChar n hn).1
        · simp [decimalValue, (isdigit_digitChar n hn).2]
      · rename_i hq
        rw [toDigitsCore_acc]
        have hlt : n / 10 < fuel := by omega
        obtain ⟨h1, h2, h3⟩ := ih (n / 10) hlt
        have hmod : n % 10 < 10 := Nat.mod_lt _ (by decide)
        refine ⟨by simp, ?_, ?_⟩
        · intro c hc
          rcases List.mem_append.1 hc with hc | hc
          · exact h2 c hc
          · rw [List.mem_singleton] at hc
            rw [hc]
            exact (isdigit_digitChar _ hmod).1
        · rw [decimalValue_append_singleton, h3, (isdigit_digitChar _ hmod).2]
          omega

theorem toString_nat_data (n : Nat) : (toString n).data = Nat.toDigits 10 n := rfl

theorem toString_nat_spec (n : Nat) :
    (toString n).data ≠ [] ∧ (∀ c ∈ (toString n).data, c ∈ decimalDigits) ∧
    decimalValue (toString n).data = n := by
  rw [toString_nat_data]
  exact toDigitsCore_spec (n + 1) n (Nat.lt_succ_self n)

theorem toString_nat_length (n e : Nat) (he : 0 < e) (h : n < 10 ^ e) :
    (toString n).length ≤ e :=
  Nat.repr_length n e he h

/-- The text of an `int`: a minus sign for a negative number, then the digits of the
absolute value. -/
theorem toString_int_data (i : Int) :
    ∃ sign ds, (toString i).data = sign ++ ds ∧
      (sign = [] ∧ i = (decimalValue ds : Int) ∨ sign = ['-'] ∧ i = -(decimalValue ds : Int)) ∧
      ds ≠ [] ∧ (∀ c ∈ ds, c ∈ decimalDigits) ∧ ds = (toString i.natAbs).data := by
  cases i with
  | ofNat m =>
      obtain ⟨h1, h2, h3⟩ := toString_nat_spec m
      exact ⟨[], (toString m).data, rfl, Or.inl ⟨rfl, by rw [h3]; rfl⟩, h1, h2, rfl⟩
  | negSucc m =>
      obtain ⟨h1, h2, h3⟩ := toString_nat_spec (m + 1)
      refine ⟨['-'], (toString (m + 1)).data, rfl, Or.inr ⟨rfl, ?_⟩, h1, h2, rfl⟩
      rw [h3]
      rfl

theorem toString_int_length (i : Int) (h1 : -2147483648 ≤ i) (h2 : i ≤ 2147483647) :
    (toString i).length ≤ 11 := by
  cases i with
  | ofNat m =>
      have : (toString m).length ≤ 10 := toString_nat_length m 10 (by decide) (by
        have : (m : Int) ≤ 2147483647 := h2
        omega)
      exact Nat.le_trans this (by decide)
  | negSucc m =>
      have hm : (toString (m + 1)).length ≤ 10 := toString_nat_length (m + 1) 10 (by decide) (by
        have : -2147483648 ≤ Int.negSucc m := h1
        rw [Int.negSucc_eq] at this
        omega)
      have : (toString (Int.negSucc m)).length = 1 + (toString (m + 1)).length := by
        show ("-" ++ toString (m + 1)).length = _
        rw [String.length_append]
        rfl
      omega

/-! ## The regular expressions of the formats -/

theorem charClass_rmatch_iff (cs : List Char) (x : List Char) :
    (charClass cs).rmatch x ↔ ∃ c, c ∈ cs ∧ x = [c] := by
  induction cs with
  | nil => simp [charClass]
  | cons c cs ih =>
      show (RegularExpression.char c + charClass cs).rmatch x ↔ _
      rw [RegularExpression.add_rmatch_iff, RegularExpression.char_rmatch_iff, ih]
      constructor
      · rintro (h | ⟨c1, h1, h2⟩)
        · exact ⟨c, List.mem_cons_self _ _, h⟩
        · exact ⟨c1, List.mem_cons_of_mem _ h1, h2⟩
      · rintro ⟨c1, h1, h2⟩
        rcases List.mem_cons.1 h1 with e | h
        · exact Or.inl (e ▸ h2)
        · exact Or.inr ⟨c1, h, h2⟩

theorem flatten_map_singleton (x : List Char) : (x.map (fun c => [c])).flatten = x := by
  induction x with
  | nil => rfl
  | cons a x ih => simp [ih]

/-- The star of an expression that matches exactly the one-character words of a set. -/
theorem star_rmatch_of_singletons (P : RegularExpression Char) (p : Char → Prop)
    (hP : ∀ t, P.rmatch t ↔ ∃ c, p c ∧ t = [c]) (x : List Char) :
    (RegularExpression.star P).rmatch x ↔ ∀ c ∈ x, p c := by
  rw [RegularExpression.star_rmatch_iff]
  constructor
  · rintro ⟨S, rfl, hS⟩ c hc
    obtain ⟨t, ht, hct⟩ := List.mem_flatten.1 hc
    obtain ⟨c1, hp, e⟩ := (hP t).1 (hS t ht).2
    rw [e, List.mem_singleton] at hct
    exact hct ▸ hp
  · intro h
    refine ⟨x.map (fun c => [c]), (flatten_map_singleton x).symm, ?_⟩
    intro t ht
    obtain ⟨c, hc, e⟩ := List.mem_map.1 ht
    subst e
    exact ⟨by simp, (hP [c]).2 ⟨c, h c hc, rfl⟩⟩

theorem oneOrMore_charClass_rmatch_iff (cs : List Char) (x : List Char) :
    (oneOrMore (charClass cs)).rmatch x ↔ IsRun cs x := by
  unfold oneOrMore IsRun
  rw [RegularExpression.mul_rmatch_iff]
  constructor
  · rintro ⟨t, u, rfl, ht, hu⟩
    obtain ⟨c, hc, rfl⟩ := (charClass_rmatch_iff cs t).1 ht
    have hu1 := (star_rmatch_of_singletons (charClass cs) (fun c => c ∈ cs)
      (charClass_rmatch_iff cs) u).1 hu
    refine ⟨by simp, ?_⟩
    intro c1 hc1
    rcases List.mem_append.1 hc1 with h | h
    · rw [List.mem_singleton] at h
      exact h ▸ hc
    · exact hu1 c1 h
  · rintro ⟨hne, hall⟩
    cases x with
    | nil => exact absurd rfl hne
    | cons c u =>
        refine ⟨[c], u, rfl, (charClass_rmatch_iff cs [c]).2 ⟨c, hall c (List.mem_cons_self _ _), rfl⟩,
          ?_⟩
        exact (star_rmatch_of_singletons (charClass cs) (fun c => c ∈ cs)
          (charClass_rmatch_iff cs) u).2 (fun c1 h => hall c1 (List.mem_cons_of_mem _ h))

theorem zeroOrOne_rmatch_iff (P : RegularExpression Char) (x : List Char) :
    (zeroOrOne P).rmatch x ↔ x = [] ∨ P.rmatch x := by
  unfold zeroOrOne
  rw [RegularExpression.add_rmatch_iff, RegularExpression.one_rmatch_iff]

theorem sign_rmatch_iff (x : List Char) :
    (zeroOrOne (charClass ['-'])).rmatch x ↔ IsSign x := by
  rw [zeroOrOne_rmatch_iff, charClass_rmatch_iff]
  unfold IsSign
  constructor
  · rintro (h | ⟨c, hc, e⟩)
    · exact Or.inl h
    · rw [List.mem_singleton] at hc
      exact Or.inr (hc ▸ e)
  · rintro (h | h)
    · exact Or.inl h
    · exact Or.inr ⟨'-', List.mem_singleton.2 rfl, h⟩

theorem delimiter_rmatch_iff (x : List Char) :
    (charClass [Constants.delimiting_character]).rmatch x
      ↔ x = [Constants.delimiting_character] := by
  rw [charClass_rmatch_iff]
  constructor
  · rintro ⟨c, hc, e⟩
    rw [List.mem_singleton] at hc
    exact hc ▸ e
  · intro h
    exact ⟨_, List.mem_singleton.2 rfl, h⟩

theorem padding_rmatch_iff (x : List Char) :
    (zeroOrOne
      (charClass [Constants.delimiting_character] *
        RegularExpression.star (RegularExpression.char Constants.padding_character))).rmatch x
      ↔ IsPadding x := by
  rw [zeroOrOne_rmatch_iff, RegularExpression.mul_rmatch_iff]
  unfold IsPadding
  have hstar := star_rmatch_of_singletons
    (RegularExpression.char Constants.padding_character)
    (fun c => c = Constants.padding_character)
    (fun t => by
      rw [RegularExpression.char_rmatch_iff]
      constructor
      · intro h
        exact ⟨_, rfl, h⟩
      · rintro ⟨c, hc, e⟩
        exact hc ▸ e)
  constructor
  · rintro (h | ⟨t, u, rfl, ht, hu⟩)
    · exact Or.inl h
    · right
      rw [(delimiter_rmatch_iff t).1 ht]
      exact ⟨u.length, by
        rw [List.singleton_append, (List.eq_replicate_iff.2 ⟨rfl, (hstar u).1 hu⟩)]
        simp⟩
  · rintro (h | ⟨k, rfl⟩)
    · exact Or.inl h
    · right
      refine ⟨[Constants.delimiting_character],
        List.replicate k Constants.padding_character, rfl, (delimiter_rmatch_iff _).2 rfl, ?_⟩
      exact (hstar _).2 (fun c hc => List.eq_of_mem_replicate hc)

theorem sequence_nil_rmatch_iff (x : List Char) : (sequence []).rmatch x ↔ x = [] :=
  RegularExpression.one_rmatch_iff x

theorem sequence_cons_rmatch_iff (P : RegularExpression Char)
    (Ps : List (RegularExpression Char)) (x : List Char) :
    (sequence (P :: Ps)).rmatch x
      ↔ ∃ t u, x = t ++ u ∧ P.rmatch t ∧ (sequence Ps).rmatch u :=
  RegularExpression.mul_rmatch_iff P (sequence Ps) x

/-- What the request format matches: a command, two numbers with an optional minus
sign, a number, and the padding, with one delimiter between them. -/
theorem request_format_rmatch_iff (x : List Char) :
    Constants.request_format.rmatch x ↔
      ∃ cmd sg1 d1 sg2 d2 d3 pad,
        x = cmd ++ ' ' :: (sg1 ++ (d1 ++ ' ' :: (sg2 ++ (d2 ++ ' ' :: (d3 ++ pad))))) ∧
        IsRun upperOrUnderscore cmd ∧ IsSign sg1 ∧ IsRun decimalDigits d1 ∧
        IsSign sg2 ∧ IsRun decimalDigits d2 ∧ IsRun decimalDigits d3 ∧ IsPadding pad := by
  unfold Constants.request_format
  simp only [sequence_cons_rmatch_iff, sequence_nil_rmatch_iff,
    oneOrMore_charClass_rmatch_iff, sign_rmatch_iff, delimiter_rmatch_iff,
    padding_rmatch_iff]
  constructor
  · rintro ⟨cmd, _, rfl, hcmd, _, _, rfl, rfl, sg1, _, rfl, hsg1, d1, _, rfl, hd1,
      _, _, rfl, rfl, sg2, _, rfl, hsg2, d2, _, rfl, hd2, _, _, rfl, rfl,
      d3, _, rfl, hd3, pad, _, rfl, hpad, rfl⟩
    exact ⟨cmd, sg1, d1, sg2, d2, d3, pad, by simp [Constants.delimiting_character],
      hcmd, hsg1, hd1, hsg2, hd2, hd3, hpad⟩
  · rintro ⟨cmd, sg1, d1, sg2, d2, d3, pad, rfl, hcmd, hsg1, hd1, hsg2, hd2, hd3, hpad⟩
    exact ⟨cmd, _, rfl, hcmd, _, _, rfl, rfl, sg1, _, rfl, hsg1, d1, _, rfl, hd1,
      _, _, rfl, rfl, sg2, _, rfl, hsg2, d2, _, rfl, hd2, _, _, rfl, rfl,
      d3, _, rfl, hd3, pad, [], (List.append_nil pad).symm, hpad, rfl⟩

/-- What the response format matches: as the request format, with one more number. -/
theorem response_format_rmatch_iff (x : List Char) :
    Constants.response_format.rmatch x ↔
      ∃ cmd sg1 d1 sg2 d2 d3 d4 pad,
        x = cmd ++ ' ' :: (sg1 ++ (d1 ++ ' ' :: (sg2 ++ (d2 ++ ' ' :: (d3 ++ ' ' ::
          (d4 ++ pad)))))) ∧
        IsRun upperOrUnderscore cmd ∧ IsSign sg1 ∧ IsRun decimalDigits d1 ∧
        IsSign sg2 ∧ IsRun decimalDigits d2 ∧ IsRun decimalDigits d3 ∧
        IsRun decimalDigits d4 ∧ IsPadding pad := by
  unfold Constants.response_format
  simp only [sequence_cons_rmatch_iff, sequence_nil_rmatch_iff,
    oneOrMore_charClass_rmatch_iff, sign_rmatch_iff, delimiter_rmatch_iff,
    padding_rmatch_iff]
  constructor
  · rintro ⟨cmd, _, rfl, hcmd, _, _, rfl, rfl, sg1, _, rfl, hsg1, d1, _, rfl, hd1,
      _, _, rfl, rfl, sg2, _, rfl, hsg2, d2, _, rfl, hd2, _, _, rfl, rfl,
      d3, _, rfl, hd3, _, _, rfl, rfl, d4, _, rfl, hd4, pad, _, rfl, hpad, rfl⟩
    exact ⟨cmd, sg1, d1, sg2, d2, d3, d4, pad, by simp [Constants.delimiting_character],
      hcmd, hsg1, hd1, hsg2, hd2, hd3, hd4, hpad⟩
  · rintro ⟨cmd, sg1, d1, sg2, d2, d3, d4, pad, rfl, hcmd, hsg1, hd1, hsg2, hd2, hd3, hd4,
      hpad⟩
    exact ⟨cmd, _, rfl, hcmd, _, _, rfl, rfl, sg1, _, rfl, hsg1, d1, _, rfl, hd1,
      _, _, rfl, rfl, sg2, _, rfl, hsg2, d2, _, rfl, hd2, _, _, rfl, rfl,
      d3, _, rfl, hd3, _, _, rfl, rfl, d4, _, rfl, hd4, pad, [],
      (List.append_nil pad).symm, hpad, rfl⟩

/-- No character a format admits is a line terminator. -/
theorem not_line_terminator_of_mem (c : Char)
    (h : c ∈ upperOrUnderscore ++ decimalDigits ++ ['-', ' ']) :
    (c != '\n' && c != '\r') = true := by
  have h1 : c ≠ '\n' := by
    rintro rfl
    revert h
    decide
  have h2 : c ≠ '\r' := by
    rintro rfl
    revert h
    decide
  simp [h1, h2]

theorem IsRun_chars {cs x : List Char} (h : IsRun cs x)
    (hcs : ∀ c ∈ cs, c ∈ upperOrUnderscore ++ decimalDigits ++ ['-', ' ']) :
    ∀ c ∈ x, c ∈ upperOrUnderscore ++ decimalDigits ++ ['-', ' '] :=
  fun c hc => hcs c (h.2 c hc)

theorem IsSign_chars {x : List Char} (h : IsSign x) :
    ∀ c ∈ x, c ∈ upperOrUnderscore ++ decimalDigits ++ ['-', ' '] := by
  rcases h with rfl | rfl
  · intro c hc
    cases hc
  · intro c hc
    rw [List.mem_singleton] at hc
    subst hc
    decide

theorem IsPadding_chars {x : List Char} (h : IsPadding x) :
    ∀ c ∈ x, c ∈ upperOrUnderscore ++ decimalDigits ++ ['-', ' '] := by
  rcases h with rfl | ⟨k, rfl⟩
  · intro c hc
    cases hc
  · intro c hc
    rcases List.mem_cons.1 hc with e | hmem
    · subst e
      decide
    · rw [List.eq_of_mem_replicate hmem]
      decide

theorem upperOrUnderscore_chars :
    ∀ c ∈ upperOrUnderscore, c ∈ upperOrUnderscore ++ decimalDigits ++ ['-', ' '] :=
  fun _ hc => List.mem_append_left _ (List.mem_append_left _ hc)

theorem decimalDigits_chars :
    ∀ c ∈ decimalDigits, c ∈ upperOrUnderscore ++ decimalDigits ++ ['-', ' '] :=
  fun _ hc => List.mem_append_left _ (List.mem_append_right _ hc)

theorem space_chars : ' ' ∈ upperOrUnderscore ++ decimalDigits ++ ['-', ' '] := by decide

/-- The lookahead of a format holds for a text of the header length made of the pieces
the format admits. -/
theorem lookaheadLength_of_chars (n : Nat) (x : List Char) (hlen : x.length = n)
    (h : ∀ c ∈ x, c ∈ upperOrUnderscore ++ decimalDigits ++ ['-', ' ']) :
    lookaheadLength n x = true := by
  unfold lookaheadLength
  rw [Bool.and_eq_true]
  refine ⟨by simpa using hlen, ?_⟩
  rw [List.all_eq_true]
  intro c hc
  exact not_line_terminator_of_mem c (h c hc)

/-! ## Extraction from a header -/

theorem takeWhile_dropWhile_append {p : Char → Bool} (a rest : List Char)
    (ha : ∀ c ∈ a, p c = true) (hr : ∀ c ∈ rest.head?, p c = false) :
    (a ++ rest).takeWhile p = a ∧ (a ++ rest).dropWhile p = rest := by
  induction a with
  | nil =>
      cases rest with
      | nil => exact ⟨rfl, rfl⟩
      | cons c r =>
          have hc : p c = false := hr c (by simp)
          simp [List.takeWhile_cons, List.dropWhile_cons, hc]
  | cons c a ih =>
      have hc : p c = true := ha c (List.mem_cons_self _ _)
      obtain ⟨h1, h2⟩ := ih (fun b hb => ha b (List.mem_cons_of_mem _ hb))
      simp [List.takeWhile_cons, List.dropWhile_cons, hc, h1, h2]

theorem isspace_of_mem_upperOrUnderscore (c : Char) (h : c ∈ upperOrUnderscore) :
    isspace c = false := by
  revert c
  decide

theorem isspace_of_mem_decimalDigits (c : Char) (h : c ∈ decimalDigits) :
    isspace c = false := by
  revert c
  decide

theorem ne_sign_of_mem_decimalDigits (c : Char) (h : c ∈ decimalDigits) :
    c ≠ '-' ∧ c ≠ '+' := by
  revert c
  decide

theorem isdigit_of_mem (c : Char) (h : c ∈ decimalDigits) : isdigit c = true := by
  simpa [isdigit] using h

namespace IStringStream

theorem sentry_not_good (u : List Char) (fb : Bool) :
    sentry { unread := u, good := false, failbit := fb }
      = ({ unread := u, good := false, failbit := true }, false) := rfl

theorem extractInt_not_good (u : List Char) (fb : Bool) (n : Int) :
    extractInt { unread := u, good := false, failbit := fb } n
      = ({ unread := u, good := false, failbit := true }, n) := rfl

theorem sentry_cons (c : Char) (rest : List Char) (h : isspace c = false) :
    sentry { unread := c :: rest, good := true, failbit := false }
      = ({ unread := c :: rest, good := true, failbit := false }, true) := by
  simp [sentry, List.dropWhile_cons, h]

theorem sentry_space_cons (c : Char) (rest : List Char) (h : isspace c = false) :
    sentry { unread := ' ' :: c :: rest, good := true, failbit := false }
      = ({ unread := c :: rest, good := true, failbit := false }, true) := by
  have hs : isspace ' ' = true := by decide
  simp [sentry, List.dropWhile_cons, h, hs]

/-- Extraction of a word that is followed by white space or by the end. -/
theorem extractString_word (w rest : List Char) (str : String) (hw : w ≠ [])
    (hns : ∀ c ∈ w, isspace c = false) (hr : ∀ c ∈ rest.head?, isspace c = true) :
    extractString { unread := w ++ rest, good := true, failbit := false } str
      = ({ unread := rest, good := !rest.isEmpty, failbit := false }, String.mk w) := by
  cases w with
  | nil => exact absurd rfl hw
  | cons c w1 =>
      have hc : isspace c = false := hns c (List.mem_cons_self _ _)
      obtain ⟨h1, h2⟩ := takeWhile_dropWhile_append (p := fun c => !isspace c) (c :: w1) rest
        (fun b hb => by simp [hns b hb]) (fun b hb => by simp [hr b hb])
      unfold extractString
      rw [List.cons_append, sentry_cons c (w1 ++ rest) hc]
      simp only
      rw [← List.cons_append, h1, h2]

/-- Extraction of a number that follows one delimiter and is followed by a character
that is not a digit, or by the end. -/
theorem extractInt_number (sg d rest : List Char) (n : Int) (hsg : IsSign sg)
    (hd : IsRun decimalDigits d) (hr : ∀ c ∈ rest.head?, isdigit c = false) :
    extractInt { unread := ' ' :: (sg ++ (d ++ rest)), good := true, failbit := false } n
      = if signedValue sg d > INT_MAX then
          ({ unread := rest, good := false, failbit := true }, INT_MAX)
        else if signedValue sg d < INT_MIN then
          ({ unread := rest, good := false, failbit := true }, INT_MIN)
        else ({ unread := rest, good := !rest.isEmpty, failbit := false }, signedValue sg d) := by
  unfold signedValue
  obtain ⟨h1, h2⟩ := takeWhile_dropWhile_append (p := isdigit) d rest
    (fun b hb => isdigit_of_mem b (hd.2 b hb)) hr
  have hne : (d.isEmpty) = false := by
    cases d with
    | nil => exact absurd rfl hd.1
    | cons _ _ => rfl
  rcases hsg with rfl | rfl
  · cases d with
    | nil => exact absurd rfl hd.1
    | cons c d1 =>
        have hc := hd.2 c (List.mem_cons_self _ _)
        obtain ⟨hm, hp⟩ := ne_sign_of_mem_decimalDigits c hc
        unfold extractInt
        rw [List.nil_append, List.cons_append,
          sentry_space_cons c (d1 ++ rest) (isspace_of_mem_decimalDigits c hc)]
        simp only [hm, hp, if_false]
        rw [← List.cons_append, h1, h2]
        simp only [hne, Bool.false_eq_true, if_false]
        simp
  · unfold extractInt
    have hs : isspace '-' = false := by decide
    rw [List.singleton_append, sentry_space_cons '-' (d ++ rest) hs]
    simp only [if_true]
    rw [h1, h2]
    simp only [hne, Bool.false_eq_true, if_false]

end IStringStream

theorem signedValue_nil (d : List Char) : signedValue [] d = (decimalValue d : Int) := by
  simp [signedValue]

theorem isdigit_space : ∀ c ∈ (' ' :: ([] : List Char)).head?, isdigit c = false := by
  decide

/-- A text without a zero byte is its own C string. -/
theorem cString_of_chars (x : List Char)
    (h : ∀ c ∈ x, c ∈ upperOrUnderscore ++ decimalDigits ++ ['-', ' ']) :
    cString (String.mk x) = String.mk x := by
  unfold cString
  congr 1
  apply List.takeWhile_eq_self_of_forall
  intro a ha
  have : a ≠ Char.ofNat 0 := by
    rintro rfl
    exact absurd (h _ ha) (by decide)
  simpa using this

/-- The characters of a header made of the pieces a request format admits. -/
theorem request_fields_chars (cmd sg1 d1 sg2 d2 d3 pad : List Char)
    (hcmd : IsRun upperOrUnderscore cmd) (hsg1 : IsSign sg1) (hd1 : IsRun decimalDigits d1)
    (hsg2 : IsSign sg2) (hd2 : IsRun decimalDigits d2) (hd3 : IsRun decimalDigits d3)
    (hpad : IsPadding pad) :
    ∀ c ∈ cmd ++ ' ' :: (sg1 ++ (d1 ++ ' ' :: (sg2 ++ (d2 ++ ' ' :: (d3 ++ pad))))),
      c ∈ upperOrUnderscore ++ decimalDigits ++ ['-', ' '] := by
  intro c hc
  simp only [List.mem_append, List.mem_cons] at hc
  rcases hc with h | rfl | h | h | rfl | h | h | rfl | h | h
  · exact IsRun_chars hcmd upperOrUnderscore_chars c h
  · exact space_chars
  · exact IsSign_chars hsg1 c h
  · exact IsRun_chars hd1 decimalDigits_chars c h
  · exact space_chars
  · exact IsSign_chars hsg2 c h
  · exact IsRun_chars hd2 decimalDigits_chars c h
  · exact space_chars
  · exact IsRun_chars hd3 decimalDigits_chars c h
  · exact IsPadding_chars hpad c h

theorem IsPadding.head_not_digit {pad : List Char} (h : IsPadding pad) :
    ∀ c ∈ pad.head?, isdigit c = false := by
  rcases h with rfl | ⟨k, rfl⟩
  · intro c hc
    cases hc
  · intro c hc
    simp only [List.head?_cons, Option.mem_def, Option.some.injEq] at hc
    subst hc
    decide

/-- The fields `extractHeaderFields` reads from a header made of the pieces the request
format admits. A number out of the range of `int` is replaced by the nearest bound, and
the fields after it keep the values they had. -/
theorem extractHeaderFields_fields (cmd sg1 d1 sg2 d2 d3 pad : List Char)
    (out : RequestTuple)
    (hcmd : IsRun upperOrUnderscore cmd) (hsg1 : IsSign sg1) (hd1 : IsRun decimalDigits d1)
    (hsg2 : IsSign sg2) (hd2 : IsRun decimalDigits d2) (hd3 : IsRun decimalDigits d3)
    (hpad : IsPadding pad) :
    WireProtocol.extractHeaderFields
        (String.mk (cmd ++ ' ' :: (sg1 ++ (d1 ++ ' ' :: (sg2 ++ (d2 ++ ' ' :: (d3 ++ pad)))))))
        out
      = if signedValue sg1 d1 > INT_MAX then
          ⟨String.mk cmd, INT_MAX, out.seq_num, out.content_len, out.data⟩
        else if signedValue sg1 d1 < INT_MIN then
          ⟨String.mk cmd, INT_MIN, out.seq_num, out.content_len, out.data⟩
        else if signedValue sg2 d2 > INT_MAX then
          ⟨String.mk cmd, signedValue sg1 d1, INT_MAX, out.content_len, out.data⟩
        else if signedValue sg2 d2 < INT_MIN then
          ⟨String.mk cmd, signedValue sg1 d1, INT_MIN, out.content_len, out.data⟩
        else if (decimalValue d3 : Int) > INT_MAX then
          ⟨String.mk cmd, signedValue sg1 d1, signedValue sg2 d2, INT_MAX, out.data⟩
        else
          ⟨String.mk cmd, signedValue sg1 d1, signedValue sg2 d2, (decimalValue d3 : Int),
            out.data⟩ := by
  have hcs := cString_of_chars _
    (request_fields_chars cmd sg1 d1 sg2 d2 d3 pad hcmd hsg1 hd1 hsg2 hd2 hd3 hpad)
  have hword := IStringStream.extractString_word cmd
    (' ' :: (sg1 ++ (d1 ++ ' ' :: (sg2 ++ (d2 ++ ' ' :: (d3 ++ pad)))))) out.command hcmd.1
    (fun c hc => isspace_of_mem_upperOrUnderscore c (hcmd.2 c hc))
    (fun c hc => by
      simp only [List.head?_cons, Option.mem_def, Option.some.injEq] at hc
      subst hc
      decide)
  have hn1 := IStringStream.extractInt_number sg1 d1 (' ' :: (sg2 ++ (d2 ++ ' ' :: (d3 ++ pad))))
    out.txn_id hsg1 hd1 (fun c hc => by
      simp only [List.head?_cons, Option.mem_def, Option.some.injEq] at hc
      subst hc
      decide)
  have hn2 := IStringStream.extractInt_number sg2 d2 (' ' :: (d3 ++ pad))
    out.seq_num hsg2 hd2 (fun c hc => by
      simp only [List.head?_cons, Option.mem_def, Option.some.injEq] at hc
      subst hc
      decide)
  have hn3 := IStringStream.extractInt_number [] d3 pad out.content_len (Or.inl rfl) hd3
    hpad.head_not_digit
  rw [signedValue_nil, List.nil_append] at hn3
  have hnonneg : ¬ ((decimalValue d3 : Int) < INT_MIN) := by
    unfold INT_MIN
    omega
  unfold WireProtocol.extractHeaderFields
  simp only [hcs, hword, List.isEmpty_cons, Bool.not_false, hn1]
  split_ifs with a1 a2 a3 a4 a5
  · simp only [IStringStream.extractInt_not_good]
  · simp only [IStringStream.extractInt_not_good]
  · simp only [hn2, a3, if_true, IStringStream.extractInt_not_good]
  · simp only [hn2, a3, a4, if_true, if_false, IStringStream.extractInt_not_good]
  · simp only [hn2, a3, a4, if_false, List.isEmpty_cons, Bool.not_false, hn3, a5, if_true]
  · simp only [hn2, a3, a4, if_false, List.isEmpty_cons, Bool.not_false, hn3, a5, hnonneg]

/-! ## getContentLength -/

theorem extractHeaderFields_congr (h1 h2 : String) (out : RequestTuple)
    (e : cString h1 = cString h2) :
    WireProtocol.extractHeaderFields h1 out = WireProtocol.extractHeaderFields h2 out := by
  unfold WireProtocol.extractHeaderFields
  rw [e]

/-- The content length read from a header the request format matches is not negative. -/
theorem content_len_nonneg_of_valid (in_request_header : String)
    (hv : WireProtocol.isValidRequestFormat in_request_header = true) :
    0 ≤ (ServerBackend.getClientRequestAsTuple in_request_header none).content_len := by
  unfold WireProtocol.isValidRequestFormat at hv
  rw [Bool.and_eq_true] at hv
  obtain ⟨cmd, sg1, d1, sg2, d2, d3, pad, hx, hcmd, hsg1, hd1, hsg2, hd2, hd3, hpad⟩ :=
    (request_format_rmatch_iff _).1 hv.2
  have hcs := cString_of_chars _
    (request_fields_chars cmd sg1 d1 sg2 d2 d3 pad hcmd hsg1 hd1 hsg2 hd2 hd3 hpad)
  have hc : cString in_request_header
      = cString (String.mk
          (cmd ++ ' ' :: (sg1 ++ (d1 ++ ' ' :: (sg2 ++ (d2 ++ ' ' :: (d3 ++ pad))))))) := by
    rw [hcs, ← hx]
  unfold ServerBackend.getClientRequestAsTuple
  simp only
  rw [extractHeaderFields_congr _ _ _ hc,
    extractHeaderFields_fields cmd sg1 d1 sg2 d2 d3 pad _ hcmd hsg1 hd1 hsg2 hd2 hd3 hpad]
  split_ifs <;> simp only [INT_MAX] <;> omega

/-- Claim C16. For every request header, `getContentLength` returns -1 exactly when the
header fails the request format. In that case it sets the response to ERROR with
transaction id -1, sequence number -1, code 199 and payload "InvalidMessageFormat",
and sets the in-progress flag to false. For a header that matches, it returns a content
length that is not negative and leaves the response and the flag as they were. -/
theorem getContentLength_spec (in_request_header : String) (resp : Response) (ip : Bool) :
    ((getContentLength in_request_header resp ip).1 = -1
      ↔ WireProtocol.isValidRequestFormat in_request_header = false) ∧
    (WireProtocol.isValidRequestFormat in_request_header = false →
      getContentLength in_request_header resp ip
        = (-1, ⟨Constants.error_cmd, -1, -1, Errors.InvalidMessageFormat,
            "InvalidMessageFormat"⟩, false) ∧
      (getContentLength in_request_header resp ip).2.1.err_code = 199) ∧
    (WireProtocol.isValidRequestFormat in_request_header = true →
      0 ≤ (getContentLength in_request_header resp ip).1 ∧
      (getContentLength in_request_header resp ip).2 = (resp, ip)) := by
  cases hv : WireProtocol.isValidRequestFormat in_request_header with
  | false =>
      have e : getContentLength in_request_header resp ip
          = (-1, SET_FORMATTING_ERROR, false) := by
        simp only [getContentLength, hv, Bool.false_eq_true, if_false]
      refine ⟨⟨fun _ => rfl, fun _ => (by rw [e])⟩, fun _ => ?_, fun h => (by cases h)⟩
      rw [e]
      exact ⟨rfl, rfl⟩
  | true =>
      have e : getContentLength in_request_header resp ip
          = ((getClientRequestAsTuple in_request_header none).content_len, resp, ip) := by
        simp only [getContentLength, hv, if_true]
      have hnn := content_len_nonneg_of_valid in_request_header hv
      refine ⟨⟨fun h => ?_, fun h => (by cases h)⟩, fun h => (by cases h), fun _ => ?_⟩
      · rw [e] at h
        have h1 : (getClientRequestAsTuple in_request_header none).content_len = -1 := h
        omega
      · rw [e]
        exact ⟨hnn, rfl⟩

set_option maxRecDepth 100000 in
/-- Claim C16 at two concrete texts of 64 characters: a WRITE header announcing five
bytes, and the same text with the command in lower case. -/
theorem getContentLength_spec_witness :
    (0 ≤ (getContentLength Scenario.header_write Scenario.no_response true).1 ∧
      (getContentLength Scenario.header_write Scenario.no_response true).2
        = (Scenario.no_response, true)) ∧
    (getContentLength Scenario.header_lower_case Scenario.no_response true
        = (-1, ⟨Constants.error_cmd, -1, -1, Errors.InvalidMessageFormat,
            "InvalidMessageFormat"⟩, false) ∧
      (getContentLength Scenario.header_lower_case Scenario.no_response true).2.1.err_code
        = 199) :=
  ⟨(getContentLength_spec Scenario.header_write Scenario.no_response true).2.2 (by decide),
    (getContentLength_spec Scenario.header_lower_case Scenario.no_response true).2.1
      (by decide)⟩

/-! ## Building a header -/

/-- The padding step of `generateResponse` and of `Client::sendRequest` on a text that is
not longer than the header: the text is followed by nothing, or by a delimiter and
padding characters, and the result has the header length. -/
theorem padded_header (n : Nat) (h : String) (hl : h.length ≤ n) :
    ∃ pad : List Char, IsPadding pad ∧
      (if h.length < n then h.push Constants.delimiting_character else h).length ≤ n ∧
      ((if h.length < n then h.push Constants.delimiting_character else h) ++
        String.mk
          (List.replicate
            (n - (if h.length < n then h.push Constants.delimiting_character else h).length)
            Constants.padding_character)).data = h.data ++ pad ∧
      (h.data ++ pad).length = n ∧
      (h.length < n → ∃ k, pad
        = Constants.delimiting_character :: List.replicate k Constants.padding_character) := by
  by_cases hlt : h.length < n
  · refine ⟨Constants.delimiting_character ::
      List.replicate (n - (h.length + 1)) Constants.padding_character, Or.inr ⟨_, rfl⟩, ?_⟩
    rw [if_pos hlt]
    have hpl : (h.push Constants.delimiting_character).length = h.length + 1 :=
      String.length_push _
    refine ⟨by omega, ?_, ?_, fun _ => ⟨_, rfl⟩⟩
    · rw [hpl, String.data_append, String.data_push]
      simp
    · have : h.data.length = h.length := rfl
      simp only [List.length_append, List.length_cons, List.length_replicate]
      omega
  · refine ⟨[], Or.inl rfl, ?_⟩
    rw [if_neg hlt]
    have hn : h.length = n := by omega
    refine ⟨hl, ?_, ?_, fun h1 => absurd h1 hlt⟩
    · rw [hn, Nat.sub_self, String.data_append]
      rfl
    · rw [List.append_nil]
      exact hn

/-- The text of an `int` as a sign and a run of digits that denote it. -/
theorem toString_int_fields (i : Int) :
    ∃ sign ds, (toString i).data = sign ++ ds ∧ IsSign sign ∧ IsRun decimalDigits ds ∧
      signedValue sign ds = i := by
  obtain ⟨sign, ds, h1, h2, h3, h4, _⟩ := toString_int_data i
  refine ⟨sign, ds, h1, ?_, ⟨h3, h4⟩, ?_⟩
  · rcases h2 with ⟨e, _⟩ | ⟨e, _⟩
    · exact Or.inl e
    · exact Or.inr e
  · rcases h2 with ⟨e, hv⟩ | ⟨e, hv⟩
    · rw [e, signedValue_nil, hv]
    · rw [e, hv]
      simp [signedValue]

theorem toString_nat_fields (n : Nat) :
    IsRun decimalDigits (toString n).data ∧ decimalValue (toString n).data = n :=
  ⟨⟨(toString_nat_spec n).1, (toString_nat_spec n).2.1⟩, (toString_nat_spec n).2.2⟩

/-- Claim C18, amended. For a command that is not empty and made of upper-case letters
and underscores, transaction id and sequence number in the range of `int`, and a
payload length `L` of at most 2147483647, whenever the text
`COMMAND TXN_ID SEQ_NUM L` has at most 64 characters, the header the client builds
has exactly 64 characters, is accepted by `isValidRequestFormat`, and
`extractHeaderFields` reads the command, the transaction id, the sequence number
and `L` back from it. -/
theorem request_header_round_trip (in_command : String) (in_txn_id in_seq_num : Int)
    (L : Nat) (hne : in_command ≠ "")
    (hchars : ∀ c ∈ in_command.data, c ∈ upperOrUnderscore)
    (ht : -2147483648 ≤ in_txn_id ∧ in_txn_id ≤ 2147483647)
    (hs : -2147483648 ≤ in_seq_num ∧ in_seq_num ≤ 2147483647)
    (hL : L ≤ 2147483647)
    (hlen : (in_command ++ " " ++ toString in_txn_id ++ " " ++ toString in_seq_num ++ " "
      ++ toString L).length ≤ 64) :
    ∃ header, Client.requestHeader in_command in_txn_id in_seq_num L = some header ∧
      header.length = 64 ∧
      WireProtocol.isValidRequestFormat header = true ∧
      ∀ out_message : RequestTuple,
        WireProtocol.extractHeaderFields header out_message
          = ⟨in_command, in_txn_id, in_seq_num, (L : Int), out_message.data⟩ := by
  obtain ⟨pad, hpad, hle, hdata, hlen64, _⟩ := padded_header 64 _ hlen
  obtain ⟨sg1, d1, e1, hsg1, hd1, hv1⟩ := toString_int_fields in_txn_id
  obtain ⟨sg2, d2, e2, hsg2, hd2, hv2⟩ := toString_int_fields in_seq_num
  obtain ⟨hd3, hv3⟩ := toString_nat_fields L
  have hcmd : IsRun upperOrUnderscore in_command.data := by
    refine ⟨fun e => hne ?_, hchars⟩
    exact String.ext e
  have hshape : (in_command ++ " " ++ toString in_txn_id ++ " " ++ toString in_seq_num ++ " "
      ++ toString L).data ++ pad
      = in_command.data ++ ' ' :: (sg1 ++ (d1 ++ ' ' :: (sg2 ++ (d2 ++ ' ' ::
          ((toString L).data ++ pad))))) := by
    simp only [String.data_append, e1, e2]
    simp
  rw [hshape] at hdata hlen64
  have hchars64 := request_fields_chars _ sg1 d1 sg2 d2 _ pad hcmd hsg1 hd1 hsg2 hd2 hd3 hpad
  refine ⟨String.mk (in_command.data ++ ' ' :: (sg1 ++ (d1 ++ ' ' :: (sg2 ++ (d2 ++ ' ' ::
    ((toString L).data ++ pad)))))), ?_, hlen64, ?_, ?_⟩
  · exact (if_pos hle).trans (congrArg some (String.ext hdata))
  · unfold WireProtocol.isValidRequestFormat
    rw [cString_of_chars _ hchars64, Bool.and_eq_true]
    exact ⟨lookaheadLength_of_chars _ _ hlen64 hchars64,
      (request_format_rmatch_iff _).2
        ⟨_, sg1, d1, sg2, d2, _, pad, rfl, hcmd, hsg1, hd1, hsg2, hd2, hd3, hpad⟩⟩
  · intro out_message
    rw [extractHeaderFields_fields _ sg1 d1 sg2 d2 _ pad out_message hcmd hsg1 hd1 hsg2 hd2
      hd3 hpad, hv1, hv2, hv3]
    have a1 : ¬ in_txn_id > INT_MAX := by unfold INT_MAX; omega
    have a2 : ¬ in_txn_id < INT_MIN := by unfold INT_MIN; omega
    have a3 : ¬ in_seq_num > INT_MAX := by unfold INT_MAX; omega
    have a4 : ¬ in_seq_num < INT_MIN := by unfold INT_MIN; omega
    have a5 : ¬ (L : Int) > INT_MAX := by unfold INT_MAX; omega
    simp only [a1, a2, a3, a4, a5, if_false]

set_option maxRecDepth 100000 in
/-- Claim C18 as stated fails in two ways. For a payload of 2147483648 bytes the text
`WRITE 7 1 2147483648` has 20 characters and the header is valid, but
`extractHeaderFields` reads the content length 2147483647 back, the largest `int`. And
for the empty command, which has no character other than upper-case letters and
underscores, the header built is not accepted by `isValidRequestFormat`. -/
theorem request_header_round_trip_fails :
    (("WRITE" ++ " " ++ toString (7 : Int) ++ " " ++ toString (1 : Int) ++ " "
        ++ toString (2147483648 : Nat)).length = 20 ∧
      (Client.requestHeader "WRITE" 7 1 2147483648).map
        (fun header => (header.length, WireProtocol.isValidRequestFormat header,
          WireProtocol.extractHeaderFields header ⟨"", 0, 0, 0, ""⟩))
        = some (64, true, ⟨"WRITE", 7, 1, 2147483647, ""⟩)) ∧
    ((∀ c ∈ "".data, c ∈ upperOrUnderscore) ∧
      (Client.requestHeader "" 7 1 5).map
        (fun header => (header.length, WireProtocol.isValidRequestFormat header))
        = some (64, false)) :=
  ⟨⟨by decide, by decide⟩, ⟨by decide, by decide⟩⟩

/-- The amended claim C18 at a concrete request: WRITE of five bytes as fragment 1 of
transaction 7. -/
theorem request_header_round_trip_witness :
    ∃ header, Client.requestHeader "WRITE" 7 1 5 = some header ∧
      header.length = 64 ∧
      WireProtocol.isValidRequestFormat header = true ∧
      ∀ out_message : RequestTuple,
        WireProtocol.extractHeaderFields header out_message
          = ⟨"WRITE", 7, 1, ((5 : Nat) : Int), out_message.data⟩ :=
  request_header_round_trip "WRITE" 7 1 5 (by decide) (by decide) (by decide) (by decide)
    (by decide) (by decide)

/-! ## generateResponse -/

/-- The characters of a header made of the pieces a response format admits. -/
theorem response_fields_chars (cmd sg1 d1 sg2 d2 d3 d4 pad : List Char)
    (hcmd : IsRun upperOrUnderscore cmd) (hsg1 : IsSign sg1) (hd1 : IsRun decimalDigits d1)
    (hsg2 : IsSign sg2) (hd2 : IsRun decimalDigits d2) (hd3 : IsRun decimalDigits d3)
    (hd4 : IsRun decimalDigits d4) (hpad : IsPadding pad) :
    ∀ c ∈ cmd ++ ' ' :: (sg1 ++ (d1 ++ ' ' :: (sg2 ++ (d2 ++ ' ' :: (d3 ++ ' ' ::
        (d4 ++ pad)))))),
      c ∈ upperOrUnderscore ++ decimalDigits ++ ['-', ' '] := by
  intro c hc
  simp only [List.mem_append, List.mem_cons] at hc
  rcases hc with h | rfl | h | h | rfl | h | h | rfl | h | rfl | h | h
  · exact IsRun_chars hcmd upperOrUnderscore_chars c h
  · exact space_chars
  · exact IsSign_chars hsg1 c h
  · exact IsRun_chars hd1 decimalDigits_chars c h
  · exact space_chars
  · exact IsSign_chars hsg2 c h
  · exact IsRun_chars hd2 decimalDigits_chars c h
  · exact space_chars
  · exact IsRun_chars hd3 decimalDigits_chars c h
  · exact space_chars
  · exact IsRun_chars hd4 decimalDigits_chars c h
  · exact IsPadding_chars hpad c h

/-- The error code `generateResponse` writes is `getErrorCode` of the error kind, a
number below 1000. -/
theorem err_code_eq (in_error : Errors) :
    ∃ m : Nat, m < 1000 ∧
      (if Errors.nil ≠ in_error then Errors.getErrorCode in_error else (0 : Int)) = (m : Int) ∧
      Errors.getErrorCode in_error = (m : Int) := by
  cases in_error <;> exact ⟨_, by decide, rfl, rfl⟩

theorem response_command_fields (in_command : String)
    (hcmd : in_command = Constants.ack_cmd ∨ in_command = Constants.ask_resend_cmd ∨
      in_command = Constants.error_cmd) :
    cString in_command = in_command ∧ IsRun upperOrUnderscore in_command.data ∧
      in_command.length ≤ 10 := by
  rcases hcmd with rfl | rfl | rfl
  · exact ⟨by decide, ⟨by decide, by decide⟩, by decide⟩
  · exact ⟨by decide, ⟨by decide, by decide⟩, by decide⟩
  · exact ⟨by decide, ⟨by decide, by decide⟩, by decide⟩

/-- The response `generateResponse` builds for the commands of the backend: the header,
of 128 characters and matching the response format, followed by the payload. -/
theorem generateResponse_padded (in_command : String) (in_txn_id in_seq_num : Int)
    (in_error : Errors) (in_data : Data)
    (hcmd : in_command = Constants.ack_cmd ∨ in_command = Constants.ask_resend_cmd ∨
      in_command = Constants.error_cmd)
    (ht : -2147483648 ≤ in_txn_id ∧ in_txn_id ≤ 2147483647)
    (hs : -2147483648 ≤ in_seq_num ∧ in_seq_num ≤ 2147483647)
    (hsize : in_data.length < 2 ^ 64) :
    ∃ (header : String) (k : Nat),
      generateResponse in_command in_txn_id in_seq_num in_error in_data
        = some (header ++ in_data) ∧
      header.length = 128 ∧
      WireProtocol.isValidResponseFormat header = true ∧
      header = in_command ++ " " ++ toString in_txn_id ++ " " ++ toString in_seq_num ++ " "
        ++ toString (Errors.getErrorCode in_error) ++ " " ++ toString in_data.length ++ " "
        ++ String.mk (List.replicate k '0') := by
  obtain ⟨hcs, hcmdrun, hcmdlen⟩ := response_command_fields in_command hcmd
  obtain ⟨m, hm, hcode, hcode1⟩ := err_code_eq in_error
  obtain ⟨sg1, d1, e1, hsg1, hd1, hv1⟩ := toString_int_fields in_txn_id
  obtain ⟨sg2, d2, e2, hsg2, hd2, hv2⟩ := toString_int_fields in_seq_num
  obtain ⟨hd3, _⟩ := toString_nat_fields m
  obtain ⟨hd4, _⟩ := toString_nat_fields in_data.length
  have hmstr : toString (m : Int) = toString m := rfl
  have hl1 := toString_int_length in_txn_id ht.1 ht.2
  have hl2 := toString_int_length in_seq_num hs.1 hs.2
  have hl3 : (toString m).length ≤ 3 := toString_nat_length m 3 (by decide) (by omega)
  have hl4 : (toString in_data.length).length ≤ 20 :=
    toString_nat_length in_data.length 20 (by decide) (by omega)
  have hlt : (cString in_command ++ String.singleton Constants.delimiting_character ++
      toString in_txn_id ++ String.singleton Constants.delimiting_character ++
      toString in_seq_num ++ String.singleton Constants.delimiting_character ++
      toString (if Errors.nil ≠ in_error then Errors.getErrorCode in_error else (0 : Int)) ++
      String.singleton Constants.delimiting_character ++
      toString in_data.length).length < 128 := by
    rw [hcs, hcode, hmstr]
    simp only [String.length_append, String.length_singleton]
    omega
  obtain ⟨pad, hpad, hle, hdata, hlen128, hk⟩ := padded_header 128 _ (Nat.le_of_lt hlt)
  obtain ⟨k, hk⟩ := hk hlt
  have hshape : (cString in_command ++ String.singleton Constants.delimiting_character ++
      toString in_txn_id ++ String.singleton Constants.delimiting_character ++
      toString in_seq_num ++ String.singleton Constants.delimiting_character ++
      toString (if Errors.nil ≠ in_error then Errors.getErrorCode in_error else (0 : Int)) ++
      String.singleton Constants.delimiting_character ++
      toString in_data.length).data ++ pad
      = in_command.data ++ ' ' :: (sg1 ++ (d1 ++ ' ' :: (sg2 ++ (d2 ++ ' ' ::
          ((toString m).data ++ ' ' :: ((toString in_data.length).data ++ pad)))))) := by
    rw [hcs, hcode, hmstr]
    simp only [String.data_append, e1, e2]
    simp [Constants.delimiting_character]
  rw [hshape] at hdata hlen128
  have hchars128 := response_fields_chars _ sg1 d1 sg2 d2 _ _ pad hcmdrun hsg1 hd1 hsg2 hd2
    hd3 hd4 hpad
  refine ⟨String.mk (in_command.data ++ ' ' :: (sg1 ++ (d1 ++ ' ' :: (sg2 ++ (d2 ++ ' ' ::
    ((toString m).data ++ ' ' :: ((toString in_data.length).data ++ pad))))))), k, ?_,
    hlen128, ?_, ?_⟩
  · exact (if_pos hle).trans (congrArg some (congrArg (· ++ in_data) (String.ext hdata)))
  · unfold WireProtocol.isValidResponseFormat
    rw [cString_of_chars _ hchars128, Bool.and_eq_true]
    exact ⟨lookaheadLength_of_chars _ _ hlen128 hchars128,
      (response_format_rmatch_iff _).2
        ⟨_, sg1, d1, sg2, d2, _, _, pad, rfl, hcmdrun, hsg1, hd1, hsg2, hd2, hd3, hd4, hpad⟩⟩
  · apply String.ext
    rw [hcode1, hmstr]
    simp only [String.data_append, e1, e2, hk]
    simp [Constants.delimiting_character, Constants.padding_character]

/-- Claim C19. For the commands ACK, ASK_RESEND and ERROR, a transaction id and a
sequence number in the range of `int`, any error kind or none, and any payload (its
length a `size_t`), `generateResponse` returns a header followed by the payload. The
header has exactly 128 characters, so it is the first 128 characters of the response;
it matches the response format; and it reads
`COMMAND TXN_ID SEQ_NUM ERROR_CODE CONTENT_LEN`, a delimiter and padding, where
CONTENT_LEN is the decimal text of the length of the payload and ERROR_CODE that of
the code of the error kind. -/
theorem generateResponse_spec (in_command : String) (in_txn_id in_seq_num : Int)
    (in_error : Errors) (in_data : Data)
    (hcmd : in_command = Constants.ack_cmd ∨ in_command = Constants.ask_resend_cmd ∨
      in_command = Constants.error_cmd)
    (ht : -2147483648 ≤ in_txn_id ∧ in_txn_id ≤ 2147483647)
    (hs : -2147483648 ≤ in_seq_num ∧ in_seq_num ≤ 2147483647)
    (hsize : in_data.length < 2 ^ 64) :
    ∃ (header : String) (k : Nat),
      generateResponse in_command in_txn_id in_seq_num in_error in_data
        = some (header ++ in_data) ∧
      header.length = 128 ∧
      String.mk ((header ++ in_data).data.take 128) = header ∧
      WireProtocol.isValidResponseFormat header = true ∧
      header = in_command ++ " " ++ toString in_txn_id ++ " " ++ toString in_seq_num ++ " "
        ++ toString (Errors.getErrorCode in_error) ++ " " ++ toString in_data.length ++ " "
        ++ String.mk (List.replicate k '0') := by
  obtain ⟨header, k, hgen, hlen, hvalid, htext⟩ :=
    generateResponse_padded in_command in_txn_id in_seq_num in_error in_data hcmd ht hs hsize
  refine ⟨header, k, hgen, hlen, ?_, hvalid, htext⟩
  apply String.ext
  rw [String.data_append]
  exact List.take_left' hlen

/-- Claim C19 at a concrete response: the ERROR that answers a text that is no request
header. -/
theorem generateResponse_spec_witness :
    ∃ (header : String) (k : Nat),
      generateResponse "ERROR" (-1) (-1) Errors.InvalidMessageFormat "InvalidMessageFormat"
        = some (header ++ "InvalidMessageFormat") ∧
      header.length = 128 ∧
      String.mk ((header ++ "InvalidMessageFormat").data.take 128) = header ∧
      WireProtocol.isValidResponseFormat header = true ∧
      header = "ERROR" ++ " " ++ toString (-1 : Int) ++ " " ++ toString (-1 : Int) ++ " "
        ++ toString (Errors.getErrorCode Errors.InvalidMessageFormat) ++ " "
        ++ toString "InvalidMessageFormat".length ++ " "
        ++ String.mk (List.replicate k '0') :=
  generateResponse_spec "ERROR" (-1) (-1) Errors.InvalidMessageFormat "InvalidMessageFormat"
    (Or.inr (Or.inr rfl)) (by decide) (by decide) (by decide)

/-! ## The error code and the payload of every response -/

namespace ServerBackend

theorem ErrorOrAck_error (s : ServerBackend) (txn_id seq_num : Int) (error : Errors)
    (h1 : error ≠ Errors.nil) (h2 : error ≠ Errors.TransactionIdInUse) :
    (SET_ERROR_AND_RETURN s txn_id seq_num error).out_server_response_str.ErrorOrAck :=
  Or.inl ⟨rfl, h1, h2, rfl⟩

theorem ErrorOrAck_ack (s : ServerBackend) (txn_id seq_num : Int) (ip : Bool) :
    (SET_ACK_AND_RETURN s txn_id seq_num ip).out_server_response_str.ErrorOrAck :=
  Or.inr ⟨Or.inl rfl, rfl⟩

theorem ErrorOrAck_ask_resend (s : ServerBackend) (txn_id seq_num : Int) (ip : Bool) :
    (SET_ASK_RESEND_AND_RETURN s txn_id seq_num ip).out_server_response_str.ErrorOrAck :=
  Or.inr ⟨Or.inr rfl, rfl⟩

theorem ErrorOrAck_read (s : ServerBackend) (txn_id seq_num : Int) (buffer : String)
    (ip : Bool) :
    (SET_READ_AND_RETURN s txn_id seq_num buffer ip).out_server_response_str.ErrorOrAck :=
  Or.inr ⟨Or.inl rfl, rfl⟩

theorem ErrorOrAck_READ (env : Environment) (s : ServerBackend) (req : RequestTuple)
    (ip : Bool) : (READ env s req ip).out_server_response_str.ErrorOrAck := by
  unfold READ
  split
  · exact ErrorOrAck_error _ _ _ _ (by decide) (by decide)
  · split
    · exact ErrorOrAck_error _ _ _ _ (by decide) (by decide)
    · exact ErrorOrAck_read _ _ _ _ _

theorem ErrorOrAck_NEW_TXN (env : Environment) (s : ServerBackend) (req : RequestTuple)
    (ip : Bool) (out : Outcome) (h : NEW_TXN env s req ip = some out) :
    out.out_server_response_str.ErrorOrAck := by
  unfold NEW_TXN at h
  split at h
  · split at h
    · cases h
    · split at h
      · cases h
        exact ErrorOrAck_error _ _ _ _ (by decide) (by decide)
      · cases h
        exact ErrorOrAck_ack _ _ _ _
  · cases h
    exact ErrorOrAck_error _ _ _ _ (by decide) (by decide)

theorem ErrorOrAck_WRITE (env : Environment) (s : ServerBackend) (req : RequestTuple)
    (ip : Bool) : (WRITE env s req ip).out_server_response_str.ErrorOrAck := by
  by_cases hn : req.txn_id ∈ s.m_commits
  · rw [WRITE_committed env s req ip hn]
    exact ErrorOrAck_error _ _ _ _ (by decide) (by decide)
  · cases ht : UnorderedMap.find s.m_txn_id_to_transaction_attributes req.txn_id with
    | none =>
        rw [WRITE_unknown env s req ip hn ht]
        exact ErrorOrAck_error _ _ _ _ (by decide) (by decide)
    | some t =>
        rw [WRITE_live env s req ip t hn ht]
        split
        · exact ErrorOrAck_error _ _ _ _ (by decide) (by decide)
        · exact ErrorOrAck_ack _ _ _ _

theorem ErrorOrAck_COMMIT (env : Environment) (s : ServerBackend) (req : RequestTuple)
    (ip : Bool) : (COMMIT env s req ip).out_server_response_str.ErrorOrAck := by
  by_cases hn : req.txn_id ∈ s.m_commits
  · rw [COMMIT_committed env s req ip hn]
    exact ErrorOrAck_ack _ _ _ _
  · cases ht : UnorderedMap.find s.m_txn_id_to_transaction_attributes req.txn_id with
    | none =>
        rw [COMMIT_unknown env s req ip hn ht]
        exact ErrorOrAck_error _ _ _ _ (by decide) (by decide)
    | some t =>
        by_cases hlt : req.seq_num < t.max_seq_num
        · rw [COMMIT_low env s req ip t hn ht hlt]
          exact ErrorOrAck_error _ _ _ _ (by decide) (by decide)
        · cases hm : firstMissing t.buffers req.seq_num with
          | some missing =>
              rw [COMMIT_missing env s req ip t missing hn ht hlt hm]
              exact ErrorOrAck_ask_resend _ _ _ _
          | none =>
              cases ho : File.ctor env s.disk (s.m_directory ++ t.sp_file_attributes)
                  OpenFlags.O_CREAT_O_WRONLY_O_APPEND with
              | error e =>
                  rw [COMMIT_open_failed env s req ip t e hn ht hlt hm ho]
                  exact ErrorOrAck_error _ _ _ _ (by decide) (by decide)
              | ok p =>
                  obtain ⟨disk0, file⟩ := p
                  rcases hw : File.writeAll disk0 file (fragments t.buffers req.seq_num)
                    with ⟨disk1, file1, flag⟩
                  cases flag
                  · rw [COMMIT_write_failed env s req ip t disk0 disk1 file file1 hn ht hlt
                      hm ho hw]
                    exact ErrorOrAck_error _ _ _ _ (by decide) (by decide)
                  · rw [COMMIT_flushed env s req ip t disk0 disk1 file file1 hn ht hlt hm
                      ho hw]
                    exact ErrorOrAck_ack _ _ _ _

theorem ErrorOrAck_ABORT (env : Environment) (s : ServerBackend) (req : RequestTuple)
    (ip : Bool) : (ABORT env s req ip).out_server_response_str.ErrorOrAck := by
  by_cases hn : req.txn_id ∈ s.m_commits
  · rw [ABORT_committed env s req ip hn]
    exact ErrorOrAck_error _ _ _ _ (by decide) (by decide)
  · cases ht : UnorderedMap.find s.m_txn_id_to_transaction_attributes req.txn_id with
    | none =>
        simp only [ABORT, hn, ht, if_false]
        exact ErrorOrAck_error _ _ _ _ (by decide) (by decide)
    | some t =>
        rw [ABORT_live env s req ip t hn ht]
        exact ErrorOrAck_ack _ _ _ _

theorem ErrorOrAck_processCommand (env : Environment) (s : ServerBackend)
    (req : RequestTuple) (ip : Bool) (out : Outcome)
    (h : processCommand env s req ip = some out) :
    out.out_server_response_str.ErrorOrAck := by
  unfold processCommand at h
  split at h
  · cases h
    exact ErrorOrAck_READ env s req ip
  · split at h
    · exact ErrorOrAck_NEW_TXN env s req ip out h
    · split at h
      · cases h
        exact ErrorOrAck_WRITE env s req ip
      · split at h
        · cases h
          exact ErrorOrAck_COMMIT env s req ip
        · split at h
          · cases h
            exact ErrorOrAck_ABORT env s req ip
          · cases h
            exact ErrorOrAck_error _ _ _ _ (by decide) (by decide)

end ServerBackend

theorem getErrorMessage_length (K : Errors) : (Errors.getErrorMessage K).length < 2 ^ 64 := by
  cases K <;> decide

/-- Claim C20. The error kinds have the numeric codes 199 to 212 of the table, 203
aside. Every response a command function sets through `processCommand` is either an
ERROR for an error kind K of that table, whose ERROR_CODE is the code of K, whose
payload is the message of K and whose CONTENT_LEN is the length of that message, or an
ACK or ASK_RESEND with ERROR_CODE 0; the response `getContentLength` sets for a text
that is no request header is the ERROR of InvalidMessageFormat. And the text
`generateResponse` builds for the ERROR of a kind K carries the decimal code of K and
the decimal length of its message in the header, followed by the message. -/
theorem responses_carry_error_code :
    (Errors.getErrorCode Errors.InvalidMessageFormat = 199 ∧
      Errors.getErrorCode Errors.InvalidCommand = 200 ∧
      Errors.getErrorCode Errors.InvalidTransactionId = 201 ∧
      Errors.getErrorCode Errors.InvalidOperation = 202 ∧
      Errors.getErrorCode Errors.InvalidSequenceNumber = 204 ∧
      Errors.getErrorCode Errors.RepeatedSequenceNumber = 205 ∧
      Errors.getErrorCode Errors.ErrorOpeningFile = 206 ∧
      Errors.getErrorCode Errors.ErrorReadingFile = 207 ∧
      Errors.getErrorCode Errors.ErrorWritingFile = 208 ∧
      Errors.getErrorCode Errors.ErrorCreatingTransaction = 209 ∧
      Errors.getErrorCode Errors.CommitWithInvalidSequenceNumber = 210 ∧
      Errors.getErrorCode Errors.TransactionAlreadyCommitted = 211 ∧
      Errors.getErrorCode Errors.TransactionAborted = 212) ∧
    (∀ (env : Environment) (s : ServerBackend) (req : RequestTuple) (ip : Bool)
        (out : Outcome), processCommand env s req ip = some out →
      (out.out_server_response_str.command = Constants.error_cmd ∧
        out.out_server_response_str.error ≠ Errors.nil ∧
        out.out_server_response_str.error ≠ Errors.TransactionIdInUse ∧
        out.out_server_response_str.err_code
          = Errors.getErrorCode out.out_server_response_str.error ∧
        out.out_server_response_str.data
          = Errors.getErrorMessage out.out_server_response_str.error ∧
        out.out_server_response_str.content_len
          = (Errors.getErrorMessage out.out_server_response_str.error).length) ∨
      ((out.out_server_response_str.command = Constants.ack_cmd ∨
          out.out_server_response_str.command = Constants.ask_resend_cmd) ∧
        out.out_server_response_str.err_code = 0)) ∧
    (∀ (in_request_header : String) (resp : Response) (ip : Bool),
      WireProtocol.isValidRequestFormat in_request_header = false →
      (getContentLength in_request_header resp ip).2.1
        = ⟨Constants.error_cmd, -1, -1, Errors.InvalidMessageFormat,
            Errors.getErrorMessage Errors.InvalidMessageFormat⟩) ∧
    (∀ (K : Errors) (txn_id seq_num : Int),
      -2147483648 ≤ txn_id ∧ txn_id ≤ 2147483647 →
      -2147483648 ≤ seq_num ∧ seq_num ≤ 2147483647 →
      ∃ k : Nat,
        generateResponse Constants.error_cmd txn_id seq_num K (Errors.getErrorMessage K)
          = some (Constants.error_cmd ++ " " ++ toString txn_id ++ " " ++ toString seq_num
              ++ " " ++ toString (Errors.getErrorCode K) ++ " "
              ++ toString (Errors.getErrorMessage K).length ++ " "
              ++ String.mk (List.replicate k '0') ++ Errors.getErrorMessage K)) := by
  refine ⟨⟨rfl, rfl, rfl, rfl, rfl, rfl, rfl, rfl, rfl, rfl, rfl, rfl, rfl⟩, ?_, ?_, ?_⟩
  · intro env s req ip out h
    rcases ErrorOrAck_processCommand env s req ip out h with ⟨h1, h2, h3, h4⟩ | ⟨h1, h2⟩
    · left
      refine ⟨h1, h2, h3, rfl, h4, ?_⟩
      unfold Response.content_len
      rw [h4]
    · right
      refine ⟨h1, ?_⟩
      unfold Response.err_code
      rw [h2]
      rfl
  · intro in_request_header resp ip hv
    simp only [getContentLength, hv, Bool.false_eq_true, if_false]
    rfl
  · intro K txn_id seq_num ht hs
    obtain ⟨header, k, h1, _, _, h5⟩ :=
      generateResponse_padded Constants.error_cmd txn_id seq_num K (Errors.getErrorMessage K)
        (Or.inr (Or.inr rfl)) ht hs (getErrorMessage_length K)
    exact ⟨k, by rw [h1, h5]⟩

/-- Claim C20 at concrete runs: the DELETE request on the server with transaction 7
open, the text with a command in lower case, and the ERROR of InvalidCommand for
transaction 7 and sequence number 3. -/
theorem responses_carry_error_code_witness :
    (processCommand (Scenario.env []) Scenario.opened Scenario.delete_7 true
        = some ⟨Scenario.opened, Scenario.invalid_command_response, false⟩ ∧
      ((Scenario.invalid_command_response.command = Constants.error_cmd ∧
          Scenario.invalid_command_response.error ≠ Errors.nil ∧
          Scenario.invalid_command_response.error ≠ Errors.TransactionIdInUse ∧
          Scenario.invalid_command_response.err_code
            = Errors.getErrorCode Scenario.invalid_command_response.error ∧
          Scenario.invalid_command_response.data
            = Errors.getErrorMessage Scenario.invalid_command_response.error ∧
          Scenario.invalid_command_response.content_len
            = (Errors.getErrorMessage Scenario.invalid_command_response.error).length) ∨
        ((Scenario.invalid_command_response.command = Constants.ack_cmd ∨
            Scenario.invalid_command_response.command = Constants.ask_resend_cmd) ∧
          Scenario.invalid_command_response.err_code = 0))) ∧
    (getContentLength Scenario.header_lower_case Scenario.no_response true).2.1
      = ⟨Constants.error_cmd, -1, -1, Errors.InvalidMessageFormat,
          Errors.getErrorMessage Errors.InvalidMessageFormat⟩ ∧
    ∃ k : Nat,
      generateResponse Constants.error_cmd 7 3 Errors.InvalidCommand
          (Errors.getErrorMessage Errors.InvalidCommand)
        = some (Constants.error_cmd ++ " " ++ toString (7 : Int) ++ " " ++ toString (3 : Int)
            ++ " " ++ toString (Errors.getErrorCode Errors.InvalidCommand) ++ " "
            ++ toString (Errors.getErrorMessage Errors.InvalidCommand).length ++ " "
            ++ String.mk (List.replicate k '0')
            ++ Errors.getErrorMessage Errors.InvalidCommand) :=
  ⟨⟨by decide,
      responses_carry_error_code.2.1 (Scenario.env []) Scenario.opened Scenario.delete_7 true
        ⟨Scenario.opened, Scenario.invalid_command_response, false⟩ (by decide)⟩,
    responses_carry_error_code.2.2.1 Scenario.header_lower_case Scenario.no_response true
      (by decide),
    responses_carry_error_code.2.2.2 Errors.InvalidCommand 7 3 (by decide) (by decide)⟩

/-! ## The flag `out_transaction_in_progress` -/

namespace ServerBackend

theorem ack_cmd_ne_error_cmd : Constants.ack_cmd ≠ Constants.error_cmd := by decide

theorem ask_resend_cmd_ne_error_cmd : Constants.ask_resend_cmd ≠ Constants.error_cmd := by
  decide

theorem FlagIs_error (s : ServerBackend) (txn_id seq_num : Int) (error : Errors)
    (expected : Bool) : (SET_ERROR_AND_RETURN s txn_id seq_num error).FlagIs expected :=
  Or.inl ⟨rfl, rfl⟩

theorem FlagIs_ack (s : ServerBackend) (txn_id seq_num : Int) (ip : Bool) :
    (SET_ACK_AND_RETURN s txn_id seq_num ip).FlagIs ip :=
  Or.inr ⟨ack_cmd_ne_error_cmd, rfl⟩

theorem FlagIs_ask_resend (s : ServerBackend) (txn_id seq_num : Int) (ip : Bool) :
    (SET_ASK_RESEND_AND_RETURN s txn_id seq_num ip).FlagIs ip :=
  Or.inr ⟨ask_resend_cmd_ne_error_cmd, rfl⟩

theorem FlagIs_read (s : ServerBackend) (txn_id seq_num : Int) (buffer : String)
    (ip : Bool) : (SET_READ_AND_RETURN s txn_id seq_num buffer ip).FlagIs ip :=
  Or.inr ⟨ack_cmd_ne_error_cmd, rfl⟩

theorem FlagIs_READ (env : Environment) (s : ServerBackend) (req : RequestTuple)
    (ip : Bool) : (READ env s req ip).FlagIs ip := by
  unfold READ
  split
  · exact FlagIs_error _ _ _ _ _
  · split
    · exact FlagIs_error _ _ _ _ _
    · exact FlagIs_read _ _ _ _ _

theorem FlagIs_NEW_TXN (env : Environment) (s : ServerBackend) (req : RequestTuple)
    (ip : Bool) (out : Outcome) (h : NEW_TXN env s req ip = some out) : out.FlagIs ip := by
  unfold NEW_TXN at h
  split at h
  · split at h
    · cases h
    · split at h
      · cases h
        exact FlagIs_error _ _ _ _ _
      · cases h
        exact FlagIs_ack _ _ _ _
  · cases h
    exact FlagIs_error _ _ _ _ _

theorem FlagIs_WRITE (env : Environment) (s : ServerBackend) (req : RequestTuple)
    (ip : Bool) : (WRITE env s req ip).FlagIs ip := by
  by_cases hn : req.txn_id ∈ s.m_commits
  · rw [WRITE_committed env s req ip hn]
    exact FlagIs_error _ _ _ _ _
  · cases ht : UnorderedMap.find s.m_txn_id_to_transaction_attributes req.txn_id with
    | none =>
        rw [WRITE_unknown env s req ip hn ht]
        exact FlagIs_error _ _ _ _ _
    | some t =>
        rw [WRITE_live env s req ip t hn ht]
        split
        · exact FlagIs_error _ _ _ _ _
        · exact FlagIs_ack _ _ _ _

theorem FlagIs_COMMIT (env : Environment) (s : ServerBackend) (req : RequestTuple)
    (ip : Bool) : (COMMIT env s req ip).FlagIs ip := by
  by_cases hn : req.txn_id ∈ s.m_commits
  · rw [COMMIT_committed env s req ip hn]
    exact FlagIs_ack _ _ _ _
  · cases ht : UnorderedMap.find s.m_txn_id_to_transaction_attributes req.txn_id with
    | none =>
        rw [COMMIT_unknown env s req ip hn ht]
        exact FlagIs_error _ _ _ _ _
    | some t =>
        by_cases hlt : req.seq_num < t.max_seq_num
        · rw [COMMIT_low env s req ip t hn ht hlt]
          exact FlagIs_error _ _ _ _ _
        · cases hm : firstMissing t.buffers req.seq_num with
          | some missing =>
              rw [COMMIT_missing env s req ip t missing hn ht hlt hm]
              exact FlagIs_ask_resend _ _ _ _
          | none =>
              cases ho : File.ctor env s.disk (s.m_directory ++ t.sp_file_attributes)
                  OpenFlags.O_CREAT_O_WRONLY_O_APPEND with
              | error e =>
                  rw [COMMIT_open_failed env s req ip t e hn ht hlt hm ho]
                  exact FlagIs_error _ _ _ _ _
              | ok p =>
                  obtain ⟨disk0, file⟩ := p
                  rcases hw : File.writeAll disk0 file (fragments t.buffers req.seq_num)
                    with ⟨disk1, file1, flag⟩
                  cases flag
                  · rw [COMMIT_write_failed env s req ip t disk0 disk1 file file1 hn ht hlt
                      hm ho hw]
                    exact FlagIs_error _ _ _ _ _
                  · rw [COMMIT_flushed env s req ip t disk0 disk1 file file1 hn ht hlt hm
                      ho hw]
                    exact FlagIs_ack _ _ _ _

theorem FlagIs_ABORT (env : Environment) (s : ServerBackend) (req : RequestTuple)
    (ip : Bool) : (ABORT env s req ip).FlagIs false := by
  by_cases hn : req.txn_id ∈ s.m_commits
  · rw [ABORT_committed env s req ip hn]
    exact FlagIs_error _ _ _ _ _
  · cases ht : UnorderedMap.find s.m_txn_id_to_transaction_attributes req.txn_id with
    | none =>
        simp only [ABORT, hn, ht, if_false]
        exact FlagIs_error _ _ _ _ _
    | some t =>
        rw [ABORT_live env s req ip t hn ht]
        exact FlagIs_ack _ _ _ _

theorem FlagIs_processCommand (env : Environment) (s : ServerBackend) (req : RequestTuple)
    (ip : Bool) (out : Outcome) (h : processCommand env s req ip = some out) :
    out.FlagIs (if req.command = Constants.abort_cmd then false else ip) := by
  unfold processCommand at h
  split at h
  · rename_i hc
    cases h
    rw [if_neg (by rw [hc]; decide)]
    exact FlagIs_READ env s req ip
  · split at h
    · rename_i hc
      rw [if_neg (by rw [hc]; decide)]
      exact FlagIs_NEW_TXN env s req ip out h
    · split at h
      · rename_i hc
        cases h
        rw [if_neg (by rw [hc]; decide)]
        exact FlagIs_WRITE env s req ip
      · split at h
        · rename_i hc
          cases h
          rw [if_neg (by rw [hc]; decide)]
          exact FlagIs_COMMIT env s req ip
        · split at h
          · rename_i hc
            cases h
            rw [if_pos hc]
            exact FlagIs_ABORT env s req ip
          · cases h
            exact FlagIs_error _ _ _ _ _

/-- An ERROR of `processCommand` comes with the flag cleared. -/
theorem processCommand_error_flag (env : Environment) (s : ServerBackend)
    (req : RequestTuple) (ip : Bool) (out : Outcome)
    (h : processCommand env s req ip = some out)
    (he : out.out_server_response_str.command = Constants.error_cmd) :
    out.out_transaction_in_progress = false := by
  rcases FlagIs_processCommand env s req ip out h with ⟨_, h2⟩ | ⟨h1, _⟩
  · exact h2
  · exact absurd he h1

end ServerBackend

/-- Claim C27. For every response of `processCommand` that is not an ERROR: a COMMIT
leaves the flag `out_transaction_in_progress` as it was, an ABORT clears it, and every
request other than ABORT leaves it as it was. -/
theorem ABORT_alone_clears_in_progress (env : Environment) (s : ServerBackend)
    (req : RequestTuple) (ip : Bool) (out : Outcome)
    (h : processCommand env s req ip = some out)
    (hok : out.out_server_response_str.command ≠ Constants.error_cmd) :
    (req.command = Constants.commit_cmd → out.out_transaction_in_progress = ip) ∧
    (req.command = Constants.abort_cmd →
      out.out_server_response_str.command = Constants.ack_cmd ∧
      out.out_transaction_in_progress = false) ∧
    (req.command ≠ Constants.abort_cmd → out.out_transaction_in_progress = ip) := by
  have hflag := FlagIs_processCommand env s req ip out h
  have hshape := ErrorOrAck_processCommand env s req ip out h
  rcases hflag with ⟨h1, _⟩ | ⟨_, h2⟩
  · exact absurd h1 hok
  · refine ⟨fun hc => ?_, fun hc => ?_, fun hc => ?_⟩
    · rw [h2, if_neg (by rw [hc]; decide)]
    · rw [if_pos hc] at h2
      refine ⟨?_, h2⟩
      rw [processCommand_ABORT env s req ip hc] at h
      cases h
      by_cases hn : req.txn_id ∈ s.m_commits
      · rw [ABORT_committed env s req ip hn] at hok
        exact absurd rfl hok
      · cases ht : UnorderedMap.find s.m_txn_id_to_transaction_attributes req.txn_id with
        | none =>
            have e : ABORT env s req ip
                = SET_ERROR_AND_RETURN s req.txn_id req.seq_num Errors.InvalidTransactionId := by
              simp only [ABORT, hn, ht, if_false]
            rw [e] at hok
            exact absurd rfl hok
        | some t =>
            rw [ABORT_live env s req ip t hn ht]
            rfl
    · rw [h2, if_neg hc]

/-- Claim C27 at concrete runs: COMMIT of transaction 7 with its one fragment, and ABORT
of transaction 7, both with the flag set. -/
theorem ABORT_alone_clears_in_progress_witness :
    (processCommand (Scenario.env []) Scenario.written Scenario.commit_7_1 true
        = some (COMMIT (Scenario.env []) Scenario.written Scenario.commit_7_1 true) ∧
      (COMMIT (Scenario.env []) Scenario.written Scenario.commit_7_1 true
        ).out_server_response_str.command = Constants.ack_cmd ∧
      (COMMIT (Scenario.env []) Scenario.written Scenario.commit_7_1 true
        ).out_transaction_in_progress = true) ∧
    (processCommand (Scenario.env []) Scenario.opened Scenario.abort_7 true
        = some (ABORT (Scenario.env []) Scenario.opened Scenario.abort_7 true) ∧
      (ABORT (Scenario.env []) Scenario.opened Scenario.abort_7 true
        ).out_server_response_str.command = Constants.ack_cmd ∧
      (ABORT (Scenario.env []) Scenario.opened Scenario.abort_7 true
        ).out_transaction_in_progress = false) :=
  ⟨⟨rfl, by decide,
      (ABORT_alone_clears_in_progress (Scenario.env []) Scenario.written Scenario.commit_7_1
        true _ rfl (by decide)).1 rfl⟩,
    ⟨rfl,
      (ABORT_alone_clears_in_progress (Scenario.env []) Scenario.opened Scenario.abort_7
        true _ rfl (by decide)).2.1 rfl⟩⟩

/-! ## Protocol errors and the loop of a connection -/

namespace ServerDispatcher

theorem readSocket_append (a : String) (rest : List Char) :
    readSocket (a.data ++ rest) a.length = some (a, rest) := by
  unfold readSocket
  have hl : a.length = a.data.length := rfl
  rw [if_pos (by rw [List.length_append, hl]; omega), hl, List.take_left, List.drop_left]

/-- One round of the loop on a request whose header is valid and whose response is an
ERROR: the response is sent, the loop ends, and nothing that follows on the connection
is read. -/
theorem m_processRequest_error (env : Environment) (envs : List Environment)
    ( m_initialize : Bool) (s : ServerBackend) (request_header request_payload : String)
    (rest : List Char) (out : Outcome)
    (hlen : request_header.length = Constants.request_header_len)
    (hvalid : WireProtocol.isValidRequestFormat request_header = true)
    (hpayload : (ServerBackend.getClientRequestAsTuple request_header none).content_len
      = (request_payload.length : Int))
    (hout : ServerBackend.processRequest env m_initialize s request_header request_payload
      true = some out)
    (herror : out.out_server_response_str.command = Constants.error_cmd) :
    m_processRequest (env :: envs) m_initialize s
        (request_header.data ++ (request_payload.data ++ rest))
      = some (false, out.backend, [out.out_server_response_str]) := by
  have hflag : out.out_transaction_in_progress = false :=
    ServerBackend.processCommand_error_flag env _ _ true out hout herror
  have hcl : ServerBackend.getContentLength request_header ⟨"", 0, 0, Errors.nil, ""⟩ true
      = ((request_payload.length : Int), ⟨"", 0, 0, Errors.nil, ""⟩, true) := by
    simp only [ServerBackend.getContentLength, hvalid, if_true, hpayload]
  unfold m_processRequest
  rw [← hlen, readSocket_append]
  simp only [hcl]
  rw [if_neg (by omega), Int.toNat_ofNat, readSocket_append]
  simp only [hout, hflag, Bool.false_eq_true, if_false]

end ServerDispatcher

/-- Claim C26, amended. A protocol error is reported as ERROR with the flag
`out_transaction_in_progress` cleared, whatever its value was: for a command the
backend has no function for (code 200), a NEW_TXN whose sequence number is not 0 (204),
a WRITE that repeats a sequence number of a live transaction (205), and a COMMIT of a
live transaction with a sequence number below its maximum (210). Every ERROR of
`processCommand` clears the flag, and the loop of the connection then ends: the
response is sent and nothing that follows on the connection is read. -/
theorem protocol_error_ends_connection (env : Environment) (s : ServerBackend)
    (req : RequestTuple) (ip : Bool) :
    (req.command ≠ Constants.read_cmd → req.command ≠ Constants.new_txn_cmd →
      req.command ≠ Constants.write_cmd → req.command ≠ Constants.commit_cmd →
      req.command ≠ Constants.abort_cmd →
      ∃ out, processCommand env s req ip = some out ∧
        out.out_server_response_str.command = Constants.error_cmd ∧
        out.out_server_response_str.err_code = 200 ∧
        out.out_transaction_in_progress = false) ∧
    (req.command = Constants.new_txn_cmd → req.seq_num ≠ 0 →
      ∃ out, processCommand env s req ip = some out ∧
        out.out_server_response_str.command = Constants.error_cmd ∧
        out.out_server_response_str.err_code = 204 ∧
        out.out_transaction_in_progress = false) ∧
    (∀ t : TransactionAttributesTuple, req.command = Constants.write_cmd →
      req.txn_id ∉ s.m_commits →
      UnorderedMap.find s.m_txn_id_to_transaction_attributes req.txn_id = some t →
      UnorderedMap.count t.buffers req.seq_num = true →
      ∃ out, processCommand env s req ip = some out ∧
        out.out_server_response_str.command = Constants.error_cmd ∧
        out.out_server_response_str.err_code = 205 ∧
        out.out_transaction_in_progress = false) ∧
    (∀ t : TransactionAttributesTuple, req.command = Constants.commit_cmd →
      req.txn_id ∉ s.m_commits →
      UnorderedMap.find s.m_txn_id_to_transaction_attributes req.txn_id = some t →
      req.seq_num < t.max_seq_num →
      ∃ out, processCommand env s req ip = some out ∧
        out.out_server_response_str.command = Constants.error_cmd ∧
        out.out_server_response_str.err_code = 210 ∧
        out.out_transaction_in_progress = false) ∧
    (∀ out, processCommand env s req ip = some out →
      out.out_server_response_str.command = Constants.error_cmd →
      out.out_transaction_in_progress = false) ∧
    (∀ (envs : List Environment) ( m_initialize : Bool)
        (request_header request_payload : String) (rest : List Char) (out : Outcome),
      request_header.length = 64 →
      WireProtocol.isValidRequestFormat request_header = true →
      (getClientRequestAsTuple request_header none).content_len
        = (request_payload.length : Int) →
      processRequest env m_initialize s request_header request_payload true = some out →
      out.out_server_response_str.command = Constants.error_cmd →
      ServerDispatcher.m_processRequest (env :: envs) m_initialize s
          (request_header.data ++ (request_payload.data ++ rest))
        = some (false, out.backend, [out.out_server_response_str])) := by
  refine ⟨?_, ?_, ?_, ?_, ?_, ?_⟩
  · intro h1 h2 h3 h4 h5
    refine ⟨SET_ERROR_AND_RETURN s req.txn_id req.seq_num Errors.InvalidCommand, ?_,
      rfl, rfl, rfl⟩
    simp only [processCommand, h1, h2, h3, h4, h5, if_false]
  · intro hc hseq
    refine ⟨SET_ERROR_AND_RETURN s req.txn_id req.seq_num Errors.InvalidSequenceNumber, ?_,
      rfl, rfl, rfl⟩
    rw [processCommand_NEW_TXN env s req ip hc, NEW_TXN_nonzero env s req ip hseq]
  · intro t hc hn ht hcount
    refine ⟨_, processCommand_WRITE env s req ip hc, ?_⟩
    rw [WRITE_live env s req ip t hn ht, if_pos hcount]
    exact ⟨rfl, rfl, rfl⟩
  · intro t hc hn ht hlt
    refine ⟨_, processCommand_COMMIT env s req ip hc, ?_⟩
    rw [COMMIT_low env s req ip t hn ht hlt]
    exact ⟨rfl, rfl, rfl⟩
  · intro out h he
    exact processCommand_error_flag env s req ip out h he
  · intro envs m_initialize request_header request_payload rest out hlen hvalid hpayload
      hout herror
    exact ServerDispatcher.m_processRequest_error env envs m_initialize s request_header
      request_payload rest out hlen hvalid hpayload hout herror

set_option maxRecDepth 100000 in
/-- Claim C26 as stated fails: the request DELETE, sent on a connection whose flag is
set, is answered ERROR with code 200 and the flag cleared. When the same request is
followed by a second one on the connection, the loop of the connection sends the one
ERROR and ends without reading the second. -/
theorem protocol_error_closes_connection :
    Reachable Scenario.opened ∧
    (processCommand (Scenario.env []) Scenario.opened Scenario.delete_7 true).map
        (fun out => (out.out_server_response_str.err_code, out.out_transaction_in_progress))
      = some (200, false) ∧
    ServerDispatcher.m_processRequest [Scenario.env [], Scenario.env []] false
        Scenario.opened (Scenario.header_delete.data ++ Scenario.header_delete.data)
      = some (false, Scenario.opened, [Scenario.invalid_command_response]) :=
  ⟨Scenario.reachable_opened, by decide, by decide⟩

/-- The amended claim C26 at a concrete run: the request DELETE on the server with
transaction 7 open. -/
theorem protocol_error_ends_connection_witness :
    ∃ out, processCommand (Scenario.env []) Scenario.opened Scenario.delete_7 true
        = some out ∧
      out.out_server_response_str.command = Constants.error_cmd ∧
      out.out_server_response_str.err_code = 200 ∧
      out.out_transaction_in_progress = false :=
  (protocol_error_ends_connection (Scenario.env []) Scenario.opened Scenario.delete_7
    true).1 (by decide) (by decide) (by decide) (by decide) (by decide)

/-! ## The timer of a transaction -/

namespace ServerBackend

/-- A wake-up that finds the record timed out. -/
theorem timer_expired (env : Environment) (s : ServerBackend) (in_txn_id : Int)
    (in_file_name : FileName) (t : TransactionAttributesTuple)
    (ht : UnorderedMap.find s.m_txn_id_to_transaction_attributes in_txn_id = some t)
    (hnow : env.now ≥ t.curr_timestamp + Constants.transaction_timeout_seconds) :
    m_txn_timer_function env s in_txn_id in_file_name
      = ({ removeTransaction s in_txn_id with
            disk := logTransaction env (removeTransaction s in_txn_id).m_directory
              (removeTransaction s in_txn_id).disk m_timeout_log in_txn_id in_file_name },
          none) := by
  simp only [m_txn_timer_function, ht, hnow, if_true]

/-- A wake-up that finds the record refreshed. -/
theorem timer_refreshed (env : Environment) (s : ServerBackend) (in_txn_id : Int)
    (in_file_name : FileName) (t : TransactionAttributesTuple)
    (ht : UnorderedMap.find s.m_txn_id_to_transaction_attributes in_txn_id = some t)
    (hnow : ¬ env.now ≥ t.curr_timestamp + Constants.transaction_timeout_seconds) :
    m_txn_timer_function env s in_txn_id in_file_name = (s, some t.curr_timestamp) := by
  simp only [m_txn_timer_function, ht, hnow, if_false]

/-- A wake-up that finds no record. -/
theorem timer_gone (env : Environment) (s : ServerBackend) (in_txn_id : Int)
    (in_file_name : FileName)
    (ht : UnorderedMap.find s.m_txn_id_to_transaction_attributes in_txn_id = none) :
    m_txn_timer_function env s in_txn_id in_file_name = (s, none) := by
  simp only [m_txn_timer_function, ht]

end ServerBackend

/-- Claim C25, amended. A wake-up of the timer of transaction T at time `now`. When T has
a record and `now` is at least its last update plus 15 seconds, the record is removed,
the other records, the commit set and the directory stay, the timer returns, and, when
the timeout log can be opened and written, one line for T is appended to it; a WRITE
on T afterwards is answered ERROR 201, InvalidTransactionId, when T is not in the
commit set. When T has a record and `now` is earlier, nothing changes and the timer
sleeps on from the record's last update. When T has no record, nothing changes and the
timer returns. Hence a wake-up removes a record only when at least 15 seconds have
passed since its last update. -/
theorem timer_wake_up (env : Environment) (s : ServerBackend) (in_txn_id : Int)
    (in_file_name : FileName) :
    (∀ t : TransactionAttributesTuple,
      UnorderedMap.find s.m_txn_id_to_transaction_attributes in_txn_id = some t →
      env.now ≥ t.curr_timestamp + 15 →
        (m_txn_timer_function env s in_txn_id in_file_name).2 = none ∧
        UnorderedMap.find (m_txn_timer_function env s in_txn_id
          in_file_name).1.m_txn_id_to_transaction_attributes in_txn_id = none ∧
        (∀ k, k ≠ in_txn_id →
          UnorderedMap.find (m_txn_timer_function env s in_txn_id
            in_file_name).1.m_txn_id_to_transaction_attributes k
            = UnorderedMap.find s.m_txn_id_to_transaction_attributes k) ∧
        (m_txn_timer_function env s in_txn_id in_file_name).1.m_commits = s.m_commits ∧
        (m_txn_timer_function env s in_txn_id in_file_name).1.m_directory = s.m_directory ∧
        (env.open_fails (s.m_directory ++ m_timeout_log) = false →
          env.write_limit (s.m_directory ++ m_timeout_log) = none →
          ∃ size : Int,
            Disk.content (m_txn_timer_function env s in_txn_id in_file_name).1.disk
                (Path.normalize (s.m_directory ++ m_timeout_log))
              = Disk.content s.disk (Path.normalize (s.m_directory ++ m_timeout_log))
                  ++ (toString in_txn_id ++ " " ++ in_file_name ++ " " ++ toString size
                    ++ "\n")) ∧
        (in_txn_id ∉ s.m_commits →
          ∀ (env1 : Environment) (req : RequestTuple) (ip : Bool),
            req.txn_id = in_txn_id →
            (WRITE env1 (m_txn_timer_function env s in_txn_id in_file_name).1 req
              ip).out_server_response_str
              = ⟨Constants.error_cmd, in_txn_id, req.seq_num, Errors.InvalidTransactionId,
                  "InvalidTransactionId"⟩ ∧
            (WRITE env1 (m_txn_timer_function env s in_txn_id in_file_name).1 req
              ip).out_server_response_str.err_code = 201)) ∧
    (∀ t : TransactionAttributesTuple,
      UnorderedMap.find s.m_txn_id_to_transaction_attributes in_txn_id = some t →
      env.now < t.curr_timestamp + 15 →
        m_txn_timer_function env s in_txn_id in_file_name = (s, some t.curr_timestamp)) ∧
    (UnorderedMap.find s.m_txn_id_to_transaction_attributes in_txn_id = none →
      m_txn_timer_function env s in_txn_id in_file_name = (s, none)) ∧
    (∀ t : TransactionAttributesTuple,
      UnorderedMap.find s.m_txn_id_to_transaction_attributes in_txn_id = some t →
      UnorderedMap.find (m_txn_timer_function env s in_txn_id
        in_file_name).1.m_txn_id_to_transaction_attributes in_txn_id = none →
      env.now ≥ t.curr_timestamp + 15) := by
  refine ⟨?_, ?_, ?_, ?_⟩
  · intro t ht hnow
    rw [timer_expired env s in_txn_id in_file_name t ht hnow]
    have hfind : ∀ k,
        UnorderedMap.find (removeTransaction s in_txn_id).m_txn_id_to_transaction_attributes k
          = if k = in_txn_id then none
            else UnorderedMap.find s.m_txn_id_to_transaction_attributes k :=
      removeTransaction_find s in_txn_id
    refine ⟨rfl, ?_, ?_, ?_, ?_, ?_, ?_⟩
    · show UnorderedMap.find
        (removeTransaction s in_txn_id).m_txn_id_to_transaction_attributes in_txn_id = none
      rw [hfind, if_pos rfl]
    · intro k hk
      show UnorderedMap.find
        (removeTransaction s in_txn_id).m_txn_id_to_transaction_attributes k = _
      rw [hfind, if_neg hk]
    · exact removeTransaction_commits s in_txn_id
    · exact removeTransaction_directory s in_txn_id
    · intro hopen hwrite
      dsimp only
      rw [removeTransaction_directory, removeTransaction_disk]
      exact logTransaction_content env s.m_directory s.disk m_timeout_log in_txn_id
        in_file_name hopen hwrite
    · intro hn env1 req ip hreq
      have hn1 : req.txn_id ∉ s.m_commits := by rw [hreq]; exact hn
      rw [WRITE_unknown env1 _ req ip
        (by
          show req.txn_id ∉ (removeTransaction s in_txn_id).m_commits
          rw [removeTransaction_commits]
          exact hn1)
        (by
          show UnorderedMap.find
            (removeTransaction s in_txn_id).m_txn_id_to_transaction_attributes req.txn_id
              = none
          rw [hfind, if_pos hreq])]
      rw [hreq]
      exact ⟨rfl, rfl⟩
  · intro t ht hnow
    exact timer_refreshed env s in_txn_id in_file_name t ht
      (by
        show ¬ env.now ≥ t.curr_timestamp + 15
        omega)
  · intro ht
    exact timer_gone env s in_txn_id in_file_name ht
  · intro t ht hgone
    by_cases hnow : env.now ≥ t.curr_timestamp + 15
    · exact hnow
    · rw [timer_refreshed env s in_txn_id in_file_name t ht hnow] at hgone
      rw [ht] at hgone
      cases hgone

/-- Claim C25 as stated fails in two ways. When `open(2)` fails on the timeout log, the
wake-up 15 seconds after the start still removes the record of transaction 7, but
nothing is appended to the timeout log. And in the reachable state in which id 7 is
both live and committed, a WRITE on 7 after the removing wake-up is answered ERROR
202, InvalidOperation. -/
theorem timer_may_skip_journal_or_leave_committed_id :
    (Reachable Scenario.opened ∧
      UnorderedMap.find Scenario.opened.m_txn_id_to_transaction_attributes 7
        = some ⟨"f.txt", [], 1, 0⟩ ∧
      UnorderedMap.find (m_txn_timer_function Scenario.env_timeout_log_unopenable
        Scenario.opened 7 "f.txt").1.m_txn_id_to_transaction_attributes 7 = none ∧
      (m_txn_timer_function Scenario.env_timeout_log_unopenable Scenario.opened 7
        "f.txt").1.disk = Scenario.opened.disk ∧
      UnorderedMap.find Scenario.opened.disk ("srv/" ++ ".timeoutlog.txt") = none) ∧
    (Reachable Scenario.reissued ∧
      UnorderedMap.find Scenario.reissued.m_txn_id_to_transaction_attributes 7
        = some ⟨"g.txt", [], 1, 0⟩ ∧
      UnorderedMap.find (m_txn_timer_function Scenario.env_later Scenario.reissued 7
        "g.txt").1.m_txn_id_to_transaction_attributes 7 = none ∧
      (WRITE (Scenario.env []) (m_txn_timer_function Scenario.env_later Scenario.reissued 7
        "g.txt").1 Scenario.write_7_1 true).out_server_response_str
        = ⟨"ERROR", 7, 1, Errors.InvalidOperation, "InvalidOperation"⟩ ∧
      (WRITE (Scenario.env []) (m_txn_timer_function Scenario.env_later Scenario.reissued 7
        "g.txt").1 Scenario.write_7_1 true).out_server_response_str.err_code = 202) :=
  ⟨⟨Scenario.reachable_opened, by decide, by decide, by decide, by decide⟩,
    ⟨Scenario.reachable_reissued, by decide, by decide, by decide, by decide⟩⟩

/-- The amended claim C25 at concrete runs: the timer of transaction 7, opened at time 0,
waking up at time 15 and at time 0. -/
theorem timer_wake_up_witness :
    (UnorderedMap.find (m_txn_timer_function Scenario.env_later Scenario.opened 7
        "f.txt").1.m_txn_id_to_transaction_attributes 7 = none ∧
      (WRITE (Scenario.env []) (m_txn_timer_function Scenario.env_later Scenario.opened 7
        "f.txt").1 Scenario.write_7_1 true).out_server_response_str.err_code = 201) ∧
    m_txn_timer_function (Scenario.env []) Scenario.opened 7 "f.txt"
      = (Scenario.opened, some 0) :=
  have h1 := (timer_wake_up Scenario.env_later Scenario.opened 7 "f.txt").1
    ⟨"f.txt", [], 1, 0⟩ (by decide) (by decide)
  have h2 := (timer_wake_up (Scenario.env []) Scenario.opened 7 "f.txt").2.1
    ⟨"f.txt", [], 1, 0⟩ (by decide) (by decide)
  ⟨⟨h1.2.1, (h1.2.2.2.2.2.2 (by decide) (Scenario.env []) Scenario.write_7_1 true rfl).2⟩, h2⟩

/-! ## Recovery: the two maps loaded from the logs -/

namespace ServerBackend

/-- The transaction map after one record: the record's id is toggled. -/
theorem loadRecord_find (maps : FileNameFileSizeMap × TxnIdFileNameMap)
    (record : Int × FileName × Int) (k : Int) :
    UnorderedMap.find (loadRecord maps record).2 k
      = if k = record.1 then
          (match UnorderedMap.find maps.2 record.1 with
            | none => some record.2.1
            | some _ => none)
        else UnorderedMap.find maps.2 k := by
  unfold loadRecord
  cases h : UnorderedMap.find maps.2 record.1 with
  | none => simp only [UnorderedMap.find_assign]
  | some f => simp only [UnorderedMap.find_erase]

/-- After a list of records an id is in the map exactly when it was there and occurs an
even number of times, or was not and occurs an odd number of times. -/
theorem foldl_loadRecord_isSome (rs : List (Int × FileName × Int))
    (maps : FileNameFileSizeMap × TxnIdFileNameMap) (k : Int) :
    (UnorderedMap.find (rs.foldl loadRecord maps).2 k).isSome
      = ((UnorderedMap.find maps.2 k).isSome != decide ((rs.map (fun r => r.1)).count k % 2 = 1)) := by
  induction rs generalizing maps with
  | nil => simp
  | cons r rs ih =>
      rw [List.foldl_cons, ih (loadRecord maps r), loadRecord_find, List.map_cons,
        List.count_cons]
      by_cases hk : k = r.1
      · subst hk
        cases h : UnorderedMap.find maps.2 r.1 with
        | none =>
            simp only [if_true, Option.isSome_some, Option.isSome_none, beq_self_eq_true]
            by_cases hp : (rs.map (fun r => r.1)).count r.1 % 2 = 1
            · have : ¬ ((rs.map (fun r => r.1)).count r.1 + 1) % 2 = 1 := by omega
              simp [hp, this]
            · have : ((rs.map (fun r => r.1)).count r.1 + 1) % 2 = 1 := by omega
              simp [hp, this]
        | some f =>
            simp only [if_true, Option.isSome_some, Option.isSome_none, beq_self_eq_true]
            by_cases hp : (rs.map (fun r => r.1)).count r.1 % 2 = 1
            · have : ¬ ((rs.map (fun r => r.1)).count r.1 + 1) % 2 = 1 := by omega
              simp [hp, this]
            · have : ((rs.map (fun r => r.1)).count r.1 + 1) % 2 = 1 := by omega
              simp [hp, this]
      · have hne : (r.1 == k) = false := by
          simpa using fun e : r.1 = k => hk e.symm
        simp only [hk, if_false, hne, Bool.false_eq_true, Nat.add_zero]

theorem logRecords_congr (env : Environment) (d1 d2 : Disk) (log_file : FileName)
    (h : UnorderedMap.find d1 (Path.normalize log_file)
      = UnorderedMap.find d2 (Path.normalize log_file)) :
    logRecords env d1 log_file = logRecords env d2 log_file := by
  unfold logRecords
  rw [h]

/-- The maps after one log: its records folded into the maps. -/
theorem loadLog_maps (env : Environment)
    (acc : FileNameFileSizeMap × TxnIdFileNameMap × Disk) (log_file : FileName) :
    ((loadLog env acc log_file).1, (loadLog env acc log_file).2.1)
      = (logRecords env acc.2.2 log_file).foldl loadRecord (acc.1, acc.2.1) := by
  unfold loadLog logRecords
  by_cases ho : env.open_fails log_file = true
  · simp only [ho, if_true, List.foldl_nil]
  · simp only [ho, Bool.false_eq_true, if_false]
    cases h : UnorderedMap.find acc.2.2 (Path.normalize log_file) with
    | none => simp only [List.foldl_nil]
    | some content => simp only

/-- The file system after one log: only that log can be gone. -/
theorem loadLog_find_ne (env : Environment)
    (acc : FileNameFileSizeMap × TxnIdFileNameMap × Disk) (log_file : FileName)
    {p : String} (hp : p ≠ Path.normalize log_file) :
    UnorderedMap.find (loadLog env acc log_file).2.2 p = UnorderedMap.find acc.2.2 p := by
  unfold loadLog
  by_cases ho : env.open_fails log_file = true
  · simp only [ho, if_true]
  · simp only [ho, Bool.false_eq_true, if_false]
    cases h : UnorderedMap.find acc.2.2 (Path.normalize log_file) with
    | none => simp only
    | some content =>
        simp only
        exact UnorderedMap.find_erase_ne _ hp

/-- The two maps `loadFilesAndTransactions` returns: the records of the four logs, in
the order open, timeout, commit, abort, folded into the maps given. -/
theorem loadFilesAndTransactions_maps (env : Environment) (disk : Disk)
    (a : FileNameFileSizeMap) (b : TxnIdFileNameMap) :
    ((loadFilesAndTransactions env disk a b).1, (loadFilesAndTransactions env disk a b).2.1)
      = (logRecords env disk m_transaction_log ++ logRecords env disk m_timeout_log
          ++ logRecords env disk m_commit_log ++ logRecords env disk m_abort_log).foldl
          loadRecord (a, b) := by
  unfold loadFilesAndTransactions
  simp only [List.foldl_cons, List.foldl_nil, List.foldl_append]
  have h1 := loadLog_maps env (a, b, disk) m_transaction_log
  have d1 : ∀ p, p ≠ Path.normalize m_transaction_log →
      UnorderedMap.find (loadLog env (a, b, disk) m_transaction_log).2.2 p
        = UnorderedMap.find disk p := fun p hp => loadLog_find_ne env (a, b, disk) _ hp
  have h2 := loadLog_maps env (loadLog env (a, b, disk) m_transaction_log) m_timeout_log
  have d2 : ∀ p, p ≠ Path.normalize m_timeout_log →
      UnorderedMap.find
        (loadLog env (loadLog env (a, b, disk) m_transaction_log) m_timeout_log).2.2 p
        = UnorderedMap.find (loadLog env (a, b, disk) m_transaction_log).2.2 p :=
    fun p hp => loadLog_find_ne env _ _ hp
  have h3 := loadLog_maps env
    (loadLog env (loadLog env (a, b, disk) m_transaction_log) m_timeout_log) m_commit_log
  have d3 : ∀ p, p ≠ Path.normalize m_commit_log →
      UnorderedMap.find
        (loadLog env (loadLog env (loadLog env (a, b, disk) m_transaction_log)
          m_timeout_log) m_commit_log).2.2 p
        = UnorderedMap.find
            (loadLog env (loadLog env (a, b, disk) m_transaction_log) m_timeout_log).2.2 p :=
    fun p hp => loadLog_find_ne env _ _ hp
  have h4 := loadLog_maps env
    (loadLog env (loadLog env (loadLog env (a, b, disk) m_transaction_log) m_timeout_log)
      m_commit_log) m_abort_log
  have e2 : logRecords env (loadLog env (a, b, disk) m_transaction_log).2.2 m_timeout_log
      = logRecords env disk m_timeout_log :=
    logRecords_congr env _ _ _ (d1 _ (by decide))
  have e3 : logRecords env
      (loadLog env (loadLog env (a, b, disk) m_transaction_log) m_timeout_log).2.2
      m_commit_log = logRecords env disk m_commit_log :=
    logRecords_congr env _ _ _ ((d2 _ (by decide)).trans (d1 _ (by decide)))
  have e4 : logRecords env
      (loadLog env (loadLog env (loadLog env (a, b, disk) m_transaction_log)
        m_timeout_log) m_commit_log).2.2 m_abort_log = logRecords env disk m_abort_log :=
    logRecords_congr env _ _ _
      ((d3 _ (by decide)).trans ((d2 _ (by decide)).trans (d1 _ (by decide))))
  rw [h4, e4, h3, e3, h2, e2, h1]

end ServerBackend

/-- Claim C30. After `loadFilesAndTransactions` over any file system, a transaction id
is in the recovered map exactly when the number of records with that id, among the
records read from the open, the timeout, the commit and the abort log in this order, is
odd. -/
theorem loadFilesAndTransactions_odd_occurrences (env : Environment) (disk : Disk)
    (k : Int) :
    (UnorderedMap.find (loadFilesAndTransactions env disk [] []).2.1 k).isSome = true
      ↔ Odd (((logRecords env disk m_transaction_log ++ logRecords env disk m_timeout_log
          ++ logRecords env disk m_commit_log ++ logRecords env disk m_abort_log).map
          (fun record => record.1)).count k) := by
  have h := congrArg Prod.snd (loadFilesAndTransactions_maps env disk [] [])
  simp only at h
  rw [h, foldl_loadRecord_isSome, Nat.odd_iff]
  simp [UnorderedMap.find]

/-! ## The read loop of recovery never runs out of fuel -/

theorem length_dropWhile_lt_of_takeWhile_ne_nil {p : Char → Bool} (l : List Char)
    (h : l.takeWhile p ≠ []) : (l.dropWhile p).length < l.length := by
  have e := congrArg List.length (List.takeWhile_append_dropWhile p l)
  rw [List.length_append] at e
  have : 0 < (l.takeWhile p).length := List.length_pos.2 h
  omega

namespace IStringStream

theorem sentry_unread_length (iss : IStringStream) :
    iss.sentry.1.unread.length ≤ iss.unread.length := by
  unfold sentry
  by_cases hg : iss.good = true
  · rw [if_pos hg]
    have hle := (List.dropWhile_sublist (l := iss.unread) isspace).length_le
    cases h : iss.unread.dropWhile isspace with
    | nil => simp
    | cons c rest =>
        rw [h] at hle
        exact hle
  · rw [if_neg hg]

theorem sentry_false_failbit (iss : IStringStream) (h : iss.sentry.2 = false) :
    iss.sentry.1.failbit = true := by
  unfold sentry at h ⊢
  by_cases hg : iss.good = true
  · rw [if_pos hg] at h ⊢
    cases hd : iss.unread.dropWhile isspace with
    | nil => rfl
    | cons c rest =>
        rw [hd] at h
        cases h
  · rw [if_neg hg]

theorem sentry_true_nonempty (iss : IStringStream) (h : iss.sentry.2 = true) :
    iss.sentry.1.unread ≠ [] ∧ iss.sentry.1.unread = iss.unread.dropWhile isspace := by
  unfold sentry at h ⊢
  by_cases hg : iss.good = true
  · rw [if_pos hg] at h ⊢
    cases hd : iss.unread.dropWhile isspace with
    | nil =>
        rw [hd] at h
        cases h
    | cons c rest => exact ⟨by simp, rfl⟩
  · rw [if_neg hg] at h
    cases h

theorem signed_length (u : List Char) :
    (match u with
      | [] => ((false, []) : Bool × List Char)
      | c :: cs =>
          if c = '-' then (true, cs)
          else if c = '+' then (false, cs)
          else (false, c :: cs)).2.length ≤ u.length := by
  cases u with
  | nil => simp
  | cons c cs =>
      simp only
      split
      · simp
      · split <;> simp

/-- An extraction into an `int` that does not fail consumes at least one character. -/
theorem extractInt_unread_length (iss : IStringStream) (n : Int)
    (h : (iss.extractInt n).1.failbit = false) :
    (iss.extractInt n).1.unread.length < iss.unread.length := by
  unfold extractInt at h ⊢
  have hlen := sentry_unread_length iss
  have hff := sentry_false_failbit iss
  rcases hs : iss.sentry with ⟨iss1, ok⟩
  rw [hs] at hlen hff h
  cases ok with
  | false =>
      have hf : iss1.failbit = true := hff rfl
      have h1 : iss1.failbit = false := h
      rw [hf] at h1
      cases h1
  | true =>
      simp only at h hlen ⊢
      have hsl := signed_length iss1.unread
      generalize (match iss1.unread with
        | [] => ((false, []) : Bool × List Char)
        | c :: cs =>
            if c = '-' then (true, cs)
            else if c = '+' then (false, cs)
            else (false, c :: cs)) = sg at h hsl ⊢
      by_cases he : (sg.2.takeWhile isdigit).isEmpty = true
      · rw [if_pos he] at h
        cases h
      · have hne : sg.2.takeWhile isdigit ≠ [] := by
          intro e
          rw [e] at he
          exact he rfl
        have hlt := length_dropWhile_lt_of_takeWhile_ne_nil sg.2 hne
        rw [if_neg he]
        generalize (if sg.1 = true then -(decimalValue (sg.2.takeWhile isdigit) : Int)
          else (decimalValue (sg.2.takeWhile isdigit) : Int)) = v
        split_ifs
        · show (sg.2.dropWhile isdigit).length < iss.unread.length
          omega
        · show (sg.2.dropWhile isdigit).length < iss.unread.length
          omega
        · show (sg.2.dropWhile isdigit).length < iss.unread.length
          omega

theorem extractString_unread_length (iss : IStringStream) (str : String) :
    (iss.extractString str).1.unread.length ≤ iss.unread.length := by
  unfold extractString
  have hlen := sentry_unread_length iss
  rcases hs : iss.sentry with ⟨iss1, ok⟩
  rw [hs] at hlen
  cases ok with
  | false => exact hlen
  | true =>
      have hle := (List.dropWhile_sublist (l := iss1.unread) (fun c => !isspace c)).length_le
      show (iss1.unread.dropWhile (fun c => !isspace c)).length ≤ iss.unread.length
      exact Nat.le_trans hle hlen

theorem extractLongLong_unread_length (iss : IStringStream) (n : Int) :
    (iss.extractLongLong n).1.unread.length ≤ iss.unread.length := by
  unfold extractLongLong
  have hlen := sentry_unread_length iss
  rcases hs : iss.sentry with ⟨iss1, ok⟩
  rw [hs] at hlen
  cases ok with
  | false => exact hlen
  | true =>
      simp only at hlen ⊢
      have hsl := signed_length iss1.unread
      generalize (match iss1.unread with
        | [] => ((false, []) : Bool × List Char)
        | c :: cs =>
            if c = '-' then (true, cs)
            else if c = '+' then (false, cs)
            else (false, c :: cs)) = sg at hsl ⊢
      have hle := (List.dropWhile_sublist (l := sg.2) isdigit).length_le
      generalize (if sg.1 = true then -(decimalValue (sg.2.takeWhile isdigit) : Int)
        else (decimalValue (sg.2.takeWhile isdigit) : Int)) = v
      split_ifs
      · show (sg.2.dropWhile isdigit).length ≤ iss.unread.length
        omega
      · show (sg.2.dropWhile isdigit).length ≤ iss.unread.length
        omega
      · show (sg.2.dropWhile isdigit).length ≤ iss.unread.length
        omega
      · show (sg.2.dropWhile isdigit).length ≤ iss.unread.length
        omega

theorem extractInt_nil_failbit (g fb : Bool) (n : Int) :
    (extractInt { unread := [], good := g, failbit := fb } n).1.failbit = true := by
  cases g <;> rfl

end IStringStream

namespace ServerBackend

/-- The read loop ends by itself: with a fuel of at least the number of unread
characters, more fuel changes nothing. -/
theorem readRecords_fuel (fuel : Nat) (ss : IStringStream) (h : ss.unread.length ≤ fuel)
    (n : Nat) : readRecords (fuel + n) ss = readRecords fuel ss := by
  induction fuel generalizing ss with
  | zero =>
      have hnil : ss.unread = [] := List.length_eq_zero.1 (Nat.le_zero.1 h)
      cases n with
      | zero => rfl
      | succ n =>
          obtain ⟨u, g, fb⟩ := ss
          simp only at hnil
          subst hnil
          rw [Nat.zero_add]
          simp only [readRecords, IStringStream.extractInt_nil_failbit, if_true]
  | succ fuel ih =>
      rw [Nat.add_right_comm]
      simp only [readRecords]
      by_cases h1 : (ss.extractInt 0).1.failbit = true
      · simp only [h1, if_true]
      · have h1f : (ss.extractInt 0).1.failbit = false := by simpa using h1
        have hlt := IStringStream.extractInt_unread_length ss 0 h1f
        have hle2 := IStringStream.extractString_unread_length (ss.extractInt 0).1 ""
        have hle3 := IStringStream.extractLongLong_unread_length
          ((ss.extractInt 0).1.extractString "").1 0
        simp only [h1f, Bool.false_eq_true, if_false]
        split
        · rfl
        · split
          · rfl
          · rw [ih _ (by omega)]

end ServerBackend

namespace ServerBackend

/-- Records with distinct ids, none of them in the map: each is inserted. -/
theorem foldl_loadRecord_fresh (rs : List (Int × FileName × Int))
    (maps : FileNameFileSizeMap × TxnIdFileNameMap)
    (hnd : (rs.map (fun r => r.1)).Nodup)
    (hfresh : ∀ k ∈ rs.map (fun r => r.1), UnorderedMap.find maps.2 k = none)
    (k : Int) (f : FileName) :
    UnorderedMap.find (rs.foldl loadRecord maps).2 k = some f
      ↔ UnorderedMap.find maps.2 k = some f ∨ ∃ size, (k, f, size) ∈ rs := by
  induction rs generalizing maps with
  | nil => simp
  | cons r rs ih =>
      obtain ⟨id, name, size⟩ := r
      rw [List.map_cons, List.nodup_cons] at hnd
      have hid : UnorderedMap.find maps.2 id = none := hfresh id (by simp)
      have hstep : ∀ j, UnorderedMap.find (loadRecord maps (id, name, size)).2 j
          = if j = id then some name else UnorderedMap.find maps.2 j := by
        intro j
        rw [loadRecord_find]
        simp only [hid]
      rw [List.foldl_cons, ih (loadRecord maps (id, name, size)) hnd.2
        (fun j hj => by
          rw [hstep]
          have hne : j ≠ id := fun e => hnd.1 (e ▸ hj)
          rw [if_neg hne]
          exact hfresh j (List.mem_cons_of_mem _ hj)),
        hstep]
      by_cases hk : k = id
      · subst hk
        rw [if_pos rfl, hid]
        constructor
        · rintro (h | ⟨sz, hmem⟩)
          · cases h
            exact Or.inr ⟨size, List.mem_cons_self _ _⟩
          · exact absurd (List.mem_map.2 ⟨_, hmem, rfl⟩) hnd.1
        · rintro (h | ⟨sz, hmem⟩)
          · cases h
          · rcases List.mem_cons.1 hmem with e | hmem
            · cases e
              exact Or.inl rfl
            · exact absurd (List.mem_map.2 ⟨_, hmem, rfl⟩) hnd.1
      · rw [if_neg hk]
        constructor
        · rintro (h | ⟨sz, hmem⟩)
          · exact Or.inl h
          · exact Or.inr ⟨sz, List.mem_cons_of_mem _ hmem⟩
        · rintro (h | ⟨sz, hmem⟩)
          · exact Or.inl h
          · rcases List.mem_cons.1 hmem with e | hmem
            · cases e
              exact absurd rfl hk
            · exact Or.inr ⟨sz, hmem⟩

/-- Records with distinct ids, all of them in the map: each is erased. -/
theorem foldl_loadRecord_present (rs : List (Int × FileName × Int))
    (maps : FileNameFileSizeMap × TxnIdFileNameMap)
    (hnd : (rs.map (fun r => r.1)).Nodup)
    (hpresent : ∀ k ∈ rs.map (fun r => r.1), (UnorderedMap.find maps.2 k).isSome = true)
    (k : Int) :
    UnorderedMap.find (rs.foldl loadRecord maps).2 k
      = if k ∈ rs.map (fun r => r.1) then none else UnorderedMap.find maps.2 k := by
  induction rs generalizing maps with
  | nil => simp
  | cons r rs ih =>
      obtain ⟨id, name, size⟩ := r
      rw [List.map_cons, List.nodup_cons] at hnd
      obtain ⟨v, hv⟩ := Option.isSome_iff_exists.1 (hpresent id (by simp))
      have hstep : ∀ j, UnorderedMap.find (loadRecord maps (id, name, size)).2 j
          = if j = id then none else UnorderedMap.find maps.2 j := by
        intro j
        rw [loadRecord_find]
        simp only [hv]
      rw [List.foldl_cons, ih (loadRecord maps (id, name, size)) hnd.2
        (fun j hj => by
          rw [hstep]
          have hne : j ≠ id := fun e => hnd.1 (e ▸ hj)
          rw [if_neg hne]
          exact hpresent j (List.mem_cons_of_mem _ hj)),
        hstep]
      by_cases hk : k = id
      · subst hk
        simp
      · have hiff : k ∈ ((id, name, size) :: rs).map (fun r => r.1)
            ↔ k ∈ rs.map (fun r => r.1) := by
          rw [List.map_cons, List.mem_cons]
          exact ⟨fun h => h.resolve_left hk, Or.inr⟩
        by_cases hm : k ∈ rs.map (fun r => r.1)
        · rw [if_pos hm, if_pos (hiff.2 hm)]
        · rw [if_neg hm, if_neg hk, if_neg (fun h => hm (hiff.1 h))]

end ServerBackend

/-- Where the toggle of recovery is a set difference. Over logs in which no transaction
id occurs twice in the open log, no id occurs twice in the timeout, commit and abort
logs taken together, and every id of these three logs occurs in the open log, the map
`loadFilesAndTransactions` recovers holds exactly the transactions of the open log that
are in none of the three other logs, each mapped to the file name of its record in the
open log. -/
theorem loadFilesAndTransactions_open_minus_closed (env : Environment) (disk : Disk)
    (hopen : ((logRecords env disk m_transaction_log).map (fun record => record.1)).Nodup)
    (hclosed : ((logRecords env disk m_timeout_log ++ logRecords env disk m_commit_log
      ++ logRecords env disk m_abort_log).map (fun record => record.1)).Nodup)
    (hsub : ∀ k ∈ (logRecords env disk m_timeout_log ++ logRecords env disk m_commit_log
        ++ logRecords env disk m_abort_log).map (fun record => record.1),
      k ∈ (logRecords env disk m_transaction_log).map (fun record => record.1))
    (k : Int) (f : FileName) :
    UnorderedMap.find (loadFilesAndTransactions env disk [] []).2.1 k = some f
      ↔ (∃ size, (k, f, size) ∈ logRecords env disk m_transaction_log) ∧
        k ∉ (logRecords env disk m_timeout_log ++ logRecords env disk m_commit_log
          ++ logRecords env disk m_abort_log).map (fun record => record.1) := by
  have h := congrArg Prod.snd (loadFilesAndTransactions_maps env disk [] [])
  simp only at h
  have hassoc : logRecords env disk m_transaction_log ++ logRecords env disk m_timeout_log
      ++ logRecords env disk m_commit_log ++ logRecords env disk m_abort_log
      = logRecords env disk m_transaction_log ++ (logRecords env disk m_timeout_log
        ++ logRecords env disk m_commit_log ++ logRecords env disk m_abort_log) := by
    simp only [List.append_assoc]
  rw [h, hassoc, List.foldl_append]
  have hfresh := foldl_loadRecord_fresh (logRecords env disk m_transaction_log) ([], [])
    hopen (fun _ _ => rfl)
  have hpresent : ∀ j ∈ (logRecords env disk m_timeout_log
      ++ logRecords env disk m_commit_log ++ logRecords env disk m_abort_log).map
        (fun record => record.1),
      (UnorderedMap.find ((logRecords env disk m_transaction_log).foldl loadRecord
        ([], [])).2 j).isSome = true := by
    intro j hj
    obtain ⟨r, hr, e⟩ := List.mem_map.1 (hsub j hj)
    obtain ⟨id, name, size⟩ := r
    simp only at e
    subst e
    exact Option.isSome_iff_exists.2 ⟨name, (hfresh id name).2 (Or.inr ⟨size, hr⟩)⟩
  rw [foldl_loadRecord_present _ _ hclosed hpresent]
  by_cases hm : k ∈ (logRecords env disk m_timeout_log ++ logRecords env disk m_commit_log
      ++ logRecords env disk m_abort_log).map (fun record => record.1)
  · rw [if_pos hm]
    constructor
    · intro e
      cases e
    · rintro ⟨_, hn⟩
      exact absurd hm hn
  · rw [if_neg hm, hfresh k f]
    constructor
    · rintro (e | hex)
      · cases e
      · exact ⟨hex, hm⟩
    · rintro ⟨hex, _⟩
      exact Or.inr hex

/-- Claim C29 at failing inputs. The doc comment of `loadFilesAndTransactions` says that
the transactions in progress are those of the open log that are in none of the timeout,
commit and abort logs. On logs the server wrote itself this is not what the function
returns: after NEW_TXN on `f.txt`, ABORT, and a second NEW_TXN on `g.txt` that is given
the same id 7, the open log holds two records of 7 and the abort log one; 7 is in the
abort log, and yet the recovered map holds it, mapped to the file name of the aborted
transaction, and the restarted server has transaction 7 live on `f.txt`. So it is for a
server whose directory is the empty prefix and for one started with the directory `.`.
Also, an id that is in the commit log only is recovered, and so is an id with one record
in the open, the timeout and the abort log. -/
theorem loadFilesAndTransactions_recovers_closed_ids :
    (Reachable Scenario.reopened_cwd ∧
      logRecords (Scenario.env []) Scenario.reopened_cwd.disk m_transaction_log
        = [(7, "f.txt", 0), (7, "g.txt", 0)] ∧
      logRecords (Scenario.env []) Scenario.reopened_cwd.disk m_abort_log
        = [(7, "f.txt", 0)] ∧
      (loadFilesAndTransactions (Scenario.env []) Scenario.reopened_cwd.disk [] []).2.1
        = [(7, "f.txt")]) ∧
    (Reachable Scenario.reopened_dot ∧
      Scenario.reopened_dot.m_directory = "./" ∧
      UnorderedMap.find Scenario.reopened_dot.m_txn_id_to_transaction_attributes 7
        = some ⟨"g.txt", [], 1, 0⟩ ∧
      logRecords (Scenario.env []) Scenario.reopened_dot.disk m_transaction_log
        = [(7, "f.txt", 0), (7, "g.txt", 0)] ∧
      logRecords (Scenario.env []) Scenario.reopened_dot.disk m_timeout_log = [] ∧
      logRecords (Scenario.env []) Scenario.reopened_dot.disk m_commit_log = [] ∧
      logRecords (Scenario.env []) Scenario.reopened_dot.disk m_abort_log
        = [(7, "f.txt", 0)] ∧
      (loadFilesAndTransactions (Scenario.env []) Scenario.reopened_dot.disk [] []).2.1
        = [(7, "f.txt")] ∧
      (initializeTransactions (Scenario.env [])
          (ctor "." Scenario.reopened_dot.disk)).m_txn_id_to_transaction_attributes
        = [(7, ⟨"f.txt", [], 1, 0⟩)]) ∧
    (loadFilesAndTransactions (Scenario.env []) [(".commitlog.txt", "7 f.txt 0\n")] []
        []).2.1 = [(7, "f.txt")] ∧
    (loadFilesAndTransactions (Scenario.env [])
        [(".transactionlog.txt", "7 f.txt 0\n"), (".timeoutlog.txt", "7 f.txt 0\n"),
          (".abortlog.txt", "7 f.txt 0\n")] [] []).2.1 = [(7, "f.txt")] :=
  ⟨⟨Reachable.request (Scenario.env [7]) Scenario.aborted_cwd Scenario.new_txn_g true
        ⟨Scenario.reopened_cwd, ⟨"ACK", 7, 0, Errors.nil, ""⟩, true⟩
        (Reachable.request (Scenario.env []) Scenario.opened_cwd Scenario.abort_7 true
          ⟨Scenario.aborted_cwd, ⟨"ACK", 7, 0, Errors.nil, ""⟩, false⟩
          (Reachable.request (Scenario.env [7]) Scenario.started_cwd Scenario.new_txn_f true
            ⟨Scenario.opened_cwd, ⟨"ACK", 7, 0, Errors.nil, ""⟩, true⟩
            (Reachable.start (Scenario.env []) "" [] []) (by decide))
          (by decide))
        (by decide),
      by decide, by decide, by decide⟩,
    ⟨Reachable.request (Scenario.env [7]) Scenario.aborted_dot Scenario.new_txn_g true
        ⟨Scenario.reopened_dot, ⟨"ACK", 7, 0, Errors.nil, ""⟩, true⟩
        (Reachable.request (Scenario.env []) Scenario.opened_dot Scenario.abort_7 true
          ⟨Scenario.aborted_dot, ⟨"ACK", 7, 0, Errors.nil, ""⟩, false⟩
          (Reachable.request (Scenario.env [7]) Scenario.started_dot Scenario.new_txn_f true
            ⟨Scenario.opened_dot, ⟨"ACK", 7, 0, Errors.nil, ""⟩, true⟩
            (Reachable.start (Scenario.env []) "." [] []) (by decide))
          (by decide))
        (by decide),
      by decide, by decide, by decide, by decide, by decide, by decide, by decide,
      by decide⟩,
    by decide, by decide⟩

/-- The set difference at a concrete directory: the open log holds transactions 7 and
8, the commit log holds 7, and transaction 8 on `g.txt` is recovered. -/
theorem loadFilesAndTransactions_open_minus_closed_witness :
    UnorderedMap.find (loadFilesAndTransactions (Scenario.env [])
        Scenario.disk_two_opened_one_committed [] []).2.1 8 = some "g.txt"
      ↔ (∃ size, ((8 : Int), "g.txt", size) ∈ logRecords (Scenario.env [])
          Scenario.disk_two_opened_one_committed m_transaction_log) ∧
        (8 : Int) ∉ (logRecords (Scenario.env []) Scenario.disk_two_opened_one_committed
            m_timeout_log
          ++ logRecords (Scenario.env []) Scenario.disk_two_opened_one_committed m_commit_log
          ++ logRecords (Scenario.env []) Scenario.disk_two_opened_one_committed
            m_abort_log).map (fun record => record.1) :=
  loadFilesAndTransactions_open_minus_closed (Scenario.env [])
    Scenario.disk_two_opened_one_committed (by decide) (by decide) (by decide) 8 "g.txt"

namespace ServerBackend

/-- The call `addNewTransaction` never throws: the file attributes are created only when
the name has none. The disk afterwards is the disk after the write of the open log. -/
theorem addNewTransaction_total (env : Environment) (s : ServerBackend) (txn_id : Int)
    (file_name : FileName) :
    ∃ s1, addNewTransaction env s txn_id file_name = .ok s1 ∧
      s1.disk = logTransaction env s.m_directory s.disk m_transaction_log txn_id file_name := by
  unfold addNewTransaction
  cases hf : UnorderedMap.find s.m_file_name_to_ptr_to_file_attributes file_name with
  | none =>
      have hcf : UnorderedMap.count s.m_file_name_to_ptr_to_file_attributes file_name = false :=
        (UnorderedMap.count_eq_false_iff _ _).2 hf
      simp only [getNewFileAttributes, UnorderedMap.emplace, hcf, Bool.false_eq_true, if_false]
      split <;> exact ⟨_, rfl, rfl⟩
  | some fa =>
      simp only [UnorderedMap.emplace]
      split <;> exact ⟨_, rfl, rfl⟩

/-- The transaction map, commit set and directory after the restart loop: a record that
was in the map stays, and every other id of the list gets a new record on the file name
of its first entry. -/
theorem restartTransactions_find (env : Environment) (s : ServerBackend)
    (l : List (Int × FileName)) :
    (restartTransactions env s l).m_commits = s.m_commits ∧
    (restartTransactions env s l).m_directory = s.m_directory ∧
    ∀ k, UnorderedMap.find (restartTransactions env s l).m_txn_id_to_transaction_attributes k
      = match UnorderedMap.find s.m_txn_id_to_transaction_attributes k with
        | some t => some t
        | none => (UnorderedMap.find l k).map
            (fun file_name => getNewTransactionAttributes file_name env.now) := by
  induction l generalizing s with
  | nil =>
      refine ⟨rfl, rfl, fun k => ?_⟩
      show UnorderedMap.find s.m_txn_id_to_transaction_attributes k = _
      cases UnorderedMap.find s.m_txn_id_to_transaction_attributes k <;> rfl
  | cons p rest ih =>
      obtain ⟨txn_id, file_name⟩ := p
      obtain ⟨s1, h1, _⟩ := addNewTransaction_total env s txn_id file_name
      obtain ⟨hc, hd, hf⟩ := addNewTransaction_frame env s s1 txn_id file_name h1
      obtain ⟨ihc, ihd, ihf⟩ := ih s1
      have hstep : restartTransactions env s ((txn_id, file_name) :: rest)
          = restartTransactions env s1 rest := by
        rw [restartTransactions, h1]
      rw [hstep]
      refine ⟨ihc.trans hc, ihd.trans hd, fun k => ?_⟩
      rw [ihf k, hf k, UnorderedMap.find_cons]
      by_cases hk : k = txn_id
      · subst hk
        cases hs : UnorderedMap.find s.m_txn_id_to_transaction_attributes k with
        | none => simp
        | some t => simp
      · have hne : ¬ txn_id = k := fun e => hk e.symm
        rw [if_neg (fun h => hk h.1), if_neg hne]

/-- When the open log can be opened and written, the restart loop appends one line per
entry of the list to it, in the order of the list. -/
theorem restartTransactions_journal (env : Environment) (s : ServerBackend)
    (l : List (Int × FileName))
    (hopen : env.open_fails (s.m_directory ++ m_transaction_log) = false)
    (hwrite : env.write_limit (s.m_directory ++ m_transaction_log) = none) :
    ∃ sizes : List Int, sizes.length = l.length ∧
      Disk.content (restartTransactions env s l).disk
          (Path.normalize (s.m_directory ++ m_transaction_log))
        = Disk.content s.disk (Path.normalize (s.m_directory ++ m_transaction_log))
          ++ String.join (List.zipWith
              (fun (entry : Int × FileName) (size : Int) =>
                toString entry.1 ++ " " ++ entry.2 ++ " " ++ toString size ++ "\n")
              l sizes) := by
  induction l generalizing s with
  | nil =>
      refine ⟨[], rfl, ?_⟩
      show Disk.content s.disk _ = _ ++ String.join []
      apply String.ext
      simp [String.join]
  | cons p rest ih =>
      obtain ⟨txn_id, file_name⟩ := p
      obtain ⟨s1, h1, hdisk⟩ := addNewTransaction_total env s txn_id file_name
      obtain ⟨_, hd, _⟩ := addNewTransaction_frame env s s1 txn_id file_name h1
      have hstep : restartTransactions env s ((txn_id, file_name) :: rest)
          = restartTransactions env s1 rest := by
        rw [restartTransactions, h1]
      obtain ⟨sizes, hlen, hcontent⟩ := ih s1 (by rw [hd]; exact hopen) (by rw [hd]; exact hwrite)
      obtain ⟨size, hline⟩ := logTransaction_content env s.m_directory s.disk m_transaction_log
        txn_id file_name hopen hwrite
      refine ⟨size :: sizes, by simp [hlen], ?_⟩
      rw [hstep, ← hd, hcontent, hdisk, hd, hline, List.zipWith_cons_cons, String.join_cons_eq]
      apply String.ext
      simp [List.append_assoc]

/-- No buffer is the first one missing from an empty buffer map. -/
theorem firstMissing_nil (seq_num : Int) (h : 1 ≤ seq_num) :
    firstMissing [] seq_num = some 1 := by
  obtain ⟨m, hm⟩ : ∃ m : Nat, seq_num.toNat = m + 1 :=
    ⟨seq_num.toNat - 1, by omega⟩
  unfold firstMissing seqNums
  rw [hm, List.range_succ_eq_map]
  rfl

end ServerBackend

/-- Claim C23, amended. After recovery the transaction map holds exactly the ids of the
reconciled map, each on its recorded file name with empty buffers and maximum sequence
number 1, and the commit set is empty, whether or not the open log can be written. When
the open log in the server directory can be opened and written, the restart appends one
line per restarted transaction to it. A WRITE to a restarted transaction is acknowledged
and stored as the only buffer, and a COMMIT with a sequence number of 1 or more asks to
resend number 1, as on a transaction NEW_TXN has just opened. -/
theorem initializeTransactions_restarts_recovered (env : Environment)
    (in_directory : String) (disk : Disk) :
    (∀ k, UnorderedMap.find (initializeTransactions env
          (ctor in_directory disk)).m_txn_id_to_transaction_attributes k
        = (UnorderedMap.find (loadFilesAndTransactions env disk [] []).2.1 k).map
            (fun file_name => ⟨file_name, [], 1, env.now⟩)) ∧
    (initializeTransactions env (ctor in_directory disk)).m_commits = [] ∧
    (env.open_fails ((ctor in_directory disk).m_directory ++ m_transaction_log) = false →
      env.write_limit ((ctor in_directory disk).m_directory ++ m_transaction_log) = none →
      ∃ sizes : List Int,
        sizes.length = (loadFilesAndTransactions env disk [] []).2.1.length ∧
        Disk.content (initializeTransactions env (ctor in_directory disk)).disk
            (Path.normalize ((ctor in_directory disk).m_directory ++ m_transaction_log))
          = Disk.content (truncateFiles (loadFilesAndTransactions env disk [] []).2.2
                (loadFilesAndTransactions env disk [] []).1)
              (Path.normalize ((ctor in_directory disk).m_directory ++ m_transaction_log))
            ++ String.join (List.zipWith
                (fun (entry : Int × FileName) (size : Int) =>
                  toString entry.1 ++ " " ++ entry.2 ++ " " ++ toString size ++ "\n")
                (loadFilesAndTransactions env disk [] []).2.1 sizes)) ∧
    (∀ k file_name,
      UnorderedMap.find (loadFilesAndTransactions env disk [] []).2.1 k = some file_name →
      ∀ (later : Environment) (req : RequestTuple) (in_progress : Bool), req.txn_id = k →
        WRITE later (initializeTransactions env (ctor in_directory disk)) req in_progress
          = SET_ACK_AND_RETURN
              { initializeTransactions env (ctor in_directory disk) with
                m_txn_id_to_transaction_attributes :=
                  UnorderedMap.assign (initializeTransactions env
                      (ctor in_directory disk)).m_txn_id_to_transaction_attributes k
                    ⟨file_name, [(req.seq_num, req.data)],
                      if req.seq_num > 1 then req.seq_num else 1, later.now⟩ }
              k req.seq_num in_progress ∧
        (1 ≤ req.seq_num →
          COMMIT later (initializeTransactions env (ctor in_directory disk)) req in_progress
            = SET_ASK_RESEND_AND_RETURN
                { initializeTransactions env (ctor in_directory disk) with
                  m_txn_id_to_transaction_attributes :=
                    UnorderedMap.assign (initializeTransactions env
                        (ctor in_directory disk)).m_txn_id_to_transaction_attributes k
                      ⟨file_name, [], req.seq_num, later.now⟩ }
                k 1 in_progress)) := by
  obtain ⟨hc, hd, hf⟩ := restartTransactions_find env
    { ctor in_directory disk with
      disk := truncateFiles (loadFilesAndTransactions env disk [] []).2.2
        (loadFilesAndTransactions env disk [] []).1 }
    (loadFilesAndTransactions env disk [] []).2.1
  have hfind : ∀ k, UnorderedMap.find (initializeTransactions env
        (ctor in_directory disk)).m_txn_id_to_transaction_attributes k
      = (UnorderedMap.find (loadFilesAndTransactions env disk [] []).2.1 k).map
          (fun file_name => ⟨file_name, [], 1, env.now⟩) := fun k => (hf k).trans rfl
  have hcommits : (initializeTransactions env (ctor in_directory disk)).m_commits = [] := hc
  refine ⟨hfind, hcommits, fun hopen hwrite => ?_, ?_⟩
  · exact restartTransactions_journal env
      { ctor in_directory disk with
        disk := truncateFiles (loadFilesAndTransactions env disk [] []).2.2
          (loadFilesAndTransactions env disk [] []).1 }
      (loadFilesAndTransactions env disk [] []).2.1 hopen hwrite
  · intro k file_name hk later req in_progress hreq
    subst hreq
    have ht := hfind req.txn_id
    rw [hk] at ht
    have hn : req.txn_id ∉ (initializeTransactions env (ctor in_directory disk)).m_commits := by
      rw [hcommits]
      exact List.not_mem_nil _
    refine ⟨?_, fun hseq => ?_⟩
    · rw [WRITE_live later _ req in_progress _ hn ht]
      rfl
    · rw [COMMIT_missing later _ req in_progress _ 1 hn ht (by show ¬ req.seq_num < 1; omega)
        (firstMissing_nil req.seq_num hseq)]

/-- Claim C23 as stated fails where the open log cannot be written. The directory holds
an open log of transactions 7 and 8 and a commit log of 7; the disk is full for the open
log. Recovery restarts transaction 8 on `g.txt`, and the new open log stays empty. -/
theorem restart_may_skip_open_log :
    (loadFilesAndTransactions Scenario.env_open_log_full
        Scenario.disk_two_opened_one_committed [] []).2.1 = [(8, "g.txt")] ∧
    (initializeTransactions Scenario.env_open_log_full
        (ctor "" Scenario.disk_two_opened_one_committed)).m_txn_id_to_transaction_attributes
      = [(8, ⟨"g.txt", [], 1, 0⟩)] ∧
    UnorderedMap.find (initializeTransactions Scenario.env_open_log_full
        (ctor "" Scenario.disk_two_opened_one_committed)).disk ".transactionlog.txt"
      = some "" := by
  decide

/-- The amended claim C23 at a concrete directory: the open log holds transactions 7 and
8, the commit log holds 7; transaction 8 is restarted and the new open log holds its
line. -/
theorem initializeTransactions_restarts_recovered_witness :
    ∃ sizes : List Int,
      sizes.length = (loadFilesAndTransactions (Scenario.env [])
        Scenario.disk_two_opened_one_committed [] []).2.1.length ∧
      Disk.content (initializeTransactions (Scenario.env [])
          (ctor "" Scenario.disk_two_opened_one_committed)).disk
          (Path.normalize
            ((ctor "" Scenario.disk_two_opened_one_committed).m_directory ++ m_transaction_log))
        = Disk.content (truncateFiles (loadFilesAndTransactions (Scenario.env [])
                Scenario.disk_two_opened_one_committed [] []).2.2
              (loadFilesAndTransactions (Scenario.env [])
                Scenario.disk_two_opened_one_committed [] []).1)
            (Path.normalize
              ((ctor "" Scenario.disk_two_opened_one_committed).m_directory
                ++ m_transaction_log))
          ++ String.join (List.zipWith
              (fun (entry : Int × FileName) (size : Int) =>
                toString entry.1 ++ " " ++ entry.2 ++ " " ++ toString size ++ "\n")
              (loadFilesAndTransactions (Scenario.env [])
                Scenario.disk_two_opened_one_committed [] []).2.1 sizes) :=
  (initializeTransactions_restarts_recovered (Scenario.env []) ""
    Scenario.disk_two_opened_one_committed).2.2.1 (by decide) (by decide)

/-- Claim C21 at a failing input. The server directory `srv/` holds an open log that
records `f.txt` with size 0, and `f.txt` with one byte of a commit that was never
journalled. Recovery reads the logs and truncates the files under their bare names,
finds none of them, and leaves the directory as it is: the file keeps its byte, above
the maximum recorded for it. -/
theorem recovery_keeps_partial_append :
    logRecords (Scenario.env [])
        [(m_transaction_log, Disk.content Scenario.disk_partial_append
          ("srv/" ++ m_transaction_log))] m_transaction_log = [(7, "f.txt", 0)] ∧
    loadFilesAndTransactions (Scenario.env []) Scenario.disk_partial_append [] []
      = ([], [], Scenario.disk_partial_append) ∧
    (initializeTransactions (Scenario.env [])
        (ctor "srv/" Scenario.disk_partial_append)).disk = Scenario.disk_partial_append ∧
    File.getFileSizeOf (initializeTransactions (Scenario.env [])
        (ctor "srv/" Scenario.disk_partial_append)).disk ("srv/" ++ "f.txt") = 1 :=
  ⟨by decide, by decide, by decide, by decide⟩

/-- Claim C22 at a failing input. The open log in `srv/` records `f.txt` with size 0 and
the file exists in `srv/` when recovery runs. Recovery does not remove it, and the READ
after the restart answers ACK with the content of the file. -/
theorem READ_after_restart_returns_unjournalled_file :
    File.fileExists Scenario.disk_partial_append ("srv/" ++ "f.txt") = true ∧
    (processCommand (Scenario.env [])
        (initializeTransactions (Scenario.env []) (ctor "srv/" Scenario.disk_partial_append))
        Scenario.read_f true).map (fun out => out.out_server_response_str)
      = some ⟨"ACK", -1, 0, Errors.nil, "a"⟩ :=
  ⟨by decide, by decide⟩

/-- Claim C24 at a failing input. Transaction 7 on `f.txt` holds the fragments `a` and
`b`, the file does not exist yet, and `write(2)` fails after one byte. COMMIT answers
ERROR with code 208, and `srv/f.txt` keeps the byte that was written: the truncation is
called on the bare name `f.txt`. -/
theorem COMMIT_write_failure_keeps_partial_append :
    Reachable Scenario.written_2_then_1 ∧
    File.getFileSizeOf Scenario.written_2_then_1.disk ("srv/" ++ "f.txt") = 0 ∧
    (COMMIT Scenario.env_file_full_after_1 Scenario.written_2_then_1 Scenario.commit_7_2
        true).out_server_response_str
      = ⟨"ERROR", 7, 2, Errors.ErrorWritingFile,
          Errors.getErrorMessage Errors.ErrorWritingFile⟩ ∧
    Errors.getErrorCode Errors.ErrorWritingFile = 208 ∧
    (COMMIT Scenario.env_file_full_after_1 Scenario.written_2_then_1 Scenario.commit_7_2
        true).backend.disk = Scenario.disk_partial_append ∧
    File.getFileSizeOf (COMMIT Scenario.env_file_full_after_1 Scenario.written_2_then_1
        Scenario.commit_7_2 true).backend.disk ("srv/" ++ "f.txt") = 1 :=
  ⟨Scenario.reachable_written_2_then_1, by decide, by decide, by decide, by decide,
    by decide⟩

namespace ServerBackend

/-- The size map after one record: the size of the record's file name is stored when the
name is new, and raised when the record's size is greater. -/
theorem loadRecord_find_size (maps : FileNameFileSizeMap × TxnIdFileNameMap)
    (record : Int × FileName × Int) (f : FileName) :
    UnorderedMap.find (loadRecord maps record).1 f
      = if f = record.2.1 then
          (match UnorderedMap.find maps.1 record.2.1 with
            | none => some record.2.2
            | some size => some (if record.2.2 > size then record.2.2 else size))
        else UnorderedMap.find maps.1 f := by
  unfold loadRecord
  cases h : UnorderedMap.find maps.1 record.2.1 with
  | none => simp only [UnorderedMap.find_assign]
  | some size =>
      by_cases hgt : record.2.2 > size
      · simp only [hgt, if_true, UnorderedMap.find_assign]
      · simp only [hgt, if_false]
        by_cases hf : f = record.2.1
        · rw [if_pos hf, hf, h]
        · rw [if_neg hf]

/-- The size map after a list of records: a name has an entry exactly when it had one or
a record names it, and the entry is the greatest of the size it had and the sizes of the
records that name it. -/
theorem foldl_loadRecord_size (rs : List (Int × FileName × Int))
    (maps : FileNameFileSizeMap × TxnIdFileNameMap) (f : FileName) :
    (UnorderedMap.find (rs.foldl loadRecord maps).1 f = none
      ↔ UnorderedMap.find maps.1 f = none ∧ ∀ r ∈ rs, r.2.1 ≠ f) ∧
    ∀ v, UnorderedMap.find (rs.foldl loadRecord maps).1 f = some v →
      (UnorderedMap.find maps.1 f = some v ∨ ∃ r ∈ rs, r.2.1 = f ∧ r.2.2 = v) ∧
      (∀ v0, UnorderedMap.find maps.1 f = some v0 → v0 ≤ v) ∧
      ∀ r ∈ rs, r.2.1 = f → r.2.2 ≤ v := by
  induction rs generalizing maps with
  | nil =>
      refine ⟨by simp, fun v hv => ⟨Or.inl hv, fun v0 h0 => ?_, by simp⟩⟩
      rw [List.foldl_nil] at hv
      rw [hv] at h0
      cases h0
      exact le_refl _
  | cons r rs ih =>
      obtain ⟨ihn, ihv⟩ := ih (loadRecord maps r)
      rw [List.foldl_cons]
      have hstep := loadRecord_find_size maps r f
      by_cases hf : f = r.2.1
      · rw [if_pos hf] at hstep
        constructor
        · rw [ihn]
          constructor
          · rintro ⟨h1, _⟩
            rw [hstep] at h1
            cases hm : UnorderedMap.find maps.1 r.2.1 <;> rw [hm] at h1 <;> cases h1
          · rintro ⟨_, h2⟩
            exact absurd hf.symm (h2 r (List.mem_cons_self _ _))
        · intro v hv
          obtain ⟨h1, h2, h3⟩ := ihv v hv
          cases hm : UnorderedMap.find maps.1 r.2.1 with
          | none =>
              rw [hm] at hstep
              replace hstep : UnorderedMap.find (loadRecord maps r).1 f = some r.2.2 := hstep
              have hle : r.2.2 ≤ v := h2 _ hstep
              refine ⟨?_, ?_, ?_⟩
              · rcases h1 with h1 | ⟨r1, hr1, e1, e2⟩
                · rw [hstep] at h1
                  cases h1
                  exact Or.inr ⟨r, List.mem_cons_self _ _, hf.symm, rfl⟩
                · exact Or.inr ⟨r1, List.mem_cons_of_mem _ hr1, e1, e2⟩
              · intro v0 h0
                rw [hf, hm] at h0
                cases h0
              · intro r1 hr1 e1
                rcases List.mem_cons.1 hr1 with e | hr1
                · rw [e]
                  exact hle
                · exact h3 r1 hr1 e1
          | some size =>
              rw [hm] at hstep
              replace hstep : UnorderedMap.find (loadRecord maps r).1 f
                  = some (if r.2.2 > size then r.2.2 else size) := hstep
              have hle : (if r.2.2 > size then r.2.2 else size) ≤ v := h2 _ hstep
              have hsize : size ≤ v := by
                split_ifs at hle <;> omega
              have hrec : r.2.2 ≤ v := by
                split_ifs at hle <;> omega
              refine ⟨?_, ?_, ?_⟩
              · rcases h1 with h1 | ⟨r1, hr1, e1, e2⟩
                · rw [hstep] at h1
                  by_cases hgt : r.2.2 > size
                  · rw [if_pos hgt] at h1
                    cases h1
                    exact Or.inr ⟨r, List.mem_cons_self _ _, hf.symm, rfl⟩
                  · rw [if_neg hgt] at h1
                    cases h1
                    exact Or.inl (by rw [hf, hm])
                · exact Or.inr ⟨r1, List.mem_cons_of_mem _ hr1, e1, e2⟩
              · intro v0 h0
                rw [hf, hm] at h0
                cases h0
                exact hsize
              · intro r1 hr1 e1
                rcases List.mem_cons.1 hr1 with e | hr1
                · rw [e]
                  exact hrec
                · exact h3 r1 hr1 e1
      · rw [if_neg hf] at hstep
        constructor
        · rw [ihn, hstep]
          constructor
          · rintro ⟨h1, h2⟩
            refine ⟨h1, fun r1 hr1 => ?_⟩
            rcases List.mem_cons.1 hr1 with e | hr1
            · rw [e]
              exact fun e1 => hf e1.symm
            · exact h2 r1 hr1
          · rintro ⟨h1, h2⟩
            exact ⟨h1, fun r1 hr1 => h2 r1 (List.mem_cons_of_mem _ hr1)⟩
        · intro v hv
          obtain ⟨h1, h2, h3⟩ := ihv v hv
          rw [hstep] at h1 h2
          refine ⟨?_, h2, ?_⟩
          · rcases h1 with h1 | ⟨r1, hr1, e1, e2⟩
            · exact Or.inl h1
            · exact Or.inr ⟨r1, List.mem_cons_of_mem _ hr1, e1, e2⟩
          · intro r1 hr1 e1
            rcases List.mem_cons.1 hr1 with e | hr1
            · rw [e] at e1
              exact absurd e1.symm hf
            · exact h3 r1 hr1 e1

end ServerBackend

/-- Claim C31. After `loadFilesAndTransactions` the map from file names to sizes has an
entry for a name exactly when some record of the four logs names it, and the entry is the
size of one of these records and no smaller than the size of any of them: their
maximum. -/
theorem loadFilesAndTransactions_max_size (env : Environment) (disk : Disk)
    (file_name : FileName) :
    ((UnorderedMap.find (loadFilesAndTransactions env disk [] []).1 file_name).isSome = true
      ↔ ∃ record ∈ logRecords env disk m_transaction_log ++ logRecords env disk m_timeout_log
          ++ logRecords env disk m_commit_log ++ logRecords env disk m_abort_log,
        record.2.1 = file_name) ∧
    ∀ size, UnorderedMap.find (loadFilesAndTransactions env disk [] []).1 file_name = some size →
      (∃ record ∈ logRecords env disk m_transaction_log ++ logRecords env disk m_timeout_log
          ++ logRecords env disk m_commit_log ++ logRecords env disk m_abort_log,
        record.2.1 = file_name ∧ record.2.2 = size) ∧
      ∀ record ∈ logRecords env disk m_transaction_log ++ logRecords env disk m_timeout_log
          ++ logRecords env disk m_commit_log ++ logRecords env disk m_abort_log,
        record.2.1 = file_name → record.2.2 ≤ size := by
  have h := congrArg Prod.fst (loadFilesAndTransactions_maps env disk [] [])
  simp only at h
  rw [h]
  obtain ⟨hn, hv⟩ := foldl_loadRecord_size
    (logRecords env disk m_transaction_log ++ logRecords env disk m_timeout_log
      ++ logRecords env disk m_commit_log ++ logRecords env disk m_abort_log) ([], [])
    file_name
  constructor
  · rw [← Option.ne_none_iff_isSome, Ne, hn]
    constructor
    · intro hne
      by_contra hex
      exact hne ⟨rfl, fun r hr e => hex ⟨r, hr, e⟩⟩
    · rintro ⟨r, hr, e⟩ ⟨_, hall⟩
      exact hall r hr e
  · intro size hsize
    obtain ⟨h1, _, h3⟩ := hv size hsize
    refine ⟨?_, h3⟩
    rcases h1 with h1 | h1
    · cases h1
    · exact h1

/-- Claim C31 at a concrete directory: the open log records `f.txt` with size 0 and the
commit log with size 1; the entry of `f.txt` is 1, the size of a record that names it. -/
theorem loadFilesAndTransactions_max_size_witness :
    UnorderedMap.find (loadFilesAndTransactions (Scenario.env [])
        Scenario.disk_two_opened_one_committed [] []).1 "f.txt" = some 1 ∧
    ∃ record ∈ logRecords (Scenario.env []) Scenario.disk_two_opened_one_committed
          m_transaction_log
        ++ logRecords (Scenario.env []) Scenario.disk_two_opened_one_committed m_timeout_log
        ++ logRecords (Scenario.env []) Scenario.disk_two_opened_one_committed m_commit_log
        ++ logRecords (Scenario.env []) Scenario.disk_two_opened_one_committed m_abort_log,
      record.2.1 = "f.txt" ∧ record.2.2 = 1 :=
  ⟨by decide,
    ((loadFilesAndTransactions_max_size (Scenario.env [])
      Scenario.disk_two_opened_one_committed "f.txt").2 1 (by decide)).1⟩

/-! ## The log record round trip -/

namespace IStringStream

/-- The sentry skips leading white space. -/
theorem sentry_skip (ws : List Char) (c : Char) (rest : List Char)
    (hws : ∀ b ∈ ws, isspace b = true) (hc : isspace c = false) :
    sentry { unread := ws ++ c :: rest, good := true, failbit := false }
      = ({ unread := c :: rest, good := true, failbit := false }, true) := by
  obtain ⟨_, h2⟩ := takeWhile_dropWhile_append (p := isspace) ws (c :: rest) hws
    (fun b hb => by
      simp only [List.head?_cons, Option.mem_def, Option.some.injEq] at hb
      rw [← hb]
      exact hc)
  simp only [sentry, if_true]
  rw [h2]

/-- On nothing but white space the sentry reaches the end and fails. -/
theorem sentry_blank (ws : List Char) (hws : ∀ b ∈ ws, isspace b = true) :
    sentry { unread := ws, good := true, failbit := false }
      = ({ unread := [], good := false, failbit := true }, false) := by
  have h2 : ws.dropWhile isspace = [] := by
    rw [List.dropWhile_eq_nil_iff]
    exact hws
  simp only [sentry, if_true]
  rw [h2]

theorem extractInt_skip (ws : List Char) (c : Char) (rest : List Char) (n : Int)
    (hws : ∀ b ∈ ws, isspace b = true) (hc : isspace c = false) :
    extractInt { unread := ws ++ c :: rest, good := true, failbit := false } n
      = extractInt { unread := c :: rest, good := true, failbit := false } n := by
  unfold extractInt
  rw [sentry_skip ws c rest hws hc, sentry_cons c rest hc]

theorem extractLongLong_skip (ws : List Char) (c : Char) (rest : List Char) (n : Int)
    (hws : ∀ b ∈ ws, isspace b = true) (hc : isspace c = false) :
    extractLongLong { unread := ws ++ c :: rest, good := true, failbit := false } n
      = extractLongLong { unread := c :: rest, good := true, failbit := false } n := by
  unfold extractLongLong
  rw [sentry_skip ws c rest hws hc, sentry_cons c rest hc]

theorem extractString_skip (ws : List Char) (c : Char) (rest : List Char) (str : String)
    (hws : ∀ b ∈ ws, isspace b = true) (hc : isspace c = false) :
    extractString { unread := ws ++ c :: rest, good := true, failbit := false } str
      = extractString { unread := c :: rest, good := true, failbit := false } str := by
  unfold extractString
  rw [sentry_skip ws c rest hws hc, sentry_cons c rest hc]

/-- An optional sign followed by digits starts with a character that is not white
space. -/
theorem signed_head (sg d : List Char) (hsg : IsSign sg) (hd : IsRun decimalDigits d) :
    ∃ c r, sg ++ d = c :: r ∧ isspace c = false := by
  rcases hsg with rfl | rfl
  · cases d with
    | nil => exact absurd rfl hd.1
    | cons c d1 =>
        exact ⟨c, d1, rfl, isspace_of_mem_decimalDigits c (hd.2 c (List.mem_cons_self _ _))⟩
  · exact ⟨'-', d, rfl, by decide⟩

/-- Extraction of an `int` in range that follows white space and is followed by a
character that is not a digit. -/
theorem extractInt_text (ws sg d rest : List Char) (n : Int)
    (hws : ∀ b ∈ ws, isspace b = true) (hsg : IsSign sg)
    (hd : IsRun decimalDigits d) (hr : ∀ c ∈ rest.head?, isdigit c = false)
    (hmin : INT_MIN ≤ signedValue sg d) (hmax : signedValue sg d ≤ INT_MAX) :
    extractInt { unread := ws ++ (sg ++ (d ++ rest)), good := true, failbit := false } n
      = ({ unread := rest, good := !rest.isEmpty, failbit := false }, signedValue sg d) := by
  obtain ⟨c, r, hcr, hc⟩ := signed_head sg d hsg hd
  have hshape : sg ++ (d ++ rest) = c :: (r ++ rest) := by
    rw [← List.append_assoc, hcr, List.cons_append]
  have hspace : ∀ b ∈ [' '], isspace b = true := by decide
  have h := extractInt_number sg d rest n hsg hd hr
  rw [if_neg (by omega), if_neg (by omega)] at h
  rw [hshape, extractInt_skip ws c (r ++ rest) n hws hc,
    ← extractInt_skip [' '] c (r ++ rest) n hspace hc, ← hshape]
  exact h

/-- Extraction of a `long long` that follows one delimiter. -/
theorem extractLongLong_number (sg d rest : List Char) (n : Int) (hsg : IsSign sg)
    (hd : IsRun decimalDigits d) (hr : ∀ c ∈ rest.head?, isdigit c = false) :
    extractLongLong { unread := ' ' :: (sg ++ (d ++ rest)), good := true, failbit := false } n
      = if signedValue sg d > LLONG_MAX then
          ({ unread := rest, good := false, failbit := true }, LLONG_MAX)
        else if signedValue sg d < LLONG_MIN then
          ({ unread := rest, good := false, failbit := true }, LLONG_MIN)
        else ({ unread := rest, good := !rest.isEmpty, failbit := false }, signedValue sg d) := by
  unfold signedValue
  obtain ⟨h1, h2⟩ := takeWhile_dropWhile_append (p := isdigit) d rest
    (fun b hb => isdigit_of_mem b (hd.2 b hb)) hr
  have hne : (d.isEmpty) = false := by
    cases d with
    | nil => exact absurd rfl hd.1
    | cons _ _ => rfl
  rcases hsg with rfl | rfl
  · cases d with
    | nil => exact absurd rfl hd.1
    | cons c d1 =>
        have hc := hd.2 c (List.mem_cons_self _ _)
        obtain ⟨hm, hp⟩ := ne_sign_of_mem_decimalDigits c hc
        unfold extractLongLong
        rw [List.nil_append, List.cons_append,
          sentry_space_cons c (d1 ++ rest) (isspace_of_mem_decimalDigits c hc)]
        simp only [hm, hp, if_false]
        rw [← List.cons_append, h1, h2]
        simp only [hne, Bool.false_eq_true, if_false]
        simp
  · unfold extractLongLong
    have hs : isspace '-' = false := by decide
    rw [List.singleton_append, sentry_space_cons '-' (d ++ rest) hs]
    simp only [if_true]
    rw [h1, h2]
    simp only [hne, Bool.false_eq_true, if_false]

end IStringStream

namespace ServerBackend

/-- One round of the read loop on a line `txn_id file_name file_size` that follows white
space: the record is read and the loop goes on at the end of the line. -/
theorem readRecords_line (fuel : Nat) (ws : List Char) (txn_id : Int) (file_name : FileName)
    (file_size : Int) (tail : List Char) (hws : ∀ b ∈ ws, isspace b = true)
    (hid : INT_MIN ≤ txn_id ∧ txn_id ≤ INT_MAX)
    (hname : file_name.data ≠ [] ∧ ∀ c ∈ file_name.data, isspace c = false)
    (hsize : LLONG_MIN ≤ file_size ∧ file_size ≤ LLONG_MAX) :
    readRecords (fuel + 1)
        { unread := ws ++ ((toString txn_id).data ++ ' ' :: (file_name.data
            ++ ' ' :: ((toString file_size).data ++ '\n' :: tail))),
          good := true, failbit := false }
      = (txn_id, file_name, file_size)
          :: readRecords fuel { unread := '\n' :: tail, good := true, failbit := false } := by
  obtain ⟨sg, d, hdata, hsg, hd, hval⟩ := toString_int_fields txn_id
  obtain ⟨sg2, d2, hdata2, hsg2, hd2, hval2⟩ := toString_int_fields file_size
  have hspace : isspace ' ' = true := by decide
  have h1 := IStringStream.extractInt_text ws sg d
    (' ' :: (file_name.data ++ ' ' :: ((toString file_size).data ++ '\n' :: tail))) 0
    hws hsg hd
    (fun b hb => by
      simp only [List.head?_cons, Option.mem_def, Option.some.injEq] at hb
      rw [← hb]
      decide)
    (by rw [hval]; exact hid.1) (by rw [hval]; exact hid.2)
  rw [hval, ← List.append_assoc sg d, ← hdata] at h1
  obtain ⟨c, w1, hw⟩ : ∃ c w1, file_name.data = c :: w1 := by
    cases hf : file_name.data with
    | nil => exact absurd hf hname.1
    | cons c w1 => exact ⟨c, w1, rfl⟩
  have hc : isspace c = false := hname.2 c (by rw [hw]; exact List.mem_cons_self _ _)
  have h2 := IStringStream.extractString_word file_name.data
    (' ' :: ((toString file_size).data ++ '\n' :: tail)) "" hname.1 hname.2
    (fun b hb => by
      simp only [List.head?_cons, Option.mem_def, Option.some.injEq] at hb
      rw [← hb]
      exact hspace)
  have h2s : IStringStream.extractString
      { unread := ' ' :: (file_name.data ++ ' ' :: ((toString file_size).data ++ '\n' :: tail)),
        good := true, failbit := false } ""
      = ({ unread := ' ' :: ((toString file_size).data ++ '\n' :: tail), good := true,
           failbit := false }, file_name) := by
    have hskip := IStringStream.extractString_skip [' '] c
      (w1 ++ ' ' :: ((toString file_size).data ++ '\n' :: tail)) "" (by decide) hc
    rw [List.singleton_append, ← List.cons_append, ← hw] at hskip
    rw [hskip, h2]
    rfl
  have h3 := IStringStream.extractLongLong_number sg2 d2 ('\n' :: tail) 0 hsg2 hd2
    (fun b hb => by
      simp only [List.head?_cons, Option.mem_def, Option.some.injEq] at hb
      rw [← hb]
      decide)
  rw [hval2, if_neg (by omega), if_neg (by omega), ← List.append_assoc sg2 d2, ← hdata2] at h3
  rw [readRecords]
  simp only [h1, List.isEmpty_cons, Bool.not_false, Bool.false_eq_true, if_false, h2s, h3]

/-- The read loop on the lines of a list of records, after white space: the records,
when the fuel is at least their number. -/
theorem readRecords_lines (records : List (Int × FileName × Int)) (fuel : Nat)
    (ws : List Char) (hws : ∀ b ∈ ws, isspace b = true) (hfuel : records.length ≤ fuel)
    (hid : ∀ r ∈ records, INT_MIN ≤ r.1 ∧ r.1 ≤ INT_MAX)
    (hname : ∀ r ∈ records, r.2.1.data ≠ [] ∧ ∀ c ∈ r.2.1.data, isspace c = false)
    (hsize : ∀ r ∈ records, LLONG_MIN ≤ r.2.2 ∧ r.2.2 ≤ LLONG_MAX) :
    readRecords fuel
        { unread := ws ++ (String.join (records.map (fun r =>
            toString r.1 ++ " " ++ r.2.1 ++ " " ++ toString r.2.2 ++ "\n"))).data,
          good := true, failbit := false }
      = records := by
  induction records generalizing fuel ws with
  | nil =>
      cases fuel with
      | zero => rfl
      | succ fuel =>
          rw [readRecords]
          have hs : IStringStream.extractInt
              { unread := ws ++ (String.join []).data, good := true, failbit := false } 0
              = ({ unread := [], good := false, failbit := true }, 0) := by
            unfold IStringStream.extractInt
            have e : ws ++ (String.join []).data = ws := by simp [String.join]
            rw [e, IStringStream.sentry_blank ws hws]
          simp only [List.map_nil, hs, if_true]
  | cons r rest ih =>
      obtain ⟨txn_id, file_name, file_size⟩ := r
      cases fuel with
      | zero => simp at hfuel
      | succ fuel =>
          have htext : ws ++ (String.join (((txn_id, file_name, file_size) :: rest).map
              (fun r => toString r.1 ++ " " ++ r.2.1 ++ " " ++ toString r.2.2 ++ "\n"))).data
              = ws ++ ((toString txn_id).data ++ ' ' :: (file_name.data
                  ++ ' ' :: ((toString file_size).data ++ '\n' :: (String.join (rest.map
                    (fun r => toString r.1 ++ " " ++ r.2.1 ++ " " ++ toString r.2.2
                      ++ "\n"))).data))) := by
            rw [List.map_cons, String.join_cons_eq]
            simp [List.append_assoc]
          rw [htext, readRecords_line fuel ws txn_id file_name file_size _ hws
            (hid _ (List.mem_cons_self _ _)) (hname _ (List.mem_cons_self _ _))
            (hsize _ (List.mem_cons_self _ _))]
          have hnl : ∀ b ∈ ['\n'], isspace b = true := by decide
          have := ih fuel ['\n'] hnl (by simpa using hfuel)
            (fun r hr => hid r (List.mem_cons_of_mem _ hr))
            (fun r hr => hname r (List.mem_cons_of_mem _ hr))
            (fun r hr => hsize r (List.mem_cons_of_mem _ hr))
          rw [List.singleton_append] at this
          rw [this]

end ServerBackend

namespace ServerBackend

/-- The text of a list of records has at least one character per record. -/
theorem length_le_lines_length (records : List (Int × FileName × Int)) :
    records.length ≤ (String.join (records.map (fun r =>
      toString r.1 ++ " " ++ r.2.1 ++ " " ++ toString r.2.2 ++ "\n"))).length := by
  induction records with
  | nil => exact Nat.zero_le _
  | cons r rest ih =>
      rw [List.map_cons, String.join_cons_eq, String.length_append, String.length_append,
        List.length_cons]
      have : ("\n" : String).length = 1 := rfl
      omega

end ServerBackend

/-- Claim C40. For every list of records whose ids are values of `int`, whose sizes are
values of `long long`, and whose file names are non-empty and without white space: the
read loop of recovery, run on the text of one line `txn_id file_name file_size` per
record, as `logTransaction` writes them, returns the records in their order; so does
`logRecords` on a log with this content that can be opened. -/
theorem log_record_round_trip (records : List (Int × FileName × Int))
    (hid : ∀ r ∈ records, INT_MIN ≤ r.1 ∧ r.1 ≤ INT_MAX)
    (hname : ∀ r ∈ records, r.2.1 ≠ "" ∧ ∀ c ∈ r.2.1.data, isspace c = false)
    (hsize : ∀ r ∈ records, LLONG_MIN ≤ r.2.2 ∧ r.2.2 ≤ LLONG_MAX) :
    readRecords
        (String.join (records.map (fun r =>
          toString r.1 ++ " " ++ r.2.1 ++ " " ++ toString r.2.2 ++ "\n"))).length
        { unread := (String.join (records.map (fun r =>
            toString r.1 ++ " " ++ r.2.1 ++ " " ++ toString r.2.2 ++ "\n"))).data,
          good := true, failbit := false }
      = records ∧
    ∀ (env : Environment) (disk : Disk) (log_file : FileName),
      env.open_fails log_file = false →
      UnorderedMap.find disk (Path.normalize log_file) = some (String.join (records.map (fun r =>
        toString r.1 ++ " " ++ r.2.1 ++ " " ++ toString r.2.2 ++ "\n"))) →
      logRecords env disk log_file = records := by
  have hname1 : ∀ r ∈ records, r.2.1.data ≠ [] ∧ ∀ c ∈ r.2.1.data, isspace c = false :=
    fun r hr => ⟨fun h => (hname r hr).1 (String.ext h), (hname r hr).2⟩
  have h := readRecords_lines records _ [] (by simp) (length_le_lines_length records)
    hid hname1 hsize
  rw [List.nil_append] at h
  refine ⟨h, fun env disk log_file hopen hfind => ?_⟩
  unfold logRecords
  rw [hopen, hfind]
  exact h

/-- Claim C40 at two records: the lines of transaction 7 on `f.txt` with size 0 and of
transaction -8 on `g.txt` with size 15 are read back as these records. -/
theorem log_record_round_trip_witness :
    readRecords
        (String.join ([((7 : Int), "f.txt", (0 : Int)), (-8, "g.txt", 15)].map (fun r =>
          toString r.1 ++ " " ++ r.2.1 ++ " " ++ toString r.2.2 ++ "\n"))).length
        { unread := (String.join ([((7 : Int), "f.txt", (0 : Int)), (-8, "g.txt", 15)].map
            (fun r => toString r.1 ++ " " ++ r.2.1 ++ " " ++ toString r.2.2 ++ "\n"))).data,
          good := true, failbit := false }
      = [(7, "f.txt", 0), (-8, "g.txt", 15)] :=
  (log_record_round_trip [(7, "f.txt", 0), (-8, "g.txt", 15)] (by decide) (by decide)
    (by decide)).1

/-- Claim C32 at a failing input. Transaction 7 on `f.txt` in the server directory `srv/`
holds the fragment `a`. COMMIT answers ACK and `srv/f.txt` then holds one byte, but the
line appended to the commit log records size 0: `logTransaction` takes the size of the
bare name `f.txt`, which is not the file that received the append. -/
theorem COMMIT_journals_size_of_bare_name :
    Reachable Scenario.written ∧
    (COMMIT (Scenario.env []) Scenario.written Scenario.commit_7_1
        true).out_server_response_str = ⟨"ACK", 7, 1, Errors.nil, ""⟩ ∧
    UnorderedMap.find (COMMIT (Scenario.env []) Scenario.written Scenario.commit_7_1
        true).backend.disk ("srv/" ++ "f.txt") = some "a" ∧
    File.getFileSizeOf (COMMIT (Scenario.env []) Scenario.written Scenario.commit_7_1
        true).backend.disk ("srv/" ++ "f.txt") = 1 ∧
    UnorderedMap.find Scenario.written.disk ("srv/" ++ m_commit_log) = none ∧
    UnorderedMap.find (COMMIT (Scenario.env []) Scenario.written Scenario.commit_7_1
        true).backend.disk ("srv/" ++ m_commit_log) = some "7 f.txt 0\n" :=
  ⟨Scenario.reachable_written, by decide, by decide, by decide, by decide, by decide⟩

/-! ## What a step does to the records -/

namespace ServerBackend

theorem Grows.refl (t : TransactionAttributesTuple) : Grows t t :=
  ⟨rfl, le_refl _, Or.inl rfl⟩

theorem Grows.stamp (t : TransactionAttributesTuple) (now : Nat) :
    Grows t { t with curr_timestamp := now } :=
  ⟨rfl, le_refl _, Or.inl rfl⟩

theorem Changes_same {s s1 : ServerBackend} (hc : s1.m_commits = s.m_commits)
    (hf : ∀ k, UnorderedMap.find s1.m_txn_id_to_transaction_attributes k
      = UnorderedMap.find s.m_txn_id_to_transaction_attributes k) : Changes s s1 := by
  intro k
  rw [hc, hf k]
  refine ⟨?_, fun h => Or.inl h, fun h => h⟩
  cases h : UnorderedMap.find s.m_txn_id_to_transaction_attributes k with
  | none => exact Or.inl rfl
  | some t => exact Or.inr ⟨t, rfl, Grows.refl t⟩

theorem Changes_assign {s s1 : ServerBackend} (k0 : Int) (t0 t1 : TransactionAttributesTuple)
    (hc : s1.m_commits = s.m_commits)
    (hf : ∀ k, UnorderedMap.find s1.m_txn_id_to_transaction_attributes k
      = if k = k0 then some t1
        else UnorderedMap.find s.m_txn_id_to_transaction_attributes k)
    (h0 : UnorderedMap.find s.m_txn_id_to_transaction_attributes k0 = some t0)
    (hg : Grows t0 t1) : Changes s s1 := by
  intro k
  rw [hc, hf k]
  refine ⟨?_, fun h => Or.inl h, fun h => h⟩
  by_cases hk : k = k0
  · subst hk
    rw [h0, if_pos rfl]
    exact Or.inr ⟨t1, rfl, hg⟩
  · rw [if_neg hk]
    cases h : UnorderedMap.find s.m_txn_id_to_transaction_attributes k with
    | none => exact Or.inl rfl
    | some t => exact Or.inr ⟨t, rfl, Grows.refl t⟩

theorem Changes_remove {s s1 : ServerBackend} (k0 : Int)
    (hc : s1.m_commits = s.m_commits ∨ s1.m_commits = k0 :: s.m_commits)
    (hf : ∀ k, UnorderedMap.find s1.m_txn_id_to_transaction_attributes k
      = if k = k0 then none
        else UnorderedMap.find s.m_txn_id_to_transaction_attributes k) : Changes s s1 := by
  intro k
  rw [hf k]
  refine ⟨?_, fun h => ?_, fun h => ?_⟩
  · by_cases hk : k = k0
    · rw [if_pos hk]
      cases UnorderedMap.find s.m_txn_id_to_transaction_attributes k <;> exact Or.inl rfl
    · rw [if_neg hk]
      cases h : UnorderedMap.find s.m_txn_id_to_transaction_attributes k with
      | none => exact Or.inl rfl
      | some t => exact Or.inr ⟨t, rfl, Grows.refl t⟩
  · rcases hc with hc | hc
    · rw [hc] at h
      exact Or.inl h
    · rw [hc] at h
      rcases List.mem_cons.1 h with e | h
      · exact Or.inr (if_pos e)
      · exact Or.inl h
  · rcases hc with hc | hc
    · rw [hc]
      exact h
    · rw [hc]
      exact List.mem_cons_of_mem _ h

theorem Changes_add {s s1 : ServerBackend} (k0 : Int) (file_name : FileName) (now : Nat)
    (hc : s1.m_commits = s.m_commits)
    (hf : ∀ k, UnorderedMap.find s1.m_txn_id_to_transaction_attributes k
      = if k = k0 ∧ UnorderedMap.find s.m_txn_id_to_transaction_attributes k0 = none
        then some (getNewTransactionAttributes file_name now)
        else UnorderedMap.find s.m_txn_id_to_transaction_attributes k) : Changes s s1 := by
  intro k
  rw [hc, hf k]
  refine ⟨?_, fun h => Or.inl h, fun h => h⟩
  by_cases hk : k = k0 ∧ UnorderedMap.find s.m_txn_id_to_transaction_attributes k0 = none
  · rw [if_pos hk, hk.1, hk.2]
    exact Or.inr ⟨file_name, now, rfl⟩
  · rw [if_neg hk]
    cases h : UnorderedMap.find s.m_txn_id_to_transaction_attributes k with
    | none => exact Or.inl rfl
    | some t => exact Or.inr ⟨t, rfl, Grows.refl t⟩

theorem Changes_READ (env : Environment) (s : ServerBackend) (req : RequestTuple)
    (ip : Bool) : Changes s (READ env s req ip).backend := by
  unfold READ
  split
  · exact Changes_same rfl (fun _ => rfl)
  · split
    · exact Changes_same rfl (fun _ => rfl)
    · exact Changes_same rfl (fun _ => rfl)

theorem Changes_NEW_TXN (env : Environment) (s : ServerBackend) (req : RequestTuple)
    (ip : Bool) (out : Outcome) (h : NEW_TXN env s req ip = some out) :
    Changes s out.backend := by
  unfold NEW_TXN at h
  split at h
  · split at h
    · cases h
    · split at h
      · cases h
        exact Changes_same rfl (fun _ => rfl)
      · rename_i s1 h1
        cases h
        obtain ⟨hc, _, hf⟩ := addNewTransaction_frame env s s1 _ req.data h1
        exact Changes_add _ req.data env.now hc hf
  · cases h
    exact Changes_same rfl (fun _ => rfl)

theorem Changes_WRITE (env : Environment) (s : ServerBackend) (req : RequestTuple)
    (ip : Bool) : Changes s (WRITE env s req ip).backend := by
  by_cases hn : req.txn_id ∈ s.m_commits
  · rw [WRITE_committed env s req ip hn]
    exact Changes_same rfl (fun _ => rfl)
  · cases ht : UnorderedMap.find s.m_txn_id_to_transaction_attributes req.txn_id with
    | none =>
        rw [WRITE_unknown env s req ip hn ht]
        exact Changes_same rfl (fun _ => rfl)
    | some t =>
        rw [WRITE_live env s req ip t hn ht]
        split
        · exact Changes_assign req.txn_id t _ rfl
            (fun k => UnorderedMap.find_assign _ _ _ _) ht (Grows.stamp t env.now)
        · rename_i hcount
          refine Changes_assign req.txn_id t _ rfl
            (fun k => UnorderedMap.find_assign _ _ _ _) ht ⟨rfl, ?_, Or.inr ⟨req.seq_num,
              req.data, by simpa using hcount, ?_, rfl⟩⟩
          · dsimp only
            split <;> omega
          · dsimp only
            split <;> omega

theorem Changes_COMMIT (env : Environment) (s : ServerBackend) (req : RequestTuple)
    (ip : Bool) : Changes s (COMMIT env s req ip).backend := by
  by_cases hn : req.txn_id ∈ s.m_commits
  · rw [COMMIT_committed env s req ip hn]
    exact Changes_same rfl (fun _ => rfl)
  · cases ht : UnorderedMap.find s.m_txn_id_to_transaction_attributes req.txn_id with
    | none =>
        rw [COMMIT_unknown env s req ip hn ht]
        exact Changes_same rfl (fun _ => rfl)
    | some t =>
        by_cases hlt : req.seq_num < t.max_seq_num
        · rw [COMMIT_low env s req ip t hn ht hlt]
          exact Changes_assign req.txn_id t _ rfl
            (fun k => UnorderedMap.find_assign _ _ _ _) ht (Grows.stamp t env.now)
        · have hg : Grows t { t with curr_timestamp := env.now, max_seq_num := req.seq_num } :=
            ⟨rfl, by dsimp only; omega, Or.inl rfl⟩
          cases hm : firstMissing t.buffers req.seq_num with
          | some missing =>
              rw [COMMIT_missing env s req ip t missing hn ht hlt hm]
              exact Changes_assign req.txn_id t _ rfl
                (fun k => UnorderedMap.find_assign _ _ _ _) ht hg
          | none =>
              cases ho : File.ctor env s.disk (s.m_directory ++ t.sp_file_attributes)
                  OpenFlags.O_CREAT_O_WRONLY_O_APPEND with
              | error e =>
                  rw [COMMIT_open_failed env s req ip t e hn ht hlt hm ho]
                  exact Changes_assign req.txn_id t _ rfl
                    (fun k => UnorderedMap.find_assign _ _ _ _) ht hg
              | ok p =>
                  obtain ⟨disk0, file⟩ := p
                  rcases hw : File.writeAll disk0 file (fragments t.buffers req.seq_num)
                    with ⟨disk1, file1, flag⟩
                  cases flag
                  · rw [COMMIT_write_failed env s req ip t disk0 disk1 file file1 hn ht hlt
                      hm ho hw]
                    exact Changes_assign req.txn_id t _ rfl
                      (fun k => UnorderedMap.find_assign _ _ _ _) ht hg
                  · rw [COMMIT_flushed env s req ip t disk0 disk1 file file1 hn ht hlt hm
                      ho hw]
                    refine Changes_remove req.txn_id
                      (Or.inr (removeTransaction_commits _ _)) (fun k => ?_)
                    show UnorderedMap.find (removeTransaction _
                      req.txn_id).m_txn_id_to_transaction_attributes k = _
                    rw [removeTransaction_find]
                    by_cases hk : k = req.txn_id
                    · rw [if_pos hk, if_pos hk]
                    · rw [if_neg hk, if_neg hk]
                      exact UnorderedMap.find_assign_ne _ _ hk

theorem Changes_ABORT (env : Environment) (s : ServerBackend) (req : RequestTuple)
    (ip : Bool) : Changes s (ABORT env s req ip).backend := by
  by_cases hn : req.txn_id ∈ s.m_commits
  · rw [ABORT_committed env s req ip hn]
    exact Changes_same rfl (fun _ => rfl)
  · cases ht : UnorderedMap.find s.m_txn_id_to_transaction_attributes req.txn_id with
    | none =>
        have e : ABORT env s req ip
            = SET_ERROR_AND_RETURN s req.txn_id req.seq_num Errors.InvalidTransactionId := by
          simp only [ABORT, hn, ht, if_false]
        rw [e]
        exact Changes_same rfl (fun _ => rfl)
    | some t =>
        rw [ABORT_live env s req ip t hn ht]
        exact Changes_remove req.txn_id (Or.inl (removeTransaction_commits _ _))
          (fun k => removeTransaction_find _ _ k)

theorem Changes_processCommand (env : Environment) (s : ServerBackend)
    (req : RequestTuple) (ip : Bool) (out : Outcome)
    (h : processCommand env s req ip = some out) : Changes s out.backend := by
  unfold processCommand at h
  split at h
  · cases h
    exact Changes_READ env s req ip
  · split at h
    · exact Changes_NEW_TXN env s req ip out h
    · split at h
      · cases h
        exact Changes_WRITE env s req ip
      · split at h
        · cases h
          exact Changes_COMMIT env s req ip
        · split at h
          · cases h
            exact Changes_ABORT env s req ip
          · cases h
            exact Changes_same rfl (fun _ => rfl)

theorem Changes_timer (env : Environment) (s : ServerBackend) (txn_id : Int)
    (file_name : FileName) :
    Changes s (m_txn_timer_function env s txn_id file_name).1 := by
  unfold m_txn_timer_function
  split
  · split
    · exact Changes_remove txn_id (Or.inl (removeTransaction_commits _ _))
        (fun k => removeTransaction_find _ _ k)
    · exact Changes_same rfl (fun _ => rfl)
  · exact Changes_same rfl (fun _ => rfl)

/-- Every step changes the records and the commit set as `Changes` says. -/
theorem Step.changes {s s1 : ServerBackend} (h : Step s s1) : Changes s s1 := by
  cases h with
  | request env s req ip out hstep => exact Changes_processCommand env s req ip out hstep
  | timer env s txn_id file_name => exact Changes_timer env s txn_id file_name

end ServerBackend

/-! ## Invariants of the records -/

namespace ServerBackend

theorem count_assign {κ ν : Type} [DecidableEq κ] (m : UnorderedMap κ ν) (k k1 : κ) (v : ν)
    (h : UnorderedMap.count (UnorderedMap.assign m k v) k1 = true) :
    k1 = k ∨ UnorderedMap.count m k1 = true := by
  unfold UnorderedMap.count at h ⊢
  rw [UnorderedMap.find_assign] at h
  by_cases hk : k1 = k
  · exact Or.inl hk
  · rw [if_neg hk] at h
    exact Or.inr h

/-- A record that grew from a bounded record with a maximum of at least 1 is bounded. -/
theorem Grows.bounded {t t1 : TransactionAttributesTuple} (hg : Grows t t1)
    (hb : ∀ seq_num, UnorderedMap.count t.buffers seq_num = true → seq_num ≤ t.max_seq_num) :
    ∀ seq_num, UnorderedMap.count t1.buffers seq_num = true → seq_num ≤ t1.max_seq_num := by
  obtain ⟨_, hmax, hbuf⟩ := hg
  intro j hj
  rcases hbuf with e | ⟨seq_num, data, _, hle, e⟩
  · rw [e] at hj
    exact le_trans (hb j hj) hmax
  · rw [e] at hj
    rcases count_assign _ _ _ _ hj with e1 | h1
    · rw [e1]
      exact hle
    · exact le_trans (hb j h1) hmax

theorem BuffersBounded_of_changes {s s1 : ServerBackend} (h : Changes s s1)
    (hs : BuffersBounded s) : BuffersBounded s1 := by
  intro k t1 hk
  have hch := (h k).1
  cases ho : UnorderedMap.find s.m_txn_id_to_transaction_attributes k with
  | none =>
      rw [ho] at hch
      rcases hch with hn | ⟨file_name, now, hf⟩
      · rw [hn] at hk
        cases hk
      · rw [hf] at hk
        cases hk
        intro j hj
        exact absurd hj (by simp [getNewTransactionAttributes, UnorderedMap.count,
          UnorderedMap.find])
  | some t =>
      rw [ho] at hch
      rcases hch with hn | ⟨t2, hf, hg⟩
      · rw [hn] at hk
        cases hk
      · rw [hf] at hk
        cases hk
        exact hg.bounded (hs k t ho)

end ServerBackend

/-- In every reachable backend the sequence numbers that have a buffer are at most the
maximum sequence number of their record. -/
theorem Reachable.buffersBounded {s : ServerBackend} (h : Reachable s) :
    ServerBackend.BuffersBounded s := by
  induction h with
  | start env dir disk l =>
      intro k t hk
      rw [(ServerBackend.restartTransactions_find env _ l).2.2 k] at hk
      have hc : UnorderedMap.find
          (ServerBackend.ctor dir disk).m_txn_id_to_transaction_attributes k = none := rfl
      rw [hc] at hk
      cases hl : UnorderedMap.find l k with
      | none =>
          rw [hl] at hk
          cases hk
      | some f =>
          rw [hl] at hk
          cases hk
          intro j hj
          exact absurd hj (by simp [ServerBackend.getNewTransactionAttributes,
            UnorderedMap.count, UnorderedMap.find])
  | request env s req ip out _ hstep ih =>
      exact ServerBackend.BuffersBounded_of_changes
        (ServerBackend.Changes_processCommand env s req ip out hstep) ih
  | timer env s txn_id file_name _ ih =>
      exact ServerBackend.BuffersBounded_of_changes
        (ServerBackend.Changes_timer env s txn_id file_name) ih

namespace ServerBackend

/-- Over a run in which the transaction stays live its record only grows: the file name
stays, the maximum sequence number does not decrease, every buffer stays, and the id
does not enter the commit set. -/
theorem LiveRun.grows {txn_id : Int} {s s2 : ServerBackend} (h : LiveRun txn_id s s2)
    (t : TransactionAttributesTuple)
    (ht : UnorderedMap.find s.m_txn_id_to_transaction_attributes txn_id = some t) :
    ∃ t2, UnorderedMap.find s2.m_txn_id_to_transaction_attributes txn_id = some t2 ∧
      t2.sp_file_attributes = t.sp_file_attributes ∧ t.max_seq_num ≤ t2.max_seq_num ∧
      (∀ seq_num data, UnorderedMap.find t.buffers seq_num = some data →
        UnorderedMap.find t2.buffers seq_num = some data) ∧
      (txn_id ∉ s.m_commits → txn_id ∉ s2.m_commits) := by
  induction h with
  | refl => exact ⟨t, ht, rfl, le_refl _, fun _ _ h => h, fun h => h⟩
  | step s1 s2 _ hstep hlive ih =>
      obtain ⟨t1, h1, hsp, hmax, hbuf, hcom⟩ := ih
      have hch := hstep.changes txn_id
      rw [h1] at hch
      obtain ⟨hrec, hin, _⟩ := hch
      rcases hrec with hn | ⟨t2, h2, hg⟩
      · rw [hn] at hlive
        cases hlive
      · refine ⟨t2, h2, hg.1.trans hsp, le_trans hmax hg.2.1, fun j d hj => ?_, fun hnc hc => ?_⟩
        · have hj1 := hbuf j d hj
          rcases hg.2.2 with e | ⟨seq_num, data, hcount, _, e⟩
          · rw [e]
            exact hj1
          · rw [e, UnorderedMap.find_assign]
            by_cases hjs : j = seq_num
            · rw [hjs] at hj1
              rw [UnorderedMap.count, hj1] at hcount
              cases hcount
            · rw [if_neg hjs]
              exact hj1
        · rcases hin hc with h | h
          · exact hcom hnc h
          · rw [h2] at h
            cases h

/-- The branches of COMMIT on a live transaction outside the commit set. -/
theorem COMMIT_cases (env : Environment) (s : ServerBackend) (req : RequestTuple) (ip : Bool)
    (t : TransactionAttributesTuple) (hn : req.txn_id ∉ s.m_commits)
    (ht : UnorderedMap.find s.m_txn_id_to_transaction_attributes req.txn_id = some t) :
    (req.seq_num < t.max_seq_num ∧
      (COMMIT env s req ip).out_server_response_str
        = ⟨Constants.error_cmd, req.txn_id, req.seq_num,
            Errors.CommitWithInvalidSequenceNumber,
            Errors.getErrorMessage Errors.CommitWithInvalidSequenceNumber⟩ ∧
      (COMMIT env s req ip).backend
        = { s with
            m_txn_id_to_transaction_attributes :=
              UnorderedMap.assign s.m_txn_id_to_transaction_attributes req.txn_id
                { t with curr_timestamp := env.now } }) ∨
    (¬ req.seq_num < t.max_seq_num ∧
      ((∃ missing, firstMissing t.buffers req.seq_num = some missing ∧
          (COMMIT env s req ip).out_server_response_str
            = ⟨Constants.ask_resend_cmd, req.txn_id, missing, Errors.nil, ""⟩ ∧
          (COMMIT env s req ip).backend
            = { s with
                m_txn_id_to_transaction_attributes :=
                  UnorderedMap.assign s.m_txn_id_to_transaction_attributes req.txn_id
                    { t with curr_timestamp := env.now, max_seq_num := req.seq_num } }) ∨
        (firstMissing t.buffers req.seq_num = none ∧
          ((∃ e, File.ctor env s.disk (s.m_directory ++ t.sp_file_attributes)
                OpenFlags.O_CREAT_O_WRONLY_O_APPEND = .error e ∧
              (COMMIT env s req ip).out_server_response_str
                = ⟨Constants.error_cmd, req.txn_id, req.seq_num, Errors.ErrorOpeningFile,
                    Errors.getErrorMessage Errors.ErrorOpeningFile⟩ ∧
              (COMMIT env s req ip).backend
                = { s with
                    m_txn_id_to_transaction_attributes :=
                      UnorderedMap.assign s.m_txn_id_to_transaction_attributes req.txn_id
                        { t with curr_timestamp := env.now, max_seq_num := req.seq_num } }) ∨
            (∃ disk0 file disk1 file1,
              File.ctor env s.disk (s.m_directory ++ t.sp_file_attributes)
                OpenFlags.O_CREAT_O_WRONLY_O_APPEND = .ok (disk0, file) ∧
              File.writeAll disk0 file (fragments t.buffers req.seq_num)
                = (disk1, file1, false) ∧
              (COMMIT env s req ip).out_server_response_str
                = ⟨Constants.error_cmd, req.txn_id, req.seq_num, Errors.ErrorWritingFile,
                    Errors.getErrorMessage Errors.ErrorWritingFile⟩ ∧
              (COMMIT env s req ip).backend
                = { s with
                    m_txn_id_to_transaction_attributes :=
                      UnorderedMap.assign s.m_txn_id_to_transaction_attributes req.txn_id
                        { t with curr_timestamp := env.now, max_seq_num := req.seq_num }
                    disk := truncate disk1 t.sp_file_attributes
                      (match UnorderedMap.find s.m_file_name_to_ptr_to_file_attributes
                          t.sp_file_attributes with
                        | some fa => fa.m_file_size
                        | none => 0) }) ∨
            (∃ disk0 file disk1 file1,
              File.ctor env s.disk (s.m_directory ++ t.sp_file_attributes)
                OpenFlags.O_CREAT_O_WRONLY_O_APPEND = .ok (disk0, file) ∧
              File.writeAll disk0 file (fragments t.buffers req.seq_num)
                = (disk1, file1, true) ∧
              (COMMIT env s req ip).out_server_response_str
                = ⟨Constants.ack_cmd, req.txn_id, req.seq_num, Errors.nil, ""⟩ ∧
              UnorderedMap.find (COMMIT env s req ip).backend.m_txn_id_to_transaction_attributes
                req.txn_id = none ∧
              (COMMIT env s req ip).backend.m_commits = req.txn_id :: s.m_commits))))) := by
  by_cases hlt : req.seq_num < t.max_seq_num
  · left
    rw [COMMIT_low env s req ip t hn ht hlt]
    exact ⟨hlt, rfl, rfl⟩
  · right
    refine ⟨hlt, ?_⟩
    cases hm : firstMissing t.buffers req.seq_num with
    | some missing =>
        left
        rw [COMMIT_missing env s req ip t missing hn ht hlt hm]
        exact ⟨missing, rfl, rfl, rfl⟩
    | none =>
        right
        refine ⟨rfl, ?_⟩
        cases ho : File.ctor env s.disk (s.m_directory ++ t.sp_file_attributes)
            OpenFlags.O_CREAT_O_WRONLY_O_APPEND with
        | error e =>
            left
            rw [COMMIT_open_failed env s req ip t e hn ht hlt hm ho]
            exact ⟨e, rfl, rfl, rfl⟩
        | ok p =>
            obtain ⟨disk0, file⟩ := p
            rcases hw : File.writeAll disk0 file (fragments t.buffers req.seq_num)
              with ⟨disk1, file1, flag⟩
            cases flag
            · right
              left
              rw [COMMIT_write_failed env s req ip t disk0 disk1 file file1 hn ht hlt hm ho hw]
              exact ⟨disk0, file, disk1, file1, rfl, hw, rfl, rfl⟩
            · right
              right
              rw [COMMIT_flushed env s req ip t disk0 disk1 file file1 hn ht hlt hm ho hw]
              refine ⟨disk0, file, disk1, file1, rfl, hw, rfl, ?_, ?_⟩
              · show UnorderedMap.find (removeTransaction _
                  req.txn_id).m_txn_id_to_transaction_attributes req.txn_id = none
                rw [removeTransaction_find, if_pos rfl]
              · exact removeTransaction_commits _ _

end ServerBackend

/-- Claim C33, amended. In every reachable state every live transaction has a maximum
sequence number of at least 1, and every sequence number that has a buffer is at most
that maximum. -/
theorem live_records_bounded (s : ServerBackend) (h : Reachable s) (txn_id : Int)
    (t : TransactionAttributesTuple)
    (ht : UnorderedMap.find s.m_txn_id_to_transaction_attributes txn_id = some t) :
    1 ≤ t.max_seq_num ∧
    ∀ seq_num, UnorderedMap.count t.buffers seq_num = true → seq_num ≤ t.max_seq_num :=
  ⟨(h.consistent txn_id t ht).1, h.buffersBounded txn_id t ht⟩

/-- Claim C33 as stated fails: WRITE does not test the sequence number against 1. A WRITE
with sequence number 0 to the live transaction 7 is acknowledged, and the record then
holds a buffer under 0, below the range from 1 to the maximum. -/
theorem WRITE_stores_sequence_number_zero :
    Reachable Scenario.opened ∧
    processCommand (Scenario.env []) Scenario.opened Scenario.write_7_0 true
      = some ⟨Scenario.written_0, ⟨"ACK", 7, 0, Errors.nil, ""⟩, true⟩ ∧
    Reachable Scenario.written_0 ∧
    UnorderedMap.find Scenario.written_0.m_txn_id_to_transaction_attributes 7
      = some ⟨"f.txt", [(0, "x")], 1, 0⟩ ∧
    UnorderedMap.count [((0 : Int), "x")] 0 = true :=
  ⟨Scenario.reachable_opened, by decide,
    Reachable.request (Scenario.env []) Scenario.opened Scenario.write_7_0 true
      ⟨Scenario.written_0, ⟨"ACK", 7, 0, Errors.nil, ""⟩, true⟩ Scenario.reachable_opened
      (by decide),
    by decide, by decide⟩

/-- The amended claim C33 at the reachable state in which transaction 7 holds fragment
1. -/
theorem live_records_bounded_witness :
    (1 : Int) ≤ (⟨"f.txt", [(1, "a")], 1, 0⟩ : TransactionAttributesTuple).max_seq_num ∧
    ∀ seq_num,
      UnorderedMap.count (⟨"f.txt", [(1, "a")], 1, 0⟩ : TransactionAttributesTuple).buffers
        seq_num = true →
      seq_num ≤ (⟨"f.txt", [(1, "a")], 1, 0⟩ : TransactionAttributesTuple).max_seq_num :=
  live_records_bounded Scenario.written Scenario.reachable_written 7
    ⟨"f.txt", [(1, "a")], 1, 0⟩ (by decide)

namespace ServerBackend

theorem mem_seqNums (n k : Int) : k ∈ seqNums n ↔ 1 ≤ k ∧ k ≤ n := by
  unfold seqNums
  rw [List.mem_map]
  constructor
  · rintro ⟨i, hi, rfl⟩
    rw [List.mem_range] at hi
    omega
  · rintro ⟨h1, h2⟩
    refine ⟨(k - 1).toNat, ?_, ?_⟩
    · rw [List.mem_range]
      omega
    · omega

end ServerBackend

/-- Claim C34, amended. When a COMMIT on a live transaction that is not in the commit
set returns ACK in a reachable state, every sequence number from 1 to the sequence
number of the COMMIT, to which the maximum is raised, has a buffer, no buffer has a
greater sequence number, and every buffer with a sequence number of 1 or more is among
the fragments written. -/
theorem COMMIT_ack_has_all_fragments (env : Environment) (s : ServerBackend)
    (req : RequestTuple) (ip : Bool) (t : TransactionAttributesTuple) (h : Reachable s)
    (hn : req.txn_id ∉ s.m_commits)
    (ht : UnorderedMap.find s.m_txn_id_to_transaction_attributes req.txn_id = some t)
    (hack : (COMMIT env s req ip).out_server_response_str.command = Constants.ack_cmd) :
    t.max_seq_num ≤ req.seq_num ∧
    (∀ k, 1 ≤ k → k ≤ req.seq_num → UnorderedMap.count t.buffers k = true) ∧
    (∀ k, UnorderedMap.count t.buffers k = true → k ≤ req.seq_num) ∧
    (∀ k data, 1 ≤ k → UnorderedMap.find t.buffers k = some data →
      data ∈ fragments t.buffers req.seq_num) := by
  have hb := h.buffersBounded req.txn_id t ht
  rcases COMMIT_cases env s req ip t hn ht with
    ⟨_, hr, _⟩ | ⟨hge, ⟨m, _, hr, _⟩ | ⟨hm, ⟨e, _, hr, _⟩ | ⟨_, _, _, _, _, _, hr, _⟩ | _⟩⟩
  · rw [hr] at hack
    exact absurd hack error_cmd_ne_ack_cmd
  · rw [hr] at hack
    exact absurd hack ask_resend_cmd_ne_ack_cmd
  · rw [hr] at hack
    exact absurd hack error_cmd_ne_ack_cmd
  · rw [hr] at hack
    exact absurd hack error_cmd_ne_ack_cmd
  · have hmax : t.max_seq_num ≤ req.seq_num := by omega
    have hle : ∀ k, UnorderedMap.count t.buffers k = true → k ≤ req.seq_num :=
      fun k hk => le_trans (hb k hk) hmax
    refine ⟨hmax, (firstMissing_eq_none_iff _ _).1 hm, hle, fun k data hk hf => ?_⟩
    have hkn : k ≤ req.seq_num := hle k (count_of_find hf)
    unfold fragments
    rw [List.mem_map]
    exact ⟨k, (mem_seqNums _ _).2 ⟨hk, hkn⟩, by rw [hf]; rfl⟩

/-- Claim C34 as stated fails in two ways. A transaction that holds buffers under 0 and 1
is committed with sequence number 1: the answer is ACK and the file receives fragment 1
only, so the acknowledged fragment 0 is left out. And in the reachable state in which id
7 is both live and in the commit set, COMMIT answers ACK while the record has no
buffer. -/
theorem COMMIT_ack_leaves_out_fragment_zero :
    (Reachable Scenario.written_0_then_1 ∧
      UnorderedMap.find Scenario.written_0_then_1.m_txn_id_to_transaction_attributes 7
        = some ⟨"f.txt", [(1, "a"), (0, "x")], 1, 0⟩ ∧
      (COMMIT (Scenario.env []) Scenario.written_0_then_1 Scenario.commit_7_1
        true).out_server_response_str = ⟨"ACK", 7, 1, Errors.nil, ""⟩ ∧
      UnorderedMap.find (COMMIT (Scenario.env []) Scenario.written_0_then_1
        Scenario.commit_7_1 true).backend.disk ("srv/" ++ "f.txt") = some "a") ∧
    (Reachable Scenario.reissued ∧
      UnorderedMap.find Scenario.reissued.m_txn_id_to_transaction_attributes 7
        = some ⟨"g.txt", [], 1, 0⟩ ∧
      (COMMIT (Scenario.env []) Scenario.reissued Scenario.commit_7_1
        true).out_server_response_str = ⟨"ACK", 7, 1, Errors.nil, ""⟩) :=
  ⟨⟨Reachable.request (Scenario.env []) Scenario.written_0 Scenario.write_7_1 true
        ⟨Scenario.written_0_then_1, ⟨"ACK", 7, 1, Errors.nil, ""⟩, true⟩
        (Reachable.request (Scenario.env []) Scenario.opened Scenario.write_7_0 true
          ⟨Scenario.written_0, ⟨"ACK", 7, 0, Errors.nil, ""⟩, true⟩
          Scenario.reachable_opened (by decide))
        (by decide),
      by decide, by decide, by decide⟩,
    ⟨Scenario.reachable_reissued, by decide, by decide⟩⟩

/-- The amended claim C34 at the COMMIT of transaction 7 holding fragments 1 and 2. -/
theorem COMMIT_ack_has_all_fragments_witness :
    (⟨"f.txt", [(1, "a"), (2, "b")], 2, 0⟩ : TransactionAttributesTuple).max_seq_num
      ≤ Scenario.commit_7_2.seq_num ∧
    (∀ k, 1 ≤ k → k ≤ Scenario.commit_7_2.seq_num →
      UnorderedMap.count (⟨"f.txt", [(1, "a"), (2, "b")], 2, 0⟩ :
        TransactionAttributesTuple).buffers k = true) ∧
    (∀ k, UnorderedMap.count (⟨"f.txt", [(1, "a"), (2, "b")], 2, 0⟩ :
        TransactionAttributesTuple).buffers k = true → k ≤ Scenario.commit_7_2.seq_num) ∧
    (∀ k data, 1 ≤ k →
      UnorderedMap.find (⟨"f.txt", [(1, "a"), (2, "b")], 2, 0⟩ :
        TransactionAttributesTuple).buffers k = some data →
      data ∈ fragments (⟨"f.txt", [(1, "a"), (2, "b")], 2, 0⟩ :
        TransactionAttributesTuple).buffers Scenario.commit_7_2.seq_num) :=
  COMMIT_ack_has_all_fragments (Scenario.env []) Scenario.written_2_then_1
    Scenario.commit_7_2 true ⟨"f.txt", [(1, "a"), (2, "b")], 2, 0⟩
    Scenario.reachable_written_2_then_1 (by decide) (by decide) (by decide)

/-- Claim C36. A COMMIT that is answered ASK_RESEND was sent to a live transaction
outside the commit set; it sets the maximum sequence number of the record to its own
sequence number and the time of the last update to now, and changes nothing else, so
the buffers are as they were. From then on, as long as the transaction stays live,
every COMMIT with a smaller sequence number is answered ERROR with code 210,
CommitWithInvalidSequenceNumber, whatever buffers the record holds. -/
theorem COMMIT_ask_resend_raises_maximum (env : Environment) (s : ServerBackend)
    (req : RequestTuple) (ip : Bool)
    (hask : (COMMIT env s req ip).out_server_response_str.command
      = Constants.ask_resend_cmd) :
    ∃ t, UnorderedMap.find s.m_txn_id_to_transaction_attributes req.txn_id = some t ∧
      req.txn_id ∉ s.m_commits ∧
      (COMMIT env s req ip).backend
        = { s with
            m_txn_id_to_transaction_attributes :=
              UnorderedMap.assign s.m_txn_id_to_transaction_attributes req.txn_id
                { t with curr_timestamp := env.now, max_seq_num := req.seq_num } } ∧
      ∀ later : ServerBackend, LiveRun req.txn_id (COMMIT env s req ip).backend later →
        ∀ (env1 : Environment) (req1 : RequestTuple) (ip1 : Bool),
          req1.txn_id = req.txn_id → req1.seq_num < req.seq_num →
          (COMMIT env1 later req1 ip1).out_server_response_str
            = ⟨Constants.error_cmd, req.txn_id, req1.seq_num,
                Errors.CommitWithInvalidSequenceNumber,
                Errors.getErrorMessage Errors.CommitWithInvalidSequenceNumber⟩ ∧
          (COMMIT env1 later req1 ip1).out_server_response_str.err_code = 210 := by
  by_cases hn : req.txn_id ∈ s.m_commits
  · rw [COMMIT_committed env s req ip hn] at hask
    exact absurd hask.symm ask_resend_cmd_ne_ack_cmd
  · cases ht : UnorderedMap.find s.m_txn_id_to_transaction_attributes req.txn_id with
    | none =>
        rw [COMMIT_unknown env s req ip hn ht] at hask
        exact absurd hask.symm ask_resend_cmd_ne_error_cmd
    | some t =>
        rcases COMMIT_cases env s req ip t hn ht with
          ⟨_, hr, _⟩ | ⟨hge, ⟨m, _, _, hb⟩ | ⟨hm, ⟨e, _, hr, _⟩ | ⟨_, _, _, _, _, _, hr, _⟩ |
            ⟨_, _, _, _, _, _, hr, _⟩⟩⟩
        · rw [hr] at hask
          exact absurd hask.symm ask_resend_cmd_ne_error_cmd
        · refine ⟨t, rfl, hn, hb, fun later hrun env1 req1 ip1 hid hlt => ?_⟩
          have hfind : UnorderedMap.find
              (COMMIT env s req ip).backend.m_txn_id_to_transaction_attributes req.txn_id
              = some { t with curr_timestamp := env.now, max_seq_num := req.seq_num } := by
            rw [hb]
            exact UnorderedMap.find_assign_self _ _ _
          have hnc : req.txn_id ∉ (COMMIT env s req ip).backend.m_commits := by
            rw [hb]
            exact hn
          obtain ⟨t2, h2, _, hmax, _, hcom⟩ := hrun.grows _ hfind
          have hlow := COMMIT_low env1 later req1 ip1 t2 (by rw [hid]; exact hcom hnc)
            (by rw [hid]; exact h2) (lt_of_lt_of_le hlt hmax)
          rw [hlow, hid]
          exact ⟨rfl, rfl⟩
        · rw [hr] at hask
          exact absurd hask.symm ask_resend_cmd_ne_error_cmd
        · rw [hr] at hask
          exact absurd hask.symm ask_resend_cmd_ne_error_cmd
        · rw [hr] at hask
          exact absurd hask ask_resend_cmd_ne_ack_cmd.symm

/-- Claim C36 at a concrete run: COMMIT of transaction 7 with sequence number 5 on the
transaction just opened is answered ASK_RESEND, and the COMMIT with sequence number 3
that follows is answered ERROR with code 210. -/
theorem COMMIT_ask_resend_raises_maximum_witness :
    ∃ t, UnorderedMap.find Scenario.opened.m_txn_id_to_transaction_attributes
        Scenario.commit_7_5.txn_id = some t ∧
      Scenario.commit_7_5.txn_id ∉ Scenario.opened.m_commits ∧
      (COMMIT (Scenario.env []) Scenario.opened Scenario.commit_7_5 true).backend
        = { Scenario.opened with
            m_txn_id_to_transaction_attributes :=
              UnorderedMap.assign Scenario.opened.m_txn_id_to_transaction_attributes
                Scenario.commit_7_5.txn_id
                { t with curr_timestamp := (Scenario.env []).now,
                         max_seq_num := Scenario.commit_7_5.seq_num } } ∧
      ∀ later : ServerBackend,
        LiveRun Scenario.commit_7_5.txn_id
          (COMMIT (Scenario.env []) Scenario.opened Scenario.commit_7_5 true).backend later →
        ∀ (env1 : Environment) (req1 : RequestTuple) (ip1 : Bool),
          req1.txn_id = Scenario.commit_7_5.txn_id →
          req1.seq_num < Scenario.commit_7_5.seq_num →
          (COMMIT env1 later req1 ip1).out_server_response_str
            = ⟨Constants.error_cmd, Scenario.commit_7_5.txn_id, req1.seq_num,
                Errors.CommitWithInvalidSequenceNumber,
                Errors.getErrorMessage Errors.CommitWithInvalidSequenceNumber⟩ ∧
          (COMMIT env1 later req1 ip1).out_server_response_str.err_code = 210 :=
  COMMIT_ask_resend_raises_maximum (Scenario.env []) Scenario.opened Scenario.commit_7_5
    true (by decide)

/-- Claim C39, amended. A live transaction outside the commit set whose record has no
buffer is not committed by any COMMIT: the answer is ERROR with code 210 when the
sequence number is below the maximum sequence number of the record, and ASK_RESEND with
sequence number 1 otherwise; the record stays in the map without a buffer and the id
stays outside the commit set. The maximum is 1 on a transaction just opened and is
raised by every COMMIT that is answered ASK_RESEND. -/
theorem COMMIT_without_buffers (env : Environment) (s : ServerBackend)
    (req : RequestTuple) (ip : Bool) (t : TransactionAttributesTuple) (h : Reachable s)
    (hn : req.txn_id ∉ s.m_commits)
    (ht : UnorderedMap.find s.m_txn_id_to_transaction_attributes req.txn_id = some t)
    (hb : t.buffers = []) :
    (req.seq_num < t.max_seq_num →
      (COMMIT env s req ip).out_server_response_str
        = ⟨Constants.error_cmd, req.txn_id, req.seq_num,
            Errors.CommitWithInvalidSequenceNumber,
            Errors.getErrorMessage Errors.CommitWithInvalidSequenceNumber⟩ ∧
      (COMMIT env s req ip).out_server_response_str.err_code = 210 ∧
      UnorderedMap.find (COMMIT env s req ip).backend.m_txn_id_to_transaction_attributes
        req.txn_id = some { t with curr_timestamp := env.now }) ∧
    (t.max_seq_num ≤ req.seq_num →
      (COMMIT env s req ip).out_server_response_str
        = ⟨Constants.ask_resend_cmd, req.txn_id, 1, Errors.nil, ""⟩ ∧
      UnorderedMap.find (COMMIT env s req ip).backend.m_txn_id_to_transaction_attributes
        req.txn_id = some { t with curr_timestamp := env.now, max_seq_num := req.seq_num }) ∧
    (∃ t1, UnorderedMap.find (COMMIT env s req ip).backend.m_txn_id_to_transaction_attributes
        req.txn_id = some t1 ∧ t1.buffers = []) ∧
    req.txn_id ∉ (COMMIT env s req ip).backend.m_commits ∧
    (∀ file_name now, (getNewTransactionAttributes file_name now).max_seq_num = 1 ∧
      (getNewTransactionAttributes file_name now).buffers = []) := by
  have hmax : 1 ≤ t.max_seq_num := (h.consistent req.txn_id t ht).1
  have hlow : req.seq_num < t.max_seq_num →
      COMMIT env s req ip = SET_ERROR_AND_RETURN
        { s with
          m_txn_id_to_transaction_attributes :=
            UnorderedMap.assign s.m_txn_id_to_transaction_attributes req.txn_id
              { t with curr_timestamp := env.now } }
        req.txn_id req.seq_num Errors.CommitWithInvalidSequenceNumber :=
    fun hlt => COMMIT_low env s req ip t hn ht hlt
  have hask : t.max_seq_num ≤ req.seq_num →
      COMMIT env s req ip = SET_ASK_RESEND_AND_RETURN
        { s with
          m_txn_id_to_transaction_attributes :=
            UnorderedMap.assign s.m_txn_id_to_transaction_attributes req.txn_id
              { t with curr_timestamp := env.now, max_seq_num := req.seq_num } }
        req.txn_id 1 ip :=
    fun hge => COMMIT_missing env s req ip t 1 hn ht (by omega)
      (by rw [hb]; exact firstMissing_nil req.seq_num (by omega))
  refine ⟨fun hlt => ?_, fun hge => ?_, ?_, ?_, fun _ _ => ⟨rfl, rfl⟩⟩
  · rw [hlow hlt]
    exact ⟨rfl, rfl, UnorderedMap.find_assign_self _ _ _⟩
  · rw [hask hge]
    exact ⟨rfl, UnorderedMap.find_assign_self _ _ _⟩
  · by_cases hlt : req.seq_num < t.max_seq_num
    · rw [hlow hlt]
      exact ⟨_, UnorderedMap.find_assign_self _ _ _, hb⟩
    · rw [hask (by omega)]
      exact ⟨_, UnorderedMap.find_assign_self _ _ _, hb⟩
  · by_cases hlt : req.seq_num < t.max_seq_num
    · rw [hlow hlt]
      exact hn
    · rw [hask (by omega)]
      exact hn

/-- Claim C39 as stated fails in two ways. Transaction 7 has received no WRITE, and a
COMMIT with sequence number 5 has raised its maximum to 5: the COMMIT with sequence
number 3 is answered ERROR with code 210, not ASK_RESEND, although 3 is at least 1. And
in the reachable state in which id 7 is both live and in the commit set, the COMMIT of
the transaction without a WRITE is answered ACK. -/
theorem COMMIT_without_buffers_after_raised_maximum :
    (Reachable Scenario.asked_5 ∧
      UnorderedMap.find Scenario.asked_5.m_txn_id_to_transaction_attributes 7
        = some ⟨"f.txt", [], 5, 0⟩ ∧
      (COMMIT (Scenario.env []) Scenario.asked_5 Scenario.commit_7_3
        true).out_server_response_str
        = ⟨"ERROR", 7, 3, Errors.CommitWithInvalidSequenceNumber,
            Errors.getErrorMessage Errors.CommitWithInvalidSequenceNumber⟩) ∧
    (Reachable Scenario.reissued ∧
      UnorderedMap.find Scenario.reissued.m_txn_id_to_transaction_attributes 7
        = some ⟨"g.txt", [], 1, 0⟩ ∧
      (COMMIT (Scenario.env []) Scenario.reissued Scenario.commit_7_1
        true).out_server_response_str = ⟨"ACK", 7, 1, Errors.nil, ""⟩) :=
  ⟨⟨Reachable.request (Scenario.env []) Scenario.opened Scenario.commit_7_5 true
        ⟨Scenario.asked_5, ⟨"ASK_RESEND", 7, 1, Errors.nil, ""⟩, true⟩
        Scenario.reachable_opened (by decide),
      by decide, by decide⟩,
    ⟨Scenario.reachable_reissued, by decide, by decide⟩⟩

/-- The amended claim C39 at the transaction just opened: COMMIT with sequence number 5
is answered ASK_RESEND with sequence number 1. -/
theorem COMMIT_without_buffers_witness :
    (COMMIT (Scenario.env []) Scenario.opened Scenario.commit_7_5
        true).out_server_response_str
      = ⟨Constants.ask_resend_cmd, Scenario.commit_7_5.txn_id, 1, Errors.nil, ""⟩ ∧
    UnorderedMap.find (COMMIT (Scenario.env []) Scenario.opened Scenario.commit_7_5
        true).backend.m_txn_id_to_transaction_attributes Scenario.commit_7_5.txn_id
      = some { (⟨"f.txt", [], 1, 0⟩ : TransactionAttributesTuple) with
          curr_timestamp := (Scenario.env []).now,
          max_seq_num := Scenario.commit_7_5.seq_num } :=
  (COMMIT_without_buffers (Scenario.env []) Scenario.opened Scenario.commit_7_5 true
    ⟨"f.txt", [], 1, 0⟩ Scenario.reachable_opened (by decide) (by decide) rfl).2.1
    (by decide)

namespace ServerBackend

end ServerBackend

/-- A list that holds a zero byte is the characters before the first one, that byte, and
a rest. -/
theorem takeWhile_zero_byte (x : List Char) (h : Char.ofNat 0 ∈ x) :
    ∃ rest, x = x.takeWhile (fun c => c ≠ Char.ofNat 0) ++ Char.ofNat 0 :: rest := by
  induction x with
  | nil => cases h
  | cons c x ih =>
      by_cases hc : c = Char.ofNat 0
      · refine ⟨x, ?_⟩
        rw [List.takeWhile_cons, hc]
        simp
      · rcases List.mem_cons.1 h with e | hx
        · exact absurd e.symm hc
        · obtain ⟨rest, hrest⟩ := ih hx
          refine ⟨rest, ?_⟩
          rw [List.takeWhile_cons]
          simp only [ne_eq, hc, not_false_eq_true, decide_True, if_true, List.cons_append]
          exact congrArg (List.cons c) hrest

/-- Claim C38. A WRITE that is acknowledged stores, under its sequence number, the
payload handed to `processRequest` read as a C string. The payload is what `readSocket`
returned for the content length of the header. When it holds no zero byte the fragment
stored is the whole payload; when it holds one, the fragment is the strictly shorter
part before the first zero byte. -/
theorem WRITE_stores_payload_as_c_string (env : Environment) ( m_initialize : Bool)
    (s : ServerBackend) (request_header request_payload : String) (ip : Bool)
    (t : TransactionAttributesTuple)
    (hcmd : (getClientRequestAsTuple request_header (some request_payload)).command
      = Constants.write_cmd)
    (hn : (getClientRequestAsTuple request_header (some request_payload)).txn_id
      ∉ (initializeFunctionsAndTransactions env m_initialize s).m_commits)
    (ht : UnorderedMap.find
        (initializeFunctionsAndTransactions env
          m_initialize s).m_txn_id_to_transaction_attributes
        (getClientRequestAsTuple request_header (some request_payload)).txn_id = some t)
    (hnew : UnorderedMap.count t.buffers
      (getClientRequestAsTuple request_header (some request_payload)).seq_num = false) :
    (∃ out, processRequest env m_initialize s request_header request_payload ip = some out ∧
      out.out_server_response_str
        = ⟨Constants.ack_cmd,
            (getClientRequestAsTuple request_header (some request_payload)).txn_id,
            (getClientRequestAsTuple request_header (some request_payload)).seq_num,
            Errors.nil, ""⟩ ∧
      ∃ t1, UnorderedMap.find out.backend.m_txn_id_to_transaction_attributes
          (getClientRequestAsTuple request_header (some request_payload)).txn_id = some t1 ∧
        UnorderedMap.find t1.buffers
          (getClientRequestAsTuple request_header (some request_payload)).seq_num
          = some (cString request_payload)) ∧
    (∀ rest : List Char,
      ServerDispatcher.readSocket (request_payload.data ++ rest) request_payload.length
        = some (request_payload, rest)) ∧
    ((∀ c ∈ request_payload.data, c ≠ Char.ofNat 0) →
      cString request_payload = request_payload) ∧
    (Char.ofNat 0 ∈ request_payload.data →
      (cString request_payload).length < request_payload.length ∧
      ∃ rest, request_payload.data
        = (cString request_payload).data ++ Char.ofNat 0 :: rest) := by
  refine ⟨?_, fun rest => ServerDispatcher.readSocket_append request_payload rest,
    fun hall => ?_, fun hmem => ?_⟩
  · unfold processRequest
    rw [processCommand_WRITE env _ _ ip hcmd, WRITE_live env _ _ ip t hn ht, if_neg (by
      rw [hnew]
      exact Bool.false_ne_true)]
    refine ⟨_, rfl, rfl, _, UnorderedMap.find_assign_self _ _ _, ?_⟩
    exact UnorderedMap.find_assign_self _ _ _
  · unfold cString
    apply String.ext
    exact List.takeWhile_eq_self_of_forall _ _ (fun c hc => by simpa using hall c hc)
  · obtain ⟨rest, hrest⟩ := takeWhile_zero_byte request_payload.data hmem
    refine ⟨?_, rest, hrest⟩
    have hlen := congrArg List.length hrest
    rw [List.length_append, List.length_cons] at hlen
    show (request_payload.data.takeWhile (fun c => c ≠ Char.ofNat 0)).length
      < request_payload.data.length
    omega

/-- Claim C38 at a concrete request: the header announces five bytes for fragment 1 of
transaction 7, and the payload holds a zero byte in third place; the request is
acknowledged. -/
theorem WRITE_stores_payload_as_c_string_witness :
    ∃ out, processRequest (Scenario.env []) false Scenario.opened Scenario.header_write
        Scenario.payload_zero_byte true = some out ∧
      out.out_server_response_str
        = ⟨Constants.ack_cmd,
            (getClientRequestAsTuple Scenario.header_write
              (some Scenario.payload_zero_byte)).txn_id,
            (getClientRequestAsTuple Scenario.header_write
              (some Scenario.payload_zero_byte)).seq_num,
            Errors.nil, ""⟩ ∧
      ∃ t1, UnorderedMap.find out.backend.m_txn_id_to_transaction_attributes
          (getClientRequestAsTuple Scenario.header_write
            (some Scenario.payload_zero_byte)).txn_id = some t1 ∧
        UnorderedMap.find t1.buffers
          (getClientRequestAsTuple Scenario.header_write
            (some Scenario.payload_zero_byte)).seq_num
          = some (cString Scenario.payload_zero_byte) :=
  (WRITE_stores_payload_as_c_string (Scenario.env []) false Scenario.opened
    Scenario.header_write Scenario.payload_zero_byte true ⟨"f.txt", [], 1, 0⟩
    (by decide) (by decide) (by decide) (by decide)).1

/-! ## Sharing of the file attributes -/

namespace UnorderedMap

variable {κ ν : Type} [DecidableEq κ]

theorem keys_erase_nodup (m : UnorderedMap κ ν) (k : κ) (h : (m.map Prod.fst).Nodup) :
    ((erase m k).map Prod.fst).Nodup :=
  h.sublist ((List.filter_sublist m).map Prod.fst)

theorem not_mem_keys_erase (m : UnorderedMap κ ν) (k : κ) :
    k ∉ (erase m k).map Prod.fst := by
  intro h
  obtain ⟨p, hp, e⟩ := List.mem_map.1 h
  have := (List.mem_filter.1 hp).2
  simp only [decide_eq_true_eq] at this
  exact this e

theorem keys_assign_nodup (m : UnorderedMap κ ν) (k : κ) (v : ν)
    (h : (m.map Prod.fst).Nodup) : ((assign m k v).map Prod.fst).Nodup := by
  unfold assign
  rw [List.map_cons, List.nodup_cons]
  exact ⟨not_mem_keys_erase m k, keys_erase_nodup m k h⟩

theorem not_mem_keys_of_find_none (m : UnorderedMap κ ν) (k : κ) (h : find m k = none) :
    k ∉ m.map Prod.fst := by
  induction m with
  | nil => simp
  | cons p rest ih =>
      obtain ⟨k0, v⟩ := p
      rw [find_cons] at h
      by_cases hk : k0 = k
      · rw [if_pos hk] at h
        cases h
      · rw [if_neg hk] at h
        rw [List.map_cons, List.mem_cons]
        rintro (e | hm)
        · exact hk e.symm
        · exact ih h hm

theorem erase_of_not_mem_keys (m : UnorderedMap κ ν) (k : κ) (h : k ∉ m.map Prod.fst) :
    erase m k = m := by
  unfold erase
  rw [List.filter_eq_self]
  intro p hp
  simp only [decide_eq_true_eq]
  exact fun e => h (List.mem_map.2 ⟨p, hp, e⟩)

theorem mem_of_find (m : UnorderedMap κ ν) (k : κ) (v : ν) (h : find m k = some v) :
    (k, v) ∈ m := by
  induction m with
  | nil => cases h
  | cons p rest ih =>
      obtain ⟨k0, v0⟩ := p
      rw [find_cons] at h
      by_cases hk : k0 = k
      · rw [if_pos hk] at h
        cases h
        rw [hk]
        exact List.mem_cons_self _ _
      · rw [if_neg hk] at h
        exact List.mem_cons_of_mem _ (ih h)

theorem find_of_mem (m : UnorderedMap κ ν) (k : κ) (v : ν) (hnd : (m.map Prod.fst).Nodup)
    (h : (k, v) ∈ m) : find m k = some v := by
  induction m with
  | nil => cases h
  | cons p rest ih =>
      obtain ⟨k0, v0⟩ := p
      rw [List.map_cons, List.nodup_cons] at hnd
      rw [find_cons]
      rcases List.mem_cons.1 h with e | hm
      · cases e
        rw [if_pos rfl]
      · have hk : ¬ k0 = k := fun e => hnd.1 (e ▸ List.mem_map.2 ⟨(k, v), hm, rfl⟩)
        rw [if_neg hk]
        exact ih hnd.2 hm

end UnorderedMap

namespace ServerBackend

theorem owners_cons (txns : UnorderedMap Int TransactionAttributesTuple) (k : Int)
    (t : TransactionAttributesTuple) (f : FileName) :
    owners ((k, t) :: txns) f
      = owners txns f + (if t.sp_file_attributes = f then 1 else 0) := by
  unfold owners
  rw [List.countP_cons]
  simp

/-- Erasing the record of an id takes one owner from the file name of the record. -/
theorem owners_erase (txns : UnorderedMap Int TransactionAttributesTuple) (k : Int)
    (t : TransactionAttributesTuple) (f : FileName)
    (hnd : (txns.map Prod.fst).Nodup) (ht : UnorderedMap.find txns k = some t) :
    owners (UnorderedMap.erase txns k) f + (if t.sp_file_attributes = f then 1 else 0)
      = owners txns f := by
  induction txns with
  | nil => cases ht
  | cons p rest ih =>
      obtain ⟨k0, v⟩ := p
      rw [List.map_cons, List.nodup_cons] at hnd
      rw [UnorderedMap.find_cons] at ht
      by_cases hk : k0 = k
      · rw [if_pos hk] at ht
        cases ht
        subst hk
        have e : UnorderedMap.erase ((k0, t) :: rest) k0 = rest := by
          have : UnorderedMap.erase ((k0, t) :: rest) k0 = UnorderedMap.erase rest k0 := by
            simp [UnorderedMap.erase]
          rw [this, UnorderedMap.erase_of_not_mem_keys rest k0 hnd.1]
        rw [e, owners_cons]
      · rw [if_neg hk] at ht
        have e : UnorderedMap.erase ((k0, v) :: rest) k
            = (k0, v) :: UnorderedMap.erase rest k := by
          simp [UnorderedMap.erase, hk]
        rw [e, owners_cons, owners_cons, ← ih hnd.2 ht]
        omega

/-- Replacing a record by one on the same file name keeps the owners. -/
theorem owners_assign (txns : UnorderedMap Int TransactionAttributesTuple) (k : Int)
    (t t1 : TransactionAttributesTuple) (f : FileName)
    (hnd : (txns.map Prod.fst).Nodup) (ht : UnorderedMap.find txns k = some t)
    (hsp : t1.sp_file_attributes = t.sp_file_attributes) :
    owners (UnorderedMap.assign txns k t1) f = owners txns f := by
  unfold UnorderedMap.assign
  rw [owners_cons, hsp]
  exact owners_erase txns k t f hnd ht

theorem owners_pos_iff (txns : UnorderedMap Int TransactionAttributesTuple) (f : FileName)
    (hnd : (txns.map Prod.fst).Nodup) :
    0 < owners txns f ↔ ∃ k t, UnorderedMap.find txns k = some t ∧ t.sp_file_attributes = f := by
  unfold owners
  rw [List.countP_pos_iff]
  constructor
  · rintro ⟨⟨k, t⟩, hmem, hp⟩
    exact ⟨k, t, UnorderedMap.find_of_mem txns k t hnd hmem, by simpa using hp⟩
  · rintro ⟨k, t, hfind, hsp⟩
    exact ⟨(k, t), UnorderedMap.mem_of_find txns k t hfind, by simpa using hsp⟩

end ServerBackend

namespace ServerBackend

theorem FilesShared_congr {s s1 : ServerBackend}
    (ht : s1.m_txn_id_to_transaction_attributes = s.m_txn_id_to_transaction_attributes)
    (hf : s1.m_file_name_to_ptr_to_file_attributes = s.m_file_name_to_ptr_to_file_attributes)
    (hs : FilesShared s) : FilesShared s1 := by
  unfold FilesShared
  rw [ht, hf]
  exact hs

/-- Replacing a record by one on the same file name keeps the sharing. -/
theorem FilesShared_assign {s s1 : ServerBackend} (k : Int)
    (t t1 : TransactionAttributesTuple) (hs : FilesShared s)
    (hk : UnorderedMap.find s.m_txn_id_to_transaction_attributes k = some t)
    (ht : s1.m_txn_id_to_transaction_attributes
      = UnorderedMap.assign s.m_txn_id_to_transaction_attributes k t1)
    (hf : s1.m_file_name_to_ptr_to_file_attributes = s.m_file_name_to_ptr_to_file_attributes)
    (hsp : t1.sp_file_attributes = t.sp_file_attributes) :
    FilesShared s1 := by
  unfold FilesShared
  rw [ht, hf]
  refine ⟨UnorderedMap.keys_assign_nodup _ _ _ hs.1, fun f => ?_⟩
  rw [owners_assign _ k t t1 f hs.1 hk hsp]
  exact hs.2 f

/-- Recording a new size in the file attributes of a name keeps the sharing. -/
theorem FilesShared_file_size {s s1 : ServerBackend} (file_name : FileName)
    (size : FileAttributes → Int) (hs : FilesShared s)
    (ht : s1.m_txn_id_to_transaction_attributes = s.m_txn_id_to_transaction_attributes)
    (hf : s1.m_file_name_to_ptr_to_file_attributes
      = (match UnorderedMap.find s.m_file_name_to_ptr_to_file_attributes file_name with
          | some fa =>
              UnorderedMap.assign s.m_file_name_to_ptr_to_file_attributes file_name
                { fa with m_file_size := size fa }
          | none => s.m_file_name_to_ptr_to_file_attributes)) :
    FilesShared s1 := by
  unfold FilesShared
  rw [ht, hf]
  refine ⟨hs.1, fun f => ?_⟩
  rw [← hs.2 f]
  cases hfa : UnorderedMap.find s.m_file_name_to_ptr_to_file_attributes file_name with
  | none => rfl
  | some fa =>
      simp only
      rw [UnorderedMap.find_assign]
      by_cases hff : f = file_name
      · rw [if_pos hff, hff, hfa]
        rfl
      · rw [if_neg hff]

theorem FilesShared_removeTransaction (s : ServerBackend) (txn_id : Int)
    (hs : FilesShared s) : FilesShared (removeTransaction s txn_id) := by
  unfold removeTransaction
  cases ht : UnorderedMap.find s.m_txn_id_to_transaction_attributes txn_id with
  | none => exact hs
  | some t =>
      simp only
      refine ⟨UnorderedMap.keys_erase_nodup _ _ hs.1, fun f => ?_⟩
      have hown := owners_erase _ txn_id t f hs.1 ht
      have hinv := hs.2 f
      show Option.map (fun (fa : FileAttributes) => fa.use_count) (UnorderedMap.find _ f)
        = if owners (UnorderedMap.erase s.m_txn_id_to_transaction_attributes txn_id) f = 0
          then none
          else some (owners (UnorderedMap.erase s.m_txn_id_to_transaction_attributes txn_id) f)
      by_cases hf : t.sp_file_attributes = f
      · subst hf
        rw [if_pos rfl] at hown
        rw [if_neg (by omega)] at hinv
        cases hfa : UnorderedMap.find s.m_file_name_to_ptr_to_file_attributes
            t.sp_file_attributes with
        | none =>
            rw [hfa] at hinv
            cases hinv
        | some fa =>
            rw [hfa] at hinv
            have huse : fa.use_count
                = owners s.m_txn_id_to_transaction_attributes t.sp_file_attributes := by
              simpa using hinv
            simp only
            by_cases hle : fa.use_count ≤ 1
            · rw [if_pos hle, UnorderedMap.find_erase_self, if_pos (by omega)]
              rfl
            · rw [if_neg hle, UnorderedMap.find_assign_self, if_neg (by omega)]
              show some (fa.use_count - 1) = _
              congr 1
              omega
      · rw [if_neg hf] at hown
        rw [Nat.add_zero] at hown
        rw [hown, ← hinv]
        have hne : f ≠ t.sp_file_attributes := fun e => hf e.symm
        cases hfa : UnorderedMap.find s.m_file_name_to_ptr_to_file_attributes
            t.sp_file_attributes with
        | none => rfl
        | some fa =>
            simp only
            split
            · rw [UnorderedMap.find_erase_ne _ hne]
            · rw [UnorderedMap.find_assign_ne _ _ hne]

theorem FilesShared_addNewTransaction (env : Environment) (s s1 : ServerBackend)
    (txn_id : Int) (file_name : FileName)
    (h : addNewTransaction env s txn_id file_name = .ok s1) (hs : FilesShared s) :
    FilesShared s1 := by
  have hinv := hs.2 file_name
  by_cases hcount : UnorderedMap.count s.m_txn_id_to_transaction_attributes txn_id = true
  · -- the id has a record: nothing is inserted and the share taken is released
    have hsame : s1.m_txn_id_to_transaction_attributes = s.m_txn_id_to_transaction_attributes
        ∧ s1.m_file_name_to_ptr_to_file_attributes
          = s.m_file_name_to_ptr_to_file_attributes := by
      unfold addNewTransaction at h
      cases hfa : UnorderedMap.find s.m_file_name_to_ptr_to_file_attributes file_name with
      | none =>
          have hcf : UnorderedMap.count s.m_file_name_to_ptr_to_file_attributes file_name
              = false := (UnorderedMap.count_eq_false_iff _ _).2 hfa
          simp only [hfa, getNewFileAttributes, UnorderedMap.emplace, hcf, hcount,
            Bool.false_eq_true, if_false, if_true] at h
          cases h
          exact ⟨rfl, rfl⟩
      | some fa =>
          simp only [hfa, UnorderedMap.emplace, hcount, if_true] at h
          cases h
          exact ⟨rfl, rfl⟩
    exact FilesShared_congr hsame.1 hsame.2 hs
  · have hnone : UnorderedMap.find s.m_txn_id_to_transaction_attributes txn_id = none := by
      simpa [UnorderedMap.count] using hcount
    have hcount1 : UnorderedMap.count s.m_txn_id_to_transaction_attributes txn_id = false := by
      simpa using hcount
    have hnd : (((txn_id, getNewTransactionAttributes file_name env.now)
        :: s.m_txn_id_to_transaction_attributes).map Prod.fst).Nodup := by
      rw [List.map_cons, List.nodup_cons]
      exact ⟨UnorderedMap.not_mem_keys_of_find_none _ _ hnone, hs.1⟩
    have hsp : (getNewTransactionAttributes file_name env.now).sp_file_attributes
        = file_name := rfl
    cases hfa : UnorderedMap.find s.m_file_name_to_ptr_to_file_attributes file_name with
    | none =>
        have hcf : UnorderedMap.count s.m_file_name_to_ptr_to_file_attributes file_name
            = false := (UnorderedMap.count_eq_false_iff _ _).2 hfa
        rw [hfa] at hinv
        have hzero : owners s.m_txn_id_to_transaction_attributes file_name = 0 := by
          by_contra hne
          rw [if_neg hne] at hinv
          cases hinv
        have hshape : s1.m_txn_id_to_transaction_attributes
            = (txn_id, getNewTransactionAttributes file_name env.now)
                :: s.m_txn_id_to_transaction_attributes
            ∧ s1.m_file_name_to_ptr_to_file_attributes
              = (file_name, ⟨file_name, File.getFileSizeOf s.disk file_name, 1⟩)
                  :: s.m_file_name_to_ptr_to_file_attributes := by
          unfold addNewTransaction at h
          simp only [hfa, getNewFileAttributes, UnorderedMap.emplace, hcf, hcount1,
            Bool.false_eq_true, if_false] at h
          cases h
          exact ⟨rfl, rfl⟩
        unfold FilesShared
        rw [hshape.1, hshape.2]
        refine ⟨hnd, fun f => ?_⟩
        rw [owners_cons, hsp, UnorderedMap.find_cons]
        by_cases hf : file_name = f
        · subst hf
          rw [if_pos rfl, if_pos rfl, hzero]
          rfl
        · rw [if_neg hf, if_neg hf, Nat.add_zero]
          exact hs.2 f
    | some fa =>
        rw [hfa] at hinv
        have hshape : s1.m_txn_id_to_transaction_attributes
            = (txn_id, getNewTransactionAttributes file_name env.now)
                :: s.m_txn_id_to_transaction_attributes
            ∧ s1.m_file_name_to_ptr_to_file_attributes
              = UnorderedMap.assign s.m_file_name_to_ptr_to_file_attributes file_name
                  { fa with use_count := fa.use_count + 1 } := by
          unfold addNewTransaction at h
          simp only [hfa, UnorderedMap.emplace, hcount1, Bool.false_eq_true, if_false] at h
          cases h
          exact ⟨rfl, rfl⟩
        unfold FilesShared
        rw [hshape.1, hshape.2]
        refine ⟨hnd, fun f => ?_⟩
        rw [owners_cons, hsp, UnorderedMap.find_assign]
        by_cases hf : file_name = f
        · subst hf
          rw [if_pos rfl, if_pos rfl, if_neg (by omega)]
          by_cases hz : owners s.m_txn_id_to_transaction_attributes file_name = 0
          · rw [if_pos hz] at hinv
            cases hinv
          · rw [if_neg hz] at hinv
            have huse : fa.use_count
                = owners s.m_txn_id_to_transaction_attributes file_name := by
              simpa using hinv
            show some (fa.use_count + 1) = _
            rw [huse]
        · have hne : ¬ f = file_name := fun e => hf e.symm
          rw [if_neg hne, if_neg hf, Nat.add_zero]
          exact hs.2 f

theorem FilesShared_restartTransactions (env : Environment) (s : ServerBackend)
    (l : List (Int × FileName)) (hs : FilesShared s) :
    FilesShared (restartTransactions env s l) := by
  induction l generalizing s with
  | nil => exact hs
  | cons p rest ih =>
      obtain ⟨txn_id, file_name⟩ := p
      unfold restartTransactions
      split
      · rename_i s1 h1
        exact ih s1 (FilesShared_addNewTransaction env s s1 txn_id file_name h1 hs)
      · exact hs

theorem FilesShared_ctor (in_directory : String) (disk : Disk) :
    FilesShared (ctor in_directory disk) :=
  ⟨List.nodup_nil, fun _ => rfl⟩

end ServerBackend

namespace ServerBackend

theorem FilesShared_READ (env : Environment) (s : ServerBackend) (req : RequestTuple)
    (ip : Bool) (hs : FilesShared s) : FilesShared (READ env s req ip).backend := by
  unfold READ
  split
  · exact hs
  · split
    · exact FilesShared_congr rfl rfl hs
    · exact FilesShared_congr rfl rfl hs

theorem FilesShared_NEW_TXN (env : Environment) (s : ServerBackend) (req : RequestTuple)
    (ip : Bool) (out : Outcome) (h : NEW_TXN env s req ip = some out) (hs : FilesShared s) :
    FilesShared out.backend := by
  unfold NEW_TXN at h
  split at h
  · split at h
    · cases h
    · split at h
      · cases h
        exact hs
      · rename_i s1 h1
        cases h
        exact FilesShared_addNewTransaction env s s1 _ _ h1 hs
  · cases h
    exact hs

theorem FilesShared_WRITE (env : Environment) (s : ServerBackend) (req : RequestTuple)
    (ip : Bool) (hs : FilesShared s) : FilesShared (WRITE env s req ip).backend := by
  by_cases hn : req.txn_id ∈ s.m_commits
  · rw [WRITE_committed env s req ip hn]
    exact hs
  · cases ht : UnorderedMap.find s.m_txn_id_to_transaction_attributes req.txn_id with
    | none =>
        rw [WRITE_unknown env s req ip hn ht]
        exact hs
    | some t =>
        rw [WRITE_live env s req ip t hn ht]
        split
        · exact FilesShared_assign req.txn_id t _ hs ht rfl rfl rfl
        · exact FilesShared_assign req.txn_id t _ hs ht rfl rfl rfl

theorem FilesShared_COMMIT (env : Environment) (s : ServerBackend) (req : RequestTuple)
    (ip : Bool) (hs : FilesShared s) : FilesShared (COMMIT env s req ip).backend := by
  by_cases hn : req.txn_id ∈ s.m_commits
  · rw [COMMIT_committed env s req ip hn]
    exact hs
  · cases ht : UnorderedMap.find s.m_txn_id_to_transaction_attributes req.txn_id with
    | none =>
        rw [COMMIT_unknown env s req ip hn ht]
        exact hs
    | some t =>
        by_cases hlt : req.seq_num < t.max_seq_num
        · rw [COMMIT_low env s req ip t hn ht hlt]
          exact FilesShared_assign req.txn_id t _ hs ht rfl rfl rfl
        · have hraised : FilesShared
              { s with
                m_txn_id_to_transaction_attributes :=
                  UnorderedMap.assign s.m_txn_id_to_transaction_attributes req.txn_id
                    { t with curr_timestamp := env.now, max_seq_num := req.seq_num } } :=
            FilesShared_assign req.txn_id t _ hs ht rfl rfl rfl
          cases hm : firstMissing t.buffers req.seq_num with
          | some missing =>
              rw [COMMIT_missing env s req ip t missing hn ht hlt hm]
              exact hraised
          | none =>
              cases ho : File.ctor env s.disk (s.m_directory ++ t.sp_file_attributes)
                  OpenFlags.O_CREAT_O_WRONLY_O_APPEND with
              | error e =>
                  rw [COMMIT_open_failed env s req ip t e hn ht hlt hm ho]
                  exact hraised
              | ok p =>
                  obtain ⟨disk0, file⟩ := p
                  rcases hw : File.writeAll disk0 file (fragments t.buffers req.seq_num)
                    with ⟨disk1, file1, flag⟩
                  cases flag
                  · rw [COMMIT_write_failed env s req ip t disk0 disk1 file file1 hn ht hlt
                      hm ho hw]
                    exact FilesShared_congr rfl rfl hraised
                  · rw [COMMIT_flushed env s req ip t disk0 disk1 file file1 hn ht hlt hm
                      ho hw]
                    apply FilesShared_removeTransaction
                    exact FilesShared_file_size t.sp_file_attributes
                      (fun _ => File.getFileSize
                        (logTransaction env s.m_directory disk1 m_commit_log req.txn_id
                          t.sp_file_attributes) file1)
                      hraised rfl rfl

theorem FilesShared_ABORT (env : Environment) (s : ServerBackend) (req : RequestTuple)
    (ip : Bool) (hs : FilesShared s) : FilesShared (ABORT env s req ip).backend := by
  by_cases hn : req.txn_id ∈ s.m_commits
  · rw [ABORT_committed env s req ip hn]
    exact hs
  · cases ht : UnorderedMap.find s.m_txn_id_to_transaction_attributes req.txn_id with
    | none =>
        have e : ABORT env s req ip
            = SET_ERROR_AND_RETURN s req.txn_id req.seq_num Errors.InvalidTransactionId := by
          simp only [ABORT, hn, ht, if_false]
        rw [e]
        exact hs
    | some t =>
        rw [ABORT_live env s req ip t hn ht]
        exact FilesShared_removeTransaction _ _ (FilesShared_congr rfl rfl hs)

theorem FilesShared_processCommand (env : Environment) (s : ServerBackend)
    (req : RequestTuple) (ip : Bool) (out : Outcome)
    (h : processCommand env s req ip = some out) (hs : FilesShared s) :
    FilesShared out.backend := by
  unfold processCommand at h
  split at h
  · cases h
    exact FilesShared_READ env s req ip hs
  · split at h
    · exact FilesShared_NEW_TXN env s req ip out h hs
    · split at h
      · cases h
        exact FilesShared_WRITE env s req ip hs
      · split at h
        · cases h
          exact FilesShared_COMMIT env s req ip hs
        · split at h
          · cases h
            exact FilesShared_ABORT env s req ip hs
          · cases h
            exact hs

theorem FilesShared_timer (env : Environment) (s : ServerBackend) (txn_id : Int)
    (file_name : FileName) (hs : FilesShared s) :
    FilesShared (m_txn_timer_function env s txn_id file_name).1 := by
  unfold m_txn_timer_function
  split
  · split
    · exact FilesShared_congr rfl rfl (FilesShared_removeTransaction s txn_id hs)
    · exact hs
  · exact hs

theorem FilesShared_step {s s1 : ServerBackend} (h : Step s s1) (hs : FilesShared s) :
    FilesShared s1 := by
  cases h with
  | request env s req ip out hstep => exact FilesShared_processCommand env s req ip out hstep hs
  | timer env s txn_id file_name => exact FilesShared_timer env s txn_id file_name hs

end ServerBackend

/-- In every reachable backend the file attributes are shared as `FilesShared` says. -/
theorem Reachable.filesShared {s : ServerBackend} (h : Reachable s) :
    ServerBackend.FilesShared s := by
  induction h with
  | start env dir disk l =>
      exact ServerBackend.FilesShared_restartTransactions env _ l
        (ServerBackend.FilesShared_ctor dir disk)
  | request env s req ip out _ hstep ih =>
      exact ServerBackend.FilesShared_processCommand env s req ip out hstep ih
  | timer env s txn_id file_name _ ih =>
      exact ServerBackend.FilesShared_timer env s txn_id file_name ih

/-- Claim C35. In every reachable state the transaction map has one record per id; a file
name has an entry in the file-attributes map exactly when some live transaction targets
it; the use count of the entry, the number of transactions that share it, is the number
of live transactions that target the name; and after any step that leaves no live
transaction on the name (the last one was committed, aborted or timed out) the entry is
gone. -/
theorem file_attributes_shared (s : ServerBackend) (h : Reachable s) (file_name : FileName) :
    (s.m_txn_id_to_transaction_attributes.map Prod.fst).Nodup ∧
    ((UnorderedMap.find s.m_file_name_to_ptr_to_file_attributes file_name).isSome = true
      ↔ ∃ k t, UnorderedMap.find s.m_txn_id_to_transaction_attributes k = some t ∧
          t.sp_file_attributes = file_name) ∧
    (∀ fa, UnorderedMap.find s.m_file_name_to_ptr_to_file_attributes file_name = some fa →
      fa.use_count = owners s.m_txn_id_to_transaction_attributes file_name) ∧
    (∀ later, Step s later →
      (∀ k t, UnorderedMap.find later.m_txn_id_to_transaction_attributes k = some t →
        t.sp_file_attributes ≠ file_name) →
      UnorderedMap.find later.m_file_name_to_ptr_to_file_attributes file_name = none) := by
  have key : ∀ s1 : ServerBackend, FilesShared s1 →
      ((UnorderedMap.find s1.m_file_name_to_ptr_to_file_attributes file_name).isSome = true
        ↔ ∃ k t, UnorderedMap.find s1.m_txn_id_to_transaction_attributes k = some t ∧
            t.sp_file_attributes = file_name) := by
    intro s1 hs1
    rw [← owners_pos_iff _ _ hs1.1]
    have hinv := hs1.2 file_name
    by_cases hz : owners s1.m_txn_id_to_transaction_attributes file_name = 0
    · rw [if_pos hz] at hinv
      rw [hz]
      cases hfa : UnorderedMap.find s1.m_file_name_to_ptr_to_file_attributes file_name with
      | none => simp
      | some fa =>
          rw [hfa] at hinv
          cases hinv
    · rw [if_neg hz] at hinv
      cases hfa : UnorderedMap.find s1.m_file_name_to_ptr_to_file_attributes file_name with
      | none =>
          rw [hfa] at hinv
          cases hinv
      | some fa =>
          simp only [Option.isSome_some, true_iff]
          omega
  have hs := h.filesShared
  refine ⟨hs.1, key s hs, fun fa hfa => ?_, fun later hstep hnone => ?_⟩
  · have hinv := hs.2 file_name
    rw [hfa] at hinv
    by_cases hz : owners s.m_txn_id_to_transaction_attributes file_name = 0
    · rw [if_pos hz] at hinv
      cases hinv
    · rw [if_neg hz] at hinv
      simpa using hinv
  · have hlater := key later (FilesShared_step hstep hs)
    cases hfa : UnorderedMap.find later.m_file_name_to_ptr_to_file_attributes file_name with
    | none => rfl
    | some fa =>
        rw [hfa] at hlater
        obtain ⟨k, t, hk, hsp⟩ := hlater.1 rfl
        exact absurd hsp (hnone k t hk)

/-- Claim C35 at the state in which transaction 7 is live on `f.txt`: the entry of
`f.txt` has use count 1, and after the ABORT of transaction 7 the entry is gone. -/
theorem file_attributes_shared_witness :
    UnorderedMap.find (ABORT (Scenario.env []) Scenario.opened Scenario.abort_7
      true).backend.m_file_name_to_ptr_to_file_attributes "f.txt" = none := by
  have hempty : (ABORT (Scenario.env []) Scenario.opened Scenario.abort_7
      true).backend.m_txn_id_to_transaction_attributes = [] := by decide
  exact (file_attributes_shared Scenario.opened Scenario.reachable_opened "f.txt").2.2.2
    (ABORT (Scenario.env []) Scenario.opened Scenario.abort_7 true).backend
    (Step.request (Scenario.env []) Scenario.opened Scenario.abort_7 true
      (ABORT (Scenario.env []) Scenario.opened Scenario.abort_7 true) (by decide))
    (fun k t hk => by
      rw [hempty] at hk
      cases hk)

end EmersonClientServerFileSystem
